import Mathlib

/-!
ocs2: interval lookup and switching-time sensitivity bookkeeping.

A shallow embedding of

* `ocs2_core/misc/FindActiveIntervalIndex.h` (`findActiveIntervalIndex`),
* `ocs2_ocs2/implementation/GSLQ_BASE.h` (`findActiveSubsystemIndex`,
  `computeEquivalentSystemMultiplier`, the active-range guard, `run`,
  `propagateRolloutSensitivity`).

Conventions of the embedding.

* `scalar_t` (a `double` in the source) is the field `ℚ`: arithmetic and comparisons are exact.
  In particular `x / 0 = 0` in `ℚ`, where the source would produce an infinity.
* `int` is `Int` and `size_t` is `Nat`; container sizes are taken to fit both types.  The one
  place where the source relies on wrap-around, the cast `(size_t) int`, is written with an
  explicit `% 2 ^ 64`.
* `std::vector` is `List`.  An element access outside the bounds of a vector (undefined
  behaviour in the source) is the error `Error.out_of_range`, so that a result `Except.ok _`
  also says that every access made on the way was inside the bounds.
* `throw std::runtime_error(msg)` is `Except.error (Error.runtime_error msg)`.
-/

namespace ocs2

/-- Abnormal outcomes of a call: a thrown `std::runtime_error`, or an access outside the
bounds of a vector. -/
inductive Error where
  | runtime_error (what : String)
  | out_of_range
  deriving DecidableEq, Repr

/-- Element access `v[i]` on a vector, checked. -/
def readAt {α : Type} (v : List α) (i : Nat) : Except Error α :=
  match v[i]? with
  | some x => Except.ok x
  | none => Except.error Error.out_of_range

/-- The element `v[i]` of a vector of scalars, used in statements for indices inside the
bounds (outside them it is `0`). -/
def valAt (v : List ℚ) (i : Nat) : ℚ := v.getD i 0

/-! ## `FindActiveIntervalIndex.h` -/

/-- The backward search loop of `findActiveIntervalIndex`:
`for (int i=guessedIndex; i>=0; i--) if (timeIntervals[i] <= timeMinus) { index = i; break; }`
with `index` initialised to `-1`.  The argument is the current `i`. -/
def searchDown (timeIntervals : List ℚ) (timeMinus : ℚ) : Nat → Except Error Int
  | 0 => do
    let t ← readAt timeIntervals 0
    if t ≤ timeMinus then pure 0 else pure (-1)
  | i + 1 => do
    let t ← readAt timeIntervals (i + 1)
    if t ≤ timeMinus then pure ((i : Int) + 1) else searchDown timeIntervals timeMinus i

/-- The forward search loop of `findActiveIntervalIndex`:
`for (int i=guessedIndex; i<=numTimeIntervals; i++) { index = i; if (timeMinus <
timeIntervals[i]) { index--; break; } }`.  The arguments are the current `i` and the current
value of `index`. -/
def searchUp (timeIntervals : List ℚ) (timeMinus : ℚ) (numTimeIntervals : Int)
    (i : Nat) (index : Int) : Except Error Int :=
  if (i : Int) ≤ numTimeIntervals then do
    let t ← readAt timeIntervals i
    if timeMinus < t then pure ((i : Int) - 1)
    else searchUp timeIntervals timeMinus numTimeIntervals (i + 1) i
  else pure index
termination_by (numTimeIntervals + 1 - i).toNat
decreasing_by omega

/-- The function `findActiveIntervalIndex(timeIntervals, enquiryTime, guessedIndex, epsilon)`
(explicit-guess form). -/
def findActiveIntervalIndex (timeIntervals : List ℚ) (enquiryTime : ℚ) (guessedIndex : Int)
    (epsilon : ℚ) : Except Error Int :=
  let numTimeIntervals : Int := (timeIntervals.length : Int) - 1
  if numTimeIntervals < 1 then
    Except.error (Error.runtime_error "The time interval array should have at least 2 elements.")
  else if guessedIndex < 0 ∨ guessedIndex > numTimeIntervals - 1 then
    Except.error (Error.runtime_error "The guessed index is out of range.")
  else do
    let timeMinus := enquiryTime - epsilon
    let tg ← readAt timeIntervals guessedIndex.toNat
    let index ←
      if timeMinus < tg then searchDown timeIntervals timeMinus guessedIndex.toNat
      else searchUp timeIntervals timeMinus numTimeIntervals guessedIndex.toNat (-1)
    -- initial time case for epsilon > 0
    let index ←
      if index = -1 ∧ epsilon > 0 then do
        let front ← readAt timeIntervals 0
        if enquiryTime ≥ front - epsilon then pure 0 else pure index
      else pure index
    -- final time case for epsilon < 0
    if index = numTimeIntervals ∧ epsilon < 0 then do
      let back ← readAt timeIntervals (timeIntervals.length - 1)
      if enquiryTime ≤ back - epsilon then pure (numTimeIntervals - 1) else pure index
    else pure index

/-! ## `GSLQ_BASE.h`: event times and the equivalent-system multiplier

The value of `OCS2NumericTraits<scalar_t>::week_epsilon()` is a parameter, `weekEpsilon`, of
the functions that use it. -/

/-- The constant `std::numeric_limits<double>::max()`, which is `(2^53 - 1) * 2^971`. -/
def scalarMax : ℚ := (2 ^ 53 - 1) * 2 ^ 971

/-- The constant `std::numeric_limits<double>::lowest()`, which is `-max()`. -/
def scalarLowest : ℚ := -scalarMax

/-- The fields of the data collector (`dcPtr_`) that the modelled functions read. -/
structure SLQ_DataCollector where
  initTime_ : ℚ
  finalTime_ : ℚ
  numPartitions_ : Nat
  initActivePartition_ : Nat
  finalActivePartition_ : Nat

/-- The member variables of `GSLQ_BASE` that the modelled functions read or write;
`useLQForDerivatives_` stands for `settings_.useLQForDerivatives_` and `dc` for `*dcPtr_`. -/
structure GSLQ where
  useLQForDerivatives_ : Bool
  eventTimes_ : List ℚ
  numEventTimes_ : Nat
  numSubsystems_ : Nat
  numPartitions_ : Nat
  activeEventTimeBeginIndex_ : Nat
  activeEventTimeEndIndex_ : Nat
  dc : SLQ_DataCollector

/-- The function `GSLQ_BASE::setupOptimizer`. -/
def setupOptimizer (numPartitions : Nat) : Except Error Unit :=
  if numPartitions = 0 then
    Except.error (Error.runtime_error "The number of Partitions cannot be zero!")
  else pure ()

/-- The function `GSLQ_BASE::findActiveSubsystemIndex`.  The local vector `partitioningTimes`
is `lowest()`, then the event times, then `max()`; the `int` found is cast to `size_t`. -/
def findActiveSubsystemIndex (weekEpsilon : ℚ) (eventTimes : List ℚ) (time : ℚ)
    (ceilingFunction : Bool) : Except Error Nat := do
  let partitioningTimes : List ℚ := scalarLowest :: (eventTimes ++ [scalarMax])
  let activeSubsystemIndex ←
    if ceilingFunction = true then
      findActiveIntervalIndex partitioningTimes time 0 weekEpsilon
    else
      findActiveIntervalIndex partitioningTimes time 0 (-weekEpsilon)
  pure (activeSubsystemIndex % 2 ^ 64).toNat

/-- The body of `GSLQ_BASE::computeEquivalentSystemMultiplier`: the values of the local
`timePeriod` and of the output `multiplier` when the function returns. -/
def equivalentSystemTimePeriodAndMultiplier (s : GSLQ) (eventTimeIndex activeSubsystem : Nat) :
    Except Error (ℚ × ℚ) :=
  if activeSubsystem = eventTimeIndex + 1 then do
    let timePeriod ←
      if activeSubsystem = s.eventTimes_.length then do
        let e ← readAt s.eventTimes_ eventTimeIndex
        if s.dc.finalTime_ < e then
          Except.error
            (Error.runtime_error "Final time is smaller than the last triggered event time.")
        else pure (s.dc.finalTime_ - e)
      else do
        let eNext ← readAt s.eventTimes_ (eventTimeIndex + 1)
        let e ← readAt s.eventTimes_ eventTimeIndex
        pure (eNext - e)
    pure (timePeriod, -1 / timePeriod)
  else if activeSubsystem = eventTimeIndex then do
    let timePeriod ←
      if activeSubsystem = 0 then do
        let e ← readAt s.eventTimes_ eventTimeIndex
        if s.dc.initTime_ > e then
          Except.error
            (Error.runtime_error "Initial time is greater than the last triggered event time.")
        else pure (e - s.dc.initTime_)
      else do
        let e ← readAt s.eventTimes_ eventTimeIndex
        let ePrev ← readAt s.eventTimes_ (eventTimeIndex - 1)
        pure (e - ePrev)
    pure (timePeriod, 1 / timePeriod)
  else pure (1, 0)

/-- The function `GSLQ_BASE::computeEquivalentSystemMultiplier`; the result is the output
argument `multiplier`. -/
def computeEquivalentSystemMultiplier (s : GSLQ) (eventTimeIndex activeSubsystem : Nat) :
    Except Error ℚ := do
  let r ← equivalentSystemTimePeriodAndMultiplier s eventTimeIndex activeSubsystem
  pure r.2

/-- The function `GSLQ_BASE::run`.  The two sensitivity methods are parameters; they read the
member variables modelled by `GSLQ` and write only the sensitivity containers, of type `σ`
(neither method nor any function either of them calls assigns a field of `GSLQ`). -/
def run {σ : Type} (weekEpsilon : ℚ)
    (runLQBasedMethod runSweepingBVPMethod : GSLQ → σ → Except Error σ)
    (s : GSLQ) (stocks : σ) (eventTimes : List ℚ) (dc : SLQ_DataCollector) :
    Except Error (GSLQ × σ) := do
  -- event time an number of event and subsystems
  let s := { s with eventTimes_ := eventTimes }
  let s := { s with numEventTimes_ := s.eventTimes_.length }
  let s := { s with numSubsystems_ := s.numEventTimes_ + 1 }
  -- data collector pointer
  let s := { s with dc := dc }
  -- update sizes if number of partitions has been changed
  let s ←
    if s.numPartitions_ ≠ s.dc.numPartitions_ then do
      let s := { s with numPartitions_ := s.dc.numPartitions_ }
      setupOptimizer s.numPartitions_
      pure s
    else pure s
  -- find active event times range: [activeEventTimeBeginIndex_, activeEventTimeEndIndex_)
  let b ← findActiveSubsystemIndex weekEpsilon s.eventTimes_ s.dc.initTime_ true
  let s := { s with activeEventTimeBeginIndex_ := b }
  let e ← findActiveSubsystemIndex weekEpsilon s.eventTimes_ s.dc.finalTime_ true
  let s := { s with activeEventTimeEndIndex_ := e }
  -- use the LQ-based method or Sweeping-BVP method
  if s.useLQForDerivatives_ = true then do
    let stocks ← runLQBasedMethod s stocks
    pure (s, stocks)
  else do
    let stocks ← runSweepingBVPMethod s stocks
    pure (s, stocks)

/-! ## `GSLQ_BASE.h`: the sensitivity computations and their active-range guard -/

/-- The outcome of a call that has output (reference) arguments of type `σ`: whether the call
returned or threw, and the value the output arguments hold when control leaves the call. -/
structure Outcome (σ : Type) where
  status : Except Error Unit
  out : σ

/-- The exception thrown by the active-range guard. -/
def inactiveEvent : Error :=
  Error.runtime_error "The index is associated to an inactive event or it is out of range."

/-- The function `GSLQ_BASE::solveSensitivityRiccatiEquations`: its first statement, the
active-range guard, followed by the rest of the function, which is the parameter `body` acting
on the output arguments (`nablasTrajectoriesStock`, `nablaSvTrajectoriesStock`,
`nablaSmTrajectoriesStock`). -/
def solveSensitivityRiccatiEquations {σ : Type} (s : GSLQ) (eventTimeIndex : Nat)
    (body : σ → Outcome σ) (out : σ) : Outcome σ :=
  if eventTimeIndex < s.activeEventTimeBeginIndex_ ∨
      eventTimeIndex ≥ s.activeEventTimeEndIndex_ then
    ⟨Except.error inactiveEvent, out⟩
  else body out

/-- The function `GSLQ_BASE::solveSensitivityBVP`: the guard, then the rest of the function
(`body`) acting on the outputs `MvTrajectoriesStock` and `MveTrajectoriesStock`. -/
def solveSensitivityBVP {σ : Type} (s : GSLQ) (eventTimeIndex : Nat)
    (body : σ → Outcome σ) (out : σ) : Outcome σ :=
  if eventTimeIndex < s.activeEventTimeBeginIndex_ ∨
      eventTimeIndex ≥ s.activeEventTimeEndIndex_ then
    ⟨Except.error inactiveEvent, out⟩
  else body out

/-- The function `GSLQ_BASE::calculateLQSensitivityControllerForward`: the guard, then the
rest of the function (`body`) acting on the output `nablaLvTrajectoriesStock`. -/
def calculateLQSensitivityControllerForward {σ : Type} (s : GSLQ) (eventTimeIndex : Nat)
    (body : σ → Outcome σ) (out : σ) : Outcome σ :=
  if eventTimeIndex < s.activeEventTimeBeginIndex_ ∨
      eventTimeIndex ≥ s.activeEventTimeEndIndex_ then
    ⟨Except.error inactiveEvent, out⟩
  else body out

/-- The function `GSLQ_BASE::calculateBVPSensitivityControllerForward`: the guard, then the
rest of the function (`body`) acting on the output `LvTrajectoriesStock`. -/
def calculateBVPSensitivityControllerForward {σ : Type} (s : GSLQ) (eventTimeIndex : Nat)
    (body : σ → Outcome σ) (out : σ) : Outcome σ :=
  if eventTimeIndex < s.activeEventTimeBeginIndex_ ∨
      eventTimeIndex ≥ s.activeEventTimeEndIndex_ then
    ⟨Except.error inactiveEvent, out⟩
  else body out

/-- The function `GSLQ_BASE::getValueFuntionDerivative`: the guard, then the rest of the
function (`body`) acting on the output `valueFunctionDerivative`. -/
def getValueFuntionDerivative {σ : Type} (s : GSLQ) (eventTimeIndex : Nat)
    (body : σ → Outcome σ) (out : σ) : Outcome σ :=
  if eventTimeIndex < s.activeEventTimeBeginIndex_ ∨
      eventTimeIndex ≥ s.activeEventTimeEndIndex_ then
    ⟨Except.error inactiveEvent, out⟩
  else body out

/-- The function `GSLQ_BASE::calculateCostDerivative`: the guard, then the rest of the
function (`body`) acting on the output `costDerivative`. -/
def calculateCostDerivative {σ : Type} (s : GSLQ) (eventTimeIndex : Nat)
    (body : σ → Outcome σ) (out : σ) : Outcome σ :=
  if eventTimeIndex < s.activeEventTimeBeginIndex_ ∨
      eventTimeIndex ≥ s.activeEventTimeEndIndex_ then
    ⟨Except.error inactiveEvent, out⟩
  else body out

/-! ### `propagateRolloutSensitivity`

The state and input sensitivities are vectors of abstract types `X` (`state_vector_t`) and `U`
(`input_vector_t`).  The integrator and the controlled system are collaborators of the
function; they enter through `RolloutOps`. -/

/-- What `propagateRolloutSensitivity` uses of its collaborators, for the partition `i` whose
data was passed to `setData` and the multiplier passed to `setMultiplier`:
`zero` is `state_vector_t::Zero()`;
`integrate i multiplier nabla_xInit times` is the list of states that
`rolloutSensitivityIntegratorsPtrStock_[workerIndex]->integrate` appends to its output
trajectory for the time stamps `times`;
`computeInput i t nabla_x` is `rolloutSensitivityEquationsPtrStock_[workerIndex]->computeInput`. -/
structure RolloutOps (X U : Type) where
  zero : X
  integrate : Nat → ℚ → X → List ℚ → List X
  computeInput : Nat → ℚ → X → U

/-- The two output arguments of `propagateRolloutSensitivity`. -/
structure RolloutOut (X U : Type) where
  sensitivityStateTrajectoriesStock : List (List X)
  sensitivityInputTrajectoriesStock : List (List U)

/-- The call `v.resize(n)` on a vector of vectors: the first `n` entries are kept and new
entries are empty vectors. -/
def resize {α : Type} (v : List (List α)) (n : Nat) : List (List α) :=
  v.take n ++ List.replicate (n - v.length) []

/-- The local variables of `propagateRolloutSensitivity` that change while the sub-segments of
one partition are integrated; `states` and `inputs` are
`sensitivityStateTrajectoriesStock[i]` and `sensitivityInputTrajectoriesStock[i]`. -/
structure SegmentState (X U : Type) where
  nabla_xInit : X
  states : List X
  inputs : List U
  k_u : Nat

/-- The loop `for ( ; k_u<sensitivityStateTrajectoriesStock[i].size(); k_u++)` that appends
the input sensitivities. -/
def inputLoop {X U : Type} (computeInput : ℚ → X → U) (times : List ℚ) (states : List X)
    (k_u : Nat) (inputs : List U) : Except Error Unit × Nat × List U :=
  if h : k_u < states.length then
    match times[k_u]? with
    | some t =>
      inputLoop computeInput times states (k_u + 1)
        (inputs ++ [computeInput t (states.get ⟨k_u, h⟩)])
    | none => (Except.error Error.out_of_range, k_u, inputs)
  else (Except.ok (), k_u, inputs)
termination_by states.length - k_u

/-- The positions `beginTimeItr - begin()` and `endTimeItr - begin()` of the sub-segment `j`. -/
def segmentRange (times : List ℚ) (eventsPastTheEndIndeces : List Nat) (j : Nat) :
    Except Error (Nat × Nat) :=
  match (if j = 0 then Except.ok 0 else readAt eventsPastTheEndIndeces (j - 1)),
    (if j = eventsPastTheEndIndeces.length then Except.ok times.length
      else readAt eventsPastTheEndIndeces j) with
  | Except.ok beginIdx, Except.ok endIdx => Except.ok (beginIdx, endIdx)
  | Except.error e, _ => Except.error e
  | _, Except.error e => Except.error e

/-- The multiplier of the sub-segment `[beginIdx, endIdx)`: the mid time, the subsystem active
at the mid time, and `computeEquivalentSystemMultiplier`. -/
def segmentMultiplier (weekEpsilon : ℚ) (s : GSLQ) (eventTimeIndex : Nat) (times : List ℚ)
    (beginIdx endIdx : Nat) : Except Error ℚ := do
  let tBegin ← readAt times beginIdx
  let tLast ← readAt times (endIdx - 1)
  let midTime := 0.5 * (tBegin + tLast)
  let activeSubsystem ← findActiveSubsystemIndex weekEpsilon s.eventTimes_ midTime true
  computeEquivalentSystemMultiplier s eventTimeIndex activeSubsystem

/-- The body of `if (endTimeItr != beginTimeItr)` in `propagateRolloutSensitivity`: the
sub-segment `[beginIdx, endIdx)` of the partition `i` is integrated and the input
sensitivities are appended.  A pair of iterators that is not a range inside the time vector
is an access outside the bounds. -/
def integrateSegment {X U : Type} (weekEpsilon : ℚ) (ops : RolloutOps X U) (s : GSLQ)
    (eventTimeIndex i : Nat) (times : List ℚ) (beginIdx endIdx : Nat)
    (st : SegmentState X U) : Except Error Unit × SegmentState X U :=
  if endIdx ≠ beginIdx then
    if beginIdx < endIdx ∧ endIdx ≤ times.length then
      -- finding the current active subsystem, compute multiplier of the equivalent system
      match segmentMultiplier weekEpsilon s eventTimeIndex times beginIdx endIdx with
      | Except.error e => (Except.error e, st)
      | Except.ok multiplier =>
        -- solve sensitivity ODE
        let states := st.states ++ ops.integrate i multiplier st.nabla_xInit
          ((times.drop beginIdx).take (endIdx - beginIdx))
        -- compute input sensitivity
        let r := inputLoop (ops.computeInput i) times states st.k_u st.inputs
        (r.1, ⟨st.nabla_xInit, states, r.2.2, r.2.1⟩)
    else (Except.error Error.out_of_range, st)
  else (Except.ok (), st)

/-- The loop `for (size_t j=0; j<=NE; j++)` of `propagateRolloutSensitivity` over the
sub-segments of the partition `i`. -/
def segmentLoop {X U : Type} (weekEpsilon : ℚ) (ops : RolloutOps X U) (s : GSLQ)
    (eventTimeIndex i : Nat) (times : List ℚ) (eventsPastTheEndIndeces : List Nat)
    (j : Nat) (st : SegmentState X U) : Except Error Unit × SegmentState X U :=
  if j ≤ eventsPastTheEndIndeces.length then
    match segmentRange times eventsPastTheEndIndeces j with
    | Except.error e => (Except.error e, st)
    | Except.ok (beginIdx, endIdx) =>
      -- if it should be integrated
      match integrateSegment weekEpsilon ops s eventTimeIndex i times beginIdx endIdx st with
      | (Except.error e, st) => (Except.error e, st)
      | (Except.ok (), st) =>
        -- compute jump map
        if j < eventsPastTheEndIndeces.length then
          match st.states.getLast? with
          | none => (Except.error Error.out_of_range, st)
          | some x =>
            segmentLoop weekEpsilon ops s eventTimeIndex i times eventsPastTheEndIndeces (j + 1)
              ⟨x, st.states, st.inputs, st.k_u⟩
        else
          segmentLoop weekEpsilon ops s eventTimeIndex i times eventsPastTheEndIndeces (j + 1) st
  else (Except.ok (), st)
termination_by eventsPastTheEndIndeces.length + 1 - j

/-- The loop `for (size_t i=0; i<numPartitions_; i++)` of `propagateRolloutSensitivity`; the
arguments are the current `i`, the current `nabla_xInit` and the current output stocks. -/
def partitionLoop {X U : Type} (weekEpsilon : ℚ) (ops : RolloutOps X U) (s : GSLQ)
    (eventTimeIndex : Nat) (sensitivityTimeTrajectoriesStock : List (List ℚ))
    (eventsPastTheEndIndecesStock : List (List Nat))
    (i : Nat) (nabla_xInit : X) (out : RolloutOut X U) : Outcome (RolloutOut X U) :=
  if i < s.numPartitions_ then
    -- skip inactive partitions
    if i < s.dc.initActivePartition_ ∨ i > s.dc.finalActivePartition_ then
      partitionLoop weekEpsilon ops s eventTimeIndex sensitivityTimeTrajectoriesStock
        eventsPastTheEndIndecesStock (i + 1) nabla_xInit
        ⟨out.sensitivityStateTrajectoriesStock.set i [],
          out.sensitivityInputTrajectoriesStock.set i []⟩
    else
      match sensitivityTimeTrajectoriesStock[i]?, eventsPastTheEndIndecesStock[i]? with
      | some times, some eventsPastTheEndIndeces =>
        -- max number of steps of integration: reads `back()` and `front()` of the time stamps
        if times = [] then ⟨Except.error Error.out_of_range, out⟩
        else
          let r := segmentLoop weekEpsilon ops s eventTimeIndex i times eventsPastTheEndIndeces 0
            ⟨nabla_xInit, [], [], 0⟩
          let out : RolloutOut X U :=
            ⟨out.sensitivityStateTrajectoriesStock.set i r.2.states,
              out.sensitivityInputTrajectoriesStock.set i r.2.inputs⟩
          match r.1 with
          | Except.error e => ⟨Except.error e, out⟩
          | Except.ok () =>
            -- reset the initial state
            match r.2.states.getLast? with
            | none => ⟨Except.error Error.out_of_range, out⟩
            | some x =>
              partitionLoop weekEpsilon ops s eventTimeIndex sensitivityTimeTrajectoriesStock
                eventsPastTheEndIndecesStock (i + 1) x out
      | _, _ => ⟨Except.error Error.out_of_range, out⟩
  else ⟨Except.ok (), out⟩
termination_by s.numPartitions_ - i

/-- The function `GSLQ_BASE::propagateRolloutSensitivity`.  The inputs `controllersStock` and
`LvTrajectoriesStock` only reach the integrator and the controlled system, that is `ops`. -/
def propagateRolloutSensitivity {X U : Type} (weekEpsilon : ℚ) (ops : RolloutOps X U)
    (s : GSLQ) (eventTimeIndex : Nat) (sensitivityTimeTrajectoriesStock : List (List ℚ))
    (eventsPastTheEndIndecesStock : List (List Nat)) (out : RolloutOut X U) :
    Outcome (RolloutOut X U) :=
  if eventTimeIndex < s.activeEventTimeBeginIndex_ ∨
      eventTimeIndex ≥ s.activeEventTimeEndIndex_ then
    ⟨Except.error inactiveEvent, out⟩
  else
    -- resizing; initial state sensitivity (which is zero)
    partitionLoop weekEpsilon ops s eventTimeIndex sensitivityTimeTrajectoriesStock
      eventsPastTheEndIndecesStock 0 ops.zero
      ⟨resize out.sensitivityStateTrajectoriesStock s.numPartitions_,
        resize out.sensitivityInputTrajectoriesStock s.numPartitions_⟩

/-- The sensitivity-trajectory invariant for the partition `j`, on the output stocks `out`: an
inactive partition has empty state- and input-sensitivity arrays, and for an active partition
both arrays have the length of that partition's time-stamp array. -/
def SensitivityInvariant {X U : Type} (s : GSLQ) (timeStock : List (List ℚ))
    (out : RolloutOut X U) (j : Nat) : Prop :=
  if j < s.dc.initActivePartition_ ∨ j > s.dc.finalActivePartition_ then
    out.sensitivityStateTrajectoriesStock[j]? = some [] ∧
      out.sensitivityInputTrajectoriesStock[j]? = some []
  else
    ∃ (times : List ℚ) (xs : List X) (us : List U), timeStock[j]? = some times ∧
      out.sensitivityStateTrajectoriesStock[j]? = some xs ∧
      out.sensitivityInputTrajectoriesStock[j]? = some us ∧
      xs.length = times.length ∧ us.length = times.length

/-- A sample value of `week_epsilon()`, used to instantiate statements. -/
def sampleEpsilon : ℚ := 1 / 1000000

/-- A stand-in for the integrator and the controlled system on scalar states and inputs: the
integrator returns the initial state at every time stamp, the input is the state. -/
def constantOps : RolloutOps ℚ ℚ :=
  ⟨0, fun _ _ x times => times.map (fun _ => x), fun _ _ x => x⟩

/-- A solver state with the single event time `1` on the horizon `[0, 2]`, two partitions of
which only the first is active, and the event index `0` active. -/
def oneEvent : GSLQ :=
  ⟨false, [1], 1, 2, 2, 0, 1, ⟨0, 2, 2, 0, 0⟩⟩

/-- A solver state with the three event times `1, 2, 4` on the horizon `[0, 5]` and one
partition, used to instantiate statements. -/
def threeEvents : GSLQ :=
  ⟨true, [1, 2, 4], 3, 4, 1, 0, 3, ⟨0, 5, 1, 0, 0⟩⟩

/-- A solver state with the two coinciding event times `1, 1` on the horizon `[0, 5]`. -/
def coincidingEvents : GSLQ :=
  ⟨true, [1, 1], 2, 3, 1, 0, 2, ⟨0, 5, 1, 0, 0⟩⟩

/-- A solver state with the single event time `1` on the horizon `[0, 1]`: the event coincides
with the final time. -/
def eventAtFinalTime : GSLQ :=
  ⟨true, [1], 1, 2, 1, 0, 1, ⟨0, 1, 1, 0, 0⟩⟩

/-- A sensitivity method that returns at once and leaves the sensitivity containers as they
are; it stands for `runLQBasedMethod` and `runSweepingBVPMethod` where a statement only
concerns the member variables that `run` itself assigns. -/
def idleMethod : GSLQ → Unit → Except Error Unit := fun _ stocks => pure stocks

/-- A freshly constructed solver state: no event times, `numPartitions_` equal to `0`. -/
def freshGSLQ : GSLQ :=
  ⟨true, [], 0, 1, 0, 0, 0, ⟨0, 0, 0, 0, 0⟩⟩

/-- The value of `index` that `findActiveIntervalIndex` returns, as a function of the value `r`
that `index` has after the search loop: the "initial time case" and the "final time case" of
the source applied to `r`. -/
def endCases (B : List ℚ) (q eps : ℚ) (r : Int) : Int :=
  let r1 := if r = -1 ∧ eps > 0 then (if q ≥ valAt B 0 - eps then 0 else r) else r
  if r1 = (B.length : Int) - 1 ∧ eps < 0 then
    (if q ≤ valAt B (B.length - 1) - eps then (B.length : Int) - 1 - 1 else r1)
  else r1

/-- The index `r` cuts the vector `B` at the value `tm`: the entries at positions `≤ r` are
`≤ tm` and the entries at positions `> r` are `> tm`, with `-1 ≤ r ≤ B.length - 1`. -/
def IsCut (B : List ℚ) (tm : ℚ) (r : Int) : Prop :=
  -1 ≤ r ∧ r ≤ (B.length : Int) - 1 ∧
    (∀ j : Nat, j < B.length → (j : Int) ≤ r → valAt B j ≤ tm) ∧
    (∀ j : Nat, j < B.length → r < (j : Int) → tm < valAt B j)

/-! ## `FindActiveIntervalIndex.h`: the variant with a remembered guess -/

/-- The overload `findActiveIntervalIndex(timeIntervals, enquiryTime, epsilon)`, which keeps
the function-local `static int guessedIndex_`.  The argument `guessedIndex_` is the value of
the static before the call; the result is what the call returns (or throws) together with the
value of the static after the call. -/
def findActiveIntervalIndexMemory (guessedIndex_ : Int) (timeIntervals : List ℚ)
    (enquiryTime : ℚ) (epsilon : ℚ) : Except Error Int × Int :=
  match findActiveIntervalIndex timeIntervals enquiryTime guessedIndex_ epsilon with
  | Except.ok index => (Except.ok index, max index 0)
  | Except.error e => (Except.error e, guessedIndex_)

/-- A sequence of calls of the memory variant on one vector, for the enquiry times of the
list, starting with the value `guessedIndex_` of the static: the outcomes of the calls in
order. -/
def memoryCalls (timeIntervals : List ℚ) (epsilon : ℚ) : Int → List ℚ → List (Except Error Int)
  | _, [] => []
  | guessedIndex_, enquiryTime :: rest =>
    (findActiveIntervalIndexMemory guessedIndex_ timeIntervals enquiryTime epsilon).1 ::
      memoryCalls timeIntervals epsilon
        (findActiveIntervalIndexMemory guessedIndex_ timeIntervals enquiryTime epsilon).2 rest

/-! ## `GSLQ_BASE.h`: `findActivePartitionIndex` and the first statements of `run` -/

/-- The function `GSLQ_BASE::findActivePartitionIndex`.  Past the first check the `int` found
is non-negative, so its comparison with `partitioningTimes.size()-1` and its cast to `size_t`
are exact. -/
def findActivePartitionIndex (weekEpsilon : ℚ) (partitioningTimes : List ℚ) (time : ℚ)
    (ceilingFunction : Bool) : Except Error Nat := do
  let activeSubsystemIndex ←
    if ceilingFunction = true then
      findActiveIntervalIndex partitioningTimes time 0 weekEpsilon
    else
      findActiveIntervalIndex partitioningTimes time 0 (-weekEpsilon)
  if activeSubsystemIndex < 0 then
    Except.error (Error.runtime_error
      "Given time is less than the start time (i.e. givenTime < partitioningTimes.front())")
  else if activeSubsystemIndex = (partitioningTimes.length : Int) - 1 then
    Except.error (Error.runtime_error
      "Given time is greater than the final time (i.e. partitioningTimes.back() < givenTime)")
  else pure (activeSubsystemIndex % 2 ^ 64).toNat

/-- The statements of `GSLQ_BASE::run` up to and including the block "update sizes if number
of partitions has been changed": the member variables when control leaves that block, and
whether it leaves it normally or through the exception of `setupOptimizer`. -/
def runUpdateSizes (s : GSLQ) (eventTimes : List ℚ) (dc : SLQ_DataCollector) : Outcome GSLQ :=
  let s := { s with eventTimes_ := eventTimes }
  let s := { s with numEventTimes_ := s.eventTimes_.length }
  let s := { s with numSubsystems_ := s.numEventTimes_ + 1 }
  let s := { s with dc := dc }
  if s.numPartitions_ ≠ s.dc.numPartitions_ then
    let s := { s with numPartitions_ := s.dc.numPartitions_ }
    ⟨setupOptimizer s.numPartitions_, s⟩
  else ⟨Except.ok (), s⟩

/-- A sensitivity method that only counts how often a sensitivity method has been started. -/
def countingMethod : GSLQ → Nat → Except Error Nat := fun _ started => pure (started + 1)

/-- A data collector with zero partitions on the horizon `[0, 5]`. -/
def zeroPartitions : SLQ_DataCollector := ⟨0, 5, 0, 0, 0⟩

/-! ## `RolloutSensitivityEquations.h` -/

/-- The type `state_vector_t` for `STATE_DIM = n`. -/
abbrev state_vector_t (n : Nat) : Type := Fin n → ℚ

/-- The type `input_vector_t` for `INPUT_DIM = m`. -/
abbrev input_vector_t (m : Nat) : Type := Fin m → ℚ

/-- The type `state_matrix_t`. -/
abbrev state_matrix_t (n : Nat) : Type := Matrix (Fin n) (Fin n) ℚ

/-- The type `input_matrix_t`. -/
abbrev input_matrix_t (m : Nat) : Type := Matrix (Fin m) (Fin m) ℚ

/-- The type `state_input_matrix_t` (`STATE_DIM` rows, `INPUT_DIM` columns). -/
abbrev state_input_matrix_t (n m : Nat) : Type := Matrix (Fin n) (Fin m) ℚ

/-- The type `input_state_matrix_t` (`INPUT_DIM` rows, `STATE_DIM` columns). -/
abbrev input_state_matrix_t (n m : Nat) : Type := Matrix (Fin m) (Fin n) ℚ

/-- A `LinearInterpolation` object whose time stamps and data are set.
`interpolate t hint` is the value that `interpolate(t, value, hint)` stores in `value`,
paired with what `getGreatestLessTimeStampIndex()` reports after the call; `hint` is the
optional third argument. -/
structure LinearInterpolation (α : Type) where
  interpolate : ℚ → Option Nat → α × Nat

/-- The member variables of `RolloutSensitivityEquations` that `computeFlowMap` reads. -/
structure RolloutSensitivityEquations (n m : Nat) where
  multiplier_ : ℚ
  AmFunc_ : LinearInterpolation (state_matrix_t n)
  BmFunc_ : LinearInterpolation (state_input_matrix_t n m)
  flowMapFunc_ : LinearInterpolation (state_vector_t n)

/-- A default-constructed object (`multiplier_ = 0.0`) after `setData`. -/
def RolloutSensitivityEquations.afterSetData {n m : Nat}
    (AmFunc : LinearInterpolation (state_matrix_t n))
    (BmFunc : LinearInterpolation (state_input_matrix_t n m))
    (flowMapFunc : LinearInterpolation (state_vector_t n)) : RolloutSensitivityEquations n m :=
  ⟨0, AmFunc, BmFunc, flowMapFunc⟩

/-- The function `RolloutSensitivityEquations::setMultiplier`. -/
def RolloutSensitivityEquations.setMultiplier {n m : Nat} (eq : RolloutSensitivityEquations n m)
    (multiplier : ℚ) : RolloutSensitivityEquations n m :=
  { eq with multiplier_ := multiplier }

/-- The function `RolloutSensitivityEquations::computeFlowMap`; the result is the output
argument `derivative`. -/
def RolloutSensitivityEquations.computeFlowMap {n m : Nat} (eq : RolloutSensitivityEquations n m)
    (t : ℚ) (nabla_x : state_vector_t n) (nabla_u : input_vector_t m) : state_vector_t n :=
  let Am := eq.AmFunc_.interpolate t none
  let greatestLessTimeStampIndex := Am.2
  let Bm := eq.BmFunc_.interpolate t (some greatestLessTimeStampIndex)
  if |eq.multiplier_| > 1e-9 then
    let flowMap := eq.flowMapFunc_.interpolate t (some greatestLessTimeStampIndex)
    Am.1.mulVec nabla_x + Bm.1.mulVec nabla_u + eq.multiplier_ • flowMap.1
  else
    Am.1.mulVec nabla_x + Bm.1.mulVec nabla_u

/-- An interpolation object that gives the same value at every time. -/
def constantInterpolation {α : Type} (value : α) : LinearInterpolation α :=
  ⟨fun _ _ => (value, 0)⟩

/-- The scalar system with `A = 0`, `B = 0` and the flow map `1`, with the multiplier set to
`10⁻¹⁰`. -/
def tinyMultiplierEquations : RolloutSensitivityEquations 1 1 :=
  (RolloutSensitivityEquations.afterSetData (constantInterpolation 0) (constantInterpolation 0)
    (constantInterpolation (fun _ => 1))).setMultiplier (1 / 10000000000)

/-! ## `GSLQ_BASE.h`: the trajectories of the data collector -/

/-- The trajectories of the data collector (`*dcPtr_`) that the modelled functions read, for
`STATE_DIM = n` and `INPUT_DIM = m`; a stock has one entry per partition. -/
structure SLQ_Trajectories (n m : Nat) where
  partitioningTimes_ : List ℚ
  nominalTimeTrajectoriesStock_ : List (List ℚ)
  nominalEventsPastTheEndIndecesStock_ : List (List Nat)
  nominalStateTrajectoriesStock_ : List (List (state_vector_t n))
  qTrajectoriesStock_ : List (List ℚ)
  QvTrajectoriesStock_ : List (List (state_vector_t n))
  QmTrajectoriesStock_ : List (List (state_matrix_t n))
  RvTrajectoriesStock_ : List (List (input_vector_t m))
  RmTrajectoriesStock_ : List (List (input_matrix_t m))
  PmTrajectoriesStock_ : List (List (input_state_matrix_t n m))
  QvFinalStock_ : List (List (state_vector_t n))
  QmFinalStock_ : List (List (state_matrix_t n))
  SvHeuristics_ : state_vector_t n
  SsTimeTrajectoriesStock_ : List (List ℚ)
  SsNormalizedTimeTrajectoriesStock_ : List (List ℚ)
  SsNormalizedEventsPastTheEndIndecesStock_ : List (List Nat)

/-- The entry `stock[i]` of a stock, for an access `stock[i][k]` that is checked at `k`: a
missing entry `i` is shown as the empty vector, on which every access `[k]` is outside the
bounds. -/
def stockAt {α : Type} (stock : List (List α)) (i : Nat) : List α := stock.getD i []

/-! ### `calculateCostDerivative` -/

/-- The local variables `costDerivative` (the output argument), `prevIntermediatecostDev` and
`currIntermediatecostDev` of `calculateCostDerivative`. -/
structure CostState where
  costDerivative : ℚ
  prevIntermediatecostDev : ℚ
  currIntermediatecostDev : ℚ

/-- The loop `for (size_t k=beginIndex; k<endIndex; k++)` of `calculateCostDerivative` for one
sub-segment of the partition whose trajectories are given; the argument `k` is the current
index. -/
def costSampleLoop {n m : Nat} (multiplier : ℚ) (times q : List ℚ)
    (Qv x : List (state_vector_t n)) (Rv u : List (input_vector_t m))
    (beginIndex endIndex : Nat) (k : Nat) (st : CostState) : Except Error Unit × CostState :=
  if k < endIndex then
    let prev := if k > beginIndex then st.currIntermediatecostDev
      else st.prevIntermediatecostDev
    match q[k]?, x[k]?, Qv[k]?, u[k]?, Rv[k]? with
    | some qk, some xk, some Qvk, some uk, some Rvk =>
      let curr := multiplier * qk + Matrix.dotProduct xk Qvk + Matrix.dotProduct uk Rvk
      if k > beginIndex then
        match times[k]?, times[k - 1]? with
        | some tk, some tkPrev =>
          costSampleLoop multiplier times q Qv x Rv u beginIndex endIndex (k + 1)
            ⟨st.costDerivative + 0.5 * (tk - tkPrev) * (curr + prev), prev, curr⟩
        | _, _ => (Except.error Error.out_of_range, ⟨st.costDerivative, prev, curr⟩)
      else
        costSampleLoop multiplier times q Qv x Rv u beginIndex endIndex (k + 1)
          ⟨st.costDerivative, prev, curr⟩
    | _, _, _, _, _ =>
      (Except.error Error.out_of_range, ⟨st.costDerivative, prev, st.currIntermediatecostDev⟩)
  else (Except.ok (), st)
termination_by endIndex - k

/-- The body of `if (beginIndex != endIndex)` in `calculateCostDerivative`: the multiplier of
the sub-segment and the trapezoidal sum over its samples.  For `endIndex = 0` the index
`endIndex-1` of the mid-time computation wraps around and is outside the bounds. -/
def costSegment {n m : Nat} (weekEpsilon : ℚ) (s : GSLQ) (eventTimeIndex : Nat)
    (times q : List ℚ) (Qv x : List (state_vector_t n)) (Rv u : List (input_vector_t m))
    (beginIndex endIndex : Nat) (st : CostState) : Except Error Unit × CostState :=
  if beginIndex ≠ endIndex then
    if endIndex = 0 then (Except.error Error.out_of_range, st)
    else
      match segmentMultiplier weekEpsilon s eventTimeIndex times beginIndex endIndex with
      | Except.error e => (Except.error e, st)
      | Except.ok multiplier =>
        costSampleLoop multiplier times q Qv x Rv u beginIndex endIndex beginIndex st
  else (Except.ok (), st)

/-- The loop `for (size_t j=0; j<=NE; j++)` of `calculateCostDerivative` over the sub-segments
of one partition, with the terminal cost sensitivity added after each sub-segment that ends at
an event. -/
def costSegmentLoop {n m : Nat} (weekEpsilon : ℚ) (s : GSLQ) (eventTimeIndex : Nat)
    (times : List ℚ) (eventsPastTheEndIndeces : List Nat) (q : List ℚ)
    (Qv x : List (state_vector_t n)) (Rv u : List (input_vector_t m))
    (QvFinal : List (state_vector_t n)) (j : Nat) (st : CostState) :
    Except Error Unit × CostState :=
  if j ≤ eventsPastTheEndIndeces.length then
    match segmentRange times eventsPastTheEndIndeces j with
    | Except.error e => (Except.error e, st)
    | Except.ok (beginIndex, endIndex) =>
      -- integrates the intermediate cost sensitivity using the trapezoidal approximation
      match costSegment weekEpsilon s eventTimeIndex times q Qv x Rv u beginIndex endIndex st
        with
      | (Except.error e, st) => (Except.error e, st)
      | (Except.ok (), st) =>
        -- terminal cost sensitivity at switching times
        if j < eventsPastTheEndIndeces.length then
          match x.getLast?, QvFinal[j]? with
          | some xBack, some QvFinalj =>
            costSegmentLoop weekEpsilon s eventTimeIndex times eventsPastTheEndIndeces q Qv x
              Rv u QvFinal (j + 1)
              ⟨st.costDerivative + Matrix.dotProduct xBack QvFinalj,
                st.prevIntermediatecostDev, st.currIntermediatecostDev⟩
          | _, _ => (Except.error Error.out_of_range, st)
        else
          costSegmentLoop weekEpsilon s eventTimeIndex times eventsPastTheEndIndeces q Qv x
            Rv u QvFinal (j + 1) st
  else (Except.ok (), st)
termination_by eventsPastTheEndIndeces.length + 1 - j

/-- The loop `for (size_t i=dcPtr_->initActivePartition_; i<=dcPtr_->finalActivePartition_;
i++)` of `calculateCostDerivative`. -/
def costPartitionLoop {n m : Nat} (weekEpsilon : ℚ) (s : GSLQ) (data : SLQ_Trajectories n m)
    (eventTimeIndex : Nat)
    (sensitivityStateTrajectoriesStock : List (List (state_vector_t n)))
    (sensitivityInputTrajectoriesStock : List (List (input_vector_t m)))
    (i : Nat) (st : CostState) : Except Error Unit × CostState :=
  if i ≤ s.dc.finalActivePartition_ then
    match data.nominalTimeTrajectoriesStock_[i]?,
      data.nominalEventsPastTheEndIndecesStock_[i]? with
    | some times, some eventsPastTheEndIndeces =>
      match costSegmentLoop weekEpsilon s eventTimeIndex times eventsPastTheEndIndeces
          (stockAt data.qTrajectoriesStock_ i) (stockAt data.QvTrajectoriesStock_ i)
          (stockAt sensitivityStateTrajectoriesStock i)
          (stockAt data.RvTrajectoriesStock_ i)
          (stockAt sensitivityInputTrajectoriesStock i)
          (stockAt data.QvFinalStock_ i) 0 st with
      | (Except.error e, st) => (Except.error e, st)
      | (Except.ok (), st) =>
        costPartitionLoop weekEpsilon s data eventTimeIndex sensitivityStateTrajectoriesStock
          sensitivityInputTrajectoriesStock (i + 1) st
    | _, _ => (Except.error Error.out_of_range, st)
  else (Except.ok (), st)
termination_by s.dc.finalActivePartition_ + 1 - i

/-- The statements of `calculateCostDerivative` after the active-range guard; the value that
the output argument `costDerivative` held before the call is not read. -/
def calculateCostDerivativeBody {n m : Nat} (weekEpsilon : ℚ) (s : GSLQ)
    (data : SLQ_Trajectories n m) (eventTimeIndex : Nat)
    (sensitivityStateTrajectoriesStock : List (List (state_vector_t n)))
    (sensitivityInputTrajectoriesStock : List (List (input_vector_t m))) :
    ℚ → Outcome ℚ := fun _ =>
  match costPartitionLoop weekEpsilon s data eventTimeIndex sensitivityStateTrajectoriesStock
      sensitivityInputTrajectoriesStock s.dc.initActivePartition_ ⟨0, 0, 0⟩ with
  | (Except.error e, st) => ⟨Except.error e, st.costDerivative⟩
  | (Except.ok (), st) =>
    -- add the Heuristics function sensitivity at the final time
    match (stockAt sensitivityStateTrajectoriesStock s.dc.finalActivePartition_).getLast? with
    | some xBack => ⟨Except.ok (), st.costDerivative + Matrix.dotProduct xBack data.SvHeuristics_⟩
    | none => ⟨Except.error Error.out_of_range, st.costDerivative⟩

/-! ### The reference value of the cost derivative -/

/-- The multiplier of a sub-segment as a number: `0` stands for "not available". -/
def multiplierValue (r : Except Error ℚ) : ℚ :=
  match r with
  | Except.ok multiplier => multiplier
  | Except.error _ => 0

/-- The sample `c_k = m*q_k + nabla_x_k.Qv_k + nabla_u_k.Rv_k` of the intermediate cost
derivative. -/
def intermediateCostDev {n m : Nat} (multiplier : ℚ) (q : List ℚ)
    (Qv x : List (state_vector_t n)) (Rv u : List (input_vector_t m)) (k : Nat) : ℚ :=
  multiplier * q.getD k 0 + Matrix.dotProduct (x.getD k 0) (Qv.getD k 0)
    + Matrix.dotProduct (u.getD k 0) (Rv.getD k 0)

/-- The trapezoid sum `sum_{k=b+1}^{e-1} 0.5*(t_k - t_{k-1})*(c_k + c_{k-1})` of the
sub-segment `[b, e)`. -/
def segmentTrapezoid {n m : Nat} (multiplier : ℚ) (times q : List ℚ)
    (Qv x : List (state_vector_t n)) (Rv u : List (input_vector_t m)) (b e : Nat) : ℚ :=
  Finset.sum (Finset.Ico (b + 1) e) (fun k =>
    0.5 * (valAt times k - valAt times (k - 1)) *
      (intermediateCostDev multiplier q Qv x Rv u k
        + intermediateCostDev multiplier q Qv x Rv u (k - 1)))

/-- The begin index `b_j` of the sub-segment `j`. -/
def segmentBegin (eventsPastTheEndIndeces : List Nat) (j : Nat) : Nat :=
  if j = 0 then 0 else eventsPastTheEndIndeces.getD (j - 1) 0

/-- The end index `e_j` of the sub-segment `j` of a partition with `N` time stamps. -/
def segmentEnd (N : Nat) (eventsPastTheEndIndeces : List Nat) (j : Nat) : Nat :=
  if j = eventsPastTheEndIndeces.length then N else eventsPastTheEndIndeces.getD j 0

/-- The trapezoid reference of the partition `i`: the sum over its sub-segments `[b_j, e_j)`
of the trapezoid sums, each with the multiplier `m_j` of the subsystem active at the mid time
of the sub-segment. -/
def partitionTrapezoid {n m : Nat} (weekEpsilon : ℚ) (s : GSLQ) (data : SLQ_Trajectories n m)
    (eventTimeIndex : Nat) (xStock : List (List (state_vector_t n)))
    (uStock : List (List (input_vector_t m))) (i : Nat) : ℚ :=
  let times := stockAt data.nominalTimeTrajectoriesStock_ i
  let E := stockAt data.nominalEventsPastTheEndIndecesStock_ i
  Finset.sum (Finset.range (E.length + 1)) (fun j =>
    segmentTrapezoid
      (multiplierValue (segmentMultiplier weekEpsilon s eventTimeIndex times
        (segmentBegin E j) (segmentEnd times.length E j)))
      times (stockAt data.qTrajectoriesStock_ i) (stockAt data.QvTrajectoriesStock_ i)
      (stockAt xStock i) (stockAt data.RvTrajectoriesStock_ i) (stockAt uStock i)
      (segmentBegin E j) (segmentEnd times.length E j))

/-- The trapezoid reference: the sum of the partition references over the active
partitions. -/
def trapezoidReference {n m : Nat} (weekEpsilon : ℚ) (s : GSLQ) (data : SLQ_Trajectories n m)
    (eventTimeIndex : Nat) (xStock : List (List (state_vector_t n)))
    (uStock : List (List (input_vector_t m))) : ℚ :=
  Finset.sum (Finset.Ico s.dc.initActivePartition_ (s.dc.finalActivePartition_ + 1)) (fun i =>
    partitionTrapezoid weekEpsilon s data eventTimeIndex xStock uStock i)

/-- The terminal terms as `calculateCostDerivative` adds them: for every event `j` of every
active partition `i`, `QvFinal[i][j]` dotted with the last sample
`sensitivityStateTrajectoriesStock[i].back()` of the partition. -/
def terminalTermsAtBack {n m : Nat} (s : GSLQ) (data : SLQ_Trajectories n m)
    (xStock : List (List (state_vector_t n))) : ℚ :=
  Finset.sum (Finset.Ico s.dc.initActivePartition_ (s.dc.finalActivePartition_ + 1)) (fun i =>
    Finset.sum (Finset.range (stockAt data.nominalEventsPastTheEndIndecesStock_ i).length)
      (fun j => Matrix.dotProduct ((stockAt xStock i).getLastD 0)
        ((stockAt data.QvFinalStock_ i).getD j 0)))

/-- The terminal terms at the event boundaries: for every event `j` of every active partition
`i`, `QvFinal[i][j]` dotted with the state sensitivity `nabla_x[i][E_j - 1]` at the boundary
of that event, `E_j` being the event's past-the-end index. -/
def terminalTermsAtEvents {n m : Nat} (s : GSLQ) (data : SLQ_Trajectories n m)
    (xStock : List (List (state_vector_t n))) : ℚ :=
  Finset.sum (Finset.Ico s.dc.initActivePartition_ (s.dc.finalActivePartition_ + 1)) (fun i =>
    Finset.sum (Finset.range (stockAt data.nominalEventsPastTheEndIndecesStock_ i).length)
      (fun j => Matrix.dotProduct
        ((stockAt xStock i).getD ((stockAt data.nominalEventsPastTheEndIndecesStock_ i).getD j 0
          - 1) 0)
        ((stockAt data.QvFinalStock_ i).getD j 0)))

/-- The heuristic term: `SvHeuristics` dotted with the state sensitivity at the last sample
of the final active partition. -/
def heuristicTerm {n m : Nat} (s : GSLQ) (data : SLQ_Trajectories n m)
    (xStock : List (List (state_vector_t n))) : ℚ :=
  Matrix.dotProduct ((stockAt xStock s.dc.finalActivePartition_).getLastD 0) data.SvHeuristics_

/-- The shape of the partition `i` that `calculateCostDerivative` relies on: the partition
has a time-stamp array (of some length `N`) and an array of events-past-the-end indices, which
lie in `[1, N]`; the cost and sensitivity trajectories have at least `N` samples and there is
a terminal gradient for every event. -/
def CostPartitionShape {n m : Nat} (data : SLQ_Trajectories n m)
    (xStock : List (List (state_vector_t n))) (uStock : List (List (input_vector_t m)))
    (i : Nat) : Prop :=
  i < data.nominalTimeTrajectoriesStock_.length ∧
  i < data.nominalEventsPastTheEndIndecesStock_.length ∧
  (∀ e ∈ stockAt data.nominalEventsPastTheEndIndecesStock_ i,
    1 ≤ e ∧ e ≤ (stockAt data.nominalTimeTrajectoriesStock_ i).length) ∧
  (stockAt data.nominalTimeTrajectoriesStock_ i).length
    ≤ (stockAt data.qTrajectoriesStock_ i).length ∧
  (stockAt data.nominalTimeTrajectoriesStock_ i).length
    ≤ (stockAt data.QvTrajectoriesStock_ i).length ∧
  (stockAt data.nominalTimeTrajectoriesStock_ i).length ≤ (stockAt xStock i).length ∧
  (stockAt data.nominalTimeTrajectoriesStock_ i).length
    ≤ (stockAt data.RvTrajectoriesStock_ i).length ∧
  (stockAt data.nominalTimeTrajectoriesStock_ i).length ≤ (stockAt uStock i).length ∧
  (stockAt data.nominalEventsPastTheEndIndecesStock_ i).length
    ≤ (stockAt data.QvFinalStock_ i).length

/-! ### `approximateNominalLQPSensitivity2SwitchingTime` -/

/-- The output arguments of `approximateNominalLQPSensitivity2SwitchingTime`; an
`eigen_scalar_t` is shown as its single coefficient. -/
structure NominalLQPSensitivity (n m : Nat) where
  nablaqTrajectoriesStock : List (List ℚ)
  nablaQvTrajectoriesStock : List (List (state_vector_t n))
  nablaRvTrajectoriesStock : List (List (input_vector_t m))
  nablaqFinalStock : List (List ℚ)
  nablaQvFinalStock : List (List (state_vector_t n))

/-- The call `v.resize(N)` on a vector of fixed-size Eigen objects: the first `N` elements are
kept; the elements it creates are left uninitialised by Eigen, and `fresh` is the value they
happen to hold. -/
def resizeWith {α : Type} (fresh : α) (v : List α) (N : Nat) : List α :=
  v.take N ++ List.replicate (N - v.length) fresh

/-- The entries `[i]` of the five output stocks while the samples of the partition `i` are
processed, and the position of the iterator `eventsPastTheEndItr` in
`nominalEventsPastTheEndIndecesStock_[i]`. -/
structure LQPSensitivityPartition (n m : Nat) where
  nablaq : List ℚ
  nablaQv : List (state_vector_t n)
  nablaRv : List (input_vector_t m)
  nablaqFinal : List ℚ
  nablaQvFinal : List (state_vector_t n)
  eventsPastTheEndItr : Nat

/-- The loop `for (size_t k=0; k<N; k++)` of `approximateNominalLQPSensitivity2SwitchingTime`
on the trajectories of one partition.  The product `Qv.transpose()*x` of a row and a column is
the dot product; the writes at `k` and at `eventIndex` are inside the bounds because the
arrays were resized to `N` and `NE` before the loop. -/
def lqpSampleLoop {n m : Nat} (Rm : List (input_matrix_t m)) (Qv : List (state_vector_t n))
    (Qm : List (state_matrix_t n)) (Rv : List (input_vector_t m))
    (Pm : List (input_state_matrix_t n m)) (QvFinal : List (state_vector_t n))
    (QmFinal : List (state_matrix_t n)) (eventsPastTheEndIndeces : List Nat)
    (x : List (state_vector_t n)) (u : List (input_vector_t m)) (N : Nat) (k : Nat)
    (st : LQPSensitivityPartition n m) : Except Error Unit × LQPSensitivityPartition n m :=
  if k < N then
    match Rm[k]?, Qv[k]?, Qm[k]?, Rv[k]?, Pm[k]?, x[k]?, u[k]? with
    | some Rmk, some Qvk, some Qmk, some Rvk, some Pmk, some xk, some uk =>
      let st : LQPSensitivityPartition n m :=
        ⟨st.nablaq.set k (Matrix.dotProduct Qvk xk + Matrix.dotProduct Rvk uk),
          st.nablaQv.set k (Matrix.mulVec Qmk xk + Matrix.mulVec (Matrix.transpose Pmk) uk),
          st.nablaRv.set k (Matrix.mulVec Pmk xk + Matrix.mulVec Rmk uk),
          st.nablaqFinal, st.nablaQvFinal, st.eventsPastTheEndItr⟩
      -- terminal cost sensitivity to switching times
      match eventsPastTheEndIndeces[st.eventsPastTheEndItr]? with
      | some e =>
        if k + 1 = e then
          let eventIndex := st.eventsPastTheEndItr
          let timeIndex := e - 1
          match QvFinal[eventIndex]?, QmFinal[eventIndex]?, x[timeIndex]? with
          | some QvF, some QmF, some xT =>
            lqpSampleLoop Rm Qv Qm Rv Pm QvFinal QmFinal eventsPastTheEndIndeces x u N (k + 1)
              ⟨st.nablaq, st.nablaQv, st.nablaRv,
                st.nablaqFinal.set eventIndex (Matrix.dotProduct QvF xT),
                st.nablaQvFinal.set eventIndex (Matrix.mulVec QmF xT),
                st.eventsPastTheEndItr + 1⟩
          | _, _, _ => (Except.error Error.out_of_range, st)
        else
          lqpSampleLoop Rm Qv Qm Rv Pm QvFinal QmFinal eventsPastTheEndIndeces x u N (k + 1) st
      | none =>
        lqpSampleLoop Rm Qv Qm Rv Pm QvFinal QmFinal eventsPastTheEndIndeces x u N (k + 1) st
    | _, _, _, _, _, _, _ => (Except.error Error.out_of_range, st)
  else (Except.ok (), st)
termination_by N - k

/-- The loop `for (size_t i=0; i<numPartitions_; i++)` of
`approximateNominalLQPSensitivity2SwitchingTime`. -/
def lqpPartitionLoop {n m : Nat} (fresh : ℚ) (freshState : state_vector_t n)
    (freshInput : input_vector_t m) (s : GSLQ) (data : SLQ_Trajectories n m)
    (sensitivityStateTrajectoriesStock : List (List (state_vector_t n)))
    (sensitivityInputTrajectoriesStock : List (List (input_vector_t m)))
    (i : Nat) (out : NominalLQPSensitivity n m) : Outcome (NominalLQPSensitivity n m) :=
  if i < s.numPartitions_ then
    -- skip inactive partitions
    if i < s.dc.initActivePartition_ ∨ i > s.dc.finalActivePartition_ then
      lqpPartitionLoop fresh freshState freshInput s data sensitivityStateTrajectoriesStock
        sensitivityInputTrajectoriesStock (i + 1)
        ⟨out.nablaqTrajectoriesStock.set i [], out.nablaQvTrajectoriesStock.set i [],
          out.nablaRvTrajectoriesStock.set i [], out.nablaqFinalStock.set i [],
          out.nablaQvFinalStock.set i []⟩
    else
      match data.nominalTimeTrajectoriesStock_[i]?,
        data.nominalEventsPastTheEndIndecesStock_[i]? with
      | some times, some eventsPastTheEndIndeces =>
        let N := times.length
        let NE := eventsPastTheEndIndeces.length
        -- resizing
        let r := lqpSampleLoop (stockAt data.RmTrajectoriesStock_ i)
          (stockAt data.QvTrajectoriesStock_ i) (stockAt data.QmTrajectoriesStock_ i)
          (stockAt data.RvTrajectoriesStock_ i) (stockAt data.PmTrajectoriesStock_ i)
          (stockAt data.QvFinalStock_ i) (stockAt data.QmFinalStock_ i)
          eventsPastTheEndIndeces (stockAt sensitivityStateTrajectoriesStock i)
          (stockAt sensitivityInputTrajectoriesStock i) N 0
          ⟨resizeWith fresh (stockAt out.nablaqTrajectoriesStock i) N,
            resizeWith freshState (stockAt out.nablaQvTrajectoriesStock i) N,
            resizeWith freshInput (stockAt out.nablaRvTrajectoriesStock i) N,
            resizeWith fresh (stockAt out.nablaqFinalStock i) NE,
            resizeWith freshState (stockAt out.nablaQvFinalStock i) NE, 0⟩
        let out : NominalLQPSensitivity n m :=
          ⟨out.nablaqTrajectoriesStock.set i r.2.nablaq,
            out.nablaQvTrajectoriesStock.set i r.2.nablaQv,
            out.nablaRvTrajectoriesStock.set i r.2.nablaRv,
            out.nablaqFinalStock.set i r.2.nablaqFinal,
            out.nablaQvFinalStock.set i r.2.nablaQvFinal⟩
        match r.1 with
        | Except.error e => ⟨Except.error e, out⟩
        | Except.ok () =>
          lqpPartitionLoop fresh freshState freshInput s data
            sensitivityStateTrajectoriesStock sensitivityInputTrajectoriesStock (i + 1) out
      | _, _ => ⟨Except.error Error.out_of_range, out⟩
  else ⟨Except.ok (), out⟩
termination_by s.numPartitions_ - i

/-- The function `GSLQ_BASE::approximateNominalLQPSensitivity2SwitchingTime`; `fresh`,
`freshState` and `freshInput` are the values of the elements that the inner `resize` calls
create. -/
def approximateNominalLQPSensitivity2SwitchingTime {n m : Nat} (fresh : ℚ)
    (freshState : state_vector_t n) (freshInput : input_vector_t m) (s : GSLQ)
    (data : SLQ_Trajectories n m)
    (sensitivityStateTrajectoriesStock : List (List (state_vector_t n)))
    (sensitivityInputTrajectoriesStock : List (List (input_vector_t m)))
    (out : NominalLQPSensitivity n m) : Outcome (NominalLQPSensitivity n m) :=
  -- resizing
  lqpPartitionLoop fresh freshState freshInput s data sensitivityStateTrajectoriesStock
    sensitivityInputTrajectoriesStock 0
    ⟨resize out.nablaqTrajectoriesStock s.numPartitions_,
      resize out.nablaQvTrajectoriesStock s.numPartitions_,
      resize out.nablaRvTrajectoriesStock s.numPartitions_,
      resize out.nablaqFinalStock s.numPartitions_,
      resize out.nablaQvFinalStock s.numPartitions_⟩

/-- The chain rule on the partition `i`: the five output arrays of an inactive partition are
empty; on an active partition the arrays `nablaq[i]`, `nablaQv[i]` and `nablaRv[i]` have the
length `N` of the partition's time stamps and hold, at every sample `k < N`,
`Qv_k.nabla_x_k + Rv_k.nabla_u_k`, `Qm_k*nabla_x_k + Pm_k^T*nabla_u_k` and
`Pm_k*nabla_x_k + Rm_k*nabla_u_k`, and the two arrays of terminal sensitivities have one
element for each event of the partition. -/
def ChainRule {n m : Nat} (s : GSLQ) (data : SLQ_Trajectories n m)
    (xStock : List (List (state_vector_t n))) (uStock : List (List (input_vector_t m)))
    (out : NominalLQPSensitivity n m) (i : Nat) : Prop :=
  if i < s.dc.initActivePartition_ ∨ i > s.dc.finalActivePartition_ then
    out.nablaqTrajectoriesStock[i]? = some [] ∧ out.nablaQvTrajectoriesStock[i]? = some [] ∧
      out.nablaRvTrajectoriesStock[i]? = some [] ∧ out.nablaqFinalStock[i]? = some [] ∧
      out.nablaQvFinalStock[i]? = some []
  else
    ∃ (nablaq : List ℚ) (nablaQv : List (state_vector_t n)) (nablaRv : List (input_vector_t m))
      (nablaqFinal : List ℚ) (nablaQvFinal : List (state_vector_t n)),
      out.nablaqTrajectoriesStock[i]? = some nablaq ∧
      out.nablaQvTrajectoriesStock[i]? = some nablaQv ∧
      out.nablaRvTrajectoriesStock[i]? = some nablaRv ∧
      out.nablaqFinalStock[i]? = some nablaqFinal ∧
      out.nablaQvFinalStock[i]? = some nablaQvFinal ∧
      nablaq.length = (stockAt data.nominalTimeTrajectoriesStock_ i).length ∧
      nablaQv.length = (stockAt data.nominalTimeTrajectoriesStock_ i).length ∧
      nablaRv.length = (stockAt data.nominalTimeTrajectoriesStock_ i).length ∧
      nablaqFinal.length = (stockAt data.nominalEventsPastTheEndIndecesStock_ i).length ∧
      nablaQvFinal.length = (stockAt data.nominalEventsPastTheEndIndecesStock_ i).length ∧
      ∀ k : Nat, k < (stockAt data.nominalTimeTrajectoriesStock_ i).length →
        nablaq[k]? = some
          (Matrix.dotProduct ((stockAt data.QvTrajectoriesStock_ i).getD k 0)
              ((stockAt xStock i).getD k 0)
            + Matrix.dotProduct ((stockAt data.RvTrajectoriesStock_ i).getD k 0)
              ((stockAt uStock i).getD k 0)) ∧
        nablaQv[k]? = some
          (Matrix.mulVec ((stockAt data.QmTrajectoriesStock_ i).getD k 0)
              ((stockAt xStock i).getD k 0)
            + Matrix.mulVec (Matrix.transpose ((stockAt data.PmTrajectoriesStock_ i).getD k 0))
              ((stockAt uStock i).getD k 0)) ∧
        nablaRv[k]? = some
          (Matrix.mulVec ((stockAt data.PmTrajectoriesStock_ i).getD k 0)
              ((stockAt xStock i).getD k 0)
            + Matrix.mulVec ((stockAt data.RmTrajectoriesStock_ i).getD k 0)
              ((stockAt uStock i).getD k 0))

/-- The shape of the partition `i` that `approximateNominalLQPSensitivity2SwitchingTime`
relies on: the partition has a time-stamp array (of some length `N`) and an array of
events-past-the-end indices, the cost and sensitivity trajectories have at least `N` samples
and there is a terminal expansion for every event. -/
def LQPPartitionShape {n m : Nat} (data : SLQ_Trajectories n m)
    (xStock : List (List (state_vector_t n))) (uStock : List (List (input_vector_t m)))
    (i : Nat) : Prop :=
  i < data.nominalTimeTrajectoriesStock_.length ∧
  i < data.nominalEventsPastTheEndIndecesStock_.length ∧
  (stockAt data.nominalTimeTrajectoriesStock_ i).length
    ≤ (stockAt data.RmTrajectoriesStock_ i).length ∧
  (stockAt data.nominalTimeTrajectoriesStock_ i).length
    ≤ (stockAt data.QvTrajectoriesStock_ i).length ∧
  (stockAt data.nominalTimeTrajectoriesStock_ i).length
    ≤ (stockAt data.QmTrajectoriesStock_ i).length ∧
  (stockAt data.nominalTimeTrajectoriesStock_ i).length
    ≤ (stockAt data.RvTrajectoriesStock_ i).length ∧
  (stockAt data.nominalTimeTrajectoriesStock_ i).length
    ≤ (stockAt data.PmTrajectoriesStock_ i).length ∧
  (stockAt data.nominalTimeTrajectoriesStock_ i).length ≤ (stockAt xStock i).length ∧
  (stockAt data.nominalTimeTrajectoriesStock_ i).length ≤ (stockAt uStock i).length ∧
  (stockAt data.nominalEventsPastTheEndIndecesStock_ i).length
    ≤ (stockAt data.QvFinalStock_ i).length ∧
  (stockAt data.nominalEventsPastTheEndIndecesStock_ i).length
    ≤ (stockAt data.QmFinalStock_ i).length

/-! ### `getValueFuntionDerivative` -/

/-- The solver's member variables that hold the solution of the sensitivity Riccati equations:
one stock for each event time. -/
structure SensitivityRiccatiSets (n : Nat) where
  nablasTrajectoriesStockSet_ : List (List (List ℚ))
  nablaSvTrajectoriesStockSet_ : List (List (List (state_vector_t n)))
  nablaSmTrajectoriesStockSet_ : List (List (List (state_matrix_t n)))

/-- The class template `EigenLinearInterpolation` at the three types at which
`getValueFuntionDerivative` uses it: each field gives, for a time-stamp array and a data
array, the object after `reset()`, `setTimeStamp` and `setData`.  The class is a collaborator
of the solver and a parameter of the model. -/
structure EigenLinearInterpolation (n : Nat) where
  scalar : List ℚ → List ℚ → LinearInterpolation ℚ
  stateVector : List ℚ → List (state_vector_t n) → LinearInterpolation (state_vector_t n)
  stateMatrix : List ℚ → List (state_matrix_t n) → LinearInterpolation (state_matrix_t n)

/-- The statements of `getValueFuntionDerivative` after the active-range guard; the argument
of the result is the value of the output `valueFunctionDerivative` before the call. -/
def getValueFuntionDerivativeBody {n m : Nat} (weekEpsilon : ℚ)
    (interp : EigenLinearInterpolation n) (data : SLQ_Trajectories n m)
    (sets : SensitivityRiccatiSets n) (eventTimeIndex : Nat) (time : ℚ)
    (state : state_vector_t n) : ℚ → Outcome ℚ := fun valueFunctionDerivative =>
  match findActivePartitionIndex weekEpsilon data.partitioningTimes_ time true with
  | Except.error e => ⟨Except.error e, valueFunctionDerivative⟩
  | Except.ok activePartition =>
    match data.nominalTimeTrajectoriesStock_[activePartition]?,
      data.nominalStateTrajectoriesStock_[activePartition]?,
      data.SsTimeTrajectoriesStock_[activePartition]?,
      (stockAt sets.nablasTrajectoriesStockSet_ eventTimeIndex)[activePartition]?,
      (stockAt sets.nablaSvTrajectoriesStockSet_ eventTimeIndex)[activePartition]?,
      (stockAt sets.nablaSmTrajectoriesStockSet_ eventTimeIndex)[activePartition]? with
    | some nominalTimes, some nominalStates, some SsTimes, some nablasTrajectory,
        some nablaSvTrajectory, some nablaSmTrajectory =>
      let nominalState :=
        ((interp.stateVector nominalTimes nominalStates).interpolate time none).1
      let deltsState := state - nominalState
      let nablasResult := (interp.scalar SsTimes nablasTrajectory).interpolate time none
      let nablas := nablasResult.1
      let greatestLessTimeStampIndex := nablasResult.2
      let nablaSv := ((interp.stateVector SsTimes nablaSvTrajectory).interpolate time
        (some greatestLessTimeStampIndex)).1
      let nablaSm := ((interp.stateMatrix SsTimes nablaSmTrajectory).interpolate time
        (some greatestLessTimeStampIndex)).1
      ⟨Except.ok (), nablas + Matrix.dotProduct deltsState nablaSv
        + 0.5 * Matrix.dotProduct deltsState (Matrix.mulVec nablaSm deltsState)⟩
    | _, _, _, _, _, _ => ⟨Except.error Error.out_of_range, valueFunctionDerivative⟩

/-- Interpolation objects that give the first sample of the data at every time (`0` for empty
data), used to instantiate statements. -/
def firstSampleInterpolation (n : Nat) : EigenLinearInterpolation n :=
  ⟨fun _ data => constantInterpolation (data.getD 0 0),
    fun _ data => constantInterpolation (data.getD 0 0),
    fun _ data => constantInterpolation (data.getD 0 0)⟩

/-- A solution of the sensitivity Riccati equations for the event time `0` of `oneEvent`:
`nablas = 5`, `nablaSv = 2` and `nablaSm = 4` on the first partition. -/
def oneEventSets : SensitivityRiccatiSets 1 :=
  ⟨[[[5, 5, 5, 5], []]], [[[fun _ => 2], []]], [[[fun _ _ => 4], []]]⟩

/-! ### `solveSensitivityRiccatiEquations`

The Riccati sensitivity equations and their integrator are collaborators of the function; they
enter through `RiccatiOps`, on an abstract type `S` for `s_vector_t`. -/

/-- What `solveSensitivityRiccatiEquations` uses of its collaborators, for the partition `i`
whose data was passed to `setData` and the multiplier passed to `setMultiplier`:
`convert2Vector` and `convert2Matrix` are the static functions of
`riccati_sensitivity_equations_t` (the latter gives `nablaSm`, `nablaSv`, `nablas`);
`add` is the sum of two `s_vector_t`;
`integrate i multiplier SsFinal times` is the list of values that
`riccatiSensitivityIntegratorsPtrStock_[workerIndex]->integrate` appends to its output
trajectory for the time stamps `times`. -/
structure RiccatiOps (S : Type) (n : Nat) where
  convert2Vector : state_matrix_t n → state_vector_t n → ℚ → S
  convert2Matrix : S → state_matrix_t n × state_vector_t n × ℚ
  add : S → S → S
  integrate : Nat → ℚ → S → List ℚ → List S

/-- The three output arguments of `solveSensitivityRiccatiEquations`. -/
structure RiccatiOut (n : Nat) where
  nablasTrajectoriesStock : List (List ℚ)
  nablaSvTrajectoriesStock : List (List (state_vector_t n))
  nablaSmTrajectoriesStock : List (List (state_matrix_t n))

/-- The body of the loop `for (size_t j=0; j<=NE; j++)` of `solveSensitivityRiccatiEquations`
up to the `if (j < NE)`: the sub-segment between the switching indices `beginIdx` and `endIdx`
of the partition `i` is integrated, or `SsFinal` is appended when the first time stamp of the
sub-segment is not before its last one.  The result is `allSsTrajectory`.  Iterators that
cannot be dereferenced, or that are not a range, are an access outside the bounds. -/
def riccatiSegment {S : Type} {n : Nat} (weekEpsilon : ℚ) (ops : RiccatiOps S n) (s : GSLQ)
    (eventTimeIndex i : Nat) (partitionBegin partitionEnd : ℚ) (times : List ℚ)
    (beginIdx endIdx : Nat) (SsFinal : S) (allSsTrajectory : List S) :
    Except Error (List S) :=
  match times[beginIdx]?, (if endIdx = 0 then none else times[endIdx - 1]?) with
  | some tBegin, some tLast =>
    -- if the event time does not take place at the end of partition
    if tBegin < tLast then
      -- finding the current active subsystem
      let midNormalizedTime := 0.5 * (tBegin + tLast)
      let midTime := partitionEnd - (partitionEnd - partitionBegin) * midNormalizedTime
      match findActiveSubsystemIndex weekEpsilon s.eventTimes_ midTime true with
      | Except.error e => Except.error e
      | Except.ok activeSubsystem =>
        -- compute multiplier of the equivalent system
        match computeEquivalentSystemMultiplier s eventTimeIndex activeSubsystem with
        | Except.error e => Except.error e
        | Except.ok multiplier =>
          -- solve Riccati sensitivity equations
          if beginIdx < endIdx then
            Except.ok (allSsTrajectory ++ ops.integrate i multiplier SsFinal
              ((times.drop beginIdx).take (endIdx - beginIdx)))
          else Except.error Error.out_of_range
    else Except.ok (allSsTrajectory ++ [SsFinal])
  | _, _ => Except.error Error.out_of_range

/-- The loop `for (size_t j=0; j<=NE; j++)` of `solveSensitivityRiccatiEquations` on the
partition `i`; `nablaqFinal` and `nablaQvFinal` are `nablaqFinalStockSet_[eventTimeIndex][i]`
and `nablaQvFinalStockSet_[eventTimeIndex][i]`.  The result is `SsFinal` and
`allSsTrajectory` after the loop. -/
def riccatiSegmentLoop {S : Type} {n : Nat} (weekEpsilon : ℚ) (ops : RiccatiOps S n)
    (s : GSLQ) (eventTimeIndex i : Nat) (partitionBegin partitionEnd : ℚ) (times : List ℚ)
    (eventsPastTheEndIndeces : List Nat) (nablaqFinal : List ℚ)
    (nablaQvFinal : List (state_vector_t n)) (j : Nat) (SsFinal : S)
    (allSsTrajectory : List S) : Except Error (S × List S) :=
  if j ≤ eventsPastTheEndIndeces.length then
    let NE := eventsPastTheEndIndeces.length
    -- normalized switching times
    let SsNormalizedSwitchingTimesIndices : List Nat :=
      0 :: (eventsPastTheEndIndeces ++ [times.length])
    match SsNormalizedSwitchingTimesIndices[j]?, SsNormalizedSwitchingTimesIndices[j + 1]? with
    | some beginIdx, some endIdx =>
      match riccatiSegment weekEpsilon ops s eventTimeIndex i partitionBegin partitionEnd times
          beginIdx endIdx SsFinal allSsTrajectory with
      | Except.error e => Except.error e
      | Except.ok allSsTrajectory =>
        -- final value of the next subsystem
        if j < NE then
          match allSsTrajectory.getLast?, nablaQvFinal[NE - 1 - j]?, nablaqFinal[NE - 1 - j]?
            with
          | some SsBack, some QvF, some qF =>
            riccatiSegmentLoop weekEpsilon ops s eventTimeIndex i partitionBegin partitionEnd
              times eventsPastTheEndIndeces nablaqFinal nablaQvFinal (j + 1)
              (ops.add SsBack (ops.convert2Vector 0 QvF qF)) allSsTrajectory
          | _, _, _ => Except.error Error.out_of_range
        else
          riccatiSegmentLoop weekEpsilon ops s eventTimeIndex i partitionBegin partitionEnd
            times eventsPastTheEndIndeces nablaqFinal nablaQvFinal (j + 1) SsFinal
            allSsTrajectory
    | _, _ => Except.error Error.out_of_range
  else Except.ok (SsFinal, allSsTrajectory)
termination_by eventsPastTheEndIndeces.length + 1 - j

/-- The loop `for (int i=numSubsystems_-1; i>=0; i--)` of `solveSensitivityRiccatiEquations`:
`riccatiPartitionLoop ... count SsFinal out` runs the iterations `i = count-1, ..., 0`.  The
other stocks whose entry `i` is passed to `setData` only reach the collaborators.  The output
stocks are indexed at `i`, outside their bounds when `i` is not smaller than their size. -/
def riccatiPartitionLoop {S : Type} {n m : Nat} (weekEpsilon : ℚ) (ops : RiccatiOps S n)
    (s : GSLQ) (data : SLQ_Trajectories n m) (nablaqFinalStockSet_ : List (List (List ℚ)))
    (nablaQvFinalStockSet_ : List (List (List (state_vector_t n)))) (eventTimeIndex : Nat) :
    Nat → S → RiccatiOut n → Outcome (RiccatiOut n)
  | 0, _, out => ⟨Except.ok (), out⟩
  | i + 1, SsFinal, out =>
    -- skip inactive partitions
    if i < s.dc.initActivePartition_ ∨ i > s.dc.finalActivePartition_ then
      if i < out.nablasTrajectoriesStock.length ∧ i < out.nablaSvTrajectoriesStock.length ∧
          i < out.nablaSmTrajectoriesStock.length then
        riccatiPartitionLoop weekEpsilon ops s data nablaqFinalStockSet_ nablaQvFinalStockSet_
          eventTimeIndex i SsFinal
          ⟨out.nablasTrajectoriesStock.set i [], out.nablaSvTrajectoriesStock.set i [],
            out.nablaSmTrajectoriesStock.set i []⟩
      else ⟨Except.error Error.out_of_range, out⟩
    else
      match data.SsNormalizedTimeTrajectoriesStock_[i]?,
        data.SsNormalizedEventsPastTheEndIndecesStock_[i]?,
        data.partitioningTimes_[i]?, data.partitioningTimes_[i + 1]? with
      | some times, some eventsPastTheEndIndeces, some partitionBegin, some partitionEnd =>
        -- max number of steps of integration: reads `back()` and `front()`
        if times = [] then ⟨Except.error Error.out_of_range, out⟩
        else
          match riccatiSegmentLoop weekEpsilon ops s eventTimeIndex i partitionBegin
              partitionEnd times eventsPastTheEndIndeces
              (stockAt (stockAt nablaqFinalStockSet_ eventTimeIndex) i)
              (stockAt (stockAt nablaQvFinalStockSet_ eventTimeIndex) i) 0 SsFinal [] with
          | Except.error e => ⟨Except.error e, out⟩
          | Except.ok (_, allSsTrajectory) =>
            -- final value of the next partition
            match allSsTrajectory.getLast? with
            | none => ⟨Except.error Error.out_of_range, out⟩
            | some SsBack =>
              -- check size
              if allSsTrajectory.length ≠ times.length then
                ⟨Except.error (Error.runtime_error "allSsTrajectory size is incorrect."), out⟩
              else if i < out.nablasTrajectoriesStock.length ∧
                  i < out.nablaSvTrajectoriesStock.length ∧
                  i < out.nablaSmTrajectoriesStock.length then
                -- construct 'nable_Sm', 'nable_Sv', and 'nable_s'
                riccatiPartitionLoop weekEpsilon ops s data nablaqFinalStockSet_
                  nablaQvFinalStockSet_ eventTimeIndex i SsBack
                  ⟨out.nablasTrajectoriesStock.set i
                      (allSsTrajectory.reverse.map (fun Ss => (ops.convert2Matrix Ss).2.2)),
                    out.nablaSvTrajectoriesStock.set i
                      (allSsTrajectory.reverse.map (fun Ss => (ops.convert2Matrix Ss).2.1)),
                    out.nablaSmTrajectoriesStock.set i
                      (allSsTrajectory.reverse.map (fun Ss => (ops.convert2Matrix Ss).1))⟩
              else ⟨Except.error Error.out_of_range, out⟩
      | _, _, _, _ => ⟨Except.error Error.out_of_range, out⟩

/-- The statements of `solveSensitivityRiccatiEquations` after the active-range guard; the
inputs `workerIndex` and `learningRate` only reach the collaborators. -/
def solveSensitivityRiccatiEquationsBody {S : Type} {n m : Nat} (weekEpsilon : ℚ)
    (ops : RiccatiOps S n) (s : GSLQ) (data : SLQ_Trajectories n m)
    (nablaqFinalStockSet_ : List (List (List ℚ)))
    (nablaQvFinalStockSet_ : List (List (List (state_vector_t n)))) (eventTimeIndex : Nat)
    (nablasHeuristics : ℚ) (nablaSvHeuristics : state_vector_t n)
    (nablaSmHeuristics : state_matrix_t n) : RiccatiOut n → Outcome (RiccatiOut n) :=
  fun out =>
    -- Resizing; temporal final value for the last Riccati equations
    riccatiPartitionLoop weekEpsilon ops s data nablaqFinalStockSet_ nablaQvFinalStockSet_
      eventTimeIndex s.numSubsystems_
      (ops.convert2Vector nablaSmHeuristics nablaSvHeuristics nablasHeuristics)
      ⟨resize out.nablasTrajectoriesStock s.numPartitions_,
        resize out.nablaSvTrajectoriesStock s.numPartitions_,
        resize out.nablaSmTrajectoriesStock s.numPartitions_⟩

/-- A stand-in for the Riccati sensitivity equations and their integrator on a scalar system:
an `s_vector_t` is a scalar, which `convert2Vector` takes from `nablas` and `convert2Matrix`
gives back as `nablas`; the integrator returns the final value at every time stamp. -/
def constantRiccatiOps : RiccatiOps ℚ 1 :=
  ⟨fun _ _ nablas => nablas, fun Ss => (0, 0, Ss), fun a b => a + b,
    fun _ _ SsFinal times => times.map (fun _ => SsFinal)⟩

/-- A solver state with the single event time `1` on the horizon `[0, 2]` (two subsystems) and
three partitions of which only the first is active. -/
def threePartitions : GSLQ :=
  ⟨true, [1], 1, 2, 3, 0, 1, ⟨0, 2, 3, 0, 0⟩⟩

/-- Trajectories for `threePartitions`: the partitioning times `0, 2, 4, 6`; the first
partition has the normalized time stamps `0, 1/2, 1/2, 1`, interrupted by an event after two
stamps. -/
def threePartitionsTrajectories : SLQ_Trajectories 1 1 where
  partitioningTimes_ := [0, 2, 4, 6]
  nominalTimeTrajectoriesStock_ := [[0, 1, 1, 2], [], []]
  nominalEventsPastTheEndIndecesStock_ := [[2], [], []]
  nominalStateTrajectoriesStock_ := [[0, 0, 0, 0], [], []]
  qTrajectoriesStock_ := [[1, 1, 3, 3], [], []]
  QvTrajectoriesStock_ := [[0, 0, 0, 0], [], []]
  QmTrajectoriesStock_ := [[0, 0, 0, 0], [], []]
  RvTrajectoriesStock_ := [[0, 0, 0, 0], [], []]
  RmTrajectoriesStock_ := [[1, 1, 1, 1], [], []]
  PmTrajectoriesStock_ := [[0, 0, 0, 0], [], []]
  QvFinalStock_ := [[fun _ => 1], [], []]
  QmFinalStock_ := [[0], [], []]
  SvHeuristics_ := 0
  SsTimeTrajectoriesStock_ := [[0, 1, 1, 2], [], []]
  SsNormalizedTimeTrajectoriesStock_ := [[0, 1 / 2, 1 / 2, 1], [], []]
  SsNormalizedEventsPastTheEndIndecesStock_ := [[2], [], []]

/-- Output stocks that hold one sample, `7`, for each of three partitions. -/
def staleRiccatiOut : RiccatiOut 1 :=
  ⟨[[7], [7], [7]], [[fun _ => 7], [fun _ => 7], [fun _ => 7]],
    [[fun _ _ => 7], [fun _ _ => 7], [fun _ _ => 7]]⟩

/-- Trajectories for one active partition of a scalar system with the time stamps
`0, 1, 1, 2`, interrupted by an event after two stamps: intermediate cost `q = 1, 1, 3, 3`,
no cost gradients, terminal gradient `QvFinal = 1` at the event and no heuristic gradient. -/
def oneEventTrajectories : SLQ_Trajectories 1 1 where
  partitioningTimes_ := [0, 2, 4]
  nominalTimeTrajectoriesStock_ := [[0, 1, 1, 2], []]
  nominalEventsPastTheEndIndecesStock_ := [[2], []]
  nominalStateTrajectoriesStock_ := [[0, 0, 0, 0], []]
  qTrajectoriesStock_ := [[1, 1, 3, 3], []]
  QvTrajectoriesStock_ := [[0, 0, 0, 0], []]
  QmTrajectoriesStock_ := [[0, 0, 0, 0], []]
  RvTrajectoriesStock_ := [[0, 0, 0, 0], []]
  RmTrajectoriesStock_ := [[1, 1, 1, 1], []]
  PmTrajectoriesStock_ := [[0, 0, 0, 0], []]
  QvFinalStock_ := [[fun _ => 1], []]
  QmFinalStock_ := [[0], []]
  SvHeuristics_ := 0
  SsTimeTrajectoriesStock_ := [[0, 1, 1, 2], []]
  SsNormalizedTimeTrajectoriesStock_ := [[-2, -1, -1, 0], []]
  SsNormalizedEventsPastTheEndIndecesStock_ := [[2], []]

/-- State sensitivities `0, 1, 1, 3` for the first partition of `oneEventTrajectories`: the
sensitivity at the event boundary is `1`, the one at the last sample is `3`. -/
def stateSensitivity0113 : List (List (state_vector_t 1)) :=
  [[fun _ => 0, fun _ => 1, fun _ => 1, fun _ => 3], []]

/-- Input sensitivities `0, 0, 0, 0` for the first partition of `oneEventTrajectories`. -/
def inputSensitivity0000 : List (List (input_vector_t 1)) :=
  [[fun _ => 0, fun _ => 0, fun _ => 0, fun _ => 0], []]

/-! ## `SystemEventHandler.h` -/

/-- The enumeration `sys_event_id`: the value of each enumerator. -/
inductive sys_event_id where
  | killIntegration
  | maxCall
  deriving DecidableEq, Repr

/-- The integer value of an enumerator of `sys_event_id`. -/
def sys_event_id.toInt : sys_event_id → Int
  | sys_event_id.killIntegration => -1
  | sys_event_id.maxCall => -2

/-- The largest value of `size_t`, `std::numeric_limits<size_t>::max()`. -/
def sizeMax : Nat := 2 ^ 64 - 1

/-- The smallest value of `int`, `std::numeric_limits<int>::min()`. -/
def intMin : Int := -(2 ^ 31)

/-- The member variables of `SystemEventHandler`, together with the class-wide flag
`killIntegration_` and the count that `systemPtr_->getNumFunctionCalls()` reports, a `size_t`
that is kept as the natural number `numFunctionCalls` and read modulo `2^64`. -/
structure SystemEventHandler where
  killIntegration_ : Bool
  maxNumSteps_ : Nat
  eventID_ : Int
  numFunctionCalls : Nat

/-- The default constructor of `SystemEventHandler`, for a given value of the class-wide flag
and a given system. -/
def SystemEventHandler.default (killIntegration_ : Bool) (numFunctionCalls : Nat) :
    SystemEventHandler :=
  ⟨killIntegration_, sizeMax, intMin, numFunctionCalls⟩

/-- The function `SystemEventHandler::setMaxNumSteps`; the argument is a `size_t`. -/
def SystemEventHandler.setMaxNumSteps (h : SystemEventHandler) (maxNumSteps : Nat) :
    SystemEventHandler :=
  { h with maxNumSteps_ := maxNumSteps % 2 ^ 64 }

/-- The static function `SystemEventHandler::ActivateKillIntegration`. -/
def SystemEventHandler.ActivateKillIntegration (h : SystemEventHandler) : SystemEventHandler :=
  { h with killIntegration_ := true }

/-- The static function `SystemEventHandler::DeactivateKillIntegration`. -/
def SystemEventHandler.DeactivateKillIntegration (h : SystemEventHandler) :
    SystemEventHandler :=
  { h with killIntegration_ := false }

/-- The function `SystemEventHandler::checkEvent`: the value returned and the handler after the
call.  The arguments `state` and `time` are not read. -/
def SystemEventHandler.checkEvent (h : SystemEventHandler) : Bool × SystemEventHandler :=
  let terminateFlag := false
  let afterKill : Bool × Int :=
    if h.killIntegration_ = true then (true, sys_event_id.killIntegration.toInt)
    else (terminateFlag, h.eventID_)
  let afterCalls : Bool × Int :=
    if h.numFunctionCalls % 2 ^ 64 > h.maxNumSteps_ then (true, sys_event_id.maxCall.toInt)
    else afterKill
  (afterCalls.1, { h with eventID_ := afterCalls.2 })

/-- The function `SystemEventHandler::handleEvent`; the trajectories are not read. -/
def SystemEventHandler.handleEvent (h : SystemEventHandler) : Int := h.eventID_

/-- What happens to a handler between its construction and a call of `handleEvent`: calls of
its member functions, and steps of the system that change the count of function calls. -/
inductive HandlerAction where
  | setMaxNumSteps (maxNumSteps : Nat)
  | activateKillIntegration
  | deactivateKillIntegration
  | checkEvent
  | systemCalls (numFunctionCalls : Nat)

/-- The handler after one action. -/
def SystemEventHandler.step (h : SystemEventHandler) : HandlerAction → SystemEventHandler
  | HandlerAction.setMaxNumSteps maxNumSteps => h.setMaxNumSteps maxNumSteps
  | HandlerAction.activateKillIntegration => h.ActivateKillIntegration
  | HandlerAction.deactivateKillIntegration => h.DeactivateKillIntegration
  | HandlerAction.checkEvent => h.checkEvent.2
  | HandlerAction.systemCalls numFunctionCalls => { h with numFunctionCalls := numFunctionCalls }

/-- The handler after a sequence of actions. -/
def SystemEventHandler.run (h : SystemEventHandler) (actions : List HandlerAction) :
    SystemEventHandler :=
  actions.foldl SystemEventHandler.step h

/-! ## `LinearSystemDynamics.h` -/

/-- The member variables of `LinearSystemDynamics`: the four matrices, and the members `t_`,
`x_`, `u_` that it inherits from its base class. -/
structure LinearSystemDynamics (n m : Nat) where
  A_ : state_matrix_t n
  B_ : state_input_matrix_t n m
  G_ : state_matrix_t n
  H_ : state_input_matrix_t n m
  t_ : ℚ
  x_ : state_vector_t n
  u_ : input_vector_t m

/-- The function `LinearSystemDynamics::computeFlowMap`; the result is the output `dxdt`. -/
def LinearSystemDynamics.computeFlowMap {n m : Nat} (d : LinearSystemDynamics n m) (_t : ℚ)
    (x : state_vector_t n) (u : input_vector_t m) : state_vector_t n :=
  d.A_.mulVec x + d.B_.mulVec u

/-- The function `LinearSystemDynamics::computeJumpMap`; the result is the output `xp`. -/
def LinearSystemDynamics.computeJumpMap {n m : Nat} (d : LinearSystemDynamics n m) (_t : ℚ)
    (x : state_vector_t n) : state_vector_t n :=
  d.G_.mulVec x

/-- The function `LinearSystemDynamics::setCurrentStateAndControl`, which only calls the
function of the same name of the base class.  The base class is a collaborator:
`baseSetCurrentStateAndControl t x u` gives the new values of the members `(t_, x_, u_)` from
their old values. -/
def LinearSystemDynamics.setCurrentStateAndControl {n m : Nat}
    (baseSetCurrentStateAndControl : ℚ → state_vector_t n → input_vector_t m →
      ℚ × state_vector_t n × input_vector_t m → ℚ × state_vector_t n × input_vector_t m)
    (d : LinearSystemDynamics n m) (t : ℚ) (x : state_vector_t n) (u : input_vector_t m) :
    LinearSystemDynamics n m :=
  let members := baseSetCurrentStateAndControl t x u (d.t_, d.x_, d.u_)
  { d with t_ := members.1, x_ := members.2.1, u_ := members.2.2 }

/-- The function `LinearSystemDynamics::getFlowMap`; the result is the output `f`. -/
def LinearSystemDynamics.getFlowMap {n m : Nat} (d : LinearSystemDynamics n m) :
    state_vector_t n :=
  d.A_.mulVec d.x_ + d.B_.mulVec d.u_

/-- The function `LinearSystemDynamics::getJumpMap`; the result is the output `g`. -/
def LinearSystemDynamics.getJumpMap {n m : Nat} (d : LinearSystemDynamics n m) :
    state_vector_t n :=
  d.G_.mulVec d.x_ + d.H_.mulVec d.u_

/-- A base class that stores the time, the state and the input it is given. -/
def storeStateAndControl {n m : Nat} : ℚ → state_vector_t n → input_vector_t m →
    ℚ × state_vector_t n × input_vector_t m → ℚ × state_vector_t n × input_vector_t m :=
  fun t x u _ => (t, x, u)

/-- The scalar system with `A = B = G = 0` and `H = 1`, before any state is set. -/
def jumpByInput : LinearSystemDynamics 1 1 :=
  ⟨0, 0, 0, 1, 0, 0, 0⟩

/-! ## `ConstraintBase.h` and the constraints of `EXP2.h`

The constraints of `EXP2.h` are instances of `ConstraintBase<2, 2, EXP2_LogicRules>`.  Their
formulas use `sin` and `cos` of the C library, which are parameters of the model, on a field
`K` of scalars. -/

/-- The member variables of `ConstraintBase<2, 2, ...>`. -/
structure ConstraintBase (K : Type) where
  t_ : K
  x_ : Fin 2 → K
  u_ : Fin 2 → K

/-- The function `ConstraintBase::setCurrentStateAndControl`. -/
def ConstraintBase.setCurrentStateAndControl {K : Type} (_c : ConstraintBase K) (t : K)
    (x u : Fin 2 → K) : ConstraintBase K :=
  ⟨t, x, u⟩

/-- The function `EXP2_constraint1::getConstraint1`: the value it assigns to `e(0)`. -/
def EXP2_constraint1.getConstraint1 {K : Type} [Field K] (sin cos : K → K)
    (c : ConstraintBase K) : K :=
  c.u_ 1 * sin (c.x_ 0) - c.u_ 1 * cos (c.x_ 1) + 0.1 * c.u_ 1 - 1

/-- The function `EXP2_constraint1::getConstraint1DerivativesState`: the top row of `C`. -/
def EXP2_constraint1.getConstraint1DerivativesState {K : Type} [Field K] (sin cos : K → K)
    (c : ConstraintBase K) : Fin 2 → K :=
  ![c.u_ 1 * cos (c.x_ 0), c.u_ 1 * sin (c.x_ 1)]

/-- The function `EXP2_constraint1::getConstraint1DerivativesControl`: the top row of `D`. -/
def EXP2_constraint1.getConstraint1DerivativesControl {K : Type} [Field K] (sin cos : K → K)
    (c : ConstraintBase K) : Fin 2 → K :=
  ![0.0, sin (c.x_ 0) - cos (c.x_ 1) + 0.1]

/-- The function `EXP2_constraint2::getConstraint1`: the value it assigns to `e(0)`. -/
def EXP2_constraint2.getConstraint1 {K : Type} [Field K] (sin cos : K → K)
    (c : ConstraintBase K) : K :=
  c.u_ 1 * sin (c.x_ 1) - c.u_ 1 * cos (c.x_ 0) + 0.1 * c.u_ 1 - 1

/-- The function `EXP2_constraint2::getConstraint1DerivativesState`: the top row of `C`. -/
def EXP2_constraint2.getConstraint1DerivativesState {K : Type} [Field K] (sin cos : K → K)
    (c : ConstraintBase K) : Fin 2 → K :=
  ![c.u_ 1 * sin (c.x_ 1), -c.u_ 1 * cos (c.x_ 1)]

/-- The function `EXP2_constraint2::getConstraint1DerivativesControl`: the top row of `D`. -/
def EXP2_constraint2.getConstraint1DerivativesControl {K : Type} [Field K] (sin cos : K → K)
    (c : ConstraintBase K) : Fin 2 → K :=
  ![0.0, sin (c.x_ 1) - cos (c.x_ 0) + 0.1]

/-- The function `EXP2_constraint3::getConstraint1`: the value it assigns to `e(0)`. -/
def EXP2_constraint3.getConstraint1 {K : Type} [Field K] (sin cos : K → K)
    (c : ConstraintBase K) : K :=
  -c.u_ 1 * sin (c.x_ 0) + c.u_ 1 * cos (c.x_ 1) + 0.1 * c.u_ 1 - 1

/-- The function `EXP2_constraint3::getConstraint1DerivativesState`: the top row of `C`. -/
def EXP2_constraint3.getConstraint1DerivativesState {K : Type} [Field K] (sin cos : K → K)
    (c : ConstraintBase K) : Fin 2 → K :=
  ![c.u_ 1 * sin (c.x_ 1), -c.u_ 1 * cos (c.x_ 1)]

/-- The function `EXP2_constraint3::getConstraint1DerivativesControl`: the top row of `D`. -/
def EXP2_constraint3.getConstraint1DerivativesControl {K : Type} [Field K] (sin cos : K → K)
    (c : ConstraintBase K) : Fin 2 → K :=
  ![0.0, sin (c.x_ 1) - cos (c.x_ 0) + 0.1]

/-- The row `row` is the partial derivative with respect to the state, at `(x, u)`, of the
constraint value `value`: for each coordinate `j` of the state, `row j` is the derivative of
the value in that coordinate. -/
def IsStateDerivative (value : ConstraintBase ℝ → ℝ) (row : Fin 2 → ℝ) (t : ℝ)
    (x u : Fin 2 → ℝ) : Prop :=
  ∀ j : Fin 2, HasDerivAt (fun s => value ⟨t, Function.update x j s, u⟩) (row j) (x j)

/-- The row `row` is the partial derivative with respect to the input, at `(x, u)`, of the
constraint value `value`. -/
def IsControlDerivative (value : ConstraintBase ℝ → ℝ) (row : Fin 2 → ℝ) (t : ℝ)
    (x u : Fin 2 → ℝ) : Prop :=
  ∀ j : Fin 2, HasDerivAt (fun s => value ⟨t, x, Function.update u j s⟩) (row j) (u j)

/-- State sensitivities `0, 0, 0, 0` for the first partition of `oneEventTrajectories`. -/
def stateSensitivity0000 : List (List (state_vector_t 1)) :=
  [[fun _ => 0, fun _ => 0, fun _ => 0, fun _ => 0], []]

/-- The terminal sensitivities on the partition `i`: the output arrays `nablaqFinal[i]` and
`nablaQvFinal[i]` have one entry for each event of the partition, and the entry of the event
`e`, whose past-the-end index is `E[e]`, is `QvFinal[i][e].nabla_x[i][E[e]-1]` and
`QmFinal[i][e]*nabla_x[i][E[e]-1]`. -/
def TerminalRule {n m : Nat} (data : SLQ_Trajectories n m)
    (xStock : List (List (state_vector_t n))) (out : NominalLQPSensitivity n m) (i : Nat) :
    Prop :=
  ∃ (nablaqFinal : List ℚ) (nablaQvFinal : List (state_vector_t n)),
    out.nablaqFinalStock[i]? = some nablaqFinal ∧
    out.nablaQvFinalStock[i]? = some nablaQvFinal ∧
    nablaqFinal.length = (stockAt data.nominalEventsPastTheEndIndecesStock_ i).length ∧
    nablaQvFinal.length = (stockAt data.nominalEventsPastTheEndIndecesStock_ i).length ∧
    ∀ e : Nat, e < (stockAt data.nominalEventsPastTheEndIndecesStock_ i).length →
      nablaqFinal[e]? = some
        (Matrix.dotProduct ((stockAt data.QvFinalStock_ i).getD e 0)
          ((stockAt xStock i).getD
            ((stockAt data.nominalEventsPastTheEndIndecesStock_ i).getD e 0 - 1) 0)) ∧
      nablaQvFinal[e]? = some
        (Matrix.mulVec ((stockAt data.QmFinalStock_ i).getD e 0)
          ((stockAt xStock i).getD
            ((stockAt data.nominalEventsPastTheEndIndecesStock_ i).getD e 0 - 1) 0))

/-! ### `calculateLQSensitivityControllerForward` -/

/-- The interpolation objects `BmFuncStock_`, `RmInverseFuncStock_` and `nablaRvFuncStock_` of
one worker: each field gives, for a time-stamp array and a data array, the object after
`reset()`, `setTimeStamp` and `setData`.  The interpolation class is a collaborator of the
solver and a parameter of the model. -/
structure ControllerInterpolation (n m : Nat) where
  BmFunc : List ℚ → List (state_input_matrix_t n m) →
    LinearInterpolation (state_input_matrix_t n m)
  RmInverseFunc : List ℚ → List (input_matrix_t m) → LinearInterpolation (input_matrix_t m)
  nablaRvFunc : List ℚ → List (input_vector_t m) → LinearInterpolation (input_vector_t m)

/-- The loop `for (size_t k=0; k<N; k++)` of `calculateLQSensitivityControllerForward` on one
partition; `times` is `timeTrajectoriesStock[i]`, `nablaSv` is `nablaSvTrajectoriesStock[i]`,
whose size is `N`, and `nablaLv` is `nablaLvTrajectoriesStock[i]`, resized to `N` before the
loop. -/
def lqControllerSampleLoop {n m : Nat} (BmFunc : LinearInterpolation (state_input_matrix_t n m))
    (RmInverseFunc : LinearInterpolation (input_matrix_t m))
    (nablaRvFunc : LinearInterpolation (input_vector_t m)) (times : List ℚ)
    (nablaSv : List (state_vector_t n)) (k : Nat) (nablaLv : List (input_vector_t m)) :
    Except Error Unit × List (input_vector_t m) :=
  if k < nablaSv.length then
    match times[k]?, nablaSv[k]? with
    | some t, some nablaSvk =>
      let Bm := BmFunc.interpolate t none
      let greatestLessTimeStampIndex := Bm.2
      let RmInverse := (RmInverseFunc.interpolate t (some greatestLessTimeStampIndex)).1
      let nablaRv := (nablaRvFunc.interpolate t (some greatestLessTimeStampIndex)).1
      lqControllerSampleLoop BmFunc RmInverseFunc nablaRvFunc times nablaSv (k + 1)
        (nablaLv.set k
          (Matrix.mulVec (-RmInverse) (nablaRv + Matrix.mulVec (Matrix.transpose Bm.1) nablaSvk)))
    | _, _ => (Except.error Error.out_of_range, nablaLv)
  else (Except.ok (), nablaLv)
termination_by nablaSv.length - k

/-- The loop `for (size_t i=0; i<numSubsystems_; i++)` of
`calculateLQSensitivityControllerForward`; `BmTrajectoriesStock_` and
`RmInverseTrajectoriesStock_` are stocks of the data collector and
`nablaRvTrajectoriesStockSet_` is a member variable of the solver. -/
def lqControllerPartitionLoop {n m : Nat} (interp : ControllerInterpolation n m) (s : GSLQ)
    (data : SLQ_Trajectories n m)
    (BmTrajectoriesStock_ : List (List (state_input_matrix_t n m)))
    (RmInverseTrajectoriesStock_ : List (List (input_matrix_t m)))
    (nablaRvTrajectoriesStockSet_ : List (List (List (input_vector_t m))))
    (freshInput : input_vector_t m) (eventTimeIndex : Nat)
    (timeTrajectoriesStock : List (List ℚ))
    (nablaSvTrajectoriesStock : List (List (state_vector_t n)))
    (i : Nat) (nablaLvTrajectoriesStock : List (List (input_vector_t m))) :
    Outcome (List (List (input_vector_t m))) :=
  if i < s.numSubsystems_ then
    -- skip inactive partitions
    if i < s.dc.initActivePartition_ ∨ i > s.dc.finalActivePartition_ then
      if i < nablaLvTrajectoriesStock.length then
        lqControllerPartitionLoop interp s data BmTrajectoriesStock_
          RmInverseTrajectoriesStock_ nablaRvTrajectoriesStockSet_ freshInput eventTimeIndex
          timeTrajectoriesStock nablaSvTrajectoriesStock (i + 1)
          (nablaLvTrajectoriesStock.set i [])
      else ⟨Except.error Error.out_of_range, nablaLvTrajectoriesStock⟩
    else
      -- set data
      match data.nominalTimeTrajectoriesStock_[i]?, BmTrajectoriesStock_[i]?,
        RmInverseTrajectoriesStock_[i]?,
        (stockAt nablaRvTrajectoriesStockSet_ eventTimeIndex)[i]?,
        nablaSvTrajectoriesStock[i]?, nablaLvTrajectoriesStock[i]? with
      | some nominalTimes, some Bm, some RmInverse, some nablaRv, some nablaSv, some nablaLv =>
        -- resizing
        let r := lqControllerSampleLoop (interp.BmFunc nominalTimes Bm)
          (interp.RmInverseFunc nominalTimes RmInverse) (interp.nablaRvFunc nominalTimes nablaRv)
          (stockAt timeTrajectoriesStock i) nablaSv 0
          (resizeWith freshInput nablaLv nablaSv.length)
        match r.1 with
        | Except.error e => ⟨Except.error e, nablaLvTrajectoriesStock.set i r.2⟩
        | Except.ok () =>
          lqControllerPartitionLoop interp s data BmTrajectoriesStock_
            RmInverseTrajectoriesStock_ nablaRvTrajectoriesStockSet_ freshInput eventTimeIndex
            timeTrajectoriesStock nablaSvTrajectoriesStock (i + 1)
            (nablaLvTrajectoriesStock.set i r.2)
      | _, _, _, _, _, _ => ⟨Except.error Error.out_of_range, nablaLvTrajectoriesStock⟩
  else ⟨Except.ok (), nablaLvTrajectoriesStock⟩
termination_by s.numSubsystems_ - i

/-- The statements of `calculateLQSensitivityControllerForward` after the active-range guard;
`freshInput` is the value of the elements that the inner `resize` creates. -/
def calculateLQSensitivityControllerForwardBody {n m : Nat}
    (interp : ControllerInterpolation n m) (s : GSLQ) (data : SLQ_Trajectories n m)
    (BmTrajectoriesStock_ : List (List (state_input_matrix_t n m)))
    (RmInverseTrajectoriesStock_ : List (List (input_matrix_t m)))
    (nablaRvTrajectoriesStockSet_ : List (List (List (input_vector_t m))))
    (freshInput : input_vector_t m) (eventTimeIndex : Nat)
    (timeTrajectoriesStock : List (List ℚ))
    (nablaSvTrajectoriesStock : List (List (state_vector_t n))) :
    List (List (input_vector_t m)) → Outcome (List (List (input_vector_t m))) :=
  fun nablaLvTrajectoriesStock =>
    -- resizing
    lqControllerPartitionLoop interp s data BmTrajectoriesStock_ RmInverseTrajectoriesStock_
      nablaRvTrajectoriesStockSet_ freshInput eventTimeIndex timeTrajectoriesStock
      nablaSvTrajectoriesStock 0 (resize nablaLvTrajectoriesStock s.numPartitions_)

/-- Interpolation objects for the controller that give the first sample of the data at every
time (`0` for empty data), used to instantiate statements. -/
def firstSampleControllerInterpolation (n m : Nat) : ControllerInterpolation n m :=
  ⟨fun _ data => constantInterpolation (data.getD 0 0),
    fun _ data => constantInterpolation (data.getD 0 0),
    fun _ data => constantInterpolation (data.getD 0 0)⟩

/-- Trajectories of a scalar system with an entry for each of four partitions, each with one
time stamp and no event. -/
def fourEntries : SLQ_Trajectories 1 1 where
  partitioningTimes_ := [0, 5, 6, 7, 8]
  nominalTimeTrajectoriesStock_ := [[0], [0], [0], [0]]
  nominalEventsPastTheEndIndecesStock_ := [[], [], [], []]
  nominalStateTrajectoriesStock_ := [[0], [0], [0], [0]]
  qTrajectoriesStock_ := [[0], [0], [0], [0]]
  QvTrajectoriesStock_ := [[0], [0], [0], [0]]
  QmTrajectoriesStock_ := [[0], [0], [0], [0]]
  RvTrajectoriesStock_ := [[0], [0], [0], [0]]
  RmTrajectoriesStock_ := [[1], [1], [1], [1]]
  PmTrajectoriesStock_ := [[0], [0], [0], [0]]
  QvFinalStock_ := [[], [], [], []]
  QmFinalStock_ := [[], [], [], []]
  SvHeuristics_ := 0
  SsTimeTrajectoriesStock_ := [[0], [0], [0], [0]]
  SsNormalizedTimeTrajectoriesStock_ := [[0], [0], [0], [0]]
  SsNormalizedEventsPastTheEndIndecesStock_ := [[], [], [], []]

/-- The stocks `BmTrajectoriesStock_` and `RmInverseTrajectoriesStock_` of a scalar system
with `B = 1` and `R⁻¹ = 1` at one sample of each of four partitions. -/
def unitStock : List (List (Matrix (Fin 1) (Fin 1) ℚ)) := [[1], [1], [1], [1]]

/-- A stock of scalar vectors with one sample, `value`, for each of four partitions. -/
def constantStock (value : ℚ) : List (List (Fin 1 → ℚ)) :=
  [[fun _ => value], [fun _ => value], [fun _ => value], [fun _ => value]]

/-! ### `runLQBasedMethod` and `runSweepingBVPMethod` -/

/-- The member variables of `GSLQ_BASE` that `runLQBasedMethod` and `runSweepingBVPMethod`
resize and fill: one entry for each event time.  The field `workers` stands for the rest of the
state of the object that the called member functions change (the worker instances, and the
costate and multiplier stocks written by `computeMissingSlqData`). -/
structure SensitivitySets (W : Type) (n m : Nat) where
  workers : W
  nablaLvTrajectoriesStockSet_ : List (List (List (input_vector_t m)))
  sensitivityStateTrajectoriesStockSet_ : List (List (List (state_vector_t n)))
  sensitivityInputTrajectoriesStockSet_ : List (List (List (input_vector_t m)))
  nablaqTrajectoriesStockSet_ : List (List (List ℚ))
  nablaQvTrajectoriesStockSet_ : List (List (List (state_vector_t n)))
  nablaRvTrajectoriesStockSet_ : List (List (List (input_vector_t m)))
  nablaqFinalStockSet_ : List (List (List ℚ))
  nablaQvFinalStockSet_ : List (List (List (state_vector_t n)))
  nablasHeuristics_ : List ℚ
  nablaSvHeuristics_ : List (state_vector_t n)
  nablasTrajectoriesStockSet_ : List (List (List ℚ))
  nablaSvTrajectoriesStockSet_ : List (List (List (state_vector_t n)))
  nablaSmTrajectoriesStockSet_ : List (List (List (state_matrix_t n)))
  MvTrajectoriesStockSet_ : List (List (List (state_vector_t n)))
  MveTrajectoriesStockSet_ : List (List (List (state_vector_t n)))
  LvTrajectoriesStockSet_ : List (List (List (input_vector_t m)))
  nominalCostFuntionDerivative_ : List ℚ

/-- The member functions that the two methods call.  Each one receives the current state of the
object (`solver`), then the arguments of the call that are not members of the data collector,
in the order of the source, the output arguments last with their current content.  It returns
the new value of `workers` and of its output arguments, or the exception it throws. -/
structure SensitivityCalls (W : Type) (n m : Nat) where
  propagateRolloutSensitivity : SensitivitySets W n m → Nat → Nat →
    List (List (input_vector_t m)) → RolloutOut (state_vector_t n) (input_vector_t m) →
    Except Error (W × RolloutOut (state_vector_t n) (input_vector_t m))
  approximateNominalLQPSensitivity2SwitchingTime : SensitivitySets W n m →
    List (List (state_vector_t n)) → List (List (input_vector_t m)) →
    NominalLQPSensitivity n m → Except Error (W × NominalLQPSensitivity n m)
  approximateNominalHeuristicsSensitivity2SwitchingTime : SensitivitySets W n m →
    state_vector_t n → ℚ × state_vector_t n → Except Error (W × (ℚ × state_vector_t n))
  solveSensitivityRiccatiEquations : SensitivitySets W n m → Nat → Nat → ℚ → ℚ →
    state_vector_t n → state_matrix_t n → RiccatiOut n → Except Error (W × RiccatiOut n)
  calculateLQSensitivityControllerForward : SensitivitySets W n m → Nat → Nat →
    List (List (state_vector_t n)) → List (List (input_vector_t m)) →
    Except Error (W × List (List (input_vector_t m)))
  getValueFuntionDerivative : SensitivitySets W n m → Nat → ℚ → Except Error (W × ℚ)
  computeMissingSlqData : SensitivitySets W n m → Except Error W
  solveSensitivityBVP : SensitivitySets W n m → Nat → Nat → state_vector_t n →
    state_vector_t n → List (List (state_vector_t n)) × List (List (state_vector_t n)) →
    Except Error (W × (List (List (state_vector_t n)) × List (List (state_vector_t n))))
  calculateBVPSensitivityControllerForward : SensitivitySets W n m → Nat → Nat →
    List (List (state_vector_t n)) → List (List (state_vector_t n)) →
    List (List (input_vector_t m)) → Except Error (W × List (List (input_vector_t m)))
  calculateCostDerivative : SensitivitySets W n m → Nat → Nat →
    List (List (state_vector_t n)) → List (List (input_vector_t m)) → ℚ →
    Except Error (W × ℚ)

/-- The call `v.resize(N)` on a dynamic Eigen vector: nothing happens when the size is already
`N`; otherwise the storage is allocated anew and `fresh k` is the value that the coefficient
`k` happens to hold. -/
def resizeDynamic (fresh : Nat → ℚ) (v : List ℚ) (N : Nat) : List ℚ :=
  if v.length = N then v else (List.range N).map fresh

/-- The loop `for (size_t i=dcPtr_->initActivePartition_; i<=dcPtr_->finalActivePartition_;
i++)` of the first iteration of `runLQBasedMethod`, on
`nablaLvTrajectoriesStockSet_[index]`; `controllerTimes[i]` is
`dcPtr_->optimizedControllersStock_[i].time_`. -/
def zeroNablaLvLoop {m : Nat} (s : GSLQ) (controllerTimes : List (List ℚ)) (i : Nat)
    (nablaLv : List (List (input_vector_t m))) : Except Error (List (List (input_vector_t m))) :=
  if i ≤ s.dc.finalActivePartition_ then
    match controllerTimes[i]? with
    | none => Except.error Error.out_of_range
    | some time_ =>
      if i < nablaLv.length then
        zeroNablaLvLoop s controllerTimes (i + 1)
          (nablaLv.set i (List.replicate time_.length (0 : input_vector_t m)))
      else Except.error Error.out_of_range
  else Except.ok nablaLv
termination_by s.dc.finalActivePartition_ + 1 - i

/-- The statement `if (iteration == 1) { ... }` at the head of the active branch of
`runLQBasedMethod`: for the first iteration set Lv to zero. -/
def zeroNablaLv {W : Type} {n m : Nat} (s : GSLQ) (controllerTimes : List (List ℚ))
    (iteration index : Nat) (st : SensitivitySets W n m) :
    Except Error (SensitivitySets W n m) :=
  if iteration = 1 then
    match zeroNablaLvLoop s controllerTimes s.dc.initActivePartition_
        (resize (stockAt st.nablaLvTrajectoriesStockSet_ index) s.numPartitions_) with
    | Except.error e => Except.error e
    | Except.ok nablaLv =>
      Except.ok { st with
        nablaLvTrajectoriesStockSet_ := st.nablaLvTrajectoriesStockSet_.set index nablaLv }
  else Except.ok st

/-- The calls of the active branch of `runLQBasedMethod` that follow the initialisation of Lv.
The accesses `[index]` to the sets are inside the bounds, since `index < numEventTimes_` and
the sets have been resized to `numEventTimes_`; the access
`sensitivityStateTrajectoriesStockSet_[index][dcPtr_->finalActivePartition_].back()` is
checked. -/
def lqPipeline {W : Type} {n m : Nat} (calls : SensitivityCalls W n m) (s : GSLQ)
    (index : Nat) (st : SensitivitySets W n m) : Except Error (SensitivitySets W n m) :=
  let workerIndex := 0
  -- calculate rollout sensitivity to event times
  match calls.propagateRolloutSensitivity st workerIndex index
      (stockAt st.nablaLvTrajectoriesStockSet_ index)
      ⟨stockAt st.sensitivityStateTrajectoriesStockSet_ index,
        stockAt st.sensitivityInputTrajectoriesStockSet_ index⟩ with
  | Except.error e => Except.error e
  | Except.ok (w, rollout) =>
  let st := { st with
    workers := w
    sensitivityStateTrajectoriesStockSet_ :=
      st.sensitivityStateTrajectoriesStockSet_.set index
        rollout.sensitivityStateTrajectoriesStock
    sensitivityInputTrajectoriesStockSet_ :=
      st.sensitivityInputTrajectoriesStockSet_.set index
        rollout.sensitivityInputTrajectoriesStock }
  -- approximate the nominal LQ sensitivity to switching times
  match calls.approximateNominalLQPSensitivity2SwitchingTime st
      (stockAt st.sensitivityStateTrajectoriesStockSet_ index)
      (stockAt st.sensitivityInputTrajectoriesStockSet_ index)
      ⟨stockAt st.nablaqTrajectoriesStockSet_ index,
        stockAt st.nablaQvTrajectoriesStockSet_ index,
        stockAt st.nablaRvTrajectoriesStockSet_ index,
        stockAt st.nablaqFinalStockSet_ index,
        stockAt st.nablaQvFinalStockSet_ index⟩ with
  | Except.error e => Except.error e
  | Except.ok (w, lqp) =>
  let st := { st with
    workers := w
    nablaqTrajectoriesStockSet_ :=
      st.nablaqTrajectoriesStockSet_.set index lqp.nablaqTrajectoriesStock
    nablaQvTrajectoriesStockSet_ :=
      st.nablaQvTrajectoriesStockSet_.set index lqp.nablaQvTrajectoriesStock
    nablaRvTrajectoriesStockSet_ :=
      st.nablaRvTrajectoriesStockSet_.set index lqp.nablaRvTrajectoriesStock
    nablaqFinalStockSet_ := st.nablaqFinalStockSet_.set index lqp.nablaqFinalStock
    nablaQvFinalStockSet_ := st.nablaQvFinalStockSet_.set index lqp.nablaQvFinalStock }
  -- approximate Heuristics
  match (stockAt (stockAt st.sensitivityStateTrajectoriesStockSet_ index)
      s.dc.finalActivePartition_).getLast? with
  | none => Except.error Error.out_of_range
  | some sensitivityFinalState =>
  match calls.approximateNominalHeuristicsSensitivity2SwitchingTime st sensitivityFinalState
      (st.nablasHeuristics_.getD index 0, st.nablaSvHeuristics_.getD index 0) with
  | Except.error e => Except.error e
  | Except.ok (w, heuristics) =>
  let st := { st with
    workers := w
    nablasHeuristics_ := st.nablasHeuristics_.set index heuristics.1
    nablaSvHeuristics_ := st.nablaSvHeuristics_.set index heuristics.2 }
  -- solve Riccati equations
  -- prevents the changes in the nominal trajectories and just update the gains
  let learningRateStar : ℚ := 0.0
  match calls.solveSensitivityRiccatiEquations st workerIndex index learningRateStar
      (st.nablasHeuristics_.getD index 0) (st.nablaSvHeuristics_.getD index 0) 0
      ⟨stockAt st.nablasTrajectoriesStockSet_ index,
        stockAt st.nablaSvTrajectoriesStockSet_ index,
        stockAt st.nablaSmTrajectoriesStockSet_ index⟩ with
  | Except.error e => Except.error e
  | Except.ok (w, riccati) =>
  let st := { st with
    workers := w
    nablasTrajectoriesStockSet_ :=
      st.nablasTrajectoriesStockSet_.set index riccati.nablasTrajectoriesStock
    nablaSvTrajectoriesStockSet_ :=
      st.nablaSvTrajectoriesStockSet_.set index riccati.nablaSvTrajectoriesStock
    nablaSmTrajectoriesStockSet_ :=
      st.nablaSmTrajectoriesStockSet_.set index riccati.nablaSmTrajectoriesStock }
  -- calculate sensitivity controller feedforward part
  match calls.calculateLQSensitivityControllerForward st workerIndex index
      (stockAt st.nablaSvTrajectoriesStockSet_ index)
      (stockAt st.nablaLvTrajectoriesStockSet_ index) with
  | Except.error e => Except.error e
  | Except.ok (w, nablaLv) =>
  let st := { st with
    workers := w
    nablaLvTrajectoriesStockSet_ := st.nablaLvTrajectoriesStockSet_.set index nablaLv }
  -- calculate the value function derivatives w.r.t. switchingTimes
  match calls.getValueFuntionDerivative st index
      (st.nominalCostFuntionDerivative_.getD index 0) with
  | Except.error e => Except.error e
  | Except.ok (w, valueFunctionDerivative) =>
  Except.ok { st with
    workers := w
    nominalCostFuntionDerivative_ :=
      st.nominalCostFuntionDerivative_.set index valueFunctionDerivative }

/-- The branch `else if (iteration == 1)` of `runLQBasedMethod`, taken for an inactive event
time. -/
def lqInactiveEvent {W : Type} {n m : Nat} (iteration index : Nat)
    (st : SensitivitySets W n m) : SensitivitySets W n m :=
  if iteration = 1 then
    { st with
      nablaLvTrajectoriesStockSet_ := st.nablaLvTrajectoriesStockSet_.set index []
      sensitivityStateTrajectoriesStockSet_ :=
        st.sensitivityStateTrajectoriesStockSet_.set index []
      sensitivityInputTrajectoriesStockSet_ :=
        st.sensitivityInputTrajectoriesStockSet_.set index []
      nablaqTrajectoriesStockSet_ := st.nablaqTrajectoriesStockSet_.set index []
      nablaQvTrajectoriesStockSet_ := st.nablaQvTrajectoriesStockSet_.set index []
      nablaRvTrajectoriesStockSet_ := st.nablaRvTrajectoriesStockSet_.set index []
      nablaqFinalStockSet_ := st.nablaqFinalStockSet_.set index []
      nablaQvFinalStockSet_ := st.nablaQvFinalStockSet_.set index []
      nablasTrajectoriesStockSet_ := st.nablasTrajectoriesStockSet_.set index []
      nablaSvTrajectoriesStockSet_ := st.nablaSvTrajectoriesStockSet_.set index []
      nablaSmTrajectoriesStockSet_ := st.nablaSmTrajectoriesStockSet_.set index []
      nominalCostFuntionDerivative_ := st.nominalCostFuntionDerivative_.set index 0.0 }
  else st

/-- The body of the loop over `index` of `runLQBasedMethod`. -/
def lqEvent {W : Type} {n m : Nat} (calls : SensitivityCalls W n m) (s : GSLQ)
    (controllerTimes : List (List ℚ)) (iteration index : Nat) (st : SensitivitySets W n m) :
    Except Error (SensitivitySets W n m) :=
  if s.activeEventTimeBeginIndex_ ≤ index ∧ index < s.activeEventTimeEndIndex_ then
    match zeroNablaLv s controllerTimes iteration index st with
    | Except.error e => Except.error e
    | Except.ok st => lqPipeline calls s index st
  else Except.ok (lqInactiveEvent iteration index st)

/-- The loop `for (size_t index=0; index<numEventTimes_; index++)` of both methods, with the
loop body `body`; the argument `index` is the current value of the loop variable. -/
def eventLoop {σ : Type} (s : GSLQ) (body : Nat → σ → Except Error σ) (index : Nat) (st : σ) :
    Except Error σ :=
  if index < s.numEventTimes_ then
    match body index st with
    | Except.error e => Except.error e
    | Except.ok st => eventLoop s body (index + 1) st
  else Except.ok st
termination_by s.numEventTimes_ - index

/-- The loop `while (iteration++ < maxNumIteration)` of `runLQBasedMethod`; the argument
`iteration` is the value of the variable before the condition is evaluated. -/
def lqIterationLoop {W : Type} {n m : Nat} (calls : SensitivityCalls W n m) (s : GSLQ)
    (controllerTimes : List (List ℚ)) (maxNumIteration iteration : Nat)
    (st : SensitivitySets W n m) : Except Error (SensitivitySets W n m) :=
  if iteration < maxNumIteration then
    -- for each active event time
    match eventLoop s (lqEvent calls s controllerTimes (iteration + 1)) 0 st with
    | Except.error e => Except.error e
    | Except.ok st => lqIterationLoop calls s controllerTimes maxNumIteration (iteration + 1) st
  else Except.ok st
termination_by maxNumIteration - iteration

/-- The function `GSLQ_BASE::runLQBasedMethod`.  The values `fresh`, `freshScalar` and
`freshState` are those held by the coefficients that a `resize` leaves uninitialised. -/
def runLQBasedMethod {W : Type} {n m : Nat} (calls : SensitivityCalls W n m)
    (controllerTimes : List (List ℚ)) (fresh : Nat → ℚ) (freshScalar : ℚ)
    (freshState : state_vector_t n) (s : GSLQ) (st : SensitivitySets W n m) :
    Except Error (SensitivitySets W n m) :=
  let maxNumIteration := 3
  -- resizing
  let st := { st with
    nablaLvTrajectoriesStockSet_ := resize st.nablaLvTrajectoriesStockSet_ s.numEventTimes_
    sensitivityStateTrajectoriesStockSet_ :=
      resize st.sensitivityStateTrajectoriesStockSet_ s.numEventTimes_
    sensitivityInputTrajectoriesStockSet_ :=
      resize st.sensitivityInputTrajectoriesStockSet_ s.numEventTimes_
    nablaqTrajectoriesStockSet_ := resize st.nablaqTrajectoriesStockSet_ s.numEventTimes_
    nablaQvTrajectoriesStockSet_ := resize st.nablaQvTrajectoriesStockSet_ s.numEventTimes_
    nablaRvTrajectoriesStockSet_ := resize st.nablaRvTrajectoriesStockSet_ s.numEventTimes_
    nablaqFinalStockSet_ := resize st.nablaqFinalStockSet_ s.numEventTimes_
    nablaQvFinalStockSet_ := resize st.nablaQvFinalStockSet_ s.numEventTimes_
    nablasHeuristics_ := resizeWith freshScalar st.nablasHeuristics_ s.numEventTimes_
    nablaSvHeuristics_ := resizeWith freshState st.nablaSvHeuristics_ s.numEventTimes_
    nablasTrajectoriesStockSet_ := resize st.nablasTrajectoriesStockSet_ s.numEventTimes_
    nablaSvTrajectoriesStockSet_ := resize st.nablaSvTrajectoriesStockSet_ s.numEventTimes_
    nablaSmTrajectoriesStockSet_ := resize st.nablaSmTrajectoriesStockSet_ s.numEventTimes_
    nominalCostFuntionDerivative_ :=
      resizeDynamic fresh st.nominalCostFuntionDerivative_ s.numEventTimes_ }
  lqIterationLoop calls s controllerTimes maxNumIteration 0 st

/-- The calls of the active branch of `runSweepingBVPMethod`. -/
def bvpPipeline {W : Type} {n m : Nat} (calls : SensitivityCalls W n m)
    (index : Nat) (st : SensitivitySets W n m) : Except Error (SensitivitySets W n m) :=
  let workerIndex := 0
  -- solve BVP to compute Mv and Mve
  match calls.solveSensitivityBVP st workerIndex index 0 0
      (stockAt st.MvTrajectoriesStockSet_ index, stockAt st.MveTrajectoriesStockSet_ index) with
  | Except.error e => Except.error e
  | Except.ok (w, bvp) =>
  let st := { st with
    workers := w
    MvTrajectoriesStockSet_ := st.MvTrajectoriesStockSet_.set index bvp.1
    MveTrajectoriesStockSet_ := st.MveTrajectoriesStockSet_.set index bvp.2 }
  -- calculates sensitivity controller feedforward part, Lv
  match calls.calculateBVPSensitivityControllerForward st workerIndex index
      (stockAt st.MvTrajectoriesStockSet_ index) (stockAt st.MveTrajectoriesStockSet_ index)
      (stockAt st.LvTrajectoriesStockSet_ index) with
  | Except.error e => Except.error e
  | Except.ok (w, Lv) =>
  let st := { st with
    workers := w
    LvTrajectoriesStockSet_ := st.LvTrajectoriesStockSet_.set index Lv }
  -- calculate rollout sensitivity to event times
  match calls.propagateRolloutSensitivity st workerIndex index
      (stockAt st.LvTrajectoriesStockSet_ index)
      ⟨stockAt st.sensitivityStateTrajectoriesStockSet_ index,
        stockAt st.sensitivityInputTrajectoriesStockSet_ index⟩ with
  | Except.error e => Except.error e
  | Except.ok (w, rollout) =>
  let st := { st with
    workers := w
    sensitivityStateTrajectoriesStockSet_ :=
      st.sensitivityStateTrajectoriesStockSet_.set index
        rollout.sensitivityStateTrajectoriesStock
    sensitivityInputTrajectoriesStockSet_ :=
      st.sensitivityInputTrajectoriesStockSet_.set index
        rollout.sensitivityInputTrajectoriesStock }
  -- calculate the cost function derivatives w.r.t. switchingTimes
  match calls.calculateCostDerivative st workerIndex index
      (stockAt st.sensitivityStateTrajectoriesStockSet_ index)
      (stockAt st.sensitivityInputTrajectoriesStockSet_ index)
      (st.nominalCostFuntionDerivative_.getD index 0) with
  | Except.error e => Except.error e
  | Except.ok (w, costDerivative) =>
  Except.ok { st with
    workers := w
    nominalCostFuntionDerivative_ :=
      st.nominalCostFuntionDerivative_.set index costDerivative }

/-- The `else` branch of `runSweepingBVPMethod`, taken for an inactive event time. -/
def bvpInactiveEvent {W : Type} {n m : Nat} (index : Nat) (st : SensitivitySets W n m) :
    SensitivitySets W n m :=
  { st with
    MvTrajectoriesStockSet_ := st.MvTrajectoriesStockSet_.set index []
    MveTrajectoriesStockSet_ := st.MveTrajectoriesStockSet_.set index []
    LvTrajectoriesStockSet_ := st.LvTrajectoriesStockSet_.set index []
    sensitivityStateTrajectoriesStockSet_ :=
      st.sensitivityStateTrajectoriesStockSet_.set index []
    sensitivityInputTrajectoriesStockSet_ :=
      st.sensitivityInputTrajectoriesStockSet_.set index []
    nominalCostFuntionDerivative_ := st.nominalCostFuntionDerivative_.set index 0.0 }

/-- The body of the loop over `index` of `runSweepingBVPMethod`. -/
def bvpEvent {W : Type} {n m : Nat} (calls : SensitivityCalls W n m) (s : GSLQ)
    (index : Nat) (st : SensitivitySets W n m) : Except Error (SensitivitySets W n m) :=
  if s.activeEventTimeBeginIndex_ ≤ index ∧ index < s.activeEventTimeEndIndex_ then
    bvpPipeline calls index st
  else Except.ok (bvpInactiveEvent index st)

/-- The function `GSLQ_BASE::runSweepingBVPMethod`. -/
def runSweepingBVPMethod {W : Type} {n m : Nat} (calls : SensitivityCalls W n m)
    (fresh : Nat → ℚ) (s : GSLQ) (st : SensitivitySets W n m) :
    Except Error (SensitivitySets W n m) :=
  -- compute missing data from SLQ run
  match calls.computeMissingSlqData st with
  | Except.error e => Except.error e
  | Except.ok w =>
  let st := { st with workers := w }
  -- resizing
  let st := { st with
    MvTrajectoriesStockSet_ := resize st.MvTrajectoriesStockSet_ s.numEventTimes_
    MveTrajectoriesStockSet_ := resize st.MveTrajectoriesStockSet_ s.numEventTimes_
    LvTrajectoriesStockSet_ := resize st.LvTrajectoriesStockSet_ s.numEventTimes_
    sensitivityStateTrajectoriesStockSet_ :=
      resize st.sensitivityStateTrajectoriesStockSet_ s.numEventTimes_
    sensitivityInputTrajectoriesStockSet_ :=
      resize st.sensitivityInputTrajectoriesStockSet_ s.numEventTimes_
    nominalCostFuntionDerivative_ :=
      resizeDynamic fresh st.nominalCostFuntionDerivative_ s.numEventTimes_ }
  -- for each active event time
  eventLoop s (bvpEvent calls s) 0 st

/-- The sets of the solver state `st'` agree with those of `st` outside the entry `index`, as
far as the cost derivative and the state and input sensitivities are concerned, and have the
same sizes. -/
def SameOutside {W : Type} {n m : Nat} (index : Nat) (st st' : SensitivitySets W n m) : Prop :=
  st'.nominalCostFuntionDerivative_.length = st.nominalCostFuntionDerivative_.length ∧
  st'.sensitivityStateTrajectoriesStockSet_.length
    = st.sensitivityStateTrajectoriesStockSet_.length ∧
  st'.sensitivityInputTrajectoriesStockSet_.length
    = st.sensitivityInputTrajectoriesStockSet_.length ∧
  ∀ j, j ≠ index →
    st'.nominalCostFuntionDerivative_[j]? = st.nominalCostFuntionDerivative_[j]? ∧
    st'.sensitivityStateTrajectoriesStockSet_[j]?
      = st.sensitivityStateTrajectoriesStockSet_[j]? ∧
    st'.sensitivityInputTrajectoriesStockSet_[j]?
      = st.sensitivityInputTrajectoriesStockSet_[j]?

/-- The entry `index` of the cost derivative is zero and the state and input sensitivity stocks
of `index` are empty. -/
def Cleared {W : Type} {n m : Nat} (index : Nat) (st : SensitivitySets W n m) : Prop :=
  st.nominalCostFuntionDerivative_[index]? = some 0 ∧
  st.sensitivityStateTrajectoriesStockSet_[index]? = some [] ∧
  st.sensitivityInputTrajectoriesStockSet_[index]? = some []

/-- The three sets that hold the cost derivative and the state and input sensitivities have
`N` entries. -/
def SizedTo {W : Type} {n m : Nat} (N : Nat) (st : SensitivitySets W n m) : Prop :=
  st.nominalCostFuntionDerivative_.length = N ∧
  st.sensitivityStateTrajectoriesStockSet_.length = N ∧
  st.sensitivityInputTrajectoriesStockSet_.length = N

/-- A record of one call of a member function by `runLQBasedMethod` or
`runSweepingBVPMethod`, with the event index it was called for; the record of
`propagateRolloutSensitivity` also holds the feedforward stock `LvTrajectoriesStock` that the
call received. -/
inductive SensitivityCall (m : Nat) where
  | propagateRolloutSensitivity (eventTimeIndex : Nat)
      (LvTrajectoriesStock : List (List (input_vector_t m)))
  | approximateNominalLQPSensitivity2SwitchingTime
  | approximateNominalHeuristicsSensitivity2SwitchingTime
  | solveSensitivityRiccatiEquations (eventTimeIndex : Nat)
  | calculateLQSensitivityControllerForward (eventTimeIndex : Nat)
  | getValueFuntionDerivative (eventTimeIndex : Nat)
  | computeMissingSlqData
  | solveSensitivityBVP (eventTimeIndex : Nat)
  | calculateBVPSensitivityControllerForward (eventTimeIndex : Nat)
  | calculateCostDerivative (eventTimeIndex : Nat)

/-- Member functions that never throw and append a record of each call to `workers`.  The
rollout returns one zero sample for each partition up to `finalActivePartition_`, the two
feedforward updates return the stock `feedforward`, the two derivatives return `1`, and the
other calls leave their output arguments as they are. -/
def recordingCalls {n m : Nat} (s : GSLQ) (feedforward : List (List (input_vector_t m))) :
    SensitivityCalls (List (SensitivityCall m)) n m where
  propagateRolloutSensitivity := fun solver _ eventTimeIndex LvTrajectoriesStock _ =>
    Except.ok (solver.workers ++
        [SensitivityCall.propagateRolloutSensitivity eventTimeIndex LvTrajectoriesStock],
      ⟨List.replicate (s.dc.finalActivePartition_ + 1) [0],
        List.replicate (s.dc.finalActivePartition_ + 1) [0]⟩)
  approximateNominalLQPSensitivity2SwitchingTime := fun solver _ _ out =>
    Except.ok (solver.workers ++
      [SensitivityCall.approximateNominalLQPSensitivity2SwitchingTime], out)
  approximateNominalHeuristicsSensitivity2SwitchingTime := fun solver _ out =>
    Except.ok (solver.workers ++
      [SensitivityCall.approximateNominalHeuristicsSensitivity2SwitchingTime], out)
  solveSensitivityRiccatiEquations := fun solver _ eventTimeIndex _ _ _ _ out =>
    Except.ok (solver.workers ++
      [SensitivityCall.solveSensitivityRiccatiEquations eventTimeIndex], out)
  calculateLQSensitivityControllerForward := fun solver _ eventTimeIndex _ _ =>
    Except.ok (solver.workers ++
      [SensitivityCall.calculateLQSensitivityControllerForward eventTimeIndex], feedforward)
  getValueFuntionDerivative := fun solver eventTimeIndex _ =>
    Except.ok (solver.workers ++
      [SensitivityCall.getValueFuntionDerivative eventTimeIndex], 1)
  computeMissingSlqData := fun solver =>
    Except.ok (solver.workers ++ [SensitivityCall.computeMissingSlqData])
  solveSensitivityBVP := fun solver _ eventTimeIndex _ _ out =>
    Except.ok (solver.workers ++ [SensitivityCall.solveSensitivityBVP eventTimeIndex], out)
  calculateBVPSensitivityControllerForward := fun solver _ eventTimeIndex _ _ _ =>
    Except.ok (solver.workers ++
      [SensitivityCall.calculateBVPSensitivityControllerForward eventTimeIndex], feedforward)
  calculateCostDerivative := fun solver _ eventTimeIndex _ _ _ =>
    Except.ok (solver.workers ++ [SensitivityCall.calculateCostDerivative eventTimeIndex], 1)

/-- The records of the six calls of the pipeline of `runLQBasedMethod` for the event time
`index`, in the order of the source, the rollout having received the stock
`LvTrajectoriesStock`. -/
def recordedPipeline {m : Nat} (index : Nat)
    (LvTrajectoriesStock : List (List (input_vector_t m))) : List (SensitivityCall m) :=
  [SensitivityCall.propagateRolloutSensitivity index LvTrajectoriesStock,
    SensitivityCall.approximateNominalLQPSensitivity2SwitchingTime,
    SensitivityCall.approximateNominalHeuristicsSensitivity2SwitchingTime,
    SensitivityCall.solveSensitivityRiccatiEquations index,
    SensitivityCall.calculateLQSensitivityControllerForward index,
    SensitivityCall.getValueFuntionDerivative index]

/-- The records of one pass over the event times: the pipeline once for each index below
`numEventTimes_` that lies in the active range, in increasing order, and nothing for the other
indices; `Lv index` is the feedforward stock that the rollout of `index` receives. -/
def recordedPass {m : Nat} (s : GSLQ) (Lv : Nat → List (List (input_vector_t m))) :
    List (SensitivityCall m) :=
  ((List.range s.numEventTimes_).filter (fun index =>
    decide (s.activeEventTimeBeginIndex_ ≤ index ∧ index < s.activeEventTimeEndIndex_))).flatMap
    (fun index => recordedPipeline index (Lv index))

/-- An empty solver state that holds the record `workers`. -/
def emptySets {W : Type} (n m : Nat) (workers : W) : SensitivitySets W n m :=
  ⟨workers, [], [], [], [], [], [], [], [], [], [], [], [], [], [], [], [], []⟩

/-- A solver with two event times of which only the first one is active, and one partition. -/
def twoEvents : GSLQ := ⟨true, [1, 2], 2, 3, 1, 0, 1, ⟨0, 3, 1, 0, 0⟩⟩

/-- The stock `nablaLvTrajectoriesStockSet_[index]` after the statement of the first iteration
of `runLQBasedMethod` that sets Lv to zero, `stock` being its content before; the empty stock
stands for an access outside the bounds. -/
def zeroedNablaLv {m : Nat} (s : GSLQ) (controllerTimes : List (List ℚ))
    (stock : List (List (input_vector_t m))) : List (List (input_vector_t m)) :=
  match zeroNablaLvLoop s controllerTimes s.dc.initActivePartition_
      (resize stock s.numPartitions_) with
  | Except.error _ => []
  | Except.ok nablaLv => nablaLv

/-! ### `runLQBasedMethod` with the program's `solveSensitivityRiccatiEquations` -/

/-- The member function `solveSensitivityRiccatiEquations` as a call of `SensitivityCalls`: the
model of the function given above, which reads `nablaqFinalStockSet_` and
`nablaQvFinalStockSet_` from the solver state; `weekEpsilon`, the Riccati equations `ops` and
the data collector `data` are what the solver holds.  The arguments `workerIndex` and
`learningRate` only reach the collaborators. -/
def riccatiCall {W S : Type} {n m : Nat} (weekEpsilon : ℚ) (ops : RiccatiOps S n) (s : GSLQ)
    (data : SLQ_Trajectories n m) (solver : SensitivitySets W n m)
    (_workerIndex eventTimeIndex : Nat) (_learningRate nablasHeuristics : ℚ)
    (nablaSvHeuristics : state_vector_t n) (nablaSmHeuristics : state_matrix_t n)
    (out : RiccatiOut n) : Except Error (W × RiccatiOut n) :=
  match (solveSensitivityRiccatiEquations s eventTimeIndex
      (solveSensitivityRiccatiEquationsBody weekEpsilon ops s data solver.nablaqFinalStockSet_
        solver.nablaQvFinalStockSet_ eventTimeIndex nablasHeuristics nablaSvHeuristics
        nablaSmHeuristics) out).status with
  | Except.error e => Except.error e
  | Except.ok () =>
    Except.ok (solver.workers,
      (solveSensitivityRiccatiEquations s eventTimeIndex
        (solveSensitivityRiccatiEquationsBody weekEpsilon ops s data
          solver.nablaqFinalStockSet_ solver.nablaQvFinalStockSet_ eventTimeIndex
          nablasHeuristics nablaSvHeuristics nablaSmHeuristics) out).out)

/-- The member functions `calls`, with `solveSensitivityRiccatiEquations` being the function of
the program. -/
def withProgramRiccati {W S : Type} {n m : Nat} (weekEpsilon : ℚ) (ops : RiccatiOps S n)
    (s : GSLQ) (data : SLQ_Trajectories n m) (calls : SensitivityCalls W n m) :
    SensitivityCalls W n m :=
  { calls with solveSensitivityRiccatiEquations := riccatiCall weekEpsilon ops s data }

/-! ### The reference of the cost derivative in the terms of the specification

The definitions of this section follow the wording of the specification; none of them calls
a function of the program. -/

theorem readAt_of_lt (v : List ℚ) (i : Nat) (h : i < v.length) :
    readAt v i = Except.ok (valAt v i) := by
  simp [readAt, valAt, List.getD_eq_getElem?_getD, List.getElem?_eq_getElem h]

theorem sorted_getD (B : List ℚ) (hB : B.Sorted (· ≤ ·)) (i j : Nat) (hij : i ≤ j)
    (hj : j < B.length) : valAt B i ≤ valAt B j := by
  have hi : i < B.length := lt_of_le_of_lt hij hj
  have h := List.Sorted.rel_get_of_le hB (a := ⟨i, hi⟩) (b := ⟨j, hj⟩) hij
  simpa [valAt, List.getD_eq_getElem?_getD, List.getElem?_eq_getElem hi,
    List.getElem?_eq_getElem hj] using h

/-! ## The two search loops -/

theorem searchDown_spec (B : List ℚ) (tm : ℚ) (i : Nat) (hi : i < B.length) :
    ∃ r : Int, searchDown B tm i = Except.ok r ∧ -1 ≤ r ∧ r ≤ i ∧
      (∀ j : Nat, r < j → j ≤ i → tm < valAt B j) ∧
      (0 ≤ r → valAt B r.toNat ≤ tm) := by
  induction i with
  | zero =>
    by_cases h : valAt B 0 ≤ tm
    · refine ⟨0, ?_, by norm_num, by norm_num, ?_, ?_⟩
      · simp [searchDown, readAt_of_lt B 0 hi, bind, Except.bind, pure, Except.pure, h]
      · intro j h1 h2; omega
      · intro _; simpa using h
    · refine ⟨-1, ?_, by norm_num, by norm_num, ?_, ?_⟩
      · simp [searchDown, readAt_of_lt B 0 hi, bind, Except.bind, pure, Except.pure, h]
      · intro j h1 h2
        have : j = 0 := by omega
        subst this; exact lt_of_not_le h
      · intro h0; omega
  | succ i ih =>
    by_cases h : valAt B (i + 1) ≤ tm
    · refine ⟨(i : Int) + 1, ?_, by omega, by push_cast; omega, ?_, ?_⟩
      · simp [searchDown, readAt_of_lt B (i + 1) hi, bind, Except.bind, pure, Except.pure, h]
      · intro j h1 h2; omega
      · intro _
        have : ((i : Int) + 1).toNat = i + 1 := by omega
        rw [this]; exact h
    · obtain ⟨r, hr, h1, h2, h3, h4⟩ := ih (by omega)
      refine ⟨r, ?_, h1, by push_cast; omega, ?_, h4⟩
      · simp [searchDown, readAt_of_lt B (i + 1) hi, bind, Except.bind, h, hr]
      · intro j hj1 hj2
        by_cases hj : j = i + 1
        · subst hj; exact lt_of_not_le h
        · exact h3 j hj1 (by omega)

theorem searchUp_spec (B : List ℚ) (tm : ℚ) (k : Nat) :
    ∀ (i : Nat) (idx : Int), i + k = B.length → 0 < k →
    ∃ r : Int, searchUp B tm ((B.length : Int) - 1) i idx = Except.ok r ∧
      (i : Int) - 1 ≤ r ∧ r ≤ (B.length : Int) - 1 ∧
      (∀ j : Nat, i ≤ j → (j : Int) ≤ r → valAt B j ≤ tm) ∧
      (r < (B.length : Int) - 1 → tm < valAt B (r + 1).toNat) := by
  induction k with
  | zero => intro i idx _ hk; omega
  | succ k ih =>
    intro i idx hik _
    have hi : i < B.length := by omega
    have hle : (i : Int) ≤ (B.length : Int) - 1 := by omega
    by_cases h : tm < valAt B i
    · refine ⟨(i : Int) - 1, ?_, le_refl _, by omega, ?_, ?_⟩
      · rw [searchUp]
        simp [hle, readAt_of_lt B i hi, bind, Except.bind, pure, Except.pure, h]
      · intro j h1 h2; omega
      · intro _
        have : ((i : Int) - 1 + 1).toNat = i := by omega
        rw [this]; exact h
    · by_cases hk : k = 0
      · subst hk
        refine ⟨(i : Int), ?_, by omega, by omega, ?_, ?_⟩
        · rw [searchUp]
          simp only [hle, if_true, readAt_of_lt B i hi, bind, Except.bind, h, if_false]
          rw [searchUp]
          have : ¬ (((i + 1 : Nat) : Int) ≤ (B.length : Int) - 1) := by push_cast; omega
          rw [if_neg this]; rfl
        · intro j h1 h2
          have : j = i := by omega
          subst this; exact le_of_not_lt h
        · intro h1; omega
      · obtain ⟨r, hr, h1, h2, h3, h4⟩ := ih (i + 1) (i : Int) (by omega) (by omega)
        refine ⟨r, ?_, by push_cast at h1; omega, h2, ?_, h4⟩
        · rw [searchUp]
          simp only [hle, if_true, readAt_of_lt B i hi, bind, Except.bind, h, if_false]
          exact hr
        · intro j hj1 hj2
          by_cases hj : j = i
          · subst hj; exact le_of_not_lt h
          · exact h3 j (by omega) hj2

/-! ## `findActiveIntervalIndex` on valid arguments -/

/-- On valid arguments the function returns `endCases` of the index found by the search, and
the search stops at a position described relative to the guess. -/
theorem findActiveIntervalIndex_valid (B : List ℚ) (q : ℚ) (g : Int) (eps : ℚ)
    (hn : 2 ≤ B.length) (hg0 : 0 ≤ g) (hg1 : g ≤ (B.length : Int) - 2) :
    ∃ r : Int, findActiveIntervalIndex B q g eps = Except.ok (endCases B q eps r) ∧
      -1 ≤ r ∧ r ≤ (B.length : Int) - 1 ∧
      ((q - eps < valAt B g.toNat ∧ r ≤ g ∧
          (∀ j : Nat, r < j → (j : Int) ≤ g → q - eps < valAt B j) ∧
          (0 ≤ r → valAt B r.toNat ≤ q - eps)) ∨
       (valAt B g.toNat ≤ q - eps ∧ g ≤ r ∧
          (∀ j : Nat, g ≤ j → (j : Int) ≤ r → valAt B j ≤ q - eps) ∧
          (r < (B.length : Int) - 1 → q - eps < valAt B (r + 1).toNat))) := by
  have hgn : g.toNat < B.length := by omega
  have h1 : ¬ ((B.length : Int) - 1 < 1) := by omega
  have h2 : ¬ (g < 0 ∨ g > (B.length : Int) - 1 - 1) := by omega
  have h0 : 0 < B.length := by omega
  have hlast : B.length - 1 < B.length := by omega
  by_cases hlt : q - eps < valAt B g.toNat
  · obtain ⟨r, hr, a1, a2, a3, a4⟩ := searchDown_spec B (q - eps) g.toNat hgn
    refine ⟨r, ?_, a1, by omega, Or.inl ⟨hlt, by omega, ?_, a4⟩⟩
    · unfold findActiveIntervalIndex
      simp only [h1, h2, if_false, readAt_of_lt B _ hgn, readAt_of_lt B 0 h0,
        readAt_of_lt B _ hlast, hlt, if_true, hr, endCases, bind, Except.bind, pure, Except.pure]
      split_ifs <;> simp_all
    · intro j hj1 hj2
      exact a3 j hj1 (by omega)
  · obtain ⟨r, hr, a1, a2, a3, a4⟩ :=
      searchUp_spec B (q - eps) (B.length - g.toNat) g.toNat (-1) (by omega) (by omega)
    have hge : g ≤ r := by
      rcases lt_or_le r g with h | h
      · have hr1 : r + 1 = g := by omega
        have := a4 (by omega)
        rw [hr1] at this
        exact absurd this hlt
      · exact h
    refine ⟨r, ?_, by omega, a2, Or.inr ⟨le_of_not_lt hlt, hge, ?_, a4⟩⟩
    · unfold findActiveIntervalIndex
      simp only [h1, h2, if_false, readAt_of_lt B _ hgn, readAt_of_lt B 0 h0,
        readAt_of_lt B _ hlast, hlt, hr, endCases, bind, Except.bind, pure, Except.pure]
      split_ifs <;> simp_all
    · intro j hj1 hj2
      exact a3 j (by omega) hj2

/-- On a non-decreasing vector the index found by the search cuts the vector at
`enquiryTime - epsilon`, whatever the guess. -/
theorem findActiveIntervalIndex_sorted (B : List ℚ) (q : ℚ) (g : Int) (eps : ℚ)
    (hB : B.Sorted (· ≤ ·))
    (hn : 2 ≤ B.length) (hg0 : 0 ≤ g) (hg1 : g ≤ (B.length : Int) - 2) :
    ∃ r : Int, findActiveIntervalIndex B q g eps = Except.ok (endCases B q eps r) ∧
      IsCut B (q - eps) r := by
  obtain ⟨r, hr, a1, a2, h⟩ := findActiveIntervalIndex_valid B q g eps hn hg0 hg1
  refine ⟨r, hr, a1, a2, ?_, ?_⟩
  · intro j hj hjr
    rcases h with ⟨b1, b2, b3, b4⟩ | ⟨b1, b2, b3, b4⟩
    · have h0 : 0 ≤ r := by omega
      have hrn : r.toNat < B.length := by omega
      exact le_trans (sorted_getD B hB j r.toNat (by omega) hrn) (b4 h0)
    · rcases le_or_lt g (j : Int) with h | h
      · exact b3 j h hjr
      · exact le_trans (sorted_getD B hB j g.toNat (by omega) (by omega)) b1
  · intro j hj hjr
    rcases h with ⟨b1, b2, b3, b4⟩ | ⟨b1, b2, b3, b4⟩
    · rcases le_or_lt (j : Int) g with h | h
      · exact b3 j hjr h
      · exact lt_of_lt_of_le b1 (sorted_getD B hB g.toNat j (by omega) hj)
    · have h1 : r < (B.length : Int) - 1 := by omega
      exact lt_of_lt_of_le (b4 h1) (sorted_getD B hB (r + 1).toNat j (by omega) hj)

theorem IsCut.unique {B : List ℚ} {tm : ℚ} {r r' : Int} (h : IsCut B tm r)
    (h' : IsCut B tm r') : r = r' := by
  obtain ⟨a1, a2, a3, a4⟩ := h
  obtain ⟨b1, b2, b3, b4⟩ := h'
  rcases lt_trichotomy r r' with hlt | heq | hgt
  · have hj : (r + 1).toNat < B.length := by omega
    have c1 := b3 (r + 1).toNat hj (by omega)
    have c2 := a4 (r + 1).toNat hj (by omega)
    exact absurd c1 (not_le.mpr c2)
  · exact heq
  · have hj : (r' + 1).toNat < B.length := by omega
    have c1 := a3 (r' + 1).toNat hj (by omega)
    have c2 := b4 (r' + 1).toNat hj (by omega)
    exact absurd c1 (not_le.mpr c2)

/-! ## Claims on `findActiveIntervalIndex` -/

/-- When `B[0] ≤ q - epsilon < B[n-1]` the search ends inside the vector and no end case
applies. -/
theorem findActiveIntervalIndex_inside (B : List ℚ) (q : ℚ) (g : Int) (eps : ℚ)
    (hB : B.Sorted (· ≤ ·)) (hn : 2 ≤ B.length) (hg0 : 0 ≤ g) (hg1 : g ≤ (B.length : Int) - 2)
    (hlo : valAt B 0 + eps ≤ q) (hhi : q < valAt B (B.length - 1) + eps) :
    ∃ i : Nat, i + 1 < B.length ∧ findActiveIntervalIndex B q g eps = Except.ok (i : Int) ∧
      valAt B i ≤ q - eps ∧ q - eps < valAt B (i + 1) ∧
      (∀ j : Nat, j + 1 < B.length → valAt B j ≤ q - eps → q - eps < valAt B (j + 1) → j = i) ∧
      (∀ j : Nat, j < B.length → valAt B j ≤ q - eps → j ≤ i) := by
  obtain ⟨r, hr, a1, a2, a3, a4⟩ := findActiveIntervalIndex_sorted B q g eps hB hn hg0 hg1
  have h0 : 0 ≤ r := by
    by_contra hneg
    have := a4 0 (by omega) (by omega)
    linarith
  have hlt : r < (B.length : Int) - 1 := by
    by_contra hge
    have := a3 (B.length - 1) (by omega) (by omega)
    linarith
  have hend : endCases B q eps r = r := by
    have e1 : ¬ (r = -1 ∧ eps > 0) := by omega
    have e2 : ¬ (r = (B.length : Int) - 1 ∧ eps < 0) := by omega
    simp only [endCases, e1, e2, if_false]
  refine ⟨r.toNat, by omega, ?_, a3 r.toNat (by omega) (by omega),
    a4 (r.toNat + 1) (by omega) (by omega), ?_, ?_⟩
  · rw [hr, hend]; congr 1; omega
  · intro j hj hj1 hj2
    rcases lt_trichotomy j r.toNat with h | h | h
    · have := a3 (j + 1) hj (by omega)
      linarith
    · exact h
    · have := a4 j (by omega) (by omega)
      linarith
  · intro j hj hj1
    by_contra hcon
    have := a4 j hj (by omega)
    linarith

/-- C1. For a non-decreasing boundary vector `B` of length `n ≥ 2`, a valid guess in
`[0, n-2]`, `epsilon > 0` and a query `q` with `B[0] + epsilon ≤ q < B[n-1] + epsilon`, the
explicit-guess form returns an index `i` in `[0, n-2]` with `B[i] ≤ q - epsilon < B[i+1]`; this
index is the only one with that property and it is the largest index whose boundary is
`≤ q - epsilon`. -/
theorem C1_findActiveIntervalIndex_interior (B : List ℚ) (q : ℚ) (g : Int) (eps : ℚ)
    (hB : B.Sorted (· ≤ ·)) (hn : 2 ≤ B.length) (hg0 : 0 ≤ g) (hg1 : g ≤ (B.length : Int) - 2)
    (_heps : 0 < eps) (hlo : valAt B 0 + eps ≤ q) (hhi : q < valAt B (B.length - 1) + eps) :
    ∃ i : Nat, i + 1 < B.length ∧ findActiveIntervalIndex B q g eps = Except.ok (i : Int) ∧
      valAt B i ≤ q - eps ∧ q - eps < valAt B (i + 1) ∧
      (∀ j : Nat, j + 1 < B.length → valAt B j ≤ q - eps → q - eps < valAt B (j + 1) → j = i) ∧
      (∀ j : Nat, j < B.length → valAt B j ≤ q - eps → j ≤ i) :=
  findActiveIntervalIndex_inside B q g eps hB hn hg0 hg1 hlo hhi

theorem C1_findActiveIntervalIndex_interior_witness :
    ∃ i : Nat, i + 1 < [(0 : ℚ), 1, 2].length ∧
      findActiveIntervalIndex [0, 1, 2] (3 / 2) 0 (1 / 1000) = Except.ok (i : Int) ∧
      valAt [0, 1, 2] i ≤ 3 / 2 - 1 / 1000 ∧ 3 / 2 - 1 / 1000 < valAt [0, 1, 2] (i + 1) ∧
      (∀ j : Nat, j + 1 < [(0 : ℚ), 1, 2].length → valAt [0, 1, 2] j ≤ 3 / 2 - 1 / 1000 →
        3 / 2 - 1 / 1000 < valAt [0, 1, 2] (j + 1) → j = i) ∧
      (∀ j : Nat, j < [(0 : ℚ), 1, 2].length → valAt [0, 1, 2] j ≤ 3 / 2 - 1 / 1000 → j ≤ i) :=
  C1_findActiveIntervalIndex_interior [0, 1, 2] (3 / 2) 0 (1 / 1000)
    (by simp) (by simp) (by norm_num) (by simp) (by norm_num)
    (by norm_num [valAt]) (by norm_num [valAt])

/-- C2, counterexample.  With `epsilon = 10⁻⁶`, `B = [0, 1, 2]`, guess `0` and the query
`q = 1 + epsilon / 2`, which lies between `B.front()` and `B.back()`, the function returns
`0` although `q ≤ B[1]` fails; and no positive value of the default epsilon makes the claim
true (take `B = [0, epsilon, 2 epsilon]` and `q = 3 epsilon / 2`). -/
theorem C2_exact_comparison_counterexample :
    (findActiveIntervalIndex [0, 1, 2] (1 + 1 / 2000000) 0 (1 / 1000000) = Except.ok 0 ∧
      valAt [0, 1, 2] 0 ≤ 1 + 1 / 2000000 ∧ (1 + 1 / 2000000 : ℚ) ≤ valAt [0, 1, 2] 2 ∧
      ¬ ((1 + 1 / 2000000 : ℚ) ≤ valAt [0, 1, 2] 1)) ∧
    ¬ ∃ eps : ℚ, 0 < eps ∧
      ∀ (B : List ℚ) (g : Int) (q : ℚ), B.Sorted (· ≤ ·) → 2 ≤ B.length → 0 ≤ g →
        g ≤ (B.length : Int) - 2 → valAt B 0 ≤ q → q ≤ valAt B (B.length - 1) →
        ∃ i : Nat, findActiveIntervalIndex B q g eps = Except.ok (i : Int) ∧
          ((valAt B i < q ∧ q ≤ valAt B (i + 1)) ∨ (q = valAt B 0 ∧ i = 0)) := by
  refine ⟨⟨?_, by norm_num [valAt], by norm_num [valAt], by norm_num [valAt]⟩, ?_⟩
  · norm_num [findActiveIntervalIndex, readAt, searchUp, searchDown, bind, Except.bind, pure,
      Except.pure]
  · rintro ⟨eps, heps, h⟩
    obtain ⟨i, hi, hprop⟩ := h [0, eps, 2 * eps] 0 (3 * eps / 2)
      (by simp; constructor <;> linarith) (by simp) (by norm_num) (by simp)
      (by simp [valAt]; linarith) (by simp [valAt]; linarith)
    have hval : findActiveIntervalIndex [0, eps, 2 * eps] (3 * eps / 2) 0 eps
        = Except.ok 0 := by
      have e1 : ¬ (3 * eps / 2 - eps < 0) := by linarith
      have e2 : 3 * eps / 2 - eps < eps := by linarith
      simp [findActiveIntervalIndex, readAt, searchUp, bind, Except.bind, pure,
        Except.pure, e1, e2]
    rw [hval] at hi
    have hi0 : i = 0 := by
      have := Except.ok.inj hi
      omega
    subst hi0
    rcases hprop with ⟨_, h2⟩ | ⟨h1, _⟩
    · simp [valAt] at h2; linarith
    · simp [valAt] at h1; linarith

/-- C2, amended.  For a sorted boundary vector `B` of length `≥ 2`, a valid guess, a positive
epsilon and a query `q` with `B.front() ≤ q ≤ B.back()`, the returned index `i` lies in
`[0, n-2]` and `q < B[i+1] + epsilon`; moreover `B[i] + epsilon ≤ q` (so `B[i] < q` exactly),
except when `q < B.front() + epsilon`, in which case the index is `0`. -/
theorem C2_findActiveIntervalIndex_within (B : List ℚ) (q : ℚ) (g : Int) (eps : ℚ)
    (hB : B.Sorted (· ≤ ·)) (hn : 2 ≤ B.length) (hg0 : 0 ≤ g) (hg1 : g ≤ (B.length : Int) - 2)
    (heps : 0 < eps) (hlo : valAt B 0 ≤ q) (hhi : q ≤ valAt B (B.length - 1)) :
    ∃ i : Nat, i + 1 < B.length ∧ findActiveIntervalIndex B q g eps = Except.ok (i : Int) ∧
      q < valAt B (i + 1) + eps ∧
      ((valAt B i + eps ≤ q ∧ valAt B i < q) ∨ (q < valAt B 0 + eps ∧ i = 0)) := by
  rcases le_or_lt (valAt B 0 + eps) q with h | h
  · obtain ⟨i, hi, hr, b1, b2, -, -⟩ := findActiveIntervalIndex_inside B q g eps hB hn hg0
      hg1 h (by linarith)
    exact ⟨i, hi, hr, by linarith, Or.inl ⟨by linarith, by linarith⟩⟩
  · obtain ⟨r, hr, a1, a2, a3, a4⟩ := findActiveIntervalIndex_sorted B q g eps hB hn hg0 hg1
    have hr1 : r = -1 := by
      by_contra hne
      have := a3 0 (by omega) (by omega)
      linarith
    subst hr1
    have hend : endCases B q eps (-1) = 0 := by
      have e1 : q ≥ valAt B 0 - eps := by linarith
      have e2 : ¬ ((0 : Int) = (B.length : Int) - 1 ∧ eps < 0) := by omega
      simp only [endCases, heps.gt, e1, and_self, if_true, e2, if_false]
    refine ⟨0, by omega, by rw [hr, hend]; rfl, ?_, Or.inr ⟨h, rfl⟩⟩
    have := sorted_getD B hB 0 (0 + 1) (by omega) (by omega)
    linarith

theorem C2_findActiveIntervalIndex_within_witness :
    ∃ i : Nat, i + 1 < [(0 : ℚ), 1, 2].length ∧
      findActiveIntervalIndex [0, 1, 2] 1 0 (1 / 1000) = Except.ok (i : Int) ∧
      1 < valAt [0, 1, 2] (i + 1) + 1 / 1000 ∧
      ((valAt [0, 1, 2] i + 1 / 1000 ≤ 1 ∧ valAt [0, 1, 2] i < 1) ∨
        ((1 : ℚ) < valAt [0, 1, 2] 0 + 1 / 1000 ∧ i = 0)) :=
  C2_findActiveIntervalIndex_within [0, 1, 2] 1 0 (1 / 1000)
    (by simp) (by simp) (by norm_num) (by simp) (by norm_num)
    (by norm_num [valAt]) (by norm_num [valAt])

/-- C3.  For a boundary vector `B` of length `≥ 2` that is non-decreasing, as the function
requires of its argument, a valid guess and `epsilon > 0`, the function returns an index, this
index is `-1` if and only if `q < B.front() - epsilon`, and it is `0` for every `q` with
`B.front() - epsilon ≤ q < B.front() + epsilon`. -/
theorem C3_findActiveIntervalIndex_lower_end (B : List ℚ) (q : ℚ) (g : Int) (eps : ℚ)
    (hB : B.Sorted (· ≤ ·)) (hn : 2 ≤ B.length) (hg0 : 0 ≤ g) (hg1 : g ≤ (B.length : Int) - 2)
    (heps : 0 < eps) :
    ∃ i : Int, findActiveIntervalIndex B q g eps = Except.ok i ∧
      (i = -1 ↔ q < valAt B 0 - eps) ∧
      (valAt B 0 - eps ≤ q → q < valAt B 0 + eps → i = 0) := by
  obtain ⟨r, hr, a1, a2, a3, a4⟩ := findActiveIntervalIndex_sorted B q g eps hB hn hg0 hg1
  have hneg : ¬ eps < 0 := not_lt.mpr heps.le
  have hcut : q < valAt B 0 + eps → r = -1 := by
    intro h
    by_contra hne
    have := a3 0 (by omega) (by omega)
    linarith
  refine ⟨endCases B q eps r, hr, ⟨?_, ?_⟩, ?_⟩
  · intro h
    by_contra hge
    have hge' : q ≥ valAt B 0 - eps := le_of_not_lt hge
    by_cases hr1 : r = -1
    · subst hr1
      simp only [endCases, heps.gt, and_self, if_true, hge', hneg, and_false, if_false] at h
      omega
    · simp only [endCases, hr1, false_and, if_false, hneg, and_false] at h
  · intro h
    have hr1 : r = -1 := hcut (by linarith)
    subst hr1
    have hge : ¬ (q ≥ valAt B 0 - eps) := not_le.mpr h
    simp only [endCases, heps.gt, and_self, if_true, hge, if_false, hneg, and_false]
  · intro h1 h2
    have hr1 : r = -1 := hcut h2
    subst hr1
    have hge : q ≥ valAt B 0 - eps := h1
    simp only [endCases, heps.gt, and_self, if_true, hge, hneg, and_false, if_false]

theorem C3_findActiveIntervalIndex_lower_end_witness :
    ∃ i : Int, findActiveIntervalIndex [0, 1, 2] 0 1 (1 / 1000) = Except.ok i ∧
      (i = -1 ↔ (0 : ℚ) < valAt [0, 1, 2] 0 - 1 / 1000) ∧
      (valAt [0, 1, 2] 0 - 1 / 1000 ≤ 0 → (0 : ℚ) < valAt [0, 1, 2] 0 + 1 / 1000 → i = 0) :=
  C3_findActiveIntervalIndex_lower_end [0, 1, 2] 0 1 (1 / 1000)
    (by simp) (by simp) (by norm_num) (by simp) (by norm_num)

/-- C4, counterexample.  With `epsilon = 10⁻⁶`, `B = [0, 1]`, guess `0` and the query
`q = 1 + epsilon / 2 > B.back()` the function returns `0`, not the sentinel `n - 1 = 1`; and
no positive value of the default epsilon makes the claim true. -/
theorem C4_upper_end_counterexample :
    (findActiveIntervalIndex [0, 1] (1 + 1 / 2000000) 0 (1 / 1000000) = Except.ok 0 ∧
      valAt [0, 1] 1 < 1 + 1 / 2000000) ∧
    ¬ ∃ eps : ℚ, 0 < eps ∧
      ∀ (B : List ℚ) (g : Int) (q : ℚ), B.Sorted (· ≤ ·) → 2 ≤ B.length → 0 ≤ g →
        g ≤ (B.length : Int) - 2 → valAt B (B.length - 1) < q →
        findActiveIntervalIndex B q g eps = Except.ok ((B.length : Int) - 1) := by
  refine ⟨⟨?_, by norm_num [valAt]⟩, ?_⟩
  · norm_num [findActiveIntervalIndex, readAt, searchUp, searchDown, bind, Except.bind, pure,
      Except.pure]
  · rintro ⟨eps, heps, h⟩
    have hi := h [0, eps] 0 (3 * eps / 2) (by simp; linarith) (by simp) (by norm_num) (by simp)
      (by simp [valAt]; linarith)
    have hval : findActiveIntervalIndex [0, eps] (3 * eps / 2) 0 eps = Except.ok 0 := by
      have e1 : ¬ (3 * eps / 2 - eps < 0) := by linarith
      have e2 : 3 * eps / 2 - eps < eps := by linarith
      simp [findActiveIntervalIndex, readAt, searchUp, bind, Except.bind, pure,
        Except.pure, e1, e2]
    rw [hval] at hi
    have := Except.ok.inj hi
    simp at this

/-- C4, amended.  For a sorted boundary vector `B` of length `n ≥ 2`, a valid guess and a
positive epsilon, the function returns an index, and this index is the one-past-the-end
sentinel `n - 1` exactly for the queries `q` that exceed the last boundary by at least epsilon,
`q ≥ B.back() + epsilon`. -/
theorem C4_findActiveIntervalIndex_upper_end (B : List ℚ) (q : ℚ) (g : Int) (eps : ℚ)
    (hB : B.Sorted (· ≤ ·)) (hn : 2 ≤ B.length) (hg0 : 0 ≤ g) (hg1 : g ≤ (B.length : Int) - 2)
    (heps : 0 < eps) :
    ∃ i : Int, findActiveIntervalIndex B q g eps = Except.ok i ∧
      (i = (B.length : Int) - 1 ↔ valAt B (B.length - 1) + eps ≤ q) := by
  obtain ⟨r, hr, a1, a2, a3, a4⟩ := findActiveIntervalIndex_sorted B q g eps hB hn hg0 hg1
  have hneg : ¬ eps < 0 := not_lt.mpr heps.le
  have hend : endCases B q eps r = r ∨ (r = -1 ∧ endCases B q eps r = 0) := by
    by_cases hr1 : r = -1
    · subst hr1
      by_cases hge : q ≥ valAt B 0 - eps
      · right
        simp only [endCases, heps.gt, and_self, if_true, hge, hneg, and_false, if_false]
      · left
        simp only [endCases, heps.gt, and_self, if_true, hge, hneg, and_false, if_false]
    · left
      simp only [endCases, hr1, false_and, if_false, hneg, and_false]
  refine ⟨endCases B q eps r, hr, ⟨?_, ?_⟩⟩
  · intro h
    have hrn : r = (B.length : Int) - 1 := by
      rcases hend with h1 | ⟨h1, h2⟩
      · rw [h1] at h; exact h
      · omega
    have := a3 (B.length - 1) (by omega) (by omega)
    linarith
  · intro h
    have hrn : r = (B.length : Int) - 1 := by
      by_contra hne
      have := a4 (B.length - 1) (by omega) (by omega)
      linarith
    rcases hend with h1 | ⟨h1, h2⟩
    · rw [h1]; exact hrn
    · omega

theorem C4_findActiveIntervalIndex_upper_end_witness :
    ∃ i : Int, findActiveIntervalIndex [0, 1, 2] 3 1 (1 / 1000) = Except.ok i ∧
      (i = ([(0 : ℚ), 1, 2].length : Int) - 1 ↔
        valAt [0, 1, 2] ([(0 : ℚ), 1, 2].length - 1) + 1 / 1000 ≤ 3) :=
  C4_findActiveIntervalIndex_upper_end [0, 1, 2] 3 1 (1 / 1000)
    (by simp) (by simp) (by norm_num) (by simp) (by norm_num)

/-- C5. The explicit-guess form throws exactly when the boundary vector has fewer than `2`
elements or the guess lies outside `[0, n-2]`: in that case the outcome is a
`std::runtime_error`; for every other input (any query, any epsilon, sorted or not) it
returns an index, which lies in `[-1, n-1]`, and no access leaves the bounds of the vector. -/
theorem C5_findActiveIntervalIndex_raises_iff (B : List ℚ) (q : ℚ) (g : Int) (eps : ℚ) :
    ((B.length < 2 ∨ g < 0 ∨ (B.length : Int) - 2 < g) →
      ∃ what, findActiveIntervalIndex B q g eps = Except.error (Error.runtime_error what)) ∧
    (¬ (B.length < 2 ∨ g < 0 ∨ (B.length : Int) - 2 < g) →
      ∃ i : Int, findActiveIntervalIndex B q g eps = Except.ok i ∧
        -1 ≤ i ∧ i ≤ (B.length : Int) - 1) := by
  constructor
  · intro h
    by_cases h1 : (B.length : Int) - 1 < 1
    · refine ⟨"The time interval array should have at least 2 elements.", ?_⟩
      simp only [findActiveIntervalIndex, h1, if_true]
    · have h2 : g < 0 ∨ g > (B.length : Int) - 1 - 1 := by omega
      refine ⟨"The guessed index is out of range.", ?_⟩
      simp only [findActiveIntervalIndex, h1, if_false, h2, if_true]
  · intro h
    obtain ⟨r, hr, a1, a2, -⟩ :=
      findActiveIntervalIndex_valid B q g eps (by omega) (by omega) (by omega)
    refine ⟨endCases B q eps r, hr, ?_, ?_⟩
    · simp only [endCases]
      split_ifs <;> omega
    · simp only [endCases]
      split_ifs <;> omega

/-! ## Claims on `computeEquivalentSystemMultiplier` -/

/-- The time period and the multiplier in each branch of `computeEquivalentSystemMultiplier`,
for a valid event index. -/
theorem equivalentSystem_cases (s : GSLQ) (k a : Nat) (hk : k < s.eventTimes_.length) :
    (a = k + 1 → a = s.eventTimes_.length → s.dc.finalTime_ < valAt s.eventTimes_ k →
      equivalentSystemTimePeriodAndMultiplier s k a = Except.error
        (Error.runtime_error "Final time is smaller than the last triggered event time.")) ∧
    (a = k + 1 → a = s.eventTimes_.length → ¬ s.dc.finalTime_ < valAt s.eventTimes_ k →
      equivalentSystemTimePeriodAndMultiplier s k a = Except.ok
        (s.dc.finalTime_ - valAt s.eventTimes_ k,
          -1 / (s.dc.finalTime_ - valAt s.eventTimes_ k))) ∧
    (a = k + 1 → a ≠ s.eventTimes_.length →
      equivalentSystemTimePeriodAndMultiplier s k a = Except.ok
        (valAt s.eventTimes_ (k + 1) - valAt s.eventTimes_ k,
          -1 / (valAt s.eventTimes_ (k + 1) - valAt s.eventTimes_ k))) ∧
    (a = k → a = 0 → s.dc.initTime_ > valAt s.eventTimes_ k →
      equivalentSystemTimePeriodAndMultiplier s k a = Except.error
        (Error.runtime_error "Initial time is greater than the last triggered event time.")) ∧
    (a = k → a = 0 → ¬ s.dc.initTime_ > valAt s.eventTimes_ k →
      equivalentSystemTimePeriodAndMultiplier s k a = Except.ok
        (valAt s.eventTimes_ k - s.dc.initTime_,
          1 / (valAt s.eventTimes_ k - s.dc.initTime_))) ∧
    (a = k → a ≠ 0 →
      equivalentSystemTimePeriodAndMultiplier s k a = Except.ok
        (valAt s.eventTimes_ k - valAt s.eventTimes_ (k - 1),
          1 / (valAt s.eventTimes_ k - valAt s.eventTimes_ (k - 1)))) ∧
    (a ≠ k + 1 → a ≠ k → equivalentSystemTimePeriodAndMultiplier s k a = Except.ok (1, 0)) := by
  have hr := readAt_of_lt s.eventTimes_ k hk
  refine ⟨?_, ?_, ?_, ?_, ?_, ?_, ?_⟩
  · intro h1 h2 h3
    subst h1
    simp only [equivalentSystemTimePeriodAndMultiplier, if_true, h2, hr, bind, Except.bind, h3]
  · intro h1 h2 h3
    subst h1
    simp only [equivalentSystemTimePeriodAndMultiplier, if_true, h2, hr, bind, Except.bind, h3,
      if_false, pure, Except.pure]
  · intro h1 h2
    subst h1
    have hk1 : k + 1 < s.eventTimes_.length := by omega
    simp only [equivalentSystemTimePeriodAndMultiplier, if_true, h2, if_false, hr,
      readAt_of_lt s.eventTimes_ (k + 1) hk1, bind, Except.bind, pure, Except.pure]
  · intro h1 h2 h3
    subst h1
    subst h2
    have h0 : ¬ (0 = 0 + 1) := by omega
    simp only [equivalentSystemTimePeriodAndMultiplier, h0, if_false, if_true, hr, bind,
      Except.bind, h3]
  · intro h1 h2 h3
    subst h1
    subst h2
    have h0 : ¬ (0 = 0 + 1) := by omega
    simp only [equivalentSystemTimePeriodAndMultiplier, h0, if_false, if_true, hr, bind,
      Except.bind, h3, pure, Except.pure]
  · intro h1 h2
    subst h1
    have h0 : ¬ (a = a + 1) := by omega
    have hk1 : a - 1 < s.eventTimes_.length := by omega
    simp only [equivalentSystemTimePeriodAndMultiplier, h0, if_false, if_true, h2, hr,
      readAt_of_lt s.eventTimes_ (a - 1) hk1, bind, Except.bind, pure, Except.pure]
  · intro h1 h2
    simp only [equivalentSystemTimePeriodAndMultiplier, h1, h2, if_false, pure, Except.pure]

/-- C6. For a valid event index `k` (smaller than the number of event times) and any
subsystem index `a`, `computeEquivalentSystemMultiplier` follows the closed-form law: for
`a = k+1` the result is `-1/T` with `T = e[k+1] - e[k]`, or `T = finalTime - e[k]` when `a` is
the last subsystem, and it throws when `finalTime < e[k]`; for `a = k` the result is `1/T`
with `T = e[k] - e[k-1]`, or `T = e[k] - initTime` when `a = 0`, and it throws when
`initTime > e[k]`; for every other `a` the result is `0` and nothing is thrown. -/
theorem C6_computeEquivalentSystemMultiplier_law (s : GSLQ) (k a : Nat)
    (hk : k < s.eventTimes_.length) :
    (a = k + 1 → a = s.eventTimes_.length → s.dc.finalTime_ < valAt s.eventTimes_ k →
      computeEquivalentSystemMultiplier s k a = Except.error
        (Error.runtime_error "Final time is smaller than the last triggered event time.")) ∧
    (a = k + 1 → a = s.eventTimes_.length → ¬ s.dc.finalTime_ < valAt s.eventTimes_ k →
      computeEquivalentSystemMultiplier s k a =
        Except.ok (-1 / (s.dc.finalTime_ - valAt s.eventTimes_ k))) ∧
    (a = k + 1 → a ≠ s.eventTimes_.length →
      computeEquivalentSystemMultiplier s k a =
        Except.ok (-1 / (valAt s.eventTimes_ (k + 1) - valAt s.eventTimes_ k))) ∧
    (a = k → a = 0 → s.dc.initTime_ > valAt s.eventTimes_ k →
      computeEquivalentSystemMultiplier s k a = Except.error
        (Error.runtime_error "Initial time is greater than the last triggered event time.")) ∧
    (a = k → a = 0 → ¬ s.dc.initTime_ > valAt s.eventTimes_ k →
      computeEquivalentSystemMultiplier s k a =
        Except.ok (1 / (valAt s.eventTimes_ k - s.dc.initTime_))) ∧
    (a = k → a ≠ 0 →
      computeEquivalentSystemMultiplier s k a =
        Except.ok (1 / (valAt s.eventTimes_ k - valAt s.eventTimes_ (k - 1)))) ∧
    (a ≠ k + 1 → a ≠ k → computeEquivalentSystemMultiplier s k a = Except.ok 0) := by
  obtain ⟨c1, c2, c3, c4, c5, c6, c7⟩ := equivalentSystem_cases s k a hk
  refine ⟨?_, ?_, ?_, ?_, ?_, ?_, ?_⟩
  · intro h1 h2 h3
    simp only [computeEquivalentSystemMultiplier, c1 h1 h2 h3, bind, Except.bind]
  · intro h1 h2 h3
    simp only [computeEquivalentSystemMultiplier, c2 h1 h2 h3, bind, Except.bind, pure,
      Except.pure]
  · intro h1 h2
    simp only [computeEquivalentSystemMultiplier, c3 h1 h2, bind, Except.bind, pure,
      Except.pure]
  · intro h1 h2 h3
    simp only [computeEquivalentSystemMultiplier, c4 h1 h2 h3, bind, Except.bind]
  · intro h1 h2 h3
    simp only [computeEquivalentSystemMultiplier, c5 h1 h2 h3, bind, Except.bind, pure,
      Except.pure]
  · intro h1 h2
    simp only [computeEquivalentSystemMultiplier, c6 h1 h2, bind, Except.bind, pure,
      Except.pure]
  · intro h1 h2
    simp only [computeEquivalentSystemMultiplier, c7 h1 h2, bind, Except.bind, pure,
      Except.pure]

theorem C6_computeEquivalentSystemMultiplier_law_witness :
    computeEquivalentSystemMultiplier threeEvents 1 2 =
        Except.ok (-1 / (valAt threeEvents.eventTimes_ (1 + 1) - valAt threeEvents.eventTimes_ 1))
      ∧ computeEquivalentSystemMultiplier threeEvents 1 1 =
        Except.ok (1 / (valAt threeEvents.eventTimes_ 1 - valAt threeEvents.eventTimes_ (1 - 1)))
      ∧ computeEquivalentSystemMultiplier threeEvents 1 3 = Except.ok 0 :=
  ⟨(C6_computeEquivalentSystemMultiplier_law threeEvents 1 2 (by decide)).2.2.1 rfl
      (by decide),
    (C6_computeEquivalentSystemMultiplier_law threeEvents 1 1 (by decide)).2.2.2.2.2.1 rfl
      (by decide),
    (C6_computeEquivalentSystemMultiplier_law threeEvents 1 3 (by decide)).2.2.2.2.2.2
      (by decide) (by decide)⟩

/-- C7, counterexample.  The event times `1, 1` are non-decreasing; for the event index `0`
and the subsystem `1` right after it the call returns without throwing and the duration it
divides by is `e[1] - e[0] = 0`.  Likewise for the single event time `1` with final time `1`
the duration is `finalTime - e[0] = 0` and nothing is thrown. -/
theorem C7_zero_duration_counterexample :
    (coincidingEvents.eventTimes_.Sorted (· ≤ ·) ∧
      equivalentSystemTimePeriodAndMultiplier coincidingEvents 0 1
        = Except.ok ((0 : ℚ), (-1 : ℚ) / 0)) ∧
    (eventAtFinalTime.eventTimes_.Sorted (· ≤ ·) ∧
      equivalentSystemTimePeriodAndMultiplier eventAtFinalTime 0 1
        = Except.ok ((0 : ℚ), (-1 : ℚ) / 0)) := by
  refine ⟨⟨by simp [coincidingEvents], ?_⟩, ⟨by simp [eventAtFinalTime], ?_⟩⟩
  · norm_num [equivalentSystemTimePeriodAndMultiplier, coincidingEvents, readAt, bind,
      Except.bind, pure, Except.pure]
  · norm_num [equivalentSystemTimePeriodAndMultiplier, eventAtFinalTime, readAt, bind,
      Except.bind, pure, Except.pure]

/-- C7, amended.  For a non-decreasing event-time sequence, a valid event index `k` and an
adjacent subsystem index `a ∈ {k, k+1}`, whenever the call returns without throwing, the
duration `T` it divides by is non-negative (it is zero when the two times that delimit the
subsystem coincide), the multiplier is `1/T` in the before-case and `-1/T` in the after-case,
and when `T` is positive the multiplier is positive in the before-case and negative in the
after-case. -/
theorem C7_duration_nonneg (s : GSLQ) (k a : Nat) (T m : ℚ)
    (hsorted : s.eventTimes_.Sorted (· ≤ ·)) (hk : k < s.eventTimes_.length)
    (ha : a = k ∨ a = k + 1)
    (hret : equivalentSystemTimePeriodAndMultiplier s k a = Except.ok (T, m)) :
    0 ≤ T ∧ (a = k → m = 1 / T) ∧ (a = k + 1 → m = -1 / T) ∧
      (0 < T → (a = k → 0 < m) ∧ (a = k + 1 → m < 0)) := by
  obtain ⟨c1, c2, c3, c4, c5, c6, -⟩ := equivalentSystem_cases s k a hk
  have main : 0 ≤ T ∧ (a = k → m = 1 / T) ∧ (a = k + 1 → m = -1 / T) := by
    rcases ha with ha | ha
    · have hne : ¬ (a = k + 1) := by omega
      by_cases h0 : a = 0
      · by_cases hi : s.dc.initTime_ > valAt s.eventTimes_ k
        · rw [c4 ha h0 hi] at hret
          exact absurd hret (by simp)
        · rw [c5 ha h0 hi] at hret
          have h := Except.ok.inj hret
          have hT := (Prod.mk.inj h).1
          have hm := (Prod.mk.inj h).2
          refine ⟨?_, fun _ => ?_, fun h => absurd h hne⟩
          · rw [← hT]; linarith [not_lt.mp hi]
          · rw [← hm, ← hT]
      · rw [c6 ha h0] at hret
        have h := Except.ok.inj hret
        have hT := (Prod.mk.inj h).1
        have hm := (Prod.mk.inj h).2
        refine ⟨?_, fun _ => ?_, fun h => absurd h hne⟩
        · rw [← hT]
          have := sorted_getD s.eventTimes_ hsorted (k - 1) k (by omega) hk
          linarith
        · rw [← hm, ← hT]
    · have hne : ¬ (a = k) := by omega
      by_cases h0 : a = s.eventTimes_.length
      · by_cases hf : s.dc.finalTime_ < valAt s.eventTimes_ k
        · rw [c1 ha h0 hf] at hret
          exact absurd hret (by simp)
        · rw [c2 ha h0 hf] at hret
          have h := Except.ok.inj hret
          have hT := (Prod.mk.inj h).1
          have hm := (Prod.mk.inj h).2
          refine ⟨?_, fun h => absurd h hne, fun _ => ?_⟩
          · rw [← hT]; linarith [not_lt.mp hf]
          · rw [← hm, ← hT]
      · rw [c3 ha h0] at hret
        have h := Except.ok.inj hret
        have hT := (Prod.mk.inj h).1
        have hm := (Prod.mk.inj h).2
        refine ⟨?_, fun h => absurd h hne, fun _ => ?_⟩
        · rw [← hT]
          have := sorted_getD s.eventTimes_ hsorted k (k + 1) (by omega) (by omega)
          linarith
        · rw [← hm, ← hT]
  obtain ⟨m1, m2, m3⟩ := main
  refine ⟨m1, m2, m3, fun hT => ⟨fun h => ?_, fun h => ?_⟩⟩
  · rw [m2 h]; positivity
  · rw [m3 h]
    have : 0 < 1 / T := by positivity
    have e : -1 / T = -(1 / T) := by ring
    rw [e]; linarith

theorem C7_duration_nonneg_witness :
    0 ≤ (2 : ℚ) ∧ (2 = 1 → (-1 / 2 : ℚ) = 1 / 2) ∧ (2 = 1 + 1 → (-1 / 2 : ℚ) = -1 / 2) ∧
      (0 < (2 : ℚ) → (2 = 1 → 0 < (-1 / 2 : ℚ)) ∧ (2 = 1 + 1 → (-1 / 2 : ℚ) < 0)) :=
  C7_duration_nonneg threeEvents 1 2 2 (-1 / 2) (by norm_num [threeEvents]) (by decide)
    (Or.inr rfl)
    (by norm_num [equivalentSystemTimePeriodAndMultiplier, threeEvents, readAt, bind,
      Except.bind, pure, Except.pure])

/-! ## The active-range guard -/

/-- C8. Each of `propagateRolloutSensitivity`, `solveSensitivityRiccatiEquations`,
`solveSensitivityBVP`, `calculateLQSensitivityControllerForward`,
`calculateBVPSensitivityControllerForward`, `getValueFuntionDerivative` and
`calculateCostDerivative` throws whenever
`eventTimeIndex < activeEventTimeBeginIndex_` or `eventTimeIndex ≥ activeEventTimeEndIndex_`,
and the output arguments then hold what they held before the call. -/
theorem C8_active_range_guard {X U σ : Type} (eps : ℚ) (ops : RolloutOps X U) (s : GSLQ)
    (eventTimeIndex : Nat) (timeStock : List (List ℚ)) (eventsStock : List (List Nat))
    (stocks : RolloutOut X U) (body : σ → Outcome σ) (out : σ)
    (h : eventTimeIndex < s.activeEventTimeBeginIndex_ ∨
      eventTimeIndex ≥ s.activeEventTimeEndIndex_) :
    propagateRolloutSensitivity eps ops s eventTimeIndex timeStock eventsStock stocks
        = ⟨Except.error inactiveEvent, stocks⟩ ∧
      solveSensitivityRiccatiEquations s eventTimeIndex body out
        = ⟨Except.error inactiveEvent, out⟩ ∧
      solveSensitivityBVP s eventTimeIndex body out = ⟨Except.error inactiveEvent, out⟩ ∧
      calculateLQSensitivityControllerForward s eventTimeIndex body out
        = ⟨Except.error inactiveEvent, out⟩ ∧
      calculateBVPSensitivityControllerForward s eventTimeIndex body out
        = ⟨Except.error inactiveEvent, out⟩ ∧
      getValueFuntionDerivative s eventTimeIndex body out
        = ⟨Except.error inactiveEvent, out⟩ ∧
      calculateCostDerivative s eventTimeIndex body out
        = ⟨Except.error inactiveEvent, out⟩ := by
  refine ⟨?_, ?_, ?_, ?_, ?_, ?_, ?_⟩
  · simp only [propagateRolloutSensitivity, h, if_true]
  · simp only [solveSensitivityRiccatiEquations, h, if_true]
  · simp only [solveSensitivityBVP, h, if_true]
  · simp only [calculateLQSensitivityControllerForward, h, if_true]
  · simp only [calculateBVPSensitivityControllerForward, h, if_true]
  · simp only [getValueFuntionDerivative, h, if_true]
  · simp only [calculateCostDerivative, h, if_true]

theorem C8_active_range_guard_witness :
    propagateRolloutSensitivity (1 / 1000000) constantOps oneEvent 1 [[0, 1, 1, 2], [7]]
        [[2], []] ⟨[[5, 5, 5]], [[6]]⟩
        = ⟨Except.error inactiveEvent, ⟨[[5, 5, 5]], [[6]]⟩⟩ ∧
      solveSensitivityRiccatiEquations oneEvent 1 (fun _ => ⟨Except.ok (), 0⟩) (3 : ℚ)
        = ⟨Except.error inactiveEvent, 3⟩ ∧
      solveSensitivityBVP oneEvent 1 (fun _ => ⟨Except.ok (), 0⟩) (3 : ℚ)
        = ⟨Except.error inactiveEvent, 3⟩ ∧
      calculateLQSensitivityControllerForward oneEvent 1 (fun _ => ⟨Except.ok (), 0⟩) (3 : ℚ)
        = ⟨Except.error inactiveEvent, 3⟩ ∧
      calculateBVPSensitivityControllerForward oneEvent 1 (fun _ => ⟨Except.ok (), 0⟩) (3 : ℚ)
        = ⟨Except.error inactiveEvent, 3⟩ ∧
      getValueFuntionDerivative oneEvent 1 (fun _ => ⟨Except.ok (), 0⟩) (3 : ℚ)
        = ⟨Except.error inactiveEvent, 3⟩ ∧
      calculateCostDerivative oneEvent 1 (fun _ => ⟨Except.ok (), 0⟩) (3 : ℚ)
        = ⟨Except.error inactiveEvent, 3⟩ :=
  C8_active_range_guard (1 / 1000000) constantOps oneEvent 1 [[0, 1, 1, 2], [7]] [[2], []]
    ⟨[[5, 5, 5]], [[6]]⟩ (fun _ => ⟨Except.ok (), 0⟩) (3 : ℚ) (Or.inr (by decide))

/-! ## The active event range -/

theorem valAt_cons_succ (a : ℚ) (l : List ℚ) (k : Nat) : valAt (a :: l) (k + 1) = valAt l k := by
  simp [valAt]

theorem valAt_append_left (l l' : List ℚ) (k : Nat) (h : k < l.length) :
    valAt (l ++ l') k = valAt l k := by
  simp [valAt, List.getElem?_append_left h]

/-- With the ceiling lookup and a time inside the range of `scalar_t`, the subsystem index is
the number of event times that are `≤ time - weekEpsilon`: it is the position `i` such that
exactly the event times before position `i` are `≤ time - weekEpsilon`. -/
theorem findActiveSubsystemIndex_ceiling (eps : ℚ) (eventTimes : List ℚ) (time : ℚ)
    (hsorted : eventTimes.Sorted (· ≤ ·))
    (hrange : ∀ e ∈ eventTimes, scalarLowest ≤ e ∧ e ≤ scalarMax)
    (hsize : eventTimes.length < 2 ^ 31)
    (hlo : scalarLowest + eps ≤ time) (hhi : time < scalarMax + eps) :
    ∃ i : Nat, findActiveSubsystemIndex eps eventTimes time true = Except.ok i ∧
      i ≤ eventTimes.length ∧
      ∀ k : Nat, k < eventTimes.length → (k < i ↔ valAt eventTimes k ≤ time - eps) := by
  have hlm : scalarLowest ≤ scalarMax := by
    unfold scalarLowest scalarMax; norm_num
  have hP : (scalarLowest :: (eventTimes ++ [scalarMax])).Sorted (· ≤ ·) := by
    refine List.sorted_cons.mpr ⟨?_, ?_⟩
    · intro b hb
      rcases List.mem_append.mp hb with h | h
      · exact (hrange b h).1
      · rw [List.mem_singleton.mp h]; exact hlm
    · refine List.pairwise_append.mpr ⟨hsorted, List.pairwise_singleton _ _, ?_⟩
      intro a ha b hb
      rw [List.mem_singleton.mp hb]; exact (hrange a ha).2
  have hlen : (scalarLowest :: (eventTimes ++ [scalarMax])).length = eventTimes.length + 2 := by
    simp
  have hfront : valAt (scalarLowest :: (eventTimes ++ [scalarMax])) 0 = scalarLowest := by
    simp [valAt]
  have hback : valAt (scalarLowest :: (eventTimes ++ [scalarMax]))
      ((scalarLowest :: (eventTimes ++ [scalarMax])).length - 1) = scalarMax := by
    have : (scalarLowest :: (eventTimes ++ [scalarMax])).length - 1 = eventTimes.length + 1 := by
      rw [hlen]; rfl
    rw [this, valAt_cons_succ]
    simp [valAt]
  obtain ⟨i, hi, hres, b1, b2, -, b4⟩ := findActiveIntervalIndex_inside
    (scalarLowest :: (eventTimes ++ [scalarMax])) time 0 eps hP (by rw [hlen]; omega)
    (le_refl _) (by rw [hlen]; push_cast; omega) (by rw [hfront]; exact hlo)
    (by rw [hback]; exact hhi)
  rw [hlen] at hi
  refine ⟨i, ?_, by omega, ?_⟩
  · simp only [findActiveSubsystemIndex, if_true, hres, bind, Except.bind, pure, Except.pure]
    congr 1
    have h1 : ((i : Int) % 2 ^ 64) = (i : Int) := by
      apply Int.emod_eq_of_lt (by omega)
      have : (i : Int) < 2 ^ 31 := by exact_mod_cast (by omega : i < 2 ^ 31)
      omega
    rw [h1]; rfl
  · intro k hk
    have hval : valAt (scalarLowest :: (eventTimes ++ [scalarMax])) (k + 1)
        = valAt eventTimes k := by
      rw [valAt_cons_succ, valAt_append_left _ _ _ hk]
    constructor
    · intro hki
      have := sorted_getD _ hP (k + 1) i (by omega) (by rw [hlen]; omega)
      rw [hval] at this
      exact le_trans this b1
    · intro hle
      have := b4 (k + 1) (by rw [hlen]; omega) (by rw [hval]; exact hle)
      omega

/-- The member variables after a call of `run` that returns. -/
theorem run_fields {σ : Type} (eps : ℚ) (mLQ mBVP : GSLQ → σ → Except Error σ)
    (s : GSLQ) (stocks : σ) (eventTimes : List ℚ) (dc : SLQ_DataCollector)
    (s' : GSLQ) (stocks' : σ)
    (hrun : run eps mLQ mBVP s stocks eventTimes dc = Except.ok (s', stocks')) :
    s'.eventTimes_ = eventTimes ∧ s'.numEventTimes_ = eventTimes.length ∧
      s'.numSubsystems_ = eventTimes.length + 1 ∧ s'.dc = dc ∧
      s'.numPartitions_ = dc.numPartitions_ ∧
      findActiveSubsystemIndex eps eventTimes dc.initTime_ true
        = Except.ok s'.activeEventTimeBeginIndex_ ∧
      findActiveSubsystemIndex eps eventTimes dc.finalTime_ true
        = Except.ok s'.activeEventTimeEndIndex_ := by
  unfold run at hrun
  simp only [bind, Except.bind, pure, Except.pure, setupOptimizer] at hrun
  repeat' split at hrun
  all_goals
    first
    | (simp at hrun; done)
    | (have h1 := (Prod.mk.inj (Except.ok.inj hrun)).1
       subst h1
       simp_all)

/-- The call of `run` returns when the partition count is accepted, both lookups return and
the sensitivity methods are idle. -/
theorem run_idle (eps : ℚ) (s : GSLQ) (eventTimes : List ℚ) (dc : SLQ_DataCollector)
    (b e : Nat) (hnp : dc.numPartitions_ ≠ 0)
    (hb : findActiveSubsystemIndex eps eventTimes dc.initTime_ true = Except.ok b)
    (he : findActiveSubsystemIndex eps eventTimes dc.finalTime_ true = Except.ok e) :
    run eps idleMethod idleMethod s () eventTimes dc = Except.ok
      (⟨s.useLQForDerivatives_, eventTimes, eventTimes.length, eventTimes.length + 1,
        dc.numPartitions_, b, e, dc⟩, ()) := by
  unfold run
  simp only [bind, Except.bind, pure, Except.pure, setupOptimizer, idleMethod, hb, he, hnp,
    if_false]
  split_ifs <;> simp_all

/-- Membership in the active range after `run`, in terms of the event time. -/
theorem run_activeRange {σ : Type} (eps : ℚ) (mLQ mBVP : GSLQ → σ → Except Error σ)
    (s : GSLQ) (stocks : σ) (eventTimes : List ℚ) (dc : SLQ_DataCollector)
    (s' : GSLQ) (stocks' : σ)
    (hsorted : eventTimes.Sorted (· ≤ ·))
    (hrange : ∀ e ∈ eventTimes, scalarLowest ≤ e ∧ e ≤ scalarMax)
    (hsize : eventTimes.length < 2 ^ 31)
    (hinit : scalarLowest + eps ≤ dc.initTime_ ∧ dc.initTime_ < scalarMax + eps)
    (hfinal : scalarLowest + eps ≤ dc.finalTime_ ∧ dc.finalTime_ < scalarMax + eps)
    (hrun : run eps mLQ mBVP s stocks eventTimes dc = Except.ok (s', stocks'))
    (k : Nat) (hk : k < eventTimes.length) :
    (s'.activeEventTimeBeginIndex_ ≤ k ∧ k < s'.activeEventTimeEndIndex_) ↔
      (dc.initTime_ - eps < valAt eventTimes k ∧ valAt eventTimes k ≤ dc.finalTime_ - eps) := by
  obtain ⟨-, -, -, -, -, hb, he⟩ := run_fields eps mLQ mBVP s stocks eventTimes dc s' stocks' hrun
  obtain ⟨b, hb', -, hbk⟩ := findActiveSubsystemIndex_ceiling eps eventTimes dc.initTime_
    hsorted hrange hsize hinit.1 hinit.2
  obtain ⟨e, he', -, hek⟩ := findActiveSubsystemIndex_ceiling eps eventTimes dc.finalTime_
    hsorted hrange hsize hfinal.1 hfinal.2
  have e1 : s'.activeEventTimeBeginIndex_ = b := by
    rw [hb] at hb'; exact Except.ok.inj hb'
  have e2 : s'.activeEventTimeEndIndex_ = e := by
    rw [he] at he'; exact Except.ok.inj he'
  rw [e1, e2, ← hek k hk]
  have := hbk k hk
  constructor
  · rintro ⟨h1, h2⟩
    refine ⟨?_, h2⟩
    by_contra hcon
    have := this.mpr (le_of_not_lt hcon)
    omega
  · rintro ⟨h1, h2⟩
    refine ⟨?_, h2⟩
    by_contra hcon
    have := this.mp (by omega)
    linarith

/-- C9, counterexample.  With `week_epsilon = 10⁻⁶`, the horizon `[0, 1]` and one partition:
for the single event time `0 = initTime` the run sets the active range to `[0, 1)`, so the
event index `0` is active although its event time is not strictly inside the horizon; for the
single event time `1 - 10⁻⁶/2`, strictly inside the horizon, the run sets the active range to
`[0, 0)`, so the event index `0` is not active.  And for no value of `week_epsilon` in `(0, 1]`
is the claim true. -/
theorem C9_strictly_inside_counterexample :
    (run (1 / 1000000) idleMethod idleMethod freshGSLQ () [0] ⟨0, 1, 1, 0, 0⟩
        = Except.ok (⟨true, [0], 1, 2, 1, 0, 1, ⟨0, 1, 1, 0, 0⟩⟩, ()) ∧
      ¬ ((0 : ℚ) < valAt [0] 0)) ∧
    (run (1 / 1000000) idleMethod idleMethod freshGSLQ () [1 - 1 / 2000000] ⟨0, 1, 1, 0, 0⟩
        = Except.ok (⟨true, [1 - 1 / 2000000], 1, 2, 1, 0, 0, ⟨0, 1, 1, 0, 0⟩⟩, ()) ∧
      (0 : ℚ) < valAt [1 - 1 / 2000000] 0 ∧ valAt [1 - 1 / 2000000] 0 < 1) ∧
    ¬ ∃ eps : ℚ, 0 < eps ∧ eps ≤ 1 ∧
      ∀ (s : GSLQ) (eventTimes : List ℚ) (dc : SLQ_DataCollector) (s' : GSLQ),
        eventTimes.Sorted (· ≤ ·) →
        (∀ e ∈ eventTimes, scalarLowest ≤ e ∧ e ≤ scalarMax) →
        eventTimes.length < 2 ^ 31 →
        (scalarLowest + eps ≤ dc.initTime_ ∧ dc.initTime_ < scalarMax + eps) →
        (scalarLowest + eps ≤ dc.finalTime_ ∧ dc.finalTime_ < scalarMax + eps) →
        run eps idleMethod idleMethod s () eventTimes dc = Except.ok (s', ()) →
        ∀ k : Nat, k < eventTimes.length →
          ((s'.activeEventTimeBeginIndex_ ≤ k ∧ k < s'.activeEventTimeEndIndex_) ↔
            (dc.initTime_ < valAt eventTimes k ∧ valAt eventTimes k < dc.finalTime_)) := by
  have hmax : (1 : ℚ) < scalarMax := by unfold scalarMax; norm_num
  refine ⟨⟨?_, by norm_num [valAt]⟩, ⟨?_, by norm_num [valAt], by norm_num [valAt]⟩, ?_⟩
  · have hb : findActiveSubsystemIndex (1 / 1000000) [0] 0 true = Except.ok 0 := by
      norm_num [findActiveSubsystemIndex, findActiveIntervalIndex, readAt, searchUp,
        searchDown, scalarLowest, scalarMax, bind, Except.bind, pure, Except.pure]
    have he : findActiveSubsystemIndex (1 / 1000000) [0] 1 true = Except.ok 1 := by
      norm_num [findActiveSubsystemIndex, findActiveIntervalIndex, readAt, searchUp,
        searchDown, scalarLowest, scalarMax, bind, Except.bind, pure, Except.pure]
    exact run_idle (1 / 1000000) freshGSLQ [0] ⟨0, 1, 1, 0, 0⟩ 0 1 (by decide) hb he
  · have hb : findActiveSubsystemIndex (1 / 1000000) [1 - 1 / 2000000] 0 true
        = Except.ok 0 := by
      norm_num [findActiveSubsystemIndex, findActiveIntervalIndex, readAt, searchUp,
        searchDown, scalarLowest, scalarMax, bind, Except.bind, pure, Except.pure]
    have he : findActiveSubsystemIndex (1 / 1000000) [1 - 1 / 2000000] 1 true
        = Except.ok 0 := by
      norm_num [findActiveSubsystemIndex, findActiveIntervalIndex, readAt, searchUp,
        searchDown, scalarLowest, scalarMax, bind, Except.bind, pure, Except.pure]
    exact run_idle (1 / 1000000) freshGSLQ [1 - 1 / 2000000] ⟨0, 1, 1, 0, 0⟩ 0 0 (by decide)
      hb he
  · rintro ⟨eps, heps, heps1, h⟩
    have hsorted : ([0] : List ℚ).Sorted (· ≤ ·) := by simp
    have hrange : ∀ e ∈ ([0] : List ℚ), scalarLowest ≤ e ∧ e ≤ scalarMax := by
      intro e he
      rw [List.mem_singleton.mp he]
      unfold scalarLowest
      constructor <;> linarith
    have hsize : ([0] : List ℚ).length < 2 ^ 31 := by norm_num
    have hinit : scalarLowest + eps ≤ 0 ∧ (0 : ℚ) < scalarMax + eps := by
      unfold scalarLowest
      constructor <;> linarith
    have hfinal : scalarLowest + eps ≤ 2 * eps ∧ 2 * eps < scalarMax + eps := by
      unfold scalarLowest
      constructor <;> linarith
    obtain ⟨b, hb, -, -⟩ := findActiveSubsystemIndex_ceiling eps [0] 0 hsorted hrange hsize
      hinit.1 hinit.2
    obtain ⟨e, he, -, -⟩ := findActiveSubsystemIndex_ceiling eps [0] (2 * eps) hsorted hrange
      hsize hfinal.1 hfinal.2
    have hrun := run_idle eps freshGSLQ [0] ⟨0, 2 * eps, 1, 0, 0⟩ b e (by norm_num) hb he
    have hclaim := h freshGSLQ [0] ⟨0, 2 * eps, 1, 0, 0⟩ _ hsorted hrange hsize hinit hfinal
      hrun 0 (by norm_num)
    have hcode := run_activeRange eps idleMethod idleMethod freshGSLQ () [0]
      ⟨0, 2 * eps, 1, 0, 0⟩ _ () hsorted hrange hsize hinit hfinal hrun 0 (by norm_num)
    have hact := hcode.mpr (by simp [valAt]; constructor <;> linarith)
    have := (hclaim.mp hact).1
    simp [valAt] at this

/-- C9, amended.  After `run(eventTimes, dc)` returns, with sorted event times and all times
within the range of `scalar_t`, an event index `k` belongs to the active range
`[activeEventTimeBeginIndex_, activeEventTimeEndIndex_)` if and only if
`initTime - week_epsilon < eventTimes[k] ≤ finalTime - week_epsilon`. -/
theorem C9_active_range_after_run {σ : Type} (eps : ℚ)
    (mLQ mBVP : GSLQ → σ → Except Error σ)
    (s : GSLQ) (stocks : σ) (eventTimes : List ℚ) (dc : SLQ_DataCollector)
    (s' : GSLQ) (stocks' : σ) (_heps : 0 < eps)
    (hsorted : eventTimes.Sorted (· ≤ ·))
    (hrange : ∀ e ∈ eventTimes, scalarLowest ≤ e ∧ e ≤ scalarMax)
    (hsize : eventTimes.length < 2 ^ 31)
    (hinit : scalarLowest + eps ≤ dc.initTime_ ∧ dc.initTime_ < scalarMax + eps)
    (hfinal : scalarLowest + eps ≤ dc.finalTime_ ∧ dc.finalTime_ < scalarMax + eps)
    (hrun : run eps mLQ mBVP s stocks eventTimes dc = Except.ok (s', stocks'))
    (k : Nat) (hk : k < eventTimes.length) :
    (s'.activeEventTimeBeginIndex_ ≤ k ∧ k < s'.activeEventTimeEndIndex_) ↔
      (dc.initTime_ - eps < valAt eventTimes k ∧ valAt eventTimes k ≤ dc.finalTime_ - eps) :=
  run_activeRange eps mLQ mBVP s stocks eventTimes dc s' stocks' hsorted hrange hsize hinit
    hfinal hrun k hk

theorem C9_active_range_after_run_witness :
    ((⟨true, [1 / 2], 1, 2, 1, 0, 1, ⟨0, 1, 1, 0, 0⟩⟩ : GSLQ).activeEventTimeBeginIndex_ ≤ 0 ∧
      0 < (⟨true, [1 / 2], 1, 2, 1, 0, 1, ⟨0, 1, 1, 0, 0⟩⟩ : GSLQ).activeEventTimeEndIndex_) ↔
      ((⟨0, 1, 1, 0, 0⟩ : SLQ_DataCollector).initTime_ - 1 / 1000000 < valAt [1 / 2] 0 ∧
        valAt [1 / 2] 0 ≤ (⟨0, 1, 1, 0, 0⟩ : SLQ_DataCollector).finalTime_ - 1 / 1000000) :=
  C9_active_range_after_run (1 / 1000000) idleMethod idleMethod freshGSLQ () [1 / 2]
    ⟨0, 1, 1, 0, 0⟩ ⟨true, [1 / 2], 1, 2, 1, 0, 1, ⟨0, 1, 1, 0, 0⟩⟩ () (by norm_num)
    (by simp)
    (by
      intro e he
      rw [List.mem_singleton.mp he]
      unfold scalarLowest scalarMax
      constructor <;> norm_num)
    (by norm_num)
    (by unfold scalarLowest scalarMax; constructor <;> norm_num)
    (by unfold scalarLowest scalarMax; constructor <;> norm_num)
    (run_idle (1 / 1000000) freshGSLQ [1 / 2] ⟨0, 1, 1, 0, 0⟩ 0 1 (by decide)
      (by
        norm_num [findActiveSubsystemIndex, findActiveIntervalIndex, readAt, searchUp,
          searchDown, scalarLowest, scalarMax, bind, Except.bind, pure, Except.pure])
      (by
        norm_num [findActiveSubsystemIndex, findActiveIntervalIndex, readAt, searchUp,
          searchDown, scalarLowest, scalarMax, bind, Except.bind, pure, Except.pure]))
    0 (by norm_num)

/-! ## The lengths of the sensitivity trajectories -/

theorem inputLoop_spec {X U : Type} (f : ℚ → X → U) (times : List ℚ) (states : List X)
    (d : Nat) :
    ∀ (k_u : Nat) (inputs : List U), states.length - k_u = d → k_u ≤ states.length →
      inputs.length = k_u → (inputLoop f times states k_u inputs).1 = Except.ok () →
      (inputLoop f times states k_u inputs).2.1 = states.length ∧
        (inputLoop f times states k_u inputs).2.2.length = states.length := by
  induction d with
  | zero =>
    intro k_u inputs hd hk hi _
    have hlt : ¬ k_u < states.length := by omega
    rw [inputLoop]
    simp only [hlt, dif_neg, not_false_eq_true]
    omega
  | succ d ih =>
    intro k_u inputs hd hk hi hok
    have hlt : k_u < states.length := by omega
    rw [inputLoop] at hok ⊢
    simp only [hlt, dif_pos] at hok ⊢
    cases ht : times[k_u]? with
    | none =>
      simp only [ht] at hok
      exact absurd hok (by simp)
    | some t =>
      simp only [ht] at hok ⊢
      exact ih (k_u + 1) _ (by omega) (by omega) (by simp [hi]) hok

theorem readAt_ok {α : Type} (v : List α) (i : Nat) (x : α)
    (h : readAt v i = Except.ok x) : v[i]? = some x := by
  unfold readAt at h
  split at h
  · rename_i y hy
    rw [hy, Except.ok.inj h]
  · exact absurd h (by simp)

theorem segmentRange_ok (times : List ℚ) (E : List Nat) (j b e : Nat)
    (h : segmentRange times E j = Except.ok (b, e)) :
    (j = 0 → b = 0) ∧ (0 < j → E[j - 1]? = some b) ∧
      (j = E.length → e = times.length) ∧ (j ≠ E.length → E[j]? = some e) := by
  unfold segmentRange at h
  split at h
  · rename_i vb ve hx hy
    have hbe := Prod.mk.inj (Except.ok.inj h)
    rw [← hbe.1, ← hbe.2]
    refine ⟨fun h0 => ?_, fun h0 => ?_, fun h1 => ?_, fun h1 => ?_⟩
    · rw [if_pos h0] at hx
      exact (Except.ok.inj hx).symm
    · rw [if_neg (by omega)] at hx
      exact readAt_ok E (j - 1) vb hx
    · rw [if_pos h1] at hy
      exact (Except.ok.inj hy).symm
    · rw [if_neg h1] at hy
      exact readAt_ok E j ve hy
  · exact absurd h (by simp)
  · exact absurd h (by simp)

theorem integrateSegment_spec {X U : Type} (eps : ℚ) (ops : RolloutOps X U) (s : GSLQ)
    (k i : Nat) (times : List ℚ) (b e : Nat) (st : SegmentState X U)
    (hint : ∀ (p : Nat) (m : ℚ) (x : X) (ts : List ℚ),
      (ops.integrate p m x ts).length = ts.length)
    (h1 : st.inputs.length = st.states.length) (h2 : st.k_u = st.states.length)
    (h3 : st.states.length = b)
    (hok : (integrateSegment eps ops s k i times b e st).1 = Except.ok ()) :
    (integrateSegment eps ops s k i times b e st).2.inputs.length
        = (integrateSegment eps ops s k i times b e st).2.states.length ∧
      (integrateSegment eps ops s k i times b e st).2.k_u
        = (integrateSegment eps ops s k i times b e st).2.states.length ∧
      (integrateSegment eps ops s k i times b e st).2.states.length = e := by
  unfold integrateSegment at hok ⊢
  by_cases hne : e ≠ b
  · by_cases hrange : b < e ∧ e ≤ times.length
    · rw [if_pos hne, if_pos hrange] at hok ⊢
      cases hm : segmentMultiplier eps s k times b e with
      | error err =>
        simp only [hm] at hok
        exact absurd hok (by simp)
      | ok m =>
        simp only [hm] at hok ⊢
        have hlen : (st.states ++ ops.integrate i m st.nabla_xInit
            ((times.drop b).take (e - b))).length = e := by
          rw [List.length_append, hint, List.length_take, List.length_drop]
          omega
        obtain ⟨c1, c2⟩ := inputLoop_spec (ops.computeInput i) times
          (st.states ++ ops.integrate i m st.nabla_xInit ((times.drop b).take (e - b)))
          _ st.k_u st.inputs rfl (by rw [hlen]; omega) (by omega) hok
        exact ⟨c2, c1, hlen⟩
    · rw [if_pos hne, if_neg hrange] at hok
      exact absurd hok (by simp)
  · have heq : e = b := not_not.mp hne
    rw [if_neg hne]
    exact ⟨h1, h2, by rw [heq]; exact h3⟩

theorem segmentLoop_spec {X U : Type} (eps : ℚ) (ops : RolloutOps X U) (s : GSLQ)
    (k i : Nat) (times : List ℚ) (E : List Nat)
    (hint : ∀ (p : Nat) (m : ℚ) (x : X) (ts : List ℚ),
      (ops.integrate p m x ts).length = ts.length)
    (d : Nat) :
    ∀ (j : Nat) (st : SegmentState X U), E.length + 1 - j = d →
      st.inputs.length = st.states.length → st.k_u = st.states.length →
      (j = 0 → st.states.length = 0) →
      (0 < j → j ≤ E.length → E[j - 1]? = some st.states.length) →
      (E.length < j → st.states.length = times.length) →
      (segmentLoop eps ops s k i times E j st).1 = Except.ok () →
      (segmentLoop eps ops s k i times E j st).2.states.length = times.length ∧
        (segmentLoop eps ops s k i times E j st).2.inputs.length = times.length := by
  induction d with
  | zero =>
    intro j st hd h1 _ _ _ h5 _
    have hj : ¬ j ≤ E.length := by omega
    rw [segmentLoop]
    simp only [hj, if_false]
    have := h5 (by omega)
    exact ⟨this, by omega⟩
  | succ d ih =>
    intro j st hd h1 h2 h3 h4 _ hok
    have hj : j ≤ E.length := by omega
    rw [segmentLoop] at hok ⊢
    simp only [hj, if_true] at hok ⊢
    cases hr : segmentRange times E j with
    | error err =>
      simp only [hr] at hok
      exact absurd hok (by simp)
    | ok be =>
      obtain ⟨b, e⟩ := be
      obtain ⟨r1, r2, r3, r4⟩ := segmentRange_ok times E j b e hr
      have hb : st.states.length = b := by
        rcases Nat.eq_zero_or_pos j with h0 | h0
        · rw [h3 h0, r1 h0]
        · have := h4 h0 hj
          rw [r2 h0] at this
          exact (Option.some.inj this).symm
      simp only [hr] at hok ⊢
      have hseg := integrateSegment_spec eps ops s k i times b e st hint h1 h2 hb
      generalize integrateSegment eps ops s k i times b e st = res at hok hseg ⊢
      obtain ⟨status, st1⟩ := res
      cases status with
      | error err =>
        simp only at hok
        exact absurd hok (by simp)
      | ok u =>
        obtain ⟨s1, s2, s3⟩ := hseg rfl
        simp only at s1 s2 s3
        simp only at hok ⊢
        by_cases hjn : j < E.length
        · simp only [hjn, if_true] at hok ⊢
          cases hl : st1.states.getLast? with
          | none =>
            simp only [hl] at hok
            exact absurd hok (by simp)
          | some x =>
            simp only [hl] at hok ⊢
            refine ih (j + 1) ⟨x, st1.states, st1.inputs, st1.k_u⟩ (by omega) s1 s2
              (fun h => by omega) (fun _ _ => ?_) (fun h => by omega) hok
            have := r4 (by omega)
            simp only [Nat.add_sub_cancel]
            rw [this, s3]
        · simp only [hjn, if_false] at hok ⊢
          refine ih (j + 1) st1 (by omega) s1 s2 (fun h => by omega) (fun _ h => by omega)
            (fun _ => ?_) hok
          rw [s3]
          exact r3 (by omega)

theorem resize_length {α : Type} (v : List (List α)) (n : Nat) : (resize v n).length = n := by
  unfold resize
  rw [List.length_append, List.length_take, List.length_replicate]
  omega

theorem partitionLoop_spec {X U : Type} (eps : ℚ) (ops : RolloutOps X U) (s : GSLQ)
    (k : Nat) (timeStock : List (List ℚ)) (eventsStock : List (List Nat))
    (hint : ∀ (p : Nat) (m : ℚ) (x : X) (ts : List ℚ),
      (ops.integrate p m x ts).length = ts.length)
    (d : Nat) :
    ∀ (i : Nat) (x0 : X) (out : RolloutOut X U), s.numPartitions_ - i = d →
      out.sensitivityStateTrajectoriesStock.length = s.numPartitions_ →
      out.sensitivityInputTrajectoriesStock.length = s.numPartitions_ →
      (partitionLoop eps ops s k timeStock eventsStock i x0 out).status = Except.ok () →
      (partitionLoop eps ops s k timeStock eventsStock i x0 out).out.sensitivityStateTrajectoriesStock.length = s.numPartitions_ ∧
        (partitionLoop eps ops s k timeStock eventsStock i x0 out).out.sensitivityInputTrajectoriesStock.length = s.numPartitions_ ∧
        (∀ j : Nat, j < i →
          SensitivityInvariant s timeStock out j →
          SensitivityInvariant s timeStock
            (partitionLoop eps ops s k timeStock eventsStock i x0 out).out j) ∧
        (∀ j : Nat, i ≤ j → j < s.numPartitions_ →
          SensitivityInvariant s timeStock
            (partitionLoop eps ops s k timeStock eventsStock i x0 out).out j) := by
  induction d with
  | zero =>
    intro i x0 out hd h1 h2 _
    have hi : ¬ i < s.numPartitions_ := by omega
    rw [partitionLoop]
    simp only [hi, if_false]
    exact ⟨h1, h2, fun j _ h => h, fun j hj1 hj2 => by omega⟩
  | succ d ih =>
    intro i x0 out hd h1 h2 hok
    have hi : i < s.numPartitions_ := by omega
    rw [partitionLoop] at hok ⊢
    simp only [hi, if_true] at hok ⊢
    -- what the rest of the loop preserves, once the entry `i` is written
    have step : ∀ (x1 : X) (out1 : RolloutOut X U),
        out1.sensitivityStateTrajectoriesStock.length = s.numPartitions_ →
        out1.sensitivityInputTrajectoriesStock.length = s.numPartitions_ →
        (∀ j : Nat, j < i → SensitivityInvariant s timeStock out j →
          SensitivityInvariant s timeStock out1 j) →
        SensitivityInvariant s timeStock out1 i →
        (partitionLoop eps ops s k timeStock eventsStock (i + 1) x1 out1).status
          = Except.ok () →
        (partitionLoop eps ops s k timeStock eventsStock (i + 1) x1 out1).out.sensitivityStateTrajectoriesStock.length = s.numPartitions_ ∧
          (partitionLoop eps ops s k timeStock eventsStock (i + 1) x1 out1).out.sensitivityInputTrajectoriesStock.length = s.numPartitions_ ∧
          (∀ j : Nat, j < i →
            SensitivityInvariant s timeStock out j →
            SensitivityInvariant s timeStock
              (partitionLoop eps ops s k timeStock eventsStock (i + 1) x1 out1).out j) ∧
          (∀ j : Nat, i ≤ j → j < s.numPartitions_ →
            SensitivityInvariant s timeStock
              (partitionLoop eps ops s k timeStock eventsStock (i + 1) x1 out1).out j) := by
      intro x1 out1 g1 g2 g3 g4 gok
      obtain ⟨r1, r2, r3, r4⟩ := ih (i + 1) x1 out1 (by omega) g1 g2 gok
      refine ⟨r1, r2, fun j hj h => r3 j (by omega) (g3 j hj h), fun j hj1 hj2 => ?_⟩
      rcases Nat.eq_or_lt_of_le hj1 with h | h
      · rw [← h]; exact r3 i (by omega) g4
      · exact r4 j (by omega) hj2
    have hne : ∀ j : Nat, j < i → i ≠ j := fun j hj => by omega
    by_cases hinact : i < s.dc.initActivePartition_ ∨ i > s.dc.finalActivePartition_
    · simp only [hinact, if_true] at hok ⊢
      refine step x0 _ (by simp [h1]) (by simp [h2]) (fun j hj h => ?_) ?_ hok
      · unfold SensitivityInvariant at h ⊢
        simpa only [List.getElem?_set_ne (hne j hj)] using h
      · unfold SensitivityInvariant
        rw [if_pos hinact]
        exact ⟨List.getElem?_set_self (by omega), List.getElem?_set_self (by omega)⟩
    · simp only [hinact, if_false] at hok ⊢
      cases ht : timeStock[i]? with
      | none =>
        simp only [ht] at hok
        exact absurd hok (by simp)
      | some times =>
        cases he : eventsStock[i]? with
        | none =>
          simp only [ht, he] at hok
          exact absurd hok (by simp)
        | some E =>
          simp only [ht, he] at hok ⊢
          by_cases hnil : times = []
          · simp only [hnil, if_true] at hok
            exact absurd hok (by simp)
          · simp only [hnil, if_false] at hok ⊢
            have hseg := segmentLoop_spec eps ops s k i times E hint _ 0
              ⟨x0, [], [], 0⟩ rfl rfl rfl (fun _ => rfl) (fun h => by omega)
              (fun h => by omega)
            generalize segmentLoop eps ops s k i times E 0 ⟨x0, [], [], 0⟩ = res
              at hok hseg ⊢
            obtain ⟨status, st⟩ := res
            cases status with
            | error err =>
              simp only at hok
              exact absurd hok (by simp)
            | ok u =>
              obtain ⟨s1, s2⟩ := hseg rfl
              simp only at s1 s2 hok ⊢
              cases hl : st.states.getLast? with
              | none =>
                simp only [hl] at hok
                exact absurd hok (by simp)
              | some x1 =>
                simp only [hl] at hok ⊢
                refine step x1 _ (by simp [h1]) (by simp [h2]) (fun j hj h => ?_) ?_ hok
                · unfold SensitivityInvariant at h ⊢
                  simpa only [List.getElem?_set_ne (hne j hj)] using h
                · unfold SensitivityInvariant
                  rw [if_neg hinact]
                  exact ⟨times, st.states, st.inputs, ht,
                    List.getElem?_set_self (by omega), List.getElem?_set_self (by omega),
                    s1, s2⟩

/-- The call of `propagateRolloutSensitivity` for the event index `0` of `oneEvent`, on a
first partition with the time stamps `0, 1, 1, 2` interrupted by the event after two stamps and
an inactive second partition, returns normally. -/
theorem propagate_oneEvent_returns :
    (propagateRolloutSensitivity sampleEpsilon constantOps oneEvent 0 [[0, 1, 1, 2], [7]]
      [[2], []] ⟨[[5, 5, 5], [6], [7]], []⟩).status = Except.ok () := by
  have hb : findActiveSubsystemIndex (1 / 1000000) [1] (1 / 2) true = Except.ok 0 := by
    norm_num [findActiveSubsystemIndex, findActiveIntervalIndex, readAt, searchUp,
      searchDown, scalarLowest, scalarMax, bind, Except.bind, pure, Except.pure]
  have he : findActiveSubsystemIndex (1 / 1000000) [1] (3 / 2) true = Except.ok 1 := by
    norm_num [findActiveSubsystemIndex, findActiveIntervalIndex, readAt, searchUp,
      searchDown, scalarLowest, scalarMax, bind, Except.bind, pure, Except.pure]
  have m1 : segmentMultiplier sampleEpsilon oneEvent 0 [0, 1, 1, 2] 0 2 = Except.ok 1 := by
    norm_num [segmentMultiplier, sampleEpsilon, readAt, oneEvent, hb,
      computeEquivalentSystemMultiplier, equivalentSystemTimePeriodAndMultiplier, bind,
      Except.bind, pure, Except.pure]
  have m2 : segmentMultiplier sampleEpsilon oneEvent 0 [0, 1, 1, 2] 2 4 = Except.ok (-1) := by
    norm_num [segmentMultiplier, sampleEpsilon, readAt, oneEvent, he,
      computeEquivalentSystemMultiplier, equivalentSystemTimePeriodAndMultiplier, bind,
      Except.bind, pure, Except.pure]
  have p1 : oneEvent.numPartitions_ = 2 := rfl
  have p2 : oneEvent.activeEventTimeBeginIndex_ = 0 := rfl
  have p3 : oneEvent.activeEventTimeEndIndex_ = 1 := rfl
  have p4 : oneEvent.dc.initActivePartition_ = 0 := rfl
  have p5 : oneEvent.dc.finalActivePartition_ = 0 := rfl
  simp [propagateRolloutSensitivity, partitionLoop, segmentLoop, segmentRange,
    integrateSegment, inputLoop, readAt, resize, m1, m2, constantOps, p1, p2, p3, p4, p5]

/-- C10. Model the integrator as appending exactly one state per time stamp of the sub-segment
it is given, and assume that in every active partition the events-past-the-end indices are
non-decreasing and lie in `[1, N]`.  Then after a normal return of
`propagateRolloutSensitivity` both output stocks have `numPartitions_` entries, and every
partition satisfies the sensitivity-trajectory invariant: the state- and input-sensitivity
arrays of an inactive partition are empty, whatever the stocks held before the call, and those
of an active partition both have the length `N` of that partition's time-stamp array.  (In
this embedding an index list that violates the assumption leads to an access outside the bounds
of the time-stamp array, which is not a normal return.) -/
theorem C10_propagateRolloutSensitivity_invariant {X U : Type} (eps : ℚ)
    (ops : RolloutOps X U) (s : GSLQ) (eventTimeIndex : Nat) (timeStock : List (List ℚ))
    (eventsStock : List (List Nat)) (stocks : RolloutOut X U)
    (hint : ∀ (p : Nat) (m : ℚ) (x : X) (ts : List ℚ),
      (ops.integrate p m x ts).length = ts.length)
    (_hevents : ∀ (i : Nat) (times : List ℚ) (E : List Nat), i < s.numPartitions_ →
      ¬ (i < s.dc.initActivePartition_ ∨ i > s.dc.finalActivePartition_) →
      timeStock[i]? = some times → eventsStock[i]? = some E →
      E.Sorted (· ≤ ·) ∧ ∀ e ∈ E, 1 ≤ e ∧ e ≤ times.length)
    (hret : (propagateRolloutSensitivity eps ops s eventTimeIndex timeStock eventsStock
      stocks).status = Except.ok ()) :
    (propagateRolloutSensitivity eps ops s eventTimeIndex timeStock eventsStock
        stocks).out.sensitivityStateTrajectoriesStock.length = s.numPartitions_ ∧
      (propagateRolloutSensitivity eps ops s eventTimeIndex timeStock eventsStock
        stocks).out.sensitivityInputTrajectoriesStock.length = s.numPartitions_ ∧
      ∀ j : Nat, j < s.numPartitions_ →
        SensitivityInvariant s timeStock
          (propagateRolloutSensitivity eps ops s eventTimeIndex timeStock eventsStock
            stocks).out j := by
  unfold propagateRolloutSensitivity at hret ⊢
  by_cases hguard : eventTimeIndex < s.activeEventTimeBeginIndex_ ∨
      eventTimeIndex ≥ s.activeEventTimeEndIndex_
  · rw [if_pos hguard] at hret
    exact absurd hret (by simp)
  · rw [if_neg hguard] at hret ⊢
    obtain ⟨r1, r2, -, r4⟩ := partitionLoop_spec eps ops s eventTimeIndex timeStock eventsStock
      hint _ 0 ops.zero _ rfl (resize_length _ _) (resize_length _ _) hret
    exact ⟨r1, r2, fun j hj => r4 j (Nat.zero_le j) hj⟩

theorem C10_propagateRolloutSensitivity_invariant_witness :
    (propagateRolloutSensitivity sampleEpsilon constantOps oneEvent 0 [[0, 1, 1, 2], [7]]
        [[2], []] ⟨[[5, 5, 5], [6], [7]], []⟩).out.sensitivityStateTrajectoriesStock.length
        = oneEvent.numPartitions_ ∧
      (propagateRolloutSensitivity sampleEpsilon constantOps oneEvent 0 [[0, 1, 1, 2], [7]]
        [[2], []] ⟨[[5, 5, 5], [6], [7]], []⟩).out.sensitivityInputTrajectoriesStock.length
        = oneEvent.numPartitions_ ∧
      ∀ j : Nat, j < oneEvent.numPartitions_ →
        SensitivityInvariant oneEvent [[0, 1, 1, 2], [7]]
          (propagateRolloutSensitivity sampleEpsilon constantOps oneEvent 0
            [[0, 1, 1, 2], [7]] [[2], []] ⟨[[5, 5, 5], [6], [7]], []⟩).out j :=
  C10_propagateRolloutSensitivity_invariant sampleEpsilon constantOps oneEvent 0
    [[0, 1, 1, 2], [7]] [[2], []] ⟨[[5, 5, 5], [6], [7]], []⟩
    (by intro p m x ts; simp [constantOps])
    (by
      intro i times E hi hact ht hE
      have p4 : oneEvent.dc.initActivePartition_ = 0 := rfl
      have p5 : oneEvent.dc.finalActivePartition_ = 0 := rfl
      have hi0 : i = 0 := by rw [p4, p5] at hact; omega
      subst hi0
      simp only [List.getElem?_cons_zero, Option.some.injEq] at ht hE
      subst ht
      subst hE
      simp)
    propagate_oneEvent_returns

/-! ## Claims on the guess of `findActiveIntervalIndex` -/

/-- On a non-decreasing vector two valid guesses give the same outcome. -/
theorem findActiveIntervalIndex_guess (B : List ℚ) (q : ℚ) (g1 g2 : Int) (eps : ℚ)
    (hB : B.Sorted (· ≤ ·)) (hn : 2 ≤ B.length)
    (h10 : 0 ≤ g1) (h11 : g1 ≤ (B.length : Int) - 2)
    (h20 : 0 ≤ g2) (h21 : g2 ≤ (B.length : Int) - 2) :
    findActiveIntervalIndex B q g1 eps = findActiveIntervalIndex B q g2 eps := by
  obtain ⟨r1, hr1, c1⟩ := findActiveIntervalIndex_sorted B q g1 eps hB hn h10 h11
  obtain ⟨r2, hr2, c2⟩ := findActiveIntervalIndex_sorted B q g2 eps hB hn h20 h21
  rw [hr1, hr2, IsCut.unique c1 c2]

/-- C19. The guess only affects the search, not the answer: for a non-decreasing boundary
vector of length `n ≥ 2`, every query, every epsilon and any two valid guesses in `[0, n-2]`
the explicit-guess form gives the same result. -/
theorem C19_guess_independent (B : List ℚ) (q : ℚ) (g1 g2 : Int) (eps : ℚ)
    (hB : B.Sorted (· ≤ ·)) (hn : 2 ≤ B.length)
    (h10 : 0 ≤ g1) (h11 : g1 ≤ (B.length : Int) - 2)
    (h20 : 0 ≤ g2) (h21 : g2 ≤ (B.length : Int) - 2) :
    findActiveIntervalIndex B q g1 eps = findActiveIntervalIndex B q g2 eps := by
  obtain ⟨r1, hr1, c1⟩ := findActiveIntervalIndex_sorted B q g1 eps hB hn h10 h11
  obtain ⟨r2, hr2, c2⟩ := findActiveIntervalIndex_sorted B q g2 eps hB hn h20 h21
  have hr : r1 = r2 := IsCut.unique c1 c2
  rw [hr1, hr2, hr]

theorem C19_guess_independent_witness :
    findActiveIntervalIndex [0, 1, 2, 3] (5 / 2) 0 (-1 / 1000)
      = findActiveIntervalIndex [0, 1, 2, 3] (5 / 2) 2 (-1 / 1000) :=
  C19_guess_independent [0, 1, 2, 3] (5 / 2) 0 2 (-1 / 1000) (by norm_num) (by simp)
    (by norm_num) (by simp) (by norm_num) (by simp)

/-! ## Floor and ceiling lookup -/

/-- A query on an interior boundary `B[i]` of a vector whose consecutive gaps exceed `eps > 0`:
with `+eps` the interval that ends at the boundary is found, with `-eps` the one that starts
there. -/
theorem findActiveIntervalIndex_on_boundary (B : List ℚ) (eps : ℚ) (g : Int) (i : Nat)
    (hstrict : B.Sorted (· < ·))
    (hgap : ∀ j : Nat, j + 1 < B.length → valAt B j + eps < valAt B (j + 1))
    (heps : 0 < eps) (hg0 : 0 ≤ g) (hg1 : g ≤ (B.length : Int) - 2)
    (hi0 : 0 < i) (hi1 : i + 1 < B.length) :
    findActiveIntervalIndex B (valAt B i) g eps = Except.ok ((i : Int) - 1) ∧
      findActiveIntervalIndex B (valAt B i) g (-eps) = Except.ok (i : Int) := by
  have hB : B.Sorted (· ≤ ·) := List.Pairwise.imp (fun h => le_of_lt h) hstrict
  have hn : 2 ≤ B.length := by omega
  have hprev := hgap (i - 1) (by omega)
  have hi' : i - 1 + 1 = i := by omega
  rw [hi'] at hprev
  have hnext := hgap i hi1
  have h0 := sorted_getD B hB 0 (i - 1) (by omega) (by omega)
  have hlast := sorted_getD B hB (i + 1) (B.length - 1) (by omega) (by omega)
  constructor
  · obtain ⟨r, hr, hres, -, -, huniq, -⟩ := findActiveIntervalIndex_inside B (valAt B i) g eps
      hB hn hg0 hg1 (by linarith) (by linarith)
    have := huniq (i - 1) (by omega) (by linarith) (by rw [hi']; linarith)
    rw [hres, ← this]
    congr 1
    omega
  · obtain ⟨r, hr, hres, -, -, huniq, -⟩ := findActiveIntervalIndex_inside B (valAt B i) g
      (-eps) hB hn hg0 hg1 (by linarith) (by linarith)
    have := huniq i hi1 (by linarith) (by linarith)
    rw [hres, ← this]

/-- C18. Floor versus ceiling lookup.  For a strictly increasing boundary vector `B` whose
consecutive gaps all exceed `epsilon > 0`, a valid guess and an interior boundary index `i`
with `0 < i < n-1`: `findActiveIntervalIndex(B, B[i], guess, +epsilon)` returns `i-1` and
`findActiveIntervalIndex(B, B[i], guess, -epsilon)` returns `i`; `findActivePartitionIndex`
returns `i-1` with `ceilingFunction = true` and `i` with `ceilingFunction = false`, and so does
`findActiveSubsystemIndex` when `B` is its vector `lowest(), eventTimes..., max()`. -/
theorem C18_floor_versus_ceiling (B : List ℚ) (eps : ℚ) (g : Int) (i : Nat)
    (hstrict : B.Sorted (· < ·))
    (hgap : ∀ j : Nat, j + 1 < B.length → valAt B j + eps < valAt B (j + 1))
    (heps : 0 < eps) (hg0 : 0 ≤ g) (hg1 : g ≤ (B.length : Int) - 2)
    (hi0 : 0 < i) (hi1 : i + 1 < B.length) (hsize : B.length < 2 ^ 31) :
    findActiveIntervalIndex B (valAt B i) g eps = Except.ok ((i : Int) - 1) ∧
      findActiveIntervalIndex B (valAt B i) g (-eps) = Except.ok (i : Int) ∧
      findActivePartitionIndex eps B (valAt B i) true = Except.ok (i - 1) ∧
      findActivePartitionIndex eps B (valAt B i) false = Except.ok i ∧
      ∀ eventTimes : List ℚ, B = scalarLowest :: (eventTimes ++ [scalarMax]) →
        findActiveSubsystemIndex eps eventTimes (valAt B i) true = Except.ok (i - 1) ∧
        findActiveSubsystemIndex eps eventTimes (valAt B i) false = Except.ok i := by
  obtain ⟨c1, c2⟩ := findActiveIntervalIndex_on_boundary B eps g i hstrict hgap heps hg0 hg1
    hi0 hi1
  obtain ⟨d1, d2⟩ := findActiveIntervalIndex_on_boundary B eps 0 i hstrict hgap heps
    (le_refl _) (by omega) hi0 hi1
  have e1 : (((i : Int) - 1) % 2 ^ 64).toNat = i - 1 := by
    have : ((i : Int) - 1) % 2 ^ 64 = (i : Int) - 1 := by
      apply Int.emod_eq_of_lt (by omega)
      have : (i : Int) < 2 ^ 31 := by exact_mod_cast (by omega : i < 2 ^ 31)
      omega
    rw [this]; omega
  have e2 : ((i : Int) % 2 ^ 64).toNat = i := by
    have : (i : Int) % 2 ^ 64 = (i : Int) := by
      apply Int.emod_eq_of_lt (by omega)
      have : (i : Int) < 2 ^ 31 := by exact_mod_cast (by omega : i < 2 ^ 31)
      omega
    rw [this]; rfl
  have n1 : ¬ ((i : Int) - 1 < 0) := by omega
  have n2 : ¬ ((i : Int) - 1 = (B.length : Int) - 1) := by omega
  have n3 : ¬ ((i : Int) < 0) := by omega
  have n4 : ¬ ((i : Int) = (B.length : Int) - 1) := by omega
  refine ⟨c1, c2, ?_, ?_, ?_⟩
  · simp only [findActivePartitionIndex, if_true, d1, bind, Except.bind, n1, n2, if_false,
      pure, Except.pure, e1]
  · simp only [findActivePartitionIndex, Bool.false_eq_true, if_false, d2, bind, Except.bind,
      n3, n4, pure, Except.pure, e2]
  · intro eventTimes hB
    subst hB
    constructor
    · simp only [findActiveSubsystemIndex, if_true, d1, bind, Except.bind, pure, Except.pure,
        e1]
    · simp only [findActiveSubsystemIndex, Bool.false_eq_true, if_false, d2, bind,
        Except.bind, pure, Except.pure, e2]

theorem C18_floor_versus_ceiling_witness :
    findActiveIntervalIndex [0, 1, 2] (valAt [0, 1, 2] 1) 0 (1 / 1000)
        = Except.ok (((1 : Nat) : Int) - 1) ∧
      findActiveIntervalIndex [0, 1, 2] (valAt [0, 1, 2] 1) 0 (-(1 / 1000))
        = Except.ok ((1 : Nat) : Int) ∧
      findActivePartitionIndex (1 / 1000) [0, 1, 2] (valAt [0, 1, 2] 1) true
        = Except.ok (1 - 1) ∧
      findActivePartitionIndex (1 / 1000) [0, 1, 2] (valAt [0, 1, 2] 1) false = Except.ok 1 ∧
      ∀ eventTimes : List ℚ, [0, 1, 2] = scalarLowest :: (eventTimes ++ [scalarMax]) →
        findActiveSubsystemIndex (1 / 1000) eventTimes (valAt [0, 1, 2] 1) true
          = Except.ok (1 - 1) ∧
        findActiveSubsystemIndex (1 / 1000) eventTimes (valAt [0, 1, 2] 1) false
          = Except.ok 1 :=
  C18_floor_versus_ceiling [0, 1, 2] (1 / 1000) 0 1 (by norm_num)
    (by
      intro j hj
      have hj' : j < 2 := by simp at hj; omega
      interval_cases j <;> norm_num [valAt])
    (by norm_num) (by norm_num) (by simp) (by norm_num) (by simp) (by norm_num)

/-! ## The variant with a remembered guess -/

/-- Below `B.back() + epsilon` the index found is at most `n - 2`. -/
theorem findActiveIntervalIndex_below_last (B : List ℚ) (q : ℚ) (g : Int) (eps : ℚ)
    (hB : B.Sorted (· ≤ ·)) (hn : 2 ≤ B.length) (hg0 : 0 ≤ g) (hg1 : g ≤ (B.length : Int) - 2)
    (heps : 0 < eps) (hq : q < valAt B (B.length - 1) + eps) :
    ∃ i : Int, findActiveIntervalIndex B q g eps = Except.ok i ∧ -1 ≤ i ∧
      i ≤ (B.length : Int) - 2 := by
  obtain ⟨r, hr, a1, a2, a3, a4⟩ := findActiveIntervalIndex_sorted B q g eps hB hn hg0 hg1
  have hneg : ¬ eps < 0 := not_lt.mpr heps.le
  have hrn : r ≤ (B.length : Int) - 2 := by
    by_contra hcon
    have := a3 (B.length - 1) (by omega) (by omega)
    linarith
  refine ⟨endCases B q eps r, hr, ?_, ?_⟩
  · simp only [endCases, hneg, and_false, if_false]
    split_ifs <;> omega
  · simp only [endCases, hneg, and_false, if_false]
    split_ifs <;> omega

/-- As long as every enquiry time stays below `B.back() + epsilon`, the calls of the memory
variant return what the explicit-guess form returns with guess `0`. -/
theorem memoryCalls_below_last (B : List ℚ) (eps : ℚ)
    (hB : B.Sorted (· ≤ ·)) (hn : 2 ≤ B.length) (heps : 0 < eps) (qs : List ℚ) :
    ∀ (g : Int), 0 ≤ g → g ≤ (B.length : Int) - 2 →
      (∀ q ∈ qs, q < valAt B (B.length - 1) + eps) →
      memoryCalls B eps g qs = qs.map (fun q => findActiveIntervalIndex B q 0 eps) := by
  induction qs with
  | nil => intro g _ _ _; rfl
  | cons q qs ih =>
    intro g hg0 hg1 hq
    obtain ⟨i, hi, i1, i2⟩ := findActiveIntervalIndex_below_last B q g eps hB hn hg0 hg1 heps
      (hq q (List.mem_cons_self q qs))
    have hsame := findActiveIntervalIndex_guess B q g 0 eps hB hn hg0 hg1 (le_refl _)
      (by omega)
    have hmem : findActiveIntervalIndexMemory g B q eps = (Except.ok i, max i 0) := by
      simp only [findActiveIntervalIndexMemory, hi]
    simp only [memoryCalls, hmem, List.map_cons]
    rw [ih (max i 0) (le_max_right i 0) (by omega)
      (fun q' hq' => hq q' (List.mem_cons_of_mem q hq'))]
    rw [← hsame, hi]

/-- C17, the failing sequence.  On the non-decreasing vector `[0, 1]`, starting from the
remembered guess `0`, the first call with an enquiry time beyond the last boundary returns the
sentinel `n - 1 = 1`, which is remembered as the next guess; the second call, with the enquiry
time `1/2`, then throws "The guessed index is out of range", whereas the explicit-guess form
with guess `0` returns `0` for that enquiry time.  This holds for `week_epsilon = 10⁻⁶` and
for every positive epsilon. -/
theorem C17_memory_variant_throws :
    ([0, 1] : List ℚ).Sorted (· ≤ ·) ∧
      memoryCalls [0, 1] (1 / 1000000) 0 [2, 1 / 2]
        = [Except.ok 1,
            Except.error (Error.runtime_error "The guessed index is out of range.")] ∧
      findActiveIntervalIndex [0, 1] (1 / 2) 0 (1 / 1000000) = Except.ok 0 ∧
      ∀ eps : ℚ, 0 < eps →
        memoryCalls [0, 1] eps 0 [1 + eps, 1 / 2]
          = [Except.ok 1,
              Except.error (Error.runtime_error "The guessed index is out of range.")] := by
  have hfirst : ∀ eps : ℚ, 0 < eps →
      findActiveIntervalIndex [0, 1] (1 + eps) 0 eps = Except.ok 1 := by
    intro eps heps
    have e2 : ¬ eps < 0 := not_lt.mpr heps.le
    norm_num [findActiveIntervalIndex, readAt, searchUp, bind, Except.bind, pure, Except.pure,
      e2]
  have hsecond : ∀ q eps : ℚ, findActiveIntervalIndex [0, 1] q 1 eps
      = Except.error (Error.runtime_error "The guessed index is out of range.") := by
    intro q eps
    simp [findActiveIntervalIndex]
  have hcalls : ∀ q eps : ℚ, findActiveIntervalIndex [0, 1] q 0 eps = Except.ok 1 →
      memoryCalls [0, 1] eps 0 [q, 1 / 2] = [Except.ok 1,
        Except.error (Error.runtime_error "The guessed index is out of range.")] := by
    intro q eps h
    have h1 : findActiveIntervalIndexMemory 0 [0, 1] q eps = (Except.ok 1, 1) := by
      simp only [findActiveIntervalIndexMemory, h]
      rfl
    have h2 : findActiveIntervalIndexMemory 1 [0, 1] (1 / 2) eps
        = (Except.error (Error.runtime_error "The guessed index is out of range."), 1) := by
      simp only [findActiveIntervalIndexMemory, hsecond]
    simp only [memoryCalls, h1, h2]
  refine ⟨by norm_num, ?_, ?_, ?_⟩
  · apply hcalls
    norm_num [findActiveIntervalIndex, readAt, searchUp, searchDown, bind, Except.bind, pure,
      Except.pure]
  · norm_num [findActiveIntervalIndex, readAt, searchUp, searchDown, bind, Except.bind, pure,
      Except.pure]
  · intro eps heps
    exact hcalls (1 + eps) eps (hfirst eps heps)

/-! ## Zero partitions -/

/-- When the block that updates the sizes throws, `run` throws the same exception, whatever
the sensitivity methods are. -/
theorem run_throws_of_runUpdateSizes {σ : Type} (eps : ℚ)
    (mLQ mBVP : GSLQ → σ → Except Error σ) (s : GSLQ) (stocks : σ) (eventTimes : List ℚ)
    (dc : SLQ_DataCollector) (e : Error)
    (h : (runUpdateSizes s eventTimes dc).status = Except.error e) :
    run eps mLQ mBVP s stocks eventTimes dc = Except.error e := by
  unfold runUpdateSizes at h
  unfold run
  by_cases hnp : s.numPartitions_ ≠ dc.numPartitions_
  · rw [if_pos hnp] at h
    simp only [] at h
    rw [if_pos hnp]
    simp only [bind, Except.bind, h]
  · rw [if_neg hnp] at h
    exact absurd h (by simp)

/-- When the stored partition count differs from a zero count of the data collector, `run`
throws before any sensitivity method is started. -/
theorem run_zero_partitions_changed {σ : Type} (eps : ℚ)
    (mLQ mBVP : GSLQ → σ → Except Error σ) (s : GSLQ) (stocks : σ) (eventTimes : List ℚ)
    (dc : SLQ_DataCollector) (hs : s.numPartitions_ ≠ 0) (hdc : dc.numPartitions_ = 0) :
    run eps mLQ mBVP s stocks eventTimes dc
      = Except.error (Error.runtime_error "The number of Partitions cannot be zero!") := by
  apply run_throws_of_runUpdateSizes
  have hnp : s.numPartitions_ ≠ dc.numPartitions_ := by rw [hdc]; exact hs
  unfold runUpdateSizes
  rw [if_pos hnp]
  simp only [setupOptimizer, hdc, if_true]

/-- When the stored partition count equals the count of the data collector, `setupOptimizer`
is not called, and `run` goes on to the sensitivity method. -/
theorem run_same_partitions {σ : Type} (eps : ℚ)
    (mLQ mBVP : GSLQ → σ → Except Error σ) (s : GSLQ) (stocks : σ) (eventTimes : List ℚ)
    (dc : SLQ_DataCollector) (b e : Nat) (hnp : s.numPartitions_ = dc.numPartitions_)
    (hb : findActiveSubsystemIndex eps eventTimes dc.initTime_ true = Except.ok b)
    (he : findActiveSubsystemIndex eps eventTimes dc.finalTime_ true = Except.ok e) :
    run eps mLQ mBVP s stocks eventTimes dc =
      match (if s.useLQForDerivatives_ = true then
          mLQ ⟨s.useLQForDerivatives_, eventTimes, eventTimes.length, eventTimes.length + 1,
            s.numPartitions_, b, e, dc⟩ stocks
        else
          mBVP ⟨s.useLQForDerivatives_, eventTimes, eventTimes.length, eventTimes.length + 1,
            s.numPartitions_, b, e, dc⟩ stocks) with
      | Except.ok stocks' =>
        Except.ok (⟨s.useLQForDerivatives_, eventTimes, eventTimes.length,
          eventTimes.length + 1, s.numPartitions_, b, e, dc⟩, stocks')
      | Except.error err => Except.error err := by
  unfold run
  rw [if_neg (not_not.mpr hnp)]
  simp only [bind, Except.bind, pure, Except.pure, hb, he]
  split_ifs
  · cases mLQ _ stocks <;> rfl
  · cases mBVP _ stocks <;> rfl

/-- C20, the failing input.  A first `run` with a data collector of zero partitions, on a solver
whose stored partition count is `1`, throws "The number of Partitions cannot be zero!" after
having stored the count `0`.  A second `run` with the same data collector on the solver as the
first call left it finds the stored count equal to the new one, skips `setupOptimizer`, throws
nothing and starts the sensitivity method (the counter of started methods goes from `0` to
`1`). -/
theorem C20_zero_partitions_accepted :
    (runUpdateSizes threeEvents [1, 2, 4] zeroPartitions).status
        = Except.error (Error.runtime_error "The number of Partitions cannot be zero!") ∧
      (runUpdateSizes threeEvents [1, 2, 4] zeroPartitions).out.numPartitions_ = 0 ∧
      zeroPartitions.numPartitions_ = 0 ∧
      run sampleEpsilon countingMethod countingMethod
          (runUpdateSizes threeEvents [1, 2, 4] zeroPartitions).out 0 [1, 2, 4] zeroPartitions
        = Except.ok (⟨true, [1, 2, 4], 3, 4, 0, 0, 3, zeroPartitions⟩, 1) := by
  have hb : findActiveSubsystemIndex sampleEpsilon [1, 2, 4] zeroPartitions.initTime_ true
      = Except.ok 0 := by
    norm_num [findActiveSubsystemIndex, findActiveIntervalIndex, readAt, searchUp,
      searchDown, scalarLowest, scalarMax, sampleEpsilon, zeroPartitions, bind, Except.bind,
      pure, Except.pure]
  have he : findActiveSubsystemIndex sampleEpsilon [1, 2, 4] zeroPartitions.finalTime_ true
      = Except.ok 3 := by
    norm_num [findActiveSubsystemIndex, findActiveIntervalIndex, readAt, searchUp,
      searchDown, scalarLowest, scalarMax, sampleEpsilon, zeroPartitions, bind, Except.bind,
      pure, Except.pure]
    rfl
  refine ⟨rfl, rfl, rfl, ?_⟩
  rw [run_same_partitions sampleEpsilon countingMethod countingMethod
    (runUpdateSizes threeEvents [1, 2, 4] zeroPartitions).out 0 [1, 2, 4] zeroPartitions 0 3
    rfl hb he]
  rfl

/-! ## The flow map of the rollout sensitivity equations -/

/-- C16, counterexample.  For the scalar system with `A = 0`, `B = 0`, flow map `1` and the
multiplier `10⁻¹⁰` set by `setMultiplier`, `computeFlowMap` returns `0` for
`nabla_x = nabla_u = 0`, whereas `A*nabla_x + B*nabla_u + multiplier*flowMap` is `10⁻¹⁰`. -/
theorem C16_tiny_multiplier_counterexample :
    tinyMultiplierEquations.multiplier_ = 1 / 10000000000 ∧
      tinyMultiplierEquations.computeFlowMap 0 (fun _ => 0) (fun _ => 0) 0 = 0 ∧
      ((tinyMultiplierEquations.AmFunc_.interpolate 0 none).1.mulVec (fun _ => 0)
        + (tinyMultiplierEquations.BmFunc_.interpolate 0 (some 0)).1.mulVec (fun _ => 0)
        + tinyMultiplierEquations.multiplier_ •
            (tinyMultiplierEquations.flowMapFunc_.interpolate 0 (some 0)).1) 0
        = 1 / 10000000000 := by
  refine ⟨rfl, ?_, ?_⟩
  · have h : ¬ (|(1 / 10000000000 : ℚ)| > 1e-9) := by
      rw [abs_of_pos (by norm_num)]
      norm_num
    simp only [RolloutSensitivityEquations.computeFlowMap, tinyMultiplierEquations,
      RolloutSensitivityEquations.setMultiplier, RolloutSensitivityEquations.afterSetData, h,
      if_false, constantInterpolation]
    simp [Matrix.mulVec, Matrix.dotProduct]
  · simp [tinyMultiplierEquations, RolloutSensitivityEquations.setMultiplier,
      RolloutSensitivityEquations.afterSetData, constantInterpolation, Matrix.mulVec,
      Matrix.dotProduct]

/-- C16, amended.  With `A`, `B` and `flowMap` the interpolated nominal data at time `t`,
`computeFlowMap` returns `A*nabla_x + B*nabla_u + multiplier*flowMap` when the multiplier set
by `setMultiplier` has an absolute value above `10⁻⁹` or is `0` (its value when never set),
and it returns `A*nabla_x + B*nabla_u`, without the multiplier term, whenever the absolute
value of the multiplier is at most `10⁻⁹`. -/
theorem C16_computeFlowMap_threshold {n m : Nat} (eq : RolloutSensitivityEquations n m)
    (AmFunc : LinearInterpolation (state_matrix_t n))
    (BmFunc : LinearInterpolation (state_input_matrix_t n m))
    (flowMapFunc : LinearInterpolation (state_vector_t n))
    (multiplier t : ℚ) (nabla_x : state_vector_t n) (nabla_u : input_vector_t m) :
    (RolloutSensitivityEquations.afterSetData AmFunc BmFunc flowMapFunc).multiplier_ = 0 ∧
      (eq.setMultiplier multiplier).multiplier_ = multiplier ∧
      (1e-9 < |multiplier| ∨ multiplier = 0 →
        (eq.setMultiplier multiplier).computeFlowMap t nabla_x nabla_u
          = (eq.AmFunc_.interpolate t none).1.mulVec nabla_x
            + (eq.BmFunc_.interpolate t (some (eq.AmFunc_.interpolate t none).2)).1.mulVec
                nabla_u
            + multiplier •
                (eq.flowMapFunc_.interpolate t (some (eq.AmFunc_.interpolate t none).2)).1) ∧
      (|multiplier| ≤ 1e-9 →
        (eq.setMultiplier multiplier).computeFlowMap t nabla_x nabla_u
          = (eq.AmFunc_.interpolate t none).1.mulVec nabla_x
            + (eq.BmFunc_.interpolate t (some (eq.AmFunc_.interpolate t none).2)).1.mulVec
                nabla_u) := by
  refine ⟨rfl, rfl, ?_, ?_⟩
  · rintro (h | h)
    · simp only [RolloutSensitivityEquations.computeFlowMap,
        RolloutSensitivityEquations.setMultiplier, gt_iff_lt, h, if_true]
    · subst h
      have h0 : ¬ (|(0 : ℚ)| > 1e-9) := by
        rw [abs_zero]; norm_num
      simp only [RolloutSensitivityEquations.computeFlowMap,
        RolloutSensitivityEquations.setMultiplier, h0, if_false, zero_smul, add_zero]
  · intro h
    have h0 : ¬ (|multiplier| > 1e-9) := not_lt.mpr h
    simp only [RolloutSensitivityEquations.computeFlowMap,
      RolloutSensitivityEquations.setMultiplier, h0, if_false]

/-! ## The cost derivative: `calculateCostDerivative` -/

theorem getElem?_of_le_length {α : Type} (v : List α) (e k : Nat) (hk : k < e)
    (he : e ≤ v.length) : ∃ a, v[k]? = some a := by
  have h : k < v.length := lt_of_lt_of_le hk he
  exact ⟨v[k], List.getElem?_eq_getElem h⟩

theorem getD_of_getElem? {α : Type} (v : List α) (k : Nat) (a d : α) (h : v[k]? = some a) :
    v.getD k d = a := by
  simp [List.getD_eq_getElem?_getD, h]

theorem costSampleLoop_spec {n m : Nat} (multiplier : ℚ) (times q : List ℚ)
    (Qv x : List (state_vector_t n)) (Rv u : List (input_vector_t m)) (b e : Nat)
    (ht : e ≤ times.length) (hq : e ≤ q.length) (hQv : e ≤ Qv.length) (hx : e ≤ x.length)
    (hRv : e ≤ Rv.length) (hu : e ≤ u.length) :
    ∀ (d k : Nat) (st : CostState), e - k = d → b < k →
      st.currIntermediatecostDev = intermediateCostDev multiplier q Qv x Rv u (k - 1) →
      ∃ st', costSampleLoop multiplier times q Qv x Rv u b e k st = (Except.ok (), st') ∧
        st'.costDerivative = st.costDerivative + Finset.sum (Finset.Ico k e) (fun j =>
          0.5 * (valAt times j - valAt times (j - 1)) *
            (intermediateCostDev multiplier q Qv x Rv u j
              + intermediateCostDev multiplier q Qv x Rv u (j - 1))) := by
  intro d
  induction d with
  | zero =>
    intro k st hd hbk _
    have hke : ¬ k < e := by omega
    rw [costSampleLoop, if_neg hke]
    refine ⟨st, rfl, ?_⟩
    rw [Finset.Ico_eq_empty (by omega)]
    simp
  | succ d ih =>
    intro k st hd hbk hcurr
    have hke : k < e := by omega
    obtain ⟨qk, hqk⟩ := getElem?_of_le_length q e k hke hq
    obtain ⟨xk, hxk⟩ := getElem?_of_le_length x e k hke hx
    obtain ⟨Qvk, hQvk⟩ := getElem?_of_le_length Qv e k hke hQv
    obtain ⟨uk, huk⟩ := getElem?_of_le_length u e k hke hu
    obtain ⟨Rvk, hRvk⟩ := getElem?_of_le_length Rv e k hke hRv
    obtain ⟨tk, htk⟩ := getElem?_of_le_length times e k hke ht
    obtain ⟨tp, htp⟩ := getElem?_of_le_length times e (k - 1) (by omega) ht
    have hc : intermediateCostDev multiplier q Qv x Rv u k
        = multiplier * qk + Matrix.dotProduct xk Qvk + Matrix.dotProduct uk Rvk := by
      unfold intermediateCostDev
      rw [getD_of_getElem? q k qk 0 hqk, getD_of_getElem? x k xk 0 hxk,
        getD_of_getElem? Qv k Qvk 0 hQvk, getD_of_getElem? u k uk 0 huk,
        getD_of_getElem? Rv k Rvk 0 hRvk]
    rw [costSampleLoop, if_pos hke]
    simp only [hqk, hxk, hQvk, huk, hRvk, htk, htp, if_pos (show k > b from hbk)]
    obtain ⟨st', h1, h2⟩ := ih (k + 1)
      ⟨st.costDerivative + 0.5 * (tk - tp) *
        (multiplier * qk + Matrix.dotProduct xk Qvk + Matrix.dotProduct uk Rvk
          + st.currIntermediatecostDev), st.currIntermediatecostDev,
        multiplier * qk + Matrix.dotProduct xk Qvk + Matrix.dotProduct uk Rvk⟩
      (by omega) (by omega) (by simpa using hc.symm)
    refine ⟨st', h1, ?_⟩
    rw [h2, Finset.sum_eq_sum_Ico_succ_bot hke]
    simp only [hc, ← hcurr, valAt, getD_of_getElem? times k tk 0 htk,
      getD_of_getElem? times (k - 1) tp 0 htp]
    ring

theorem costSampleLoop_segment {n m : Nat} (multiplier : ℚ) (times q : List ℚ)
    (Qv x : List (state_vector_t n)) (Rv u : List (input_vector_t m)) (b e : Nat)
    (ht : e ≤ times.length) (hq : e ≤ q.length) (hQv : e ≤ Qv.length) (hx : e ≤ x.length)
    (hRv : e ≤ Rv.length) (hu : e ≤ u.length) (st : CostState) :
    ∃ st', costSampleLoop multiplier times q Qv x Rv u b e b st = (Except.ok (), st') ∧
      st'.costDerivative
        = st.costDerivative + segmentTrapezoid multiplier times q Qv x Rv u b e := by
  by_cases hbe : b < e
  · obtain ⟨qk, hqk⟩ := getElem?_of_le_length q e b hbe hq
    obtain ⟨xk, hxk⟩ := getElem?_of_le_length x e b hbe hx
    obtain ⟨Qvk, hQvk⟩ := getElem?_of_le_length Qv e b hbe hQv
    obtain ⟨uk, huk⟩ := getElem?_of_le_length u e b hbe hu
    obtain ⟨Rvk, hRvk⟩ := getElem?_of_le_length Rv e b hbe hRv
    have hc : intermediateCostDev multiplier q Qv x Rv u b
        = multiplier * qk + Matrix.dotProduct xk Qvk + Matrix.dotProduct uk Rvk := by
      unfold intermediateCostDev
      rw [getD_of_getElem? q b qk 0 hqk, getD_of_getElem? x b xk 0 hxk,
        getD_of_getElem? Qv b Qvk 0 hQvk, getD_of_getElem? u b uk 0 huk,
        getD_of_getElem? Rv b Rvk 0 hRvk]
    rw [costSampleLoop, if_pos hbe]
    simp only [hqk, hxk, hQvk, huk, hRvk, if_neg (lt_irrefl b), gt_iff_lt]
    exact costSampleLoop_spec multiplier times q Qv x Rv u b e ht hq hQv hx hRv hu
      (e - (b + 1)) (b + 1) _ rfl (Nat.lt_succ_self b) (by simpa using hc.symm)
  · rw [costSampleLoop, if_neg hbe]
    refine ⟨st, rfl, ?_⟩
    unfold segmentTrapezoid
    rw [Finset.Ico_eq_empty (by omega)]
    simp

theorem costSegment_spec {n m : Nat} (eps : ℚ) (s : GSLQ) (eventTimeIndex : Nat)
    (times q : List ℚ) (Qv x : List (state_vector_t n)) (Rv u : List (input_vector_t m))
    (b e : Nat) (ht : e ≤ times.length) (hq : e ≤ q.length) (hQv : e ≤ Qv.length)
    (hx : e ≤ x.length) (hRv : e ≤ Rv.length) (hu : e ≤ u.length) (he : b ≠ e → e ≠ 0)
    (hmult : b ≠ e → ∃ mu, segmentMultiplier eps s eventTimeIndex times b e = Except.ok mu)
    (st : CostState) :
    ∃ st', costSegment eps s eventTimeIndex times q Qv x Rv u b e st = (Except.ok (), st') ∧
      st'.costDerivative = st.costDerivative
        + segmentTrapezoid (multiplierValue (segmentMultiplier eps s eventTimeIndex times b e))
            times q Qv x Rv u b e := by
  unfold costSegment
  by_cases hbe : b = e
  · rw [if_neg (not_not.mpr hbe)]
    refine ⟨st, rfl, ?_⟩
    unfold segmentTrapezoid
    rw [hbe, Finset.Ico_eq_empty (by omega)]
    simp
  · obtain ⟨mu, hmu⟩ := hmult hbe
    rw [if_pos hbe, if_neg (he hbe), hmu]
    exact costSampleLoop_segment mu times q Qv x Rv u b e ht hq hQv hx hRv hu st

theorem segmentRange_eq (times : List ℚ) (E : List Nat) (j : Nat) (hj : j ≤ E.length) :
    segmentRange times E j = Except.ok (segmentBegin E j, segmentEnd times.length E j) := by
  unfold segmentRange segmentBegin segmentEnd
  have hb : (if j = 0 then Except.ok 0 else readAt E (j - 1))
      = (Except.ok (if j = 0 then 0 else E.getD (j - 1) 0) : Except Error Nat) := by
    by_cases h0 : j = 0
    · rw [if_pos h0, if_pos h0]
    · rw [if_neg h0, if_neg h0]
      have hlt : j - 1 < E.length := by omega
      simp [readAt, List.getElem?_eq_getElem hlt, List.getD_eq_getElem?_getD]
  have he : (if j = E.length then Except.ok times.length else readAt E j)
      = (Except.ok (if j = E.length then times.length else E.getD j 0) :
          Except Error Nat) := by
    by_cases hN : j = E.length
    · rw [if_pos hN, if_pos hN]
    · rw [if_neg hN, if_neg hN]
      have hlt : j < E.length := by omega
      simp [readAt, List.getElem?_eq_getElem hlt, List.getD_eq_getElem?_getD]
  rw [hb, he]

theorem getLast?_of_ne_nil {α : Type} (v : List α) (d : α) (h : v ≠ []) :
    ∃ a, v.getLast? = some a ∧ v.getLastD d = a := by
  refine ⟨v.getLast h, List.getLast?_eq_getLast v h, ?_⟩
  cases v with
  | nil => exact absurd rfl h
  | cons a l =>
    rw [List.getLastD_cons, List.getLast_eq_getLastD]

theorem segmentEnd_le (N : Nat) (E : List Nat) (j : Nat) (hj : j ≤ E.length)
    (hE : ∀ e ∈ E, 1 ≤ e ∧ e ≤ N) :
    segmentEnd N E j ≤ N ∧ (segmentBegin E j ≠ segmentEnd N E j → segmentEnd N E j ≠ 0) := by
  unfold segmentEnd segmentBegin
  by_cases hN : j = E.length
  · rw [if_pos hN]
    refine ⟨le_refl N, ?_⟩
    by_cases h0 : j = 0
    · rw [if_pos h0]
      exact fun h => Ne.symm h
    · have hlt : j - 1 < E.length := by omega
      have hmem := hE (E[j - 1]) (List.getElem_mem hlt)
      intro _
      omega
  · rw [if_neg hN]
    have hlt : j < E.length := by omega
    have hmem := hE (E[j]) (List.getElem_mem hlt)
    rw [List.getD_eq_getElem?_getD, List.getElem?_eq_getElem hlt]
    simp only [Option.getD_some]
    exact ⟨hmem.2, fun _ => by omega⟩

theorem costSegmentLoop_spec {n m : Nat} (eps : ℚ) (s : GSLQ) (eventTimeIndex : Nat)
    (times : List ℚ) (E : List Nat) (q : List ℚ) (Qv x : List (state_vector_t n))
    (Rv u : List (input_vector_t m)) (QvFinal : List (state_vector_t n))
    (hE : ∀ e ∈ E, 1 ≤ e ∧ e ≤ times.length)
    (hq : times.length ≤ q.length) (hQv : times.length ≤ Qv.length)
    (hx : times.length ≤ x.length) (hRv : times.length ≤ Rv.length)
    (hu : times.length ≤ u.length) (hF : E.length ≤ QvFinal.length)
    (hmult : ∀ j : Nat, j ≤ E.length → segmentBegin E j ≠ segmentEnd times.length E j →
      ∃ mu, segmentMultiplier eps s eventTimeIndex times (segmentBegin E j)
        (segmentEnd times.length E j) = Except.ok mu) :
    ∀ (d j : Nat) (st : CostState), E.length + 1 - j = d →
      ∃ st', costSegmentLoop eps s eventTimeIndex times E q Qv x Rv u QvFinal j st
          = (Except.ok (), st') ∧
        st'.costDerivative = st.costDerivative
          + Finset.sum (Finset.Ico j (E.length + 1)) (fun j =>
              segmentTrapezoid
                (multiplierValue (segmentMultiplier eps s eventTimeIndex times
                  (segmentBegin E j) (segmentEnd times.length E j)))
                times q Qv x Rv u (segmentBegin E j) (segmentEnd times.length E j))
          + Finset.sum (Finset.Ico j E.length) (fun j =>
              Matrix.dotProduct (x.getLastD 0) (QvFinal.getD j 0)) := by
  intro d
  induction d with
  | zero =>
    intro j st hd
    have hj : ¬ j ≤ E.length := by omega
    rw [costSegmentLoop, if_neg hj]
    refine ⟨st, rfl, ?_⟩
    rw [Finset.Ico_eq_empty (by omega), Finset.Ico_eq_empty (by omega)]
    simp
  | succ d ih =>
    intro j st hd
    have hj : j ≤ E.length := by omega
    obtain ⟨hle, hne⟩ := segmentEnd_le times.length E j hj hE
    obtain ⟨st1, h1, h2⟩ := costSegment_spec eps s eventTimeIndex times q Qv x Rv u
      (segmentBegin E j) (segmentEnd times.length E j) hle (le_trans hle hq)
      (le_trans hle hQv) (le_trans hle hx) (le_trans hle hRv) (le_trans hle hu) hne
      (hmult j hj) st
    rw [costSegmentLoop, if_pos hj, segmentRange_eq times E j hj]
    simp only [h1]
    by_cases hlt : j < E.length
    · have hxne : x ≠ [] := by
        intro hnil
        have hmem := hE (E[j]) (List.getElem_mem hlt)
        have hx0 : x.length = 0 := by rw [hnil]; rfl
        omega
      obtain ⟨xBack, hb1, hb2⟩ := getLast?_of_ne_nil x 0 hxne
      obtain ⟨Qf, hQf⟩ := getElem?_of_le_length QvFinal E.length j hlt hF
      rw [if_pos hlt]
      simp only [hb1, hQf]
      obtain ⟨st', h3, h4⟩ := ih (j + 1)
        ⟨st1.costDerivative + Matrix.dotProduct xBack Qf, st1.prevIntermediatecostDev,
          st1.currIntermediatecostDev⟩ (by omega)
      refine ⟨st', h3, ?_⟩
      rw [h4, Finset.sum_eq_sum_Ico_succ_bot (show j < E.length + 1 by omega),
        Finset.sum_eq_sum_Ico_succ_bot hlt]
      simp only [h2, hb2, getD_of_getElem? QvFinal j Qf 0 hQf]
      ring
    · rw [if_neg hlt]
      obtain ⟨st', h3, h4⟩ := ih (j + 1) st1 (by omega)
      refine ⟨st', h3, ?_⟩
      rw [h4, Finset.sum_eq_sum_Ico_succ_bot (show j < E.length + 1 by omega), h2,
        Finset.Ico_eq_empty (show ¬ j < E.length from hlt),
        Finset.Ico_eq_empty (show ¬ j + 1 < E.length by omega)]
      ring

theorem stockAt_of_lt {α : Type} (stock : List (List α)) (i : Nat) (h : i < stock.length) :
    stock[i]? = some (stockAt stock i) := by
  simp [stockAt, List.getD_eq_getElem?_getD, List.getElem?_eq_getElem h]

theorem costPartitionLoop_spec {n m : Nat} (eps : ℚ) (s : GSLQ) (data : SLQ_Trajectories n m)
    (eventTimeIndex : Nat) (xStock : List (List (state_vector_t n)))
    (uStock : List (List (input_vector_t m)))
    (hshape : ∀ i : Nat, s.dc.initActivePartition_ ≤ i → i ≤ s.dc.finalActivePartition_ →
      CostPartitionShape data xStock uStock i)
    (hmult : ∀ i j : Nat, s.dc.initActivePartition_ ≤ i → i ≤ s.dc.finalActivePartition_ →
      j ≤ (stockAt data.nominalEventsPastTheEndIndecesStock_ i).length →
      segmentBegin (stockAt data.nominalEventsPastTheEndIndecesStock_ i) j
        ≠ segmentEnd (stockAt data.nominalTimeTrajectoriesStock_ i).length
            (stockAt data.nominalEventsPastTheEndIndecesStock_ i) j →
      ∃ mu, segmentMultiplier eps s eventTimeIndex (stockAt data.nominalTimeTrajectoriesStock_ i)
        (segmentBegin (stockAt data.nominalEventsPastTheEndIndecesStock_ i) j)
        (segmentEnd (stockAt data.nominalTimeTrajectoriesStock_ i).length
          (stockAt data.nominalEventsPastTheEndIndecesStock_ i) j) = Except.ok mu) :
    ∀ (d i : Nat) (st : CostState), s.dc.finalActivePartition_ + 1 - i = d →
      s.dc.initActivePartition_ ≤ i →
      ∃ st', costPartitionLoop eps s data eventTimeIndex xStock uStock i st
          = (Except.ok (), st') ∧
        st'.costDerivative = st.costDerivative
          + Finset.sum (Finset.Ico i (s.dc.finalActivePartition_ + 1)) (fun i =>
              partitionTrapezoid eps s data eventTimeIndex xStock uStock i)
          + Finset.sum (Finset.Ico i (s.dc.finalActivePartition_ + 1)) (fun i =>
              Finset.sum
                (Finset.range (stockAt data.nominalEventsPastTheEndIndecesStock_ i).length)
                (fun j => Matrix.dotProduct ((stockAt xStock i).getLastD 0)
                  ((stockAt data.QvFinalStock_ i).getD j 0))) := by
  intro d
  induction d with
  | zero =>
    intro i st hd _
    have hi : ¬ i ≤ s.dc.finalActivePartition_ := by omega
    rw [costPartitionLoop, if_neg hi]
    refine ⟨st, rfl, ?_⟩
    rw [Finset.Ico_eq_empty (by omega)]
    simp
  | succ d ih =>
    intro i st hd hinit
    have hi : i ≤ s.dc.finalActivePartition_ := by omega
    obtain ⟨h1, h2, hE, hq, hQv, hx, hRv, hu, hF⟩ := hshape i hinit hi
    obtain ⟨st1, h3, h4⟩ := costSegmentLoop_spec eps s eventTimeIndex
      (stockAt data.nominalTimeTrajectoriesStock_ i)
      (stockAt data.nominalEventsPastTheEndIndecesStock_ i)
      (stockAt data.qTrajectoriesStock_ i) (stockAt data.QvTrajectoriesStock_ i)
      (stockAt xStock i) (stockAt data.RvTrajectoriesStock_ i) (stockAt uStock i)
      (stockAt data.QvFinalStock_ i) hE hq hQv hx hRv hu hF
      (fun j hj hne => hmult i j hinit hi hj hne) _ 0 st rfl
    rw [costPartitionLoop, if_pos hi, stockAt_of_lt _ i h1, stockAt_of_lt _ i h2]
    simp only [h3]
    obtain ⟨st', h5, h6⟩ := ih (i + 1) st1 (by omega) (by omega)
    refine ⟨st', h5, ?_⟩
    rw [h6, h4, Finset.sum_eq_sum_Ico_succ_bot (show i < s.dc.finalActivePartition_ + 1 by omega),
      Finset.sum_eq_sum_Ico_succ_bot (show i < s.dc.finalActivePartition_ + 1 by omega)]
    unfold partitionTrapezoid
    simp only [Finset.range_eq_Ico]
    ring

/-- For an active event index and trajectories of the shape `CostPartitionShape` on every
active partition, with a sample in the final active partition and no exception from the
multiplier computations, `calculateCostDerivative` returns, and the output is the trapezoid
reference plus the terminal terms (each taken at the last sample of its partition) plus the
heuristic term. -/
theorem calculateCostDerivative_value {n m : Nat} (eps : ℚ) (s : GSLQ)
    (data : SLQ_Trajectories n m) (eventTimeIndex : Nat)
    (xStock : List (List (state_vector_t n))) (uStock : List (List (input_vector_t m)))
    (out : ℚ)
    (hactive : s.activeEventTimeBeginIndex_ ≤ eventTimeIndex ∧
      eventTimeIndex < s.activeEventTimeEndIndex_)
    (hshape : ∀ i : Nat, s.dc.initActivePartition_ ≤ i → i ≤ s.dc.finalActivePartition_ →
      CostPartitionShape data xStock uStock i)
    (hlast : stockAt xStock s.dc.finalActivePartition_ ≠ [])
    (hmult : ∀ i j : Nat, s.dc.initActivePartition_ ≤ i → i ≤ s.dc.finalActivePartition_ →
      j ≤ (stockAt data.nominalEventsPastTheEndIndecesStock_ i).length →
      segmentBegin (stockAt data.nominalEventsPastTheEndIndecesStock_ i) j
        ≠ segmentEnd (stockAt data.nominalTimeTrajectoriesStock_ i).length
            (stockAt data.nominalEventsPastTheEndIndecesStock_ i) j →
      ∃ mu, segmentMultiplier eps s eventTimeIndex (stockAt data.nominalTimeTrajectoriesStock_ i)
        (segmentBegin (stockAt data.nominalEventsPastTheEndIndecesStock_ i) j)
        (segmentEnd (stockAt data.nominalTimeTrajectoriesStock_ i).length
          (stockAt data.nominalEventsPastTheEndIndecesStock_ i) j) = Except.ok mu) :
    (calculateCostDerivative s eventTimeIndex
        (calculateCostDerivativeBody eps s data eventTimeIndex xStock uStock) out).status
        = Except.ok () ∧
      (calculateCostDerivative s eventTimeIndex
        (calculateCostDerivativeBody eps s data eventTimeIndex xStock uStock) out).out
        = trapezoidReference eps s data eventTimeIndex xStock uStock
          + terminalTermsAtBack s data xStock + heuristicTerm s data xStock := by
  have hguard : ¬ (eventTimeIndex < s.activeEventTimeBeginIndex_ ∨
      eventTimeIndex ≥ s.activeEventTimeEndIndex_) := by omega
  obtain ⟨st', h1, h2⟩ := costPartitionLoop_spec eps s data eventTimeIndex xStock uStock
    hshape hmult _ s.dc.initActivePartition_ ⟨0, 0, 0⟩ rfl (le_refl _)
  obtain ⟨xBack, hb1, hb2⟩ := getLast?_of_ne_nil _ (0 : state_vector_t n) hlast
  unfold calculateCostDerivative calculateCostDerivativeBody
  rw [if_neg hguard]
  simp only [h1, hb1]
  refine ⟨trivial, ?_⟩
  rw [h2]
  unfold trapezoidReference terminalTermsAtBack heuristicTerm
  rw [hb2]
  ring

theorem segmentMultiplier_oneEvent_before :
    segmentMultiplier sampleEpsilon oneEvent 0 [0, 1, 1, 2] 0 2 = Except.ok 1 := by
  have hb : findActiveSubsystemIndex (1 / 1000000) [1] (1 / 2) true = Except.ok 0 := by
    norm_num [findActiveSubsystemIndex, findActiveIntervalIndex, readAt, searchUp,
      searchDown, scalarLowest, scalarMax, bind, Except.bind, pure, Except.pure]
  norm_num [segmentMultiplier, sampleEpsilon, readAt, oneEvent, hb,
    computeEquivalentSystemMultiplier, equivalentSystemTimePeriodAndMultiplier, bind,
    Except.bind, pure, Except.pure]

theorem segmentMultiplier_oneEvent_after :
    segmentMultiplier sampleEpsilon oneEvent 0 [0, 1, 1, 2] 2 4 = Except.ok (-1) := by
  have he : findActiveSubsystemIndex (1 / 1000000) [1] (3 / 2) true = Except.ok 1 := by
    norm_num [findActiveSubsystemIndex, findActiveIntervalIndex, readAt, searchUp,
      searchDown, scalarLowest, scalarMax, bind, Except.bind, pure, Except.pure]
  norm_num [segmentMultiplier, sampleEpsilon, readAt, oneEvent, he,
    computeEquivalentSystemMultiplier, equivalentSystemTimePeriodAndMultiplier, bind,
    Except.bind, pure, Except.pure]

theorem oneEventTrajectories_shape (i : Nat) (hi : i ≤ 0) :
    CostPartitionShape oneEventTrajectories stateSensitivity0113 inputSensitivity0000 i := by
  have hi0 : i = 0 := by omega
  subst hi0
  simp [CostPartitionShape, oneEventTrajectories, stateSensitivity0113, inputSensitivity0000,
    stockAt]

theorem oneEventTrajectories_multipliers (i j : Nat) (hi : i ≤ 0)
    (hj : j ≤ (stockAt oneEventTrajectories.nominalEventsPastTheEndIndecesStock_ i).length) :
    ∃ mu, segmentMultiplier sampleEpsilon oneEvent 0
      (stockAt oneEventTrajectories.nominalTimeTrajectoriesStock_ i)
      (segmentBegin (stockAt oneEventTrajectories.nominalEventsPastTheEndIndecesStock_ i) j)
      (segmentEnd (stockAt oneEventTrajectories.nominalTimeTrajectoriesStock_ i).length
        (stockAt oneEventTrajectories.nominalEventsPastTheEndIndecesStock_ i) j)
      = Except.ok mu := by
  have hi0 : i = 0 := by omega
  subst hi0
  have hE : stockAt oneEventTrajectories.nominalEventsPastTheEndIndecesStock_ 0 = [2] := rfl
  have hT : stockAt oneEventTrajectories.nominalTimeTrajectoriesStock_ 0 = [0, 1, 1, 2] := rfl
  rw [hE] at hj ⊢
  rw [hT]
  have hj' : j = 0 ∨ j = 1 := by
    simp only [List.length_singleton] at hj
    omega
  rcases hj' with h | h
  · subst h
    exact ⟨1, segmentMultiplier_oneEvent_before⟩
  · subst h
    exact ⟨-1, segmentMultiplier_oneEvent_after⟩

theorem oneEvent_trapezoidReference :
    trapezoidReference sampleEpsilon oneEvent oneEventTrajectories 0 stateSensitivity0113
      inputSensitivity0000 = -2 := by
  have hE : stockAt oneEventTrajectories.nominalEventsPastTheEndIndecesStock_ 0 = [2] := rfl
  have hT : stockAt oneEventTrajectories.nominalTimeTrajectoriesStock_ 0 = [0, 1, 1, 2] := rfl
  have p4 : oneEvent.dc.initActivePartition_ = 0 := rfl
  have p5 : oneEvent.dc.finalActivePartition_ = 0 := rfl
  have b0 : segmentBegin [2] 0 = 0 := rfl
  have b1 : segmentBegin [2] 1 = 2 := rfl
  have e0 : segmentEnd 4 [2] 0 = 2 := rfl
  have e1 : segmentEnd 4 [2] 1 = 4 := rfl
  unfold trapezoidReference partitionTrapezoid
  rw [p4, p5]
  simp only [zero_add, Nat.Ico_succ_singleton, Finset.sum_singleton, hE, hT,
    List.length_singleton, List.length_cons, List.length_nil, Finset.sum_range_succ,
    Finset.range_zero, Finset.sum_empty, b0, b1, e0, e1, segmentMultiplier_oneEvent_before,
    segmentMultiplier_oneEvent_after, multiplierValue]
  norm_num [segmentTrapezoid, intermediateCostDev, valAt, stockAt, oneEventTrajectories,
    stateSensitivity0113, inputSensitivity0000, Finset.sum_Ico_eq_sum_range,
    Finset.sum_range_succ, Matrix.dotProduct]

theorem oneEvent_terminalTerms :
    terminalTermsAtBack oneEvent oneEventTrajectories stateSensitivity0113 = 3 ∧
      terminalTermsAtEvents oneEvent oneEventTrajectories stateSensitivity0113 = 1 ∧
      heuristicTerm oneEvent oneEventTrajectories stateSensitivity0113 = 0 := by
  have p4 : oneEvent.dc.initActivePartition_ = 0 := rfl
  have p5 : oneEvent.dc.finalActivePartition_ = 0 := rfl
  unfold terminalTermsAtBack terminalTermsAtEvents heuristicTerm
  rw [p4, p5]
  simp [stockAt, oneEventTrajectories, stateSensitivity0113, Matrix.dotProduct]

/-- C13. On one active partition with the time stamps `0, 1, 1, 2`, an event after two
stamps (`E_0 = 2`), terminal gradient `QvFinal[0][0] = 1`, no heuristic gradient and the state
sensitivities `0, 1, 1, 3`, `calculateCostDerivative` returns `1`: the trapezoid reference is
`-2` and the function adds `3 = QvFinal[0][0] . nabla_x[0].back()` for the event, whereas the
trapezoid reference plus the terminal term at the event boundary,
`QvFinal[0][0] . nabla_x[0][E_0 - 1] = 1`, plus the heuristic term (`0`) is `-1`. -/
theorem C13_terminal_term_at_partition_end :
    (calculateCostDerivative oneEvent 0
        (calculateCostDerivativeBody sampleEpsilon oneEvent oneEventTrajectories 0
          stateSensitivity0113 inputSensitivity0000) 7).status = Except.ok () ∧
      (calculateCostDerivative oneEvent 0
        (calculateCostDerivativeBody sampleEpsilon oneEvent oneEventTrajectories 0
          stateSensitivity0113 inputSensitivity0000) 7).out = 1 ∧
      trapezoidReference sampleEpsilon oneEvent oneEventTrajectories 0
          stateSensitivity0113 inputSensitivity0000
        + terminalTermsAtEvents oneEvent oneEventTrajectories stateSensitivity0113
        + heuristicTerm oneEvent oneEventTrajectories stateSensitivity0113 = -1 := by
  obtain ⟨h1, h2⟩ := calculateCostDerivative_value sampleEpsilon oneEvent oneEventTrajectories
    0 stateSensitivity0113 inputSensitivity0000 7 (by decide)
    (fun i _ hi => oneEventTrajectories_shape i hi)
    (by simp [stockAt, stateSensitivity0113, oneEvent])
    (fun i j _ hi hj _ => oneEventTrajectories_multipliers i j hi hj)
  obtain ⟨t1, t2, t3⟩ := oneEvent_terminalTerms
  refine ⟨h1, ?_, ?_⟩
  · rw [h2, oneEvent_trapezoidReference, t1, t3]
    norm_num
  · rw [oneEvent_trapezoidReference, t2, t3]
    norm_num

/-! ## The chain rule: `approximateNominalLQPSensitivity2SwitchingTime` -/

theorem resizeWith_length {α : Type} (fresh : α) (v : List α) (N : Nat) :
    (resizeWith fresh v N).length = N := by
  simp [resizeWith]
  omega

theorem lqpSampleLoop_spec {n m : Nat} (Rm : List (input_matrix_t m))
    (Qv : List (state_vector_t n)) (Qm : List (state_matrix_t n))
    (Rv : List (input_vector_t m)) (Pm : List (input_state_matrix_t n m))
    (QvFinal : List (state_vector_t n)) (QmFinal : List (state_matrix_t n)) (E : List Nat)
    (x : List (state_vector_t n)) (u : List (input_vector_t m)) (N : Nat)
    (hRm : N ≤ Rm.length) (hQv : N ≤ Qv.length) (hQm : N ≤ Qm.length) (hRv : N ≤ Rv.length)
    (hPm : N ≤ Pm.length) (hx : N ≤ x.length) (hu : N ≤ u.length)
    (hQvF : E.length ≤ QvFinal.length) (hQmF : E.length ≤ QmFinal.length) :
    ∀ (d k : Nat) (st : LQPSensitivityPartition n m), N - k = d →
      st.nablaq.length = N → st.nablaQv.length = N → st.nablaRv.length = N →
      st.nablaqFinal.length = E.length → st.nablaQvFinal.length = E.length →
      (∀ j : Nat, j < k → j < N →
        st.nablaq[j]? = some
          (Matrix.dotProduct (Qv.getD j 0) (x.getD j 0)
            + Matrix.dotProduct (Rv.getD j 0) (u.getD j 0)) ∧
        st.nablaQv[j]? = some
          (Matrix.mulVec (Qm.getD j 0) (x.getD j 0)
            + Matrix.mulVec (Matrix.transpose (Pm.getD j 0)) (u.getD j 0)) ∧
        st.nablaRv[j]? = some
          (Matrix.mulVec (Pm.getD j 0) (x.getD j 0)
            + Matrix.mulVec (Rm.getD j 0) (u.getD j 0))) →
      ∃ st', lqpSampleLoop Rm Qv Qm Rv Pm QvFinal QmFinal E x u N k st = (Except.ok (), st') ∧
        st'.nablaq.length = N ∧ st'.nablaQv.length = N ∧ st'.nablaRv.length = N ∧
        st'.nablaqFinal.length = E.length ∧ st'.nablaQvFinal.length = E.length ∧
        ∀ j : Nat, j < N →
          st'.nablaq[j]? = some
            (Matrix.dotProduct (Qv.getD j 0) (x.getD j 0)
              + Matrix.dotProduct (Rv.getD j 0) (u.getD j 0)) ∧
          st'.nablaQv[j]? = some
            (Matrix.mulVec (Qm.getD j 0) (x.getD j 0)
              + Matrix.mulVec (Matrix.transpose (Pm.getD j 0)) (u.getD j 0)) ∧
          st'.nablaRv[j]? = some
            (Matrix.mulVec (Pm.getD j 0) (x.getD j 0)
              + Matrix.mulVec (Rm.getD j 0) (u.getD j 0)) := by
  intro d
  induction d with
  | zero =>
    intro k st hd l1 l2 l3 l4 l5 hinv
    have hk : ¬ k < N := by omega
    rw [lqpSampleLoop, if_neg hk]
    exact ⟨st, rfl, l1, l2, l3, l4, l5, fun j hj => hinv j (by omega) hj⟩
  | succ d ih =>
    intro k st hd l1 l2 l3 l4 l5 hinv
    have hk : k < N := by omega
    obtain ⟨Rmk, hRmk⟩ := getElem?_of_le_length Rm N k hk hRm
    obtain ⟨Qvk, hQvk⟩ := getElem?_of_le_length Qv N k hk hQv
    obtain ⟨Qmk, hQmk⟩ := getElem?_of_le_length Qm N k hk hQm
    obtain ⟨Rvk, hRvk⟩ := getElem?_of_le_length Rv N k hk hRv
    obtain ⟨Pmk, hPmk⟩ := getElem?_of_le_length Pm N k hk hPm
    obtain ⟨xk, hxk⟩ := getElem?_of_le_length x N k hk hx
    obtain ⟨uk, huk⟩ := getElem?_of_le_length u N k hk hu
    have step : ∀ (qF : List ℚ) (QvF : List (state_vector_t n)) (itr : Nat),
        qF.length = E.length → QvF.length = E.length →
        ∃ st', lqpSampleLoop Rm Qv Qm Rv Pm QvFinal QmFinal E x u N (k + 1)
            ⟨st.nablaq.set k (Matrix.dotProduct Qvk xk + Matrix.dotProduct Rvk uk),
              st.nablaQv.set k (Matrix.mulVec Qmk xk + Matrix.mulVec (Matrix.transpose Pmk) uk),
              st.nablaRv.set k (Matrix.mulVec Pmk xk + Matrix.mulVec Rmk uk), qF, QvF, itr⟩
            = (Except.ok (), st') ∧
          st'.nablaq.length = N ∧ st'.nablaQv.length = N ∧ st'.nablaRv.length = N ∧
          st'.nablaqFinal.length = E.length ∧ st'.nablaQvFinal.length = E.length ∧
          ∀ j : Nat, j < N →
            st'.nablaq[j]? = some
              (Matrix.dotProduct (Qv.getD j 0) (x.getD j 0)
                + Matrix.dotProduct (Rv.getD j 0) (u.getD j 0)) ∧
            st'.nablaQv[j]? = some
              (Matrix.mulVec (Qm.getD j 0) (x.getD j 0)
                + Matrix.mulVec (Matrix.transpose (Pm.getD j 0)) (u.getD j 0)) ∧
            st'.nablaRv[j]? = some
              (Matrix.mulVec (Pm.getD j 0) (x.getD j 0)
                + Matrix.mulVec (Rm.getD j 0) (u.getD j 0)) := by
      intro qF QvF itr hq1 hq2
      refine ih (k + 1) _ (by omega) (by simp [l1]) (by simp [l2]) (by simp [l3]) hq1 hq2 ?_
      intro j hj hjN
      by_cases hjk : j = k
      · subst hjk
        simp only [List.getElem?_set_self (show j < st.nablaq.length by omega),
          List.getElem?_set_self (show j < st.nablaQv.length by omega),
          List.getElem?_set_self (show j < st.nablaRv.length by omega),
          getD_of_getElem? Rm j Rmk 0 hRmk, getD_of_getElem? Qv j Qvk 0 hQvk,
          getD_of_getElem? Qm j Qmk 0 hQmk, getD_of_getElem? Rv j Rvk 0 hRvk,
          getD_of_getElem? Pm j Pmk 0 hPmk, getD_of_getElem? x j xk 0 hxk,
          getD_of_getElem? u j uk 0 huk, and_self]
      · simp only [List.getElem?_set_ne (Ne.symm hjk)]
        exact hinv j (by omega) hjN
    rw [lqpSampleLoop, if_pos hk]
    simp only [hRmk, hQvk, hQmk, hRvk, hPmk, hxk, huk]
    cases hE : E[st.eventsPastTheEndItr]? with
    | none => exact step _ _ _ l4 l5
    | some e =>
      simp only
      by_cases hke : k + 1 = e
      · rw [if_pos hke]
        have hitr : st.eventsPastTheEndItr < E.length := by
          by_contra hcon
          rw [List.getElem?_eq_none (by omega)] at hE
          exact absurd hE (by simp)
        obtain ⟨QvF, hQvF'⟩ := getElem?_of_le_length QvFinal E.length _ hitr hQvF
        obtain ⟨QmF, hQmF'⟩ := getElem?_of_le_length QmFinal E.length _ hitr hQmF
        have hxT : x[e - 1]? = some xk := by
          rw [← hke]
          simpa using hxk
        simp only [hQvF', hQmF', hxT]
        exact step _ _ _ (by simp [l4]) (by simp [l5])
      · rw [if_neg hke]
        exact step _ _ _ l4 l5

theorem lqpPartitionLoop_spec {n m : Nat} (fresh : ℚ) (freshState : state_vector_t n)
    (freshInput : input_vector_t m) (s : GSLQ) (data : SLQ_Trajectories n m)
    (xStock : List (List (state_vector_t n))) (uStock : List (List (input_vector_t m)))
    (hshape : ∀ i : Nat, i < s.numPartitions_ →
      ¬ (i < s.dc.initActivePartition_ ∨ i > s.dc.finalActivePartition_) →
      LQPPartitionShape data xStock uStock i) :
    ∀ (d i : Nat) (out : NominalLQPSensitivity n m), s.numPartitions_ - i = d →
      out.nablaqTrajectoriesStock.length = s.numPartitions_ →
      out.nablaQvTrajectoriesStock.length = s.numPartitions_ →
      out.nablaRvTrajectoriesStock.length = s.numPartitions_ →
      out.nablaqFinalStock.length = s.numPartitions_ →
      out.nablaQvFinalStock.length = s.numPartitions_ →
      (∀ j : Nat, j < i → j < s.numPartitions_ → ChainRule s data xStock uStock out j) →
      (lqpPartitionLoop fresh freshState freshInput s data xStock uStock i out).status
          = Except.ok () ∧
        ∀ j : Nat, j < s.numPartitions_ →
          ChainRule s data xStock uStock
            (lqpPartitionLoop fresh freshState freshInput s data xStock uStock i out).out
            j := by
  intro d
  induction d with
  | zero =>
    intro i out hd _ _ _ _ _ hinv
    have hi : ¬ i < s.numPartitions_ := by omega
    rw [lqpPartitionLoop, if_neg hi]
    exact ⟨rfl, fun j hj => hinv j (by omega) hj⟩
  | succ d ih =>
    intro i out hd l1 l2 l3 l4 l5 hinv
    have hi : i < s.numPartitions_ := by omega
    rw [lqpPartitionLoop, if_pos hi]
    by_cases hinact : i < s.dc.initActivePartition_ ∨ i > s.dc.finalActivePartition_
    · rw [if_pos hinact]
      refine ih (i + 1) _ (by omega) (by simp [l1]) (by simp [l2]) (by simp [l3])
        (by simp [l4]) (by simp [l5]) ?_
      intro j hj hjN
      by_cases hji : j = i
      · subst hji
        unfold ChainRule
        rw [if_pos hinact]
        simp only [List.getElem?_set_self (show j < out.nablaqTrajectoriesStock.length by omega),
          List.getElem?_set_self (show j < out.nablaQvTrajectoriesStock.length by omega),
          List.getElem?_set_self (show j < out.nablaRvTrajectoriesStock.length by omega),
          List.getElem?_set_self (show j < out.nablaqFinalStock.length by omega),
          List.getElem?_set_self (show j < out.nablaQvFinalStock.length by omega), and_self]
      · have h := hinv j (by omega) hjN
        unfold ChainRule at h ⊢
        simpa only [List.getElem?_set_ne (Ne.symm hji)] using h
    · rw [if_neg hinact]
      obtain ⟨h1, h2, hRm, hQv, hQm, hRv, hPm, hx, hu, hQvF, hQmF⟩ := hshape i hi hinact
      rw [stockAt_of_lt _ i h1, stockAt_of_lt _ i h2]
      obtain ⟨st', hr, r1, r2, r3, r4, r5, r6⟩ := lqpSampleLoop_spec
        (stockAt data.RmTrajectoriesStock_ i) (stockAt data.QvTrajectoriesStock_ i)
        (stockAt data.QmTrajectoriesStock_ i) (stockAt data.RvTrajectoriesStock_ i)
        (stockAt data.PmTrajectoriesStock_ i) (stockAt data.QvFinalStock_ i)
        (stockAt data.QmFinalStock_ i) (stockAt data.nominalEventsPastTheEndIndecesStock_ i)
        (stockAt xStock i) (stockAt uStock i)
        (stockAt data.nominalTimeTrajectoriesStock_ i).length hRm hQv hQm hRv hPm hx hu
        hQvF hQmF _ 0
        ⟨resizeWith fresh (stockAt out.nablaqTrajectoriesStock i)
            (stockAt data.nominalTimeTrajectoriesStock_ i).length,
          resizeWith freshState (stockAt out.nablaQvTrajectoriesStock i)
            (stockAt data.nominalTimeTrajectoriesStock_ i).length,
          resizeWith freshInput (stockAt out.nablaRvTrajectoriesStock i)
            (stockAt data.nominalTimeTrajectoriesStock_ i).length,
          resizeWith fresh (stockAt out.nablaqFinalStock i)
            (stockAt data.nominalEventsPastTheEndIndecesStock_ i).length,
          resizeWith freshState (stockAt out.nablaQvFinalStock i)
            (stockAt data.nominalEventsPastTheEndIndecesStock_ i).length, 0⟩
        rfl (resizeWith_length _ _ _) (resizeWith_length _ _ _) (resizeWith_length _ _ _)
        (resizeWith_length _ _ _) (resizeWith_length _ _ _)
        (fun j hj _ => absurd hj (Nat.not_lt_zero j))
      simp only [hr]
      refine ih (i + 1) _ (by omega) (by simp [l1]) (by simp [l2]) (by simp [l3])
        (by simp [l4]) (by simp [l5]) ?_
      intro j hj hjN
      by_cases hji : j = i
      · subst hji
        unfold ChainRule
        rw [if_neg hinact]
        exact ⟨st'.nablaq, st'.nablaQv, st'.nablaRv, st'.nablaqFinal, st'.nablaQvFinal,
          List.getElem?_set_self (by omega), List.getElem?_set_self (by omega),
          List.getElem?_set_self (by omega), List.getElem?_set_self (by omega),
          List.getElem?_set_self (by omega), r1, r2, r3, r4, r5, r6⟩
      · have h := hinv j (by omega) hjN
        unfold ChainRule at h ⊢
        simpa only [List.getElem?_set_ne (Ne.symm hji)] using h

/-- C15. When every active partition has the shape `LQPPartitionShape` (its cost and
sensitivity trajectories have a sample for each of its `N` time stamps and there is a terminal
expansion for each event), `approximateNominalLQPSensitivity2SwitchingTime` returns, and every
partition `i < numPartitions_` satisfies `ChainRule`, whatever the output stocks held before:
on an active partition `nablaq[i]`, `nablaQv[i]` and `nablaRv[i]` have the length `N` and for
every sample `k < N` hold `Qv_k.nabla_x_k + Rv_k.nabla_u_k`,
`Qm_k*nabla_x_k + Pm_k^T*nabla_u_k` and `Pm_k*nabla_x_k + Rm_k*nabla_u_k` (the two arrays of
terminal sensitivities have one element for each event); all five outputs of an inactive
partition are empty. -/
theorem C15_chain_rule {n m : Nat} (fresh : ℚ) (freshState : state_vector_t n)
    (freshInput : input_vector_t m) (s : GSLQ) (data : SLQ_Trajectories n m)
    (xStock : List (List (state_vector_t n))) (uStock : List (List (input_vector_t m)))
    (out : NominalLQPSensitivity n m)
    (hshape : ∀ i : Nat, i < s.numPartitions_ →
      ¬ (i < s.dc.initActivePartition_ ∨ i > s.dc.finalActivePartition_) →
      LQPPartitionShape data xStock uStock i) :
    (approximateNominalLQPSensitivity2SwitchingTime fresh freshState freshInput s data xStock
        uStock out).status = Except.ok () ∧
      ∀ i : Nat, i < s.numPartitions_ →
        ChainRule s data xStock uStock
          (approximateNominalLQPSensitivity2SwitchingTime fresh freshState freshInput s data
            xStock uStock out).out i := by
  unfold approximateNominalLQPSensitivity2SwitchingTime
  exact lqpPartitionLoop_spec fresh freshState freshInput s data xStock uStock hshape _ 0 _ rfl
    (resize_length _ _) (resize_length _ _) (resize_length _ _) (resize_length _ _)
    (resize_length _ _) (fun j hj _ => absurd hj (Nat.not_lt_zero j))

theorem C15_chain_rule_witness :
    (approximateNominalLQPSensitivity2SwitchingTime 9 (fun _ => 9) (fun _ => 9) oneEvent
        oneEventTrajectories stateSensitivity0113 inputSensitivity0000
        ⟨[[5, 5], [6], [7]], [], [], [[1, 2, 3], [4]], []⟩).status = Except.ok () ∧
      ∀ i : Nat, i < oneEvent.numPartitions_ →
        ChainRule oneEvent oneEventTrajectories stateSensitivity0113 inputSensitivity0000
          (approximateNominalLQPSensitivity2SwitchingTime 9 (fun _ => 9) (fun _ => 9) oneEvent
            oneEventTrajectories stateSensitivity0113 inputSensitivity0000
            ⟨[[5, 5], [6], [7]], [], [], [[1, 2, 3], [4]], []⟩).out i :=
  C15_chain_rule 9 (fun _ => 9) (fun _ => 9) oneEvent oneEventTrajectories
    stateSensitivity0113 inputSensitivity0000 ⟨[[5, 5], [6], [7]], [], [], [[1, 2, 3], [4]], []⟩
    (by
      intro i _ hact
      have p4 : oneEvent.dc.initActivePartition_ = 0 := rfl
      have p5 : oneEvent.dc.finalActivePartition_ = 0 := rfl
      have hi0 : i = 0 := by rw [p4, p5] at hact; omega
      subst hi0
      simp [LQPPartitionShape, oneEventTrajectories, stateSensitivity0113,
        inputSensitivity0000, stockAt])

/-! ## The value-function derivative: `getValueFuntionDerivative` -/

/-- For a time inside the horizon of a non-decreasing `partitioningTimes` and a positive
`weekEpsilon`, `findActivePartitionIndex` returns the partition that contains the time. -/
theorem findActivePartitionIndex_inside (eps : ℚ) (P : List ℚ) (time : ℚ)
    (hP : P.Sorted (· ≤ ·)) (hn : 2 ≤ P.length) (hsize : P.length < 2 ^ 31) (heps : 0 < eps)
    (hlo : valAt P 0 ≤ time) (hhi : time ≤ valAt P (P.length - 1)) :
    ∃ p : Nat, findActivePartitionIndex eps P time true = Except.ok p ∧ p + 1 < P.length ∧
      (valAt P p ≤ time - eps ∨ p = 0) ∧ time - eps < valAt P (p + 1) := by
  obtain ⟨r, hr, a1, a2, a3, a4⟩ :=
    findActiveIntervalIndex_sorted P time 0 eps hP hn (le_refl 0) (by omega)
  have hlt : r < (P.length : Int) - 1 := by
    by_contra hge
    have := a3 (P.length - 1) (by omega) (by omega)
    linarith
  by_cases hneg : r = -1
  · have hend : endCases P time eps r = 0 := by
      have e1 : r = -1 ∧ eps > 0 := ⟨hneg, heps⟩
      have e2 : time ≥ valAt P 0 - eps := by linarith
      have e3 : ¬ ((0 : Int) = (P.length : Int) - 1 ∧ eps < 0) := by omega
      simp only [endCases, e1, e2, e3, and_self, if_true, if_false]
    refine ⟨0, ?_, by omega, Or.inr rfl, a4 1 (by omega) (by omega)⟩
    have e4 : ¬ ((0 : Int) = (P.length : Int) - 1) := by omega
    simp [findActivePartitionIndex, hr, hend, e4, bind, Except.bind, pure, Except.pure]
  · have h0 : 0 ≤ r := by omega
    have hend : endCases P time eps r = r := by
      have e1 : ¬ (r = -1 ∧ eps > 0) := by omega
      have e2 : ¬ (r = (P.length : Int) - 1 ∧ eps < 0) := by omega
      simp only [endCases, e1, e2, if_false]
    refine ⟨r.toNat, ?_, by omega, Or.inl (a3 r.toNat (by omega) (by omega)),
      a4 (r.toNat + 1) (by omega) (by omega)⟩
    have e3 : ¬ (r < 0) := by omega
    have e4 : ¬ (r = (P.length : Int) - 1) := by omega
    have e5 : r % 18446744073709551616 = r := by omega
    simp [findActivePartitionIndex, hr, hend, e3, e4, e5, bind, Except.bind, pure,
      Except.pure]

/-- C14. Let the event index be active, `partitioningTimes_` non-decreasing with at least two
entries, `weekEpsilon` positive, the time inside the horizon
`[partitioningTimes_.front(), partitioningTimes_.back()]`, and let every stock have an entry
for every partition.  Then `getValueFuntionDerivative` returns, and with `p` the partition
that contains the time (`partitioningTimes_[p] ≤ time - weekEpsilon < partitioningTimes_[p+1]`,
or `p = 0` for a time within `weekEpsilon` of the initial time) the output is
`nablas + dx.nablaSv + 0.5*dx.(nablaSm*dx)`, where `dx = state - nominalState` and
`nominalState`, `nablas`, `nablaSv`, `nablaSm` are the values that the interpolation objects
over the trajectories of the partition `p` give at `time`; when the state equals the nominal
state the output is `nablas`. -/
theorem C14_getValueFuntionDerivative_taylor {n m : Nat} (eps : ℚ)
    (interp : EigenLinearInterpolation n) (s : GSLQ) (data : SLQ_Trajectories n m)
    (sets : SensitivityRiccatiSets n) (eventTimeIndex : Nat) (time : ℚ)
    (state : state_vector_t n) (out : ℚ)
    (hactive : s.activeEventTimeBeginIndex_ ≤ eventTimeIndex ∧
      eventTimeIndex < s.activeEventTimeEndIndex_)
    (hP : data.partitioningTimes_.Sorted (· ≤ ·)) (hn : 2 ≤ data.partitioningTimes_.length)
    (hsize : data.partitioningTimes_.length < 2 ^ 31) (heps : 0 < eps)
    (hlo : valAt data.partitioningTimes_ 0 ≤ time)
    (hhi : time ≤ valAt data.partitioningTimes_ (data.partitioningTimes_.length - 1))
    (hstocks : ∀ p : Nat, p + 1 < data.partitioningTimes_.length →
      p < data.nominalTimeTrajectoriesStock_.length ∧
      p < data.nominalStateTrajectoriesStock_.length ∧
      p < data.SsTimeTrajectoriesStock_.length ∧
      p < (stockAt sets.nablasTrajectoriesStockSet_ eventTimeIndex).length ∧
      p < (stockAt sets.nablaSvTrajectoriesStockSet_ eventTimeIndex).length ∧
      p < (stockAt sets.nablaSmTrajectoriesStockSet_ eventTimeIndex).length) :
    ∃ (p : Nat) (nominalState dx : state_vector_t n) (nablas : ℚ × Nat)
      (nablaSv : state_vector_t n) (nablaSm : state_matrix_t n),
      findActivePartitionIndex eps data.partitioningTimes_ time true = Except.ok p ∧
      p + 1 < data.partitioningTimes_.length ∧
      (valAt data.partitioningTimes_ p ≤ time - eps ∨ p = 0) ∧
      time - eps < valAt data.partitioningTimes_ (p + 1) ∧
      nominalState = ((interp.stateVector (stockAt data.nominalTimeTrajectoriesStock_ p)
        (stockAt data.nominalStateTrajectoriesStock_ p)).interpolate time none).1 ∧
      dx = state - nominalState ∧
      nablas = (interp.scalar (stockAt data.SsTimeTrajectoriesStock_ p)
        (stockAt (stockAt sets.nablasTrajectoriesStockSet_ eventTimeIndex) p)).interpolate
          time none ∧
      nablaSv = ((interp.stateVector (stockAt data.SsTimeTrajectoriesStock_ p)
        (stockAt (stockAt sets.nablaSvTrajectoriesStockSet_ eventTimeIndex) p)).interpolate
          time (some nablas.2)).1 ∧
      nablaSm = ((interp.stateMatrix (stockAt data.SsTimeTrajectoriesStock_ p)
        (stockAt (stockAt sets.nablaSmTrajectoriesStockSet_ eventTimeIndex) p)).interpolate
          time (some nablas.2)).1 ∧
      (getValueFuntionDerivative s eventTimeIndex
        (getValueFuntionDerivativeBody eps interp data sets eventTimeIndex time state)
        out).status = Except.ok () ∧
      (getValueFuntionDerivative s eventTimeIndex
        (getValueFuntionDerivativeBody eps interp data sets eventTimeIndex time state)
        out).out = nablas.1 + Matrix.dotProduct dx nablaSv
          + 0.5 * Matrix.dotProduct dx (Matrix.mulVec nablaSm dx) ∧
      (state = nominalState →
        (getValueFuntionDerivative s eventTimeIndex
          (getValueFuntionDerivativeBody eps interp data sets eventTimeIndex time state)
          out).out = nablas.1) := by
  obtain ⟨p, hp, hp1, hp2, hp3⟩ :=
    findActivePartitionIndex_inside eps data.partitioningTimes_ time hP hn hsize heps hlo hhi
  obtain ⟨s1, s2, s3, s4, s5, s6⟩ := hstocks p hp1
  have hguard : ¬ (eventTimeIndex < s.activeEventTimeBeginIndex_ ∨
      eventTimeIndex ≥ s.activeEventTimeEndIndex_) := by omega
  have hbody : getValueFuntionDerivative s eventTimeIndex
      (getValueFuntionDerivativeBody eps interp data sets eventTimeIndex time state) out
      = ⟨Except.ok (),
        ((interp.scalar (stockAt data.SsTimeTrajectoriesStock_ p)
          (stockAt (stockAt sets.nablasTrajectoriesStockSet_ eventTimeIndex) p)).interpolate
            time none).1
        + Matrix.dotProduct
            (state - ((interp.stateVector (stockAt data.nominalTimeTrajectoriesStock_ p)
              (stockAt data.nominalStateTrajectoriesStock_ p)).interpolate time none).1)
            ((interp.stateVector (stockAt data.SsTimeTrajectoriesStock_ p)
              (stockAt (stockAt sets.nablaSvTrajectoriesStockSet_ eventTimeIndex)
                p)).interpolate time
              (some ((interp.scalar (stockAt data.SsTimeTrajectoriesStock_ p)
                (stockAt (stockAt sets.nablasTrajectoriesStockSet_ eventTimeIndex)
                  p)).interpolate time none).2)).1
        + 0.5 * Matrix.dotProduct
            (state - ((interp.stateVector (stockAt data.nominalTimeTrajectoriesStock_ p)
              (stockAt data.nominalStateTrajectoriesStock_ p)).interpolate time none).1)
            (Matrix.mulVec
              ((interp.stateMatrix (stockAt data.SsTimeTrajectoriesStock_ p)
                (stockAt (stockAt sets.nablaSmTrajectoriesStockSet_ eventTimeIndex)
                  p)).interpolate time
                (some ((interp.scalar (stockAt data.SsTimeTrajectoriesStock_ p)
                  (stockAt (stockAt sets.nablasTrajectoriesStockSet_ eventTimeIndex)
                    p)).interpolate time none).2)).1
              (state - ((interp.stateVector (stockAt data.nominalTimeTrajectoriesStock_ p)
                (stockAt data.nominalStateTrajectoriesStock_ p)).interpolate time
                  none).1))⟩ := by
    unfold getValueFuntionDerivative getValueFuntionDerivativeBody
    rw [if_neg hguard]
    simp only [hp, stockAt_of_lt _ p s1, stockAt_of_lt _ p s2, stockAt_of_lt _ p s3,
      stockAt_of_lt _ p s4, stockAt_of_lt _ p s5, stockAt_of_lt _ p s6]
  refine ⟨p, _, _, _, _, _, hp, hp1, hp2, hp3, rfl, rfl, rfl, rfl, rfl, ?_, ?_, ?_⟩
  · rw [hbody]
  · rw [hbody]
  · intro hstate
    rw [hbody]
    have hdx : state - ((interp.stateVector (stockAt data.nominalTimeTrajectoriesStock_ p)
        (stockAt data.nominalStateTrajectoriesStock_ p)).interpolate time none).1 = 0 :=
      sub_eq_zero.mpr hstate
    simp only [hdx, Matrix.zero_dotProduct, mul_zero, add_zero]

theorem C14_getValueFuntionDerivative_taylor_witness :
    (getValueFuntionDerivative oneEvent 0
        (getValueFuntionDerivativeBody sampleEpsilon (firstSampleInterpolation 1)
          oneEventTrajectories oneEventSets 0 1 (fun _ => 3)) 7).status = Except.ok () ∧
      (getValueFuntionDerivative oneEvent 0
        (getValueFuntionDerivativeBody sampleEpsilon (firstSampleInterpolation 1)
          oneEventTrajectories oneEventSets 0 1 (fun _ => 3)) 7).out = 29 := by
  have hT : oneEventTrajectories.partitioningTimes_ = [0, 2, 4] := rfl
  obtain ⟨p, nominalState, dx, nablas, nablaSv, nablaSm, -, hp1, hp2, -, e1, e2, e3, e4, e5,
      hs, ho, -⟩ :=
    C14_getValueFuntionDerivative_taylor sampleEpsilon (firstSampleInterpolation 1) oneEvent
      oneEventTrajectories oneEventSets 0 1 (fun _ => 3) 7 (by decide)
      (by rw [hT]; norm_num)
      (by rw [hT]; simp)
      (by rw [hT]; simp)
      (by unfold sampleEpsilon; norm_num)
      (by rw [hT]; simp [valAt])
      (by rw [hT]; norm_num [valAt])
      (by
        intro p hp
        rw [hT] at hp
        simp only [List.length_cons, List.length_nil] at hp
        simp [stockAt, oneEventTrajectories, oneEventSets]
        omega)
  refine ⟨hs, ?_⟩
  have p0 : p = 0 := by
    rcases hp2 with h | h
    · rw [hT] at h hp1
      simp only [List.length_cons, List.length_nil] at hp1
      have hp' : p = 0 ∨ p = 1 := by omega
      rcases hp' with h' | h'
      · exact h'
      · subst h'
        unfold sampleEpsilon at h
        norm_num [valAt] at h
    · exact h
  subst p0
  rw [ho, e4, e5, e3, e2, e1]
  simp [firstSampleInterpolation, constantInterpolation, stockAt, oneEventTrajectories,
    oneEventSets, Matrix.dotProduct, Matrix.mulVec]
  norm_num

/-! ## The partitions visited by `solveSensitivityRiccatiEquations` -/

/-- The loop of `solveSensitivityRiccatiEquations` that starts at the partition `count - 1`
leaves the entries of the three output stocks at the indices `≥ count` as they are. -/
theorem riccatiPartitionLoop_untouched {S : Type} {n m : Nat} (eps : ℚ) (ops : RiccatiOps S n)
    (s : GSLQ) (data : SLQ_Trajectories n m) (qF : List (List (List ℚ)))
    (QvF : List (List (List (state_vector_t n)))) (eventTimeIndex : Nat) :
    ∀ (count : Nat) (SsFinal : S) (out : RiccatiOut n) (j : Nat), count ≤ j →
      (riccatiPartitionLoop eps ops s data qF QvF eventTimeIndex count SsFinal
          out).out.nablasTrajectoriesStock[j]? = out.nablasTrajectoriesStock[j]? ∧
        (riccatiPartitionLoop eps ops s data qF QvF eventTimeIndex count SsFinal
          out).out.nablaSvTrajectoriesStock[j]? = out.nablaSvTrajectoriesStock[j]? ∧
        (riccatiPartitionLoop eps ops s data qF QvF eventTimeIndex count SsFinal
          out).out.nablaSmTrajectoriesStock[j]? = out.nablaSmTrajectoriesStock[j]? := by
  intro count
  induction count with
  | zero =>
    intro SsFinal out j _
    simp [riccatiPartitionLoop]
  | succ i ih =>
    intro SsFinal out j hj
    have hne : i ≠ j := by omega
    rw [riccatiPartitionLoop]
    repeat' split
    all_goals first
      | exact ⟨rfl, rfl, rfl⟩
      | (obtain ⟨h1, h2, h3⟩ := ih (by assumption) _ j (by omega)
         rw [h1, h2, h3]
         simp only [List.getElem?_set_ne hne, and_self])

theorem riccatiSegment_threePartitions_first (SsFinal : ℚ) (allSs : List ℚ) :
    riccatiSegment sampleEpsilon constantRiccatiOps threePartitions 0 0 0 2
      [0, 1 / 2, 1 / 2, 1] 0 2 SsFinal allSs = Except.ok (allSs ++ [SsFinal, SsFinal]) := by
  have hsub : findActiveSubsystemIndex sampleEpsilon threePartitions.eventTimes_
      (2 - (2 - 0) * (0.5 * (0 + 1 / 2))) true = Except.ok 1 := by
    have hmid : (2 : ℚ) - (2 - 0) * (0.5 * (0 + 1 / 2)) = 3 / 2 := by norm_num
    rw [hmid]
    show findActiveSubsystemIndex (1 / 1000000) [1] (3 / 2) true = Except.ok 1
    norm_num [findActiveSubsystemIndex, findActiveIntervalIndex, readAt, searchUp,
      searchDown, scalarLowest, scalarMax, bind, Except.bind, pure, Except.pure]
  have hmul : computeEquivalentSystemMultiplier threePartitions 0 1 = Except.ok (-1) := by
    norm_num [computeEquivalentSystemMultiplier, equivalentSystemTimePeriodAndMultiplier,
      threePartitions, readAt, bind, Except.bind, pure, Except.pure]
  have t0 : ([0, 1 / 2, 1 / 2, 1] : List ℚ)[0]? = some 0 := rfl
  have t1 : ([0, 1 / 2, 1 / 2, 1] : List ℚ)[2 - 1]? = some (1 / 2) := rfl
  unfold riccatiSegment
  rw [if_neg (show ¬ (2 = 0) by decide)]
  simp only [t0, t1]
  rw [if_pos (show (0 : ℚ) < 1 / 2 by norm_num)]
  simp only [hsub, hmul]
  rw [if_pos (show 0 < 2 by decide)]
  simp [constantRiccatiOps]

theorem riccatiSegment_threePartitions_second (SsFinal : ℚ) (allSs : List ℚ) :
    riccatiSegment sampleEpsilon constantRiccatiOps threePartitions 0 0 0 2
      [0, 1 / 2, 1 / 2, 1] 2 4 SsFinal allSs = Except.ok (allSs ++ [SsFinal, SsFinal]) := by
  have hsub : findActiveSubsystemIndex sampleEpsilon threePartitions.eventTimes_
      (2 - (2 - 0) * (0.5 * (1 / 2 + 1))) true = Except.ok 0 := by
    have hmid : (2 : ℚ) - (2 - 0) * (0.5 * (1 / 2 + 1)) = 1 / 2 := by norm_num
    rw [hmid]
    show findActiveSubsystemIndex (1 / 1000000) [1] (1 / 2) true = Except.ok 0
    norm_num [findActiveSubsystemIndex, findActiveIntervalIndex, readAt, searchUp,
      searchDown, scalarLowest, scalarMax, bind, Except.bind, pure, Except.pure]
  have hmul : computeEquivalentSystemMultiplier threePartitions 0 0 = Except.ok 1 := by
    norm_num [computeEquivalentSystemMultiplier, equivalentSystemTimePeriodAndMultiplier,
      threePartitions, readAt, bind, Except.bind, pure, Except.pure]
  have t0 : ([0, 1 / 2, 1 / 2, 1] : List ℚ)[2]? = some (1 / 2) := rfl
  have t1 : ([0, 1 / 2, 1 / 2, 1] : List ℚ)[4 - 1]? = some 1 := rfl
  unfold riccatiSegment
  rw [if_neg (show ¬ (4 = 0) by decide)]
  simp only [t0, t1]
  rw [if_pos (show (1 / 2 : ℚ) < 1 by norm_num)]
  simp only [hsub, hmul]
  rw [if_pos (show 2 < 4 by decide)]
  simp [constantRiccatiOps]

theorem riccatiSegmentLoop_threePartitions (SsFinal : ℚ) :
    riccatiSegmentLoop sampleEpsilon constantRiccatiOps threePartitions 0 0 0 2
      [0, 1 / 2, 1 / 2, 1] [2] [1] [fun _ => 1] 0 SsFinal []
      = Except.ok (SsFinal + 1, [SsFinal, SsFinal, SsFinal + 1, SsFinal + 1]) := by
  have i0 : (0 :: ([2] ++ [([0, 1 / 2, 1 / 2, 1] : List ℚ).length]))[0]? = some 0 := rfl
  have i1 : (0 :: ([2] ++ [([0, 1 / 2, 1 / 2, 1] : List ℚ).length]))[0 + 1]? = some 2 := rfl
  have i2 : (0 :: ([2] ++ [([0, 1 / 2, 1 / 2, 1] : List ℚ).length]))[0 + 1 + 1]? = some 4 :=
    rfl
  have l1 : ([2] : List Nat).length = 1 := rfl
  have q0 : ([1] : List ℚ)[1 - 1 - 0]? = some 1 := rfl
  have Q0 : ([fun _ => 1] : List (state_vector_t 1))[1 - 1 - 0]? = some (fun _ => 1) := rfl
  have g0 : ([] ++ [SsFinal, SsFinal] : List ℚ).getLast? = some SsFinal := rfl
  rw [riccatiSegmentLoop, if_pos (by decide)]
  simp only [i0, i1, l1, riccatiSegment_threePartitions_first, q0, Q0, g0,
    if_pos (show 0 < 1 by decide)]
  rw [riccatiSegmentLoop, if_pos (by decide)]
  simp only [i1, i2, l1, riccatiSegment_threePartitions_second,
    if_neg (show ¬ (0 + 1 < 1) by decide)]
  rw [riccatiSegmentLoop, if_neg (by decide)]
  simp [constantRiccatiOps]

/-- C11. For the solver state `threePartitions` (one event time, hence `numSubsystems_ = 2`,
and `numPartitions_ = 3` of which only the partition `0` is active) and output stocks that
hold a sample for each of the three partitions, `solveSensitivityRiccatiEquations` returns
normally, and the inactive partition `2` is not cleared: `nablas[2]`, `nablaSv[2]` and
`nablaSm[2]` still hold the sample they held before the call.  The loop of the function runs
over `i = numSubsystems_-1, ..., 0`, so it clears the inactive partition `1` and never reaches
the partition `2`. -/
theorem C11_partition_beyond_subsystems_not_cleared :
    threePartitions.numSubsystems_ = 2 ∧ threePartitions.numPartitions_ = 3 ∧
      threePartitions.dc.finalActivePartition_ < 2 ∧
      (solveSensitivityRiccatiEquations threePartitions 0
        (solveSensitivityRiccatiEquationsBody sampleEpsilon constantRiccatiOps threePartitions
          threePartitionsTrajectories [[[1], [], []]] [[[fun _ => 1], [], []]] 0 3 0 0)
        staleRiccatiOut).status = Except.ok () ∧
      (solveSensitivityRiccatiEquations threePartitions 0
        (solveSensitivityRiccatiEquationsBody sampleEpsilon constantRiccatiOps threePartitions
          threePartitionsTrajectories [[[1], [], []]] [[[fun _ => 1], [], []]] 0 3 0 0)
        staleRiccatiOut).out.nablasTrajectoriesStock = [[4, 4, 3, 3], [], [7]] ∧
      (solveSensitivityRiccatiEquations threePartitions 0
        (solveSensitivityRiccatiEquationsBody sampleEpsilon constantRiccatiOps threePartitions
          threePartitionsTrajectories [[[1], [], []]] [[[fun _ => 1], [], []]] 0 3 0 0)
        staleRiccatiOut).out.nablaSvTrajectoriesStock[2]? = some [fun _ => 7] ∧
      (solveSensitivityRiccatiEquations threePartitions 0
        (solveSensitivityRiccatiEquationsBody sampleEpsilon constantRiccatiOps threePartitions
          threePartitionsTrajectories [[[1], [], []]] [[[fun _ => 1], [], []]] 0 3 0 0)
        staleRiccatiOut).out.nablaSmTrajectoriesStock[2]? = some [fun _ _ => 7] := by
  have d1 : threePartitionsTrajectories.SsNormalizedTimeTrajectoriesStock_[0]?
      = some [0, 1 / 2, 1 / 2, 1] := rfl
  have d2 : threePartitionsTrajectories.SsNormalizedEventsPastTheEndIndecesStock_[0]?
      = some [2] := rfl
  have d3 : threePartitionsTrajectories.partitioningTimes_[0]? = some 0 := rfl
  have d4 : threePartitionsTrajectories.partitioningTimes_[0 + 1]? = some 2 := rfl
  have d5 : stockAt (stockAt ([[[1], [], []]] : List (List (List ℚ))) 0) 0 = [1] := rfl
  have d6 : stockAt (stockAt ([[[fun _ => 1], [], []]] : List (List (List (state_vector_t 1))))
      0) 0 = [fun _ => 1] := rfl
  have hcall : solveSensitivityRiccatiEquations threePartitions 0
      (solveSensitivityRiccatiEquationsBody sampleEpsilon constantRiccatiOps threePartitions
        threePartitionsTrajectories [[[1], [], []]] [[[fun _ => 1], [], []]] 0 3 0 0)
      staleRiccatiOut
      = ⟨Except.ok (), ⟨[[4, 4, 3, 3], [], [7]],
          [[fun _ => 0, fun _ => 0, fun _ => 0, fun _ => 0], [], [fun _ => 7]],
          [[fun _ _ => 0, fun _ _ => 0, fun _ _ => 0, fun _ _ => 0], [], [fun _ _ => 7]]⟩⟩ := by
    unfold solveSensitivityRiccatiEquations solveSensitivityRiccatiEquationsBody
    rw [if_neg (by decide)]
    show riccatiPartitionLoop _ _ _ _ _ _ _ (1 + 1) _ _ = _
    rw [riccatiPartitionLoop, if_pos (by decide), if_pos (by decide)]
    show riccatiPartitionLoop _ _ _ _ _ _ _ (0 + 1) _ _ = _
    rw [riccatiPartitionLoop, if_neg (by decide)]
    simp only [d1, d2, d3, d4, d5, d6]
    rw [if_neg (by simp), riccatiSegmentLoop_threePartitions]
    simp only [riccatiPartitionLoop]
    have p1 : threePartitions.numPartitions_ = 3 := rfl
    simp [constantRiccatiOps, resize, staleRiccatiOut, p1]
    refine ⟨?_, ?_, ?_⟩ <;> norm_num <;> rfl
  rw [hcall]
  exact ⟨rfl, rfl, by decide, rfl, rfl, rfl, rfl⟩

/-! ## The decision table of `SystemEventHandler` -/

theorem SystemEventHandler.step_eventID (h : SystemEventHandler) (a : HandlerAction) :
    (h.step a).eventID_ = h.eventID_ ∨ (h.step a).eventID_ = -1 ∨ (h.step a).eventID_ = -2 := by
  cases a with
  | setMaxNumSteps k => exact Or.inl rfl
  | activateKillIntegration => exact Or.inl rfl
  | deactivateKillIntegration => exact Or.inl rfl
  | systemCalls k => exact Or.inl rfl
  | checkEvent =>
    simp only [SystemEventHandler.step, SystemEventHandler.checkEvent, sys_event_id.toInt]
    split_ifs <;> simp

/-- The event identifier of a handler is always one of `INT_MIN`, `-1`, `-2`. -/
theorem SystemEventHandler.run_eventID (actions : List HandlerAction) :
    ∀ h : SystemEventHandler,
      (h.eventID_ = intMin ∨ h.eventID_ = -1 ∨ h.eventID_ = -2) →
      ((h.run actions).eventID_ = intMin ∨ (h.run actions).eventID_ = -1 ∨
        (h.run actions).eventID_ = -2) := by
  induction actions with
  | nil => intro h hh; exact hh
  | cons a rest ih =>
    intro h hh
    have hrun : h.run (a :: rest) = (h.step a).run rest := rfl
    rw [hrun]
    apply ih
    rcases SystemEventHandler.step_eventID h a with h1 | h1 | h1
    · rw [h1]; exact hh
    · exact Or.inr (Or.inl h1)
    · exact Or.inr (Or.inr h1)

/-- C28. The decision table of `SystemEventHandler`.  `checkEvent` returns true if and only if
the kill-integration flag is active or the count of function calls of the system is strictly
greater than `maxNumSteps_`; a default-constructed handler with the flag inactive never fires,
whatever the count; after a call of `checkEvent` that returned true, `handleEvent` returns
`maxCall = -2` when the count exceeds the limit and `killIntegration = -1` otherwise; and
whatever was done with a default-constructed handler, the value `handleEvent` returns is
negative. -/
theorem C28_SystemEventHandler_decision_table :
    (∀ h : SystemEventHandler, h.checkEvent.1 = true ↔
      (h.killIntegration_ = true ∨ h.numFunctionCalls % 2 ^ 64 > h.maxNumSteps_)) ∧
    (∀ numFunctionCalls : Nat,
      (SystemEventHandler.default false numFunctionCalls).checkEvent.1 = false) ∧
    (∀ h : SystemEventHandler, h.checkEvent.1 = true →
      h.checkEvent.2.handleEvent =
        if h.numFunctionCalls % 2 ^ 64 > h.maxNumSteps_ then sys_event_id.maxCall.toInt
        else sys_event_id.killIntegration.toInt) ∧
    sys_event_id.maxCall.toInt = -2 ∧ sys_event_id.killIntegration.toInt = -1 ∧
    (∀ (killIntegration_ : Bool) (numFunctionCalls : Nat) (actions : List HandlerAction),
      ((SystemEventHandler.default killIntegration_ numFunctionCalls).run actions).handleEvent
        < 0) := by
  refine ⟨?_, ?_, ?_, rfl, rfl, ?_⟩
  · intro h
    unfold SystemEventHandler.checkEvent
    generalize h.numFunctionCalls % 2 ^ 64 = c
    by_cases hk : h.killIntegration_ = true <;> by_cases hc : c > h.maxNumSteps_ <;>
      simp [hk, hc]
  · intro c
    have hlt : c % 2 ^ 64 < 2 ^ 64 := Nat.mod_lt _ (by norm_num)
    have hc : ¬ (c % 2 ^ 64 > sizeMax) := by unfold sizeMax; omega
    unfold SystemEventHandler.checkEvent SystemEventHandler.default
    generalize c % 2 ^ 64 = d at hc
    simp [hc]
  · intro h hfire
    unfold SystemEventHandler.checkEvent at hfire ⊢
    unfold SystemEventHandler.handleEvent
    generalize h.numFunctionCalls % 2 ^ 64 = c at hfire ⊢
    by_cases hk : h.killIntegration_ = true <;> by_cases hc : c > h.maxNumSteps_ <;>
      simp [hk, hc] at hfire ⊢
  · intro k c actions
    have h := SystemEventHandler.run_eventID actions (SystemEventHandler.default k c)
      (Or.inl rfl)
    unfold SystemEventHandler.handleEvent
    rcases h with h | h | h <;> rw [h]
    · unfold intMin; norm_num
    · norm_num
    · norm_num

/-! ## The maps of `LinearSystemDynamics` -/

/-- C29, counterexample.  For the scalar system with `G = 0` and `H = 1`, after
`setCurrentStateAndControl(0, 0, 1)` the function `getJumpMap` gives `1 = G*x + H*u`, whereas
`computeJumpMap(0, 0)` gives `0 = G*x`. -/
theorem C29_jump_map_counterexample :
    (jumpByInput.setCurrentStateAndControl storeStateAndControl 0 0 1).getJumpMap 0 = 1 ∧
      jumpByInput.computeJumpMap 0 0 0 = 0 ∧
      (jumpByInput.setCurrentStateAndControl storeStateAndControl 0 0 1).getJumpMap
        ≠ jumpByInput.computeJumpMap 0 0 := by
  have h1 : (jumpByInput.setCurrentStateAndControl storeStateAndControl 0 0 1).getJumpMap 0
      = 1 := by
    simp [LinearSystemDynamics.getJumpMap, LinearSystemDynamics.setCurrentStateAndControl,
      storeStateAndControl, jumpByInput, Matrix.mulVec, Matrix.dotProduct]
  have h2 : jumpByInput.computeJumpMap 0 0 0 = 0 := by
    simp [LinearSystemDynamics.computeJumpMap, jumpByInput]
  refine ⟨h1, h2, fun h => ?_⟩
  rw [h, h2] at h1
  exact absurd h1 (by norm_num)

/-- C29, amended.  When the base class stores the state and the input it is given, then after
`setCurrentStateAndControl(t, x, u)` the value given by `getFlowMap` is the derivative computed
by `computeFlowMap(t, x, u)`, the value given by `getJumpMap` is the state computed by
`computeJumpMap(t, x)` plus `H*u`, and the two jump maps agree when `H*u = 0`. -/
theorem C29_LinearSystemDynamics_maps {n m : Nat}
    (baseSetCurrentStateAndControl : ℚ → state_vector_t n → input_vector_t m →
      ℚ × state_vector_t n × input_vector_t m → ℚ × state_vector_t n × input_vector_t m)
    (d : LinearSystemDynamics n m) (t : ℚ) (x : state_vector_t n) (u : input_vector_t m)
    (hbase : baseSetCurrentStateAndControl t x u (d.t_, d.x_, d.u_) = (t, x, u)) :
    (d.setCurrentStateAndControl baseSetCurrentStateAndControl t x u).getFlowMap
        = d.computeFlowMap t x u ∧
      (d.setCurrentStateAndControl baseSetCurrentStateAndControl t x u).getJumpMap
        = d.computeJumpMap t x + d.H_.mulVec u ∧
      (d.H_.mulVec u = 0 →
        (d.setCurrentStateAndControl baseSetCurrentStateAndControl t x u).getJumpMap
          = d.computeJumpMap t x) := by
  have hflow : (d.setCurrentStateAndControl baseSetCurrentStateAndControl t x u).getFlowMap
      = d.computeFlowMap t x u := by
    simp only [LinearSystemDynamics.getFlowMap, LinearSystemDynamics.setCurrentStateAndControl,
      LinearSystemDynamics.computeFlowMap, hbase]
  have hjump : (d.setCurrentStateAndControl baseSetCurrentStateAndControl t x u).getJumpMap
      = d.computeJumpMap t x + d.H_.mulVec u := by
    simp only [LinearSystemDynamics.getJumpMap, LinearSystemDynamics.setCurrentStateAndControl,
      LinearSystemDynamics.computeJumpMap, hbase]
  refine ⟨hflow, hjump, fun h0 => ?_⟩
  rw [hjump, h0, add_zero]

theorem C29_LinearSystemDynamics_maps_witness :
    (jumpByInput.setCurrentStateAndControl storeStateAndControl 2 3 0).getFlowMap
        = jumpByInput.computeFlowMap 2 3 0 ∧
      (jumpByInput.setCurrentStateAndControl storeStateAndControl 2 3 0).getJumpMap
        = jumpByInput.computeJumpMap 2 3 + jumpByInput.H_.mulVec 0 ∧
      (jumpByInput.H_.mulVec (0 : input_vector_t 1) = 0 →
        (jumpByInput.setCurrentStateAndControl storeStateAndControl 2 3 0).getJumpMap
          = jumpByInput.computeJumpMap 2 3) :=
  C29_LinearSystemDynamics_maps storeStateAndControl jumpByInput 2 3 0 rfl

/-! ## The linearization of the constraints of `EXP2.h` -/

theorem EXP2_constraint1_state (t : ℝ) (x u : Fin 2 → ℝ) :
    IsStateDerivative (EXP2_constraint1.getConstraint1 Real.sin Real.cos)
      (EXP2_constraint1.getConstraint1DerivativesState Real.sin Real.cos ⟨t, x, u⟩) t x u := by
  intro j
  fin_cases j
  · have h : ∀ s, EXP2_constraint1.getConstraint1 Real.sin Real.cos
        ⟨t, Function.update x 0 s, u⟩
        = u 1 * Real.sin s - u 1 * Real.cos (x 1) + 0.1 * u 1 - 1 := by
      intro s
      simp [EXP2_constraint1.getConstraint1, Function.update]
    simp only [Fin.zero_eta, h, EXP2_constraint1.getConstraint1DerivativesState,
      Matrix.cons_val_zero]
    simpa using ((((Real.hasDerivAt_sin (x 0)).const_mul (u 1)).sub_const
      (u 1 * Real.cos (x 1))).add_const (0.1 * u 1)).sub_const 1
  · have h : ∀ s, EXP2_constraint1.getConstraint1 Real.sin Real.cos
        ⟨t, Function.update x 1 s, u⟩
        = u 1 * Real.sin (x 0) - u 1 * Real.cos s + 0.1 * u 1 - 1 := by
      intro s
      simp [EXP2_constraint1.getConstraint1, Function.update]
    simp only [Fin.mk_one, h, EXP2_constraint1.getConstraint1DerivativesState,
      Matrix.cons_val_one, Matrix.head_cons]
    simpa using ((((Real.hasDerivAt_cos (x 1)).const_mul (u 1)).const_sub
      (u 1 * Real.sin (x 0))).add_const (0.1 * u 1)).sub_const 1

theorem EXP2_constraint1_control (t : ℝ) (x u : Fin 2 → ℝ) :
    IsControlDerivative (EXP2_constraint1.getConstraint1 Real.sin Real.cos)
      (EXP2_constraint1.getConstraint1DerivativesControl Real.sin Real.cos ⟨t, x, u⟩) t x
      u := by
  intro j
  fin_cases j
  · have h : ∀ s, EXP2_constraint1.getConstraint1 Real.sin Real.cos
        ⟨t, x, Function.update u 0 s⟩
        = u 1 * Real.sin (x 0) - u 1 * Real.cos (x 1) + 0.1 * u 1 - 1 := by
      intro s
      simp [EXP2_constraint1.getConstraint1, Function.update]
    simp only [Fin.zero_eta, h, EXP2_constraint1.getConstraint1DerivativesControl,
      Matrix.cons_val_zero]
    have h0 : (0.0 : ℝ) = 0 := by norm_num
    rw [h0]
    exact hasDerivAt_const (u 0) (u 1 * Real.sin (x 0) - u 1 * Real.cos (x 1)
      + 0.1 * u 1 - 1)
  · have h : ∀ s, EXP2_constraint1.getConstraint1 Real.sin Real.cos
        ⟨t, x, Function.update u 1 s⟩
        = s * (Real.sin (x 0) - Real.cos (x 1) + 0.1) - 1 := by
      intro s
      simp [EXP2_constraint1.getConstraint1, Function.update]
      ring
    simp only [Fin.mk_one, h, EXP2_constraint1.getConstraint1DerivativesControl,
      Matrix.cons_val_one, Matrix.head_cons]
    simpa using (((hasDerivAt_id (u 1)).mul_const
      (Real.sin (x 0) - Real.cos (x 1) + 0.1)).sub_const 1)

theorem EXP2_constraint2_control (t : ℝ) (x u : Fin 2 → ℝ) :
    IsControlDerivative (EXP2_constraint2.getConstraint1 Real.sin Real.cos)
      (EXP2_constraint2.getConstraint1DerivativesControl Real.sin Real.cos ⟨t, x, u⟩) t x
      u := by
  intro j
  fin_cases j
  · have h : ∀ s, EXP2_constraint2.getConstraint1 Real.sin Real.cos
        ⟨t, x, Function.update u 0 s⟩
        = u 1 * Real.sin (x 1) - u 1 * Real.cos (x 0) + 0.1 * u 1 - 1 := by
      intro s
      simp [EXP2_constraint2.getConstraint1, Function.update]
    simp only [Fin.zero_eta, h, EXP2_constraint2.getConstraint1DerivativesControl,
      Matrix.cons_val_zero]
    have h0 : (0.0 : ℝ) = 0 := by norm_num
    rw [h0]
    exact hasDerivAt_const (u 0) (u 1 * Real.sin (x 1) - u 1 * Real.cos (x 0)
      + 0.1 * u 1 - 1)
  · have h : ∀ s, EXP2_constraint2.getConstraint1 Real.sin Real.cos
        ⟨t, x, Function.update u 1 s⟩
        = s * (Real.sin (x 1) - Real.cos (x 0) + 0.1) - 1 := by
      intro s
      simp [EXP2_constraint2.getConstraint1, Function.update]
      ring
    simp only [Fin.mk_one, h, EXP2_constraint2.getConstraint1DerivativesControl,
      Matrix.cons_val_one, Matrix.head_cons]
    simpa using (((hasDerivAt_id (u 1)).mul_const
      (Real.sin (x 1) - Real.cos (x 0) + 0.1)).sub_const 1)

/-- C30. At every state and input the rows that `EXP2_constraint1` returns are the partial
derivatives of its constraint value, and so is the row that
`getConstraint1DerivativesControl` of `EXP2_constraint2` returns.  At the state `(0, 0)` and
the input `(0, 1)` the other rows are not: for `EXP2_constraint2` the derivative of the value
with respect to `x(1)` is `u(1)*cos(x(1)) = 1` and `getConstraint1DerivativesState` returns
`-u(1)*cos(x(1)) = -1` there; for `EXP2_constraint3` the derivative with respect to `x(0)` is
`-u(1)*cos(x(0)) = -1` and the row returned has `u(1)*sin(x(1)) = 0` there, and the derivative
with respect to `u(1)` is `-sin(x(0)) + cos(x(1)) + 0.1 = 1.1` and the row returned has
`sin(x(1)) - cos(x(0)) + 0.1 = -0.9` there. -/
theorem C30_EXP2_constraints_linearization :
    (∀ (t : ℝ) (x u : Fin 2 → ℝ),
      IsStateDerivative (EXP2_constraint1.getConstraint1 Real.sin Real.cos)
        (EXP2_constraint1.getConstraint1DerivativesState Real.sin Real.cos ⟨t, x, u⟩) t x u ∧
      IsControlDerivative (EXP2_constraint1.getConstraint1 Real.sin Real.cos)
        (EXP2_constraint1.getConstraint1DerivativesControl Real.sin Real.cos ⟨t, x, u⟩) t x u ∧
      IsControlDerivative (EXP2_constraint2.getConstraint1 Real.sin Real.cos)
        (EXP2_constraint2.getConstraint1DerivativesControl Real.sin Real.cos ⟨t, x, u⟩) t x
        u) ∧
    ¬ IsStateDerivative (EXP2_constraint2.getConstraint1 Real.sin Real.cos)
        (EXP2_constraint2.getConstraint1DerivativesState Real.sin Real.cos
          ⟨0, ![0, 0], ![0, 1]⟩) 0 ![0, 0] ![0, 1] ∧
    ¬ IsStateDerivative (EXP2_constraint3.getConstraint1 Real.sin Real.cos)
        (EXP2_constraint3.getConstraint1DerivativesState Real.sin Real.cos
          ⟨0, ![0, 0], ![0, 1]⟩) 0 ![0, 0] ![0, 1] ∧
    ¬ IsControlDerivative (EXP2_constraint3.getConstraint1 Real.sin Real.cos)
        (EXP2_constraint3.getConstraint1DerivativesControl Real.sin Real.cos
          ⟨0, ![0, 0], ![0, 1]⟩) 0 ![0, 0] ![0, 1] := by
  refine ⟨fun t x u => ⟨EXP2_constraint1_state t x u, EXP2_constraint1_control t x u,
    EXP2_constraint2_control t x u⟩, ?_, ?_, ?_⟩
  · intro hC
    have hcode := hC 1
    have h : ∀ s : ℝ, EXP2_constraint2.getConstraint1 Real.sin Real.cos
        ⟨0, Function.update ![0, 0] 1 s, ![0, 1]⟩ = Real.sin s - 1 + 0.1 - 1 := by
      intro s
      simp [EXP2_constraint2.getConstraint1, Function.update]
    simp only [h, EXP2_constraint2.getConstraint1DerivativesState, Matrix.cons_val_one,
      Matrix.head_cons, Matrix.cons_val_zero] at hcode
    have htrue : HasDerivAt (fun s : ℝ => Real.sin s - 1 + 0.1 - 1) (Real.cos 0) 0 :=
      (((Real.hasDerivAt_sin 0).sub_const 1).add_const 0.1).sub_const 1
    have := hcode.unique htrue
    norm_num at this
  · intro hC
    have hcode := hC 0
    have h : ∀ s : ℝ, EXP2_constraint3.getConstraint1 Real.sin Real.cos
        ⟨0, Function.update ![0, 0] 0 s, ![0, 1]⟩ = -Real.sin s + 1 + 0.1 - 1 := by
      intro s
      simp [EXP2_constraint3.getConstraint1, Function.update]
    simp only [h, EXP2_constraint3.getConstraint1DerivativesState, Matrix.cons_val_one,
      Matrix.head_cons, Matrix.cons_val_zero] at hcode
    have htrue : HasDerivAt (fun s : ℝ => -Real.sin s + 1 + 0.1 - 1) (-Real.cos 0) 0 :=
      ((((Real.hasDerivAt_sin 0).neg).add_const 1).add_const 0.1).sub_const 1
    have := hcode.unique htrue
    norm_num at this
  · intro hD
    have hcode := hD 1
    have h : ∀ s : ℝ, EXP2_constraint3.getConstraint1 Real.sin Real.cos
        ⟨0, ![0, 0], Function.update ![0, 1] 1 s⟩ = s * (1 + 0.1) - 1 := by
      intro s
      simp [EXP2_constraint3.getConstraint1, Function.update]
      ring
    simp only [h, EXP2_constraint3.getConstraint1DerivativesControl, Matrix.cons_val_one,
      Matrix.head_cons, Matrix.cons_val_zero] at hcode
    have htrue : HasDerivAt (fun s : ℝ => s * (1 + 0.1) - 1) (1 * (1 + 0.1)) 1 :=
      ((hasDerivAt_id (1 : ℝ)).mul_const (1 + 0.1)).sub_const 1
    have := hcode.unique htrue
    norm_num at this

/-! ## The active event range set by `run` -/

theorem countP_of_initial_segment (c : ℚ) :
    ∀ (l : List ℚ) (i : Nat), i ≤ l.length →
      (∀ k : Nat, k < l.length → (k < i ↔ valAt l k ≤ c)) →
      l.countP (fun e => decide (e ≤ c)) = i := by
  intro l
  induction l with
  | nil =>
    intro i hi _
    simp at hi
    simp [hi]
  | cons a t ih =>
    intro i hi h
    cases i with
    | zero =>
      rw [List.countP_eq_zero]
      intro e he
      obtain ⟨k, hk, rfl⟩ := List.getElem_of_mem he
      have := (h k hk).not.mp (Nat.not_lt_zero k)
      simpa [valAt, List.getD_eq_getElem?_getD, List.getElem?_eq_getElem hk] using this
    | succ i =>
      have ha : a ≤ c := by
        have := (h 0 (by simp)).mp (Nat.succ_pos i)
        simpa [valAt] using this
      have hrec := ih i (by simpa using hi) (fun k hk => by
        have := h (k + 1) (by simpa using hk)
        rw [valAt_cons_succ] at this
        constructor
        · intro hki; exact this.mp (by omega)
        · intro hv; have := this.mpr hv; omega)
      rw [List.countP_cons_of_pos _ _ (by simpa using ha), hrec]

/-- C24. After `run(eventTimes, dc)` returns, with non-decreasing event times, all times within
the range of `scalar_t`, a positive `week_epsilon` and `initTime ≤ finalTime`, the active
range is a valid sub-range: `activeEventTimeBeginIndex_ ≤ activeEventTimeEndIndex_ ≤
numEventTimes_`; the begin index is the number of event times `≤ initTime - week_epsilon` and
the end index the number of event times `≤ finalTime - week_epsilon`; and every index that
passes the active-range guard is an index of the event-time array. -/
theorem C24_active_range_valid {σ : Type} (eps : ℚ) (mLQ mBVP : GSLQ → σ → Except Error σ)
    (s : GSLQ) (stocks : σ) (eventTimes : List ℚ) (dc : SLQ_DataCollector)
    (s' : GSLQ) (stocks' : σ) (_heps : 0 < eps)
    (hsorted : eventTimes.Sorted (· ≤ ·))
    (hrange : ∀ e ∈ eventTimes, scalarLowest ≤ e ∧ e ≤ scalarMax)
    (hsize : eventTimes.length < 2 ^ 31)
    (hinit : scalarLowest + eps ≤ dc.initTime_ ∧ dc.initTime_ < scalarMax + eps)
    (hfinal : scalarLowest + eps ≤ dc.finalTime_ ∧ dc.finalTime_ < scalarMax + eps)
    (hle : dc.initTime_ ≤ dc.finalTime_)
    (hrun : run eps mLQ mBVP s stocks eventTimes dc = Except.ok (s', stocks')) :
    s'.activeEventTimeBeginIndex_ ≤ s'.activeEventTimeEndIndex_ ∧
      s'.activeEventTimeEndIndex_ ≤ s'.numEventTimes_ ∧
      s'.activeEventTimeBeginIndex_
        = eventTimes.countP (fun e => decide (e ≤ dc.initTime_ - eps)) ∧
      s'.activeEventTimeEndIndex_
        = eventTimes.countP (fun e => decide (e ≤ dc.finalTime_ - eps)) ∧
      ∀ k : Nat, ¬ (k < s'.activeEventTimeBeginIndex_ ∨ k ≥ s'.activeEventTimeEndIndex_) →
        k < s'.eventTimes_.length := by
  obtain ⟨f1, f2, -, -, -, hb, he⟩ :=
    run_fields eps mLQ mBVP s stocks eventTimes dc s' stocks' hrun
  obtain ⟨b, hb', hbl, hbk⟩ := findActiveSubsystemIndex_ceiling eps eventTimes dc.initTime_
    hsorted hrange hsize hinit.1 hinit.2
  obtain ⟨e, he', hel, hek⟩ := findActiveSubsystemIndex_ceiling eps eventTimes dc.finalTime_
    hsorted hrange hsize hfinal.1 hfinal.2
  have e1 : s'.activeEventTimeBeginIndex_ = b := by
    rw [hb] at hb'; exact Except.ok.inj hb'
  have e2 : s'.activeEventTimeEndIndex_ = e := by
    rw [he] at he'; exact Except.ok.inj he'
  have hbe : b ≤ e := by
    by_contra hcon
    have hlt : e < eventTimes.length := by omega
    have h1 := (hbk e hlt).mp (by omega)
    have h2 := (hek e hlt).mpr (by linarith)
    omega
  rw [e1, e2, f1, f2]
  refine ⟨hbe, hel, (countP_of_initial_segment _ eventTimes b hbl hbk).symm,
    (countP_of_initial_segment _ eventTimes e hel hek).symm, fun k hk => by omega⟩

theorem C24_active_range_valid_witness :
    (⟨true, [1 / 2], 1, 2, 1, 0, 1, ⟨0, 1, 1, 0, 0⟩⟩ : GSLQ).activeEventTimeBeginIndex_
        ≤ (⟨true, [1 / 2], 1, 2, 1, 0, 1, ⟨0, 1, 1, 0, 0⟩⟩ : GSLQ).activeEventTimeEndIndex_ ∧
      (⟨true, [1 / 2], 1, 2, 1, 0, 1, ⟨0, 1, 1, 0, 0⟩⟩ : GSLQ).activeEventTimeEndIndex_
        ≤ (⟨true, [1 / 2], 1, 2, 1, 0, 1, ⟨0, 1, 1, 0, 0⟩⟩ : GSLQ).numEventTimes_ ∧
      (⟨true, [1 / 2], 1, 2, 1, 0, 1, ⟨0, 1, 1, 0, 0⟩⟩ : GSLQ).activeEventTimeBeginIndex_
        = ([1 / 2] : List ℚ).countP (fun e => decide (e ≤
            (⟨0, 1, 1, 0, 0⟩ : SLQ_DataCollector).initTime_ - 1 / 1000000)) ∧
      (⟨true, [1 / 2], 1, 2, 1, 0, 1, ⟨0, 1, 1, 0, 0⟩⟩ : GSLQ).activeEventTimeEndIndex_
        = ([1 / 2] : List ℚ).countP (fun e => decide (e ≤
            (⟨0, 1, 1, 0, 0⟩ : SLQ_DataCollector).finalTime_ - 1 / 1000000)) ∧
      ∀ k : Nat,
        ¬ (k < (⟨true, [1 / 2], 1, 2, 1, 0, 1, ⟨0, 1, 1, 0, 0⟩⟩ :
              GSLQ).activeEventTimeBeginIndex_ ∨
            k ≥ (⟨true, [1 / 2], 1, 2, 1, 0, 1, ⟨0, 1, 1, 0, 0⟩⟩ :
              GSLQ).activeEventTimeEndIndex_) →
        k < (⟨true, [1 / 2], 1, 2, 1, 0, 1, ⟨0, 1, 1, 0, 0⟩⟩ : GSLQ).eventTimes_.length := by
  have hb : findActiveSubsystemIndex (1 / 1000000) [1 / 2] 0 true = Except.ok 0 := by
    norm_num [findActiveSubsystemIndex, findActiveIntervalIndex, readAt, searchUp,
      searchDown, scalarLowest, scalarMax, bind, Except.bind, pure, Except.pure]
  have he : findActiveSubsystemIndex (1 / 1000000) [1 / 2] 1 true = Except.ok 1 := by
    norm_num [findActiveSubsystemIndex, findActiveIntervalIndex, readAt, searchUp,
      searchDown, scalarLowest, scalarMax, bind, Except.bind, pure, Except.pure]
  have hrun := run_idle (1 / 1000000) freshGSLQ [1 / 2] ⟨0, 1, 1, 0, 0⟩ 0 1 (by norm_num) hb he
  exact C24_active_range_valid (1 / 1000000) idleMethod idleMethod freshGSLQ () [1 / 2]
    ⟨0, 1, 1, 0, 0⟩ _ () (by norm_num) (by simp)
    (by intro e he; simp at he; subst he; unfold scalarLowest scalarMax; norm_num)
    (by simp) (by unfold scalarLowest scalarMax; norm_num)
    (by unfold scalarLowest scalarMax; norm_num) (by norm_num) hrun

/-! ## The cost derivative of a frozen trajectory -/

/-- With a single event time `e0`, the multiplier of a sub-segment whose mid time is before
the event is `1/(e0 - initTime)` and that of a sub-segment whose mid time is past the event is
`-1/(finalTime - e0)`. -/
theorem segmentMultiplier_single_event (eps : ℚ) (s : GSLQ) (e0 : ℚ) (times : List ℚ)
    (b e : Nat) (hev : s.eventTimes_ = [e0])
    (hrange : scalarLowest ≤ e0 ∧ e0 ≤ scalarMax)
    (hb : b < times.length) (he : e - 1 < times.length)
    (hlo : scalarLowest + eps ≤ 0.5 * (valAt times b + valAt times (e - 1)))
    (hhi : 0.5 * (valAt times b + valAt times (e - 1)) < scalarMax + eps) :
    (0.5 * (valAt times b + valAt times (e - 1)) - eps < e0 → ¬ s.dc.initTime_ > e0 →
      segmentMultiplier eps s 0 times b e = Except.ok (1 / (e0 - s.dc.initTime_))) ∧
    (e0 ≤ 0.5 * (valAt times b + valAt times (e - 1)) - eps → ¬ s.dc.finalTime_ < e0 →
      segmentMultiplier eps s 0 times b e = Except.ok (-1 / (s.dc.finalTime_ - e0))) := by
  have hk : 0 < s.eventTimes_.length := by rw [hev]; simp
  have hv : valAt s.eventTimes_ 0 = e0 := by rw [hev]; rfl
  obtain ⟨i, hi, hile, hik⟩ := findActiveSubsystemIndex_ceiling eps s.eventTimes_
    (0.5 * (valAt times b + valAt times (e - 1)))
    (by rw [hev]; simp)
    (by intro x hx; rw [hev] at hx; rw [List.mem_singleton.mp hx]; exact hrange)
    (by rw [hev]; simp) hlo hhi
  have hlen : s.eventTimes_.length = 1 := by rw [hev]; rfl
  obtain ⟨-, c2, -, -, c5, -⟩ := equivalentSystem_cases s 0 i hk
  have hseg : segmentMultiplier eps s 0 times b e
      = (equivalentSystemTimePeriodAndMultiplier s 0 i).map Prod.snd := by
    unfold segmentMultiplier computeEquivalentSystemMultiplier
    simp only [readAt_of_lt times b hb, readAt_of_lt times (e - 1) he, bind, Except.bind, hi]
    cases equivalentSystemTimePeriodAndMultiplier s 0 i <;> rfl
  rw [hseg]
  constructor
  · intro hmid hinit
    have h0 : i = 0 := by
      by_contra hne
      have := (hik 0 hk).mp (by omega)
      rw [hv] at this
      linarith
    rw [c5 h0 h0 (by rw [hv]; exact hinit), hv]
    rfl
  · intro hmid hfinal
    have h1 : i = 0 + 1 := by
      have := (hik 0 hk).mpr (by rw [hv]; exact hmid)
      omega
    rw [c2 h1 (by omega) (by rw [hv]; exact hfinal), hv]
    rfl

theorem sum_Ico_telescope (f : Nat → ℚ) (b : Nat) :
    ∀ e : Nat, b < e →
      Finset.sum (Finset.Ico (b + 1) e) (fun k => f k - f (k - 1)) = f (e - 1) - f b := by
  intro e he
  induction e with
  | zero => omega
  | succ e ih =>
    by_cases hbe : b < e
    · rw [Finset.sum_Ico_succ_top (by omega), ih hbe]
      have h1 : e + 1 - 1 = e := by omega
      rw [h1]
      ring
    · have hbe' : b = e := by omega
      subst hbe'
      simp

/-- The trapezoid sum of a sub-segment on which the intermediate cost derivative is the
constant `c` is `c` times the duration of the sub-segment. -/
theorem segmentTrapezoid_constant {n m : Nat} (multiplier : ℚ) (times q : List ℚ)
    (Qv x : List (state_vector_t n)) (Rv u : List (input_vector_t m)) (b e : Nat) (c : ℚ)
    (hbe : b < e)
    (hc : ∀ k : Nat, b ≤ k → k < e → intermediateCostDev multiplier q Qv x Rv u k = c) :
    segmentTrapezoid multiplier times q Qv x Rv u b e
      = c * (valAt times (e - 1) - valAt times b) := by
  unfold segmentTrapezoid
  rw [← sum_Ico_telescope (fun k => valAt times k) b e hbe, Finset.mul_sum]
  refine Finset.sum_congr rfl (fun k hk => ?_)
  have hk' := Finset.mem_Ico.mp hk
  rw [hc k (by omega) hk'.2, hc (k - 1) (by omega) (by omega)]
  norm_num
  ring

theorem getD_of_all_zero {α : Type} [Zero α] (v : List α) (hv : ∀ a ∈ v, a = 0) (k : Nat) :
    v.getD k 0 = 0 := by
  rw [List.getD_eq_getElem?_getD]
  cases h : v[k]? with
  | none => rfl
  | some a =>
    obtain ⟨hk, ha⟩ := List.getElem?_eq_some.mp h
    exact hv a (ha ▸ List.getElem_mem hk)

theorem getLastD_of_all_zero {α : Type} [Zero α] (v : List α) (hv : ∀ a ∈ v, a = 0) :
    v.getLastD 0 = 0 := by
  cases v with
  | nil => rfl
  | cons a l =>
    rw [List.getLastD_cons, ← List.getLast_eq_getLastD a l (by simp)]
    exact hv _ (List.getLast_mem _)

/-- C26. Let the event time `e0` be the only one, with the event index `0` active, and let
the partition `p` be the only active one, with one event past-the-end index `E0`: its first
sub-segment runs from `initTime` to `e0`, its second from `e0` to `finalTime`.  Let
`initTime < e0`, `finalTime - e0 ≥ 2*weekEpsilon` with `weekEpsilon > 0` and the horizon inside
the range of `scalar_t`; let the intermediate cost be `q_b` on the samples of the first
sub-segment and `q_a` on those of the second, and all state and input sensitivities be zero.
Then `calculateCostDerivative` returns and the cost derivative is `q_b - q_a`. -/
theorem C26_frozen_trajectory_cost_derivative {n m : Nat} (eps : ℚ) (s : GSLQ)
    (data : SLQ_Trajectories n m) (xStock : List (List (state_vector_t n)))
    (uStock : List (List (input_vector_t m))) (out e0 q_b q_a : ℚ) (p E0 : Nat)
    (heps : 0 < eps) (hev : s.eventTimes_ = [e0])
    (hactive : s.activeEventTimeBeginIndex_ ≤ 0 ∧ 0 < s.activeEventTimeEndIndex_)
    (hinitp : s.dc.initActivePartition_ = p) (hfinalp : s.dc.finalActivePartition_ = p)
    (hE : stockAt data.nominalEventsPastTheEndIndecesStock_ p = [E0])
    (hshape : CostPartitionShape data xStock uStock p)
    (hE0 : E0 < (stockAt data.nominalTimeTrajectoriesStock_ p).length)
    (ht0 : valAt (stockAt data.nominalTimeTrajectoriesStock_ p) 0 = s.dc.initTime_)
    (ht1 : valAt (stockAt data.nominalTimeTrajectoriesStock_ p) (E0 - 1) = e0)
    (ht2 : valAt (stockAt data.nominalTimeTrajectoriesStock_ p) E0 = e0)
    (ht3 : valAt (stockAt data.nominalTimeTrajectoriesStock_ p)
      ((stockAt data.nominalTimeTrajectoriesStock_ p).length - 1) = s.dc.finalTime_)
    (hinit : s.dc.initTime_ < e0) (hfinal : s.dc.finalTime_ - e0 ≥ 2 * eps)
    (hrange : scalarLowest + eps ≤ s.dc.initTime_ ∧ s.dc.finalTime_ < scalarMax + eps)
    (hqb : ∀ k : Nat, k < E0 → valAt (stockAt data.qTrajectoriesStock_ p) k = q_b)
    (hqa : ∀ k : Nat, E0 ≤ k → k < (stockAt data.nominalTimeTrajectoriesStock_ p).length →
      valAt (stockAt data.qTrajectoriesStock_ p) k = q_a)
    (hx : ∀ v ∈ stockAt xStock p, v = 0) (hu : ∀ v ∈ stockAt uStock p, v = 0) :
    (calculateCostDerivative s 0 (calculateCostDerivativeBody eps s data 0 xStock uStock)
        out).status = Except.ok () ∧
      (calculateCostDerivative s 0 (calculateCostDerivativeBody eps s data 0 xStock uStock)
        out).out = q_b - q_a := by
  have hshape' : CostPartitionShape data xStock uStock p := hshape
  obtain ⟨-, -, hEs, -, -, hxlen, -, -, -⟩ := hshape
  have hE1 : 1 ≤ E0 := (hEs E0 (by rw [hE]; simp)).1
  have he0range : scalarLowest ≤ e0 ∧ e0 ≤ scalarMax := by
    constructor <;> linarith [hrange.1, hrange.2]
  have b0 : segmentBegin ([E0] : List Nat) 0 = 0 := rfl
  have b1 : segmentBegin ([E0] : List Nat) 1 = E0 := rfl
  have e0' : segmentEnd (stockAt data.nominalTimeTrajectoriesStock_ p).length [E0] 0
      = E0 := rfl
  have e1' : segmentEnd (stockAt data.nominalTimeTrajectoriesStock_ p).length [E0] 1
      = (stockAt data.nominalTimeTrajectoriesStock_ p).length := rfl
  have m1 : segmentMultiplier eps s 0 (stockAt data.nominalTimeTrajectoriesStock_ p) 0 E0
      = Except.ok (1 / (e0 - s.dc.initTime_)) := by
    refine (segmentMultiplier_single_event eps s e0 _ 0 E0 hev he0range (by omega) (by omega)
      ?_ ?_).1 ?_ (by linarith)
    · rw [ht0, ht1]; norm_num; linarith [hrange.1]
    · rw [ht0, ht1]; norm_num; linarith [hrange.2]
    · rw [ht0, ht1]; norm_num; linarith
  have m2 : segmentMultiplier eps s 0 (stockAt data.nominalTimeTrajectoriesStock_ p) E0
      (stockAt data.nominalTimeTrajectoriesStock_ p).length
      = Except.ok (-1 / (s.dc.finalTime_ - e0)) := by
    refine (segmentMultiplier_single_event eps s e0 _ E0 _ hev he0range hE0 (by omega)
      ?_ ?_).2 ?_ (by linarith)
    · rw [ht2, ht3]; norm_num; linarith [hrange.1]
    · rw [ht2, ht3]; norm_num; linarith [hrange.2]
    · rw [ht2, ht3]; norm_num; linarith
  obtain ⟨h1, h2⟩ := calculateCostDerivative_value eps s data 0 xStock uStock out hactive
    (fun i hi1 hi2 => by
      have hip : i = p := by omega
      rw [hip]; exact hshape')
    (by
      rw [hfinalp]
      intro hnil
      have hx0 : (stockAt xStock p).length = 0 := by rw [hnil]; rfl
      omega)
    (fun i j hi1 hi2 hj _ => by
      have hip : i = p := by omega
      subst hip
      rw [hE] at hj ⊢
      simp only [List.length_singleton] at hj
      have hj' : j = 0 ∨ j = 1 := by omega
      rcases hj' with h | h
      · subst h; rw [b0, e0']; exact ⟨_, m1⟩
      · subst h; rw [b1, e1']; exact ⟨_, m2⟩)
  refine ⟨h1, ?_⟩
  rw [h2]
  have hcb : ∀ k : Nat, 0 ≤ k → k < E0 →
      intermediateCostDev (1 / (e0 - s.dc.initTime_)) (stockAt data.qTrajectoriesStock_ p)
        (stockAt data.QvTrajectoriesStock_ p) (stockAt xStock p)
        (stockAt data.RvTrajectoriesStock_ p) (stockAt uStock p) k
        = 1 / (e0 - s.dc.initTime_) * q_b := by
    intro k _ hk
    have hq := hqb k hk
    unfold valAt at hq
    unfold intermediateCostDev
    rw [hq, getD_of_all_zero _ hx, getD_of_all_zero _ hu, Matrix.zero_dotProduct,
      Matrix.zero_dotProduct, add_zero, add_zero]
  have hca : ∀ k : Nat, E0 ≤ k → k < (stockAt data.nominalTimeTrajectoriesStock_ p).length →
      intermediateCostDev (-1 / (s.dc.finalTime_ - e0)) (stockAt data.qTrajectoriesStock_ p)
        (stockAt data.QvTrajectoriesStock_ p) (stockAt xStock p)
        (stockAt data.RvTrajectoriesStock_ p) (stockAt uStock p) k
        = -1 / (s.dc.finalTime_ - e0) * q_a := by
    intro k hk1 hk2
    have hq := hqa k hk1 hk2
    unfold valAt at hq
    unfold intermediateCostDev
    rw [hq, getD_of_all_zero _ hx, getD_of_all_zero _ hu, Matrix.zero_dotProduct,
      Matrix.zero_dotProduct, add_zero, add_zero]
  have htrap : trapezoidReference eps s data 0 xStock uStock = q_b - q_a := by
    unfold trapezoidReference partitionTrapezoid
    rw [hinitp, hfinalp]
    simp only [Nat.Ico_succ_singleton, Finset.sum_singleton, hE, List.length_singleton,
      Finset.sum_range_succ, Finset.range_zero, Finset.sum_empty, zero_add, b0, b1, e0', e1',
      m1, m2, multiplierValue]
    rw [segmentTrapezoid_constant _ _ _ _ _ _ _ 0 E0 _ (by omega) hcb,
      segmentTrapezoid_constant _ _ _ _ _ _ _ E0 _ _ hE0 hca, ht0, ht1, ht2, ht3]
    have hn1 : e0 - s.dc.initTime_ ≠ 0 := by linarith
    have hn2 : s.dc.finalTime_ - e0 ≠ 0 := by linarith
    field_simp
    ring
  have hterm : terminalTermsAtBack s data xStock = 0 := by
    unfold terminalTermsAtBack
    rw [hinitp, hfinalp]
    simp only [Nat.Ico_succ_singleton, Finset.sum_singleton, getLastD_of_all_zero _ hx,
      Matrix.zero_dotProduct, Finset.sum_const_zero]
  have hheur : heuristicTerm s data xStock = 0 := by
    unfold heuristicTerm
    rw [hfinalp, getLastD_of_all_zero _ hx, Matrix.zero_dotProduct]
  rw [htrap, hterm, hheur]
  ring

theorem C26_frozen_trajectory_cost_derivative_witness :
    (calculateCostDerivative oneEvent 0
        (calculateCostDerivativeBody sampleEpsilon oneEvent oneEventTrajectories 0
          stateSensitivity0000 inputSensitivity0000) 7).status = Except.ok () ∧
      (calculateCostDerivative oneEvent 0
        (calculateCostDerivativeBody sampleEpsilon oneEvent oneEventTrajectories 0
          stateSensitivity0000 inputSensitivity0000) 7).out = 1 - 3 := by
  have hT : stockAt oneEventTrajectories.nominalTimeTrajectoriesStock_ 0 = [0, 1, 1, 2] := rfl
  have hq : stockAt oneEventTrajectories.qTrajectoriesStock_ 0 = [1, 1, 3, 3] := rfl
  have p1 : oneEvent.dc.initTime_ = 0 := rfl
  have p2 : oneEvent.dc.finalTime_ = 2 := rfl
  exact C26_frozen_trajectory_cost_derivative sampleEpsilon oneEvent oneEventTrajectories
    stateSensitivity0000 inputSensitivity0000 7 1 1 3 0 2
    (by unfold sampleEpsilon; norm_num) rfl (by decide) rfl rfl rfl
    (by
      simp [CostPartitionShape, oneEventTrajectories, stateSensitivity0000,
        inputSensitivity0000, stockAt])
    (by rw [hT]; simp)
    (by rw [hT, p1]; rfl) (by rw [hT]; rfl) (by rw [hT]; rfl) (by rw [hT, p2]; rfl)
    (by rw [p1]; norm_num)
    (by rw [p2]; unfold sampleEpsilon; norm_num)
    (by rw [p1, p2]; unfold sampleEpsilon scalarLowest scalarMax; norm_num)
    (by
      intro k hk
      rw [hq]
      have hk' : k = 0 ∨ k = 1 := by omega
      rcases hk' with h | h <;> subst h <;> rfl)
    (by
      intro k hk1 hk2
      rw [hT] at hk2
      simp only [List.length_cons, List.length_nil] at hk2
      rw [hq]
      have hk' : k = 2 ∨ k = 3 := by omega
      rcases hk' with h | h <;> subst h <;> rfl)
    (by
      intro v hv
      simp [stockAt, stateSensitivity0000] at hv
      rw [hv]
      rfl)
    (by
      intro v hv
      simp [stockAt, inputSensitivity0000] at hv
      rw [hv]
      rfl)

/-! ## The terminal sensitivities: `approximateNominalLQPSensitivity2SwitchingTime` -/

theorem strict_getD (E : List Nat) (hE : E.Sorted (· < ·)) (i j : Nat) (hij : i < j)
    (hj : j < E.length) : E.getD i 0 < E.getD j 0 := by
  have hi : i < E.length := lt_trans hij hj
  have h := List.Sorted.rel_get_of_lt hE (a := ⟨i, hi⟩) (b := ⟨j, hj⟩) hij
  simpa [List.getD_eq_getElem?_getD, List.getElem?_eq_getElem hi,
    List.getElem?_eq_getElem hj] using h

theorem lqpSampleLoop_final {n m : Nat} (Rm : List (input_matrix_t m))
    (Qv : List (state_vector_t n)) (Qm : List (state_matrix_t n))
    (Rv : List (input_vector_t m)) (Pm : List (input_state_matrix_t n m))
    (QvFinal : List (state_vector_t n)) (QmFinal : List (state_matrix_t n)) (E : List Nat)
    (x : List (state_vector_t n)) (u : List (input_vector_t m)) (N : Nat)
    (hRm : N ≤ Rm.length) (hQv : N ≤ Qv.length) (hQm : N ≤ Qm.length) (hRv : N ≤ Rv.length)
    (hPm : N ≤ Pm.length) (hx : N ≤ x.length) (hu : N ≤ u.length)
    (hQvF : E.length ≤ QvFinal.length) (hQmF : E.length ≤ QmFinal.length)
    (hsorted : E.Sorted (· < ·)) (hE : ∀ e ∈ E, 1 ≤ e ∧ e ≤ N) :
    ∀ (d k : Nat) (st : LQPSensitivityPartition n m), N - k = d → k ≤ N →
      st.nablaqFinal.length = E.length → st.nablaQvFinal.length = E.length →
      st.eventsPastTheEndItr ≤ E.length →
      (∀ e : Nat, e < st.eventsPastTheEndItr →
        st.nablaqFinal[e]? = some
          (Matrix.dotProduct (QvFinal.getD e 0) (x.getD (E.getD e 0 - 1) 0)) ∧
        st.nablaQvFinal[e]? = some
          (Matrix.mulVec (QmFinal.getD e 0) (x.getD (E.getD e 0 - 1) 0))) →
      (∀ e : Nat, st.eventsPastTheEndItr ≤ e → e < E.length → k < E.getD e 0) →
      ∃ st', lqpSampleLoop Rm Qv Qm Rv Pm QvFinal QmFinal E x u N k st = (Except.ok (), st') ∧
        ∀ e : Nat, e < E.length →
          st'.nablaqFinal[e]? = some
            (Matrix.dotProduct (QvFinal.getD e 0) (x.getD (E.getD e 0 - 1) 0)) ∧
          st'.nablaQvFinal[e]? = some
            (Matrix.mulVec (QmFinal.getD e 0) (x.getD (E.getD e 0 - 1) 0)) := by
  intro d
  induction d with
  | zero =>
    intro k st hd hkN l4 l5 hitr hdone hahead
    have hk : ¬ k < N := by omega
    rw [lqpSampleLoop, if_neg hk]
    refine ⟨st, rfl, fun e he => ?_⟩
    by_cases hlt : e < st.eventsPastTheEndItr
    · exact hdone e hlt
    · have h1 := hahead e (by omega) he
      have hmem : E.getD e 0 ∈ E := by
        rw [List.getD_eq_getElem?_getD, List.getElem?_eq_getElem he]
        exact List.getElem_mem he
      have h2 := (hE _ hmem).2
      omega
  | succ d ih =>
    intro k st hd hkN l4 l5 hitr hdone hahead
    have hk : k < N := by omega
    obtain ⟨Rmk, hRmk⟩ := getElem?_of_le_length Rm N k hk hRm
    obtain ⟨Qvk, hQvk⟩ := getElem?_of_le_length Qv N k hk hQv
    obtain ⟨Qmk, hQmk⟩ := getElem?_of_le_length Qm N k hk hQm
    obtain ⟨Rvk, hRvk⟩ := getElem?_of_le_length Rv N k hk hRv
    obtain ⟨Pmk, hPmk⟩ := getElem?_of_le_length Pm N k hk hPm
    obtain ⟨xk, hxk⟩ := getElem?_of_le_length x N k hk hx
    obtain ⟨uk, huk⟩ := getElem?_of_le_length u N k hk hu
    rw [lqpSampleLoop, if_pos hk]
    simp only [hRmk, hQvk, hQmk, hRvk, hPmk, hxk, huk]
    cases hEi : E[st.eventsPastTheEndItr]? with
    | none =>
      simp only
      have hge : E.length ≤ st.eventsPastTheEndItr := by
        by_contra hcon
        rw [List.getElem?_eq_getElem (by omega)] at hEi
        exact absurd hEi (by simp)
      exact ih (k + 1) _ (by omega) (by omega) l4 l5 hitr hdone
        (fun e he1 he2 => absurd he2 (by simp only at he1; omega))
    | some e0 =>
      simp only
      have hitr' : st.eventsPastTheEndItr < E.length := by
        by_contra hcon
        rw [List.getElem?_eq_none (by omega)] at hEi
        exact absurd hEi (by simp)
      have he0 : E.getD st.eventsPastTheEndItr 0 = e0 := by
        rw [List.getD_eq_getElem?_getD, hEi]
        rfl
      by_cases hke : k + 1 = e0
      · rw [if_pos hke]
        obtain ⟨QvF, hQvF'⟩ := getElem?_of_le_length QvFinal E.length _ hitr' hQvF
        obtain ⟨QmF, hQmF'⟩ := getElem?_of_le_length QmFinal E.length _ hitr' hQmF
        have hxT : x[e0 - 1]? = some xk := by
          rw [← hke]
          simpa using hxk
        simp only [hQvF', hQmF', hxT]
        refine ih (k + 1) _ (by omega) (by omega) (by simp [l4]) (by simp [l5])
          (by simp only; omega) ?_ ?_
        · intro e he
          simp only at he
          by_cases hee : e = st.eventsPastTheEndItr
          · subst hee
            simp only [List.getElem?_set_self (show st.eventsPastTheEndItr <
                st.nablaqFinal.length by omega),
              List.getElem?_set_self (show st.eventsPastTheEndItr <
                st.nablaQvFinal.length by omega),
              getD_of_getElem? QvFinal _ QvF 0 hQvF', getD_of_getElem? QmFinal _ QmF 0 hQmF',
              he0, getD_of_getElem? x (e0 - 1) xk 0 hxT, and_self]
          · simp only [List.getElem?_set_ne (Ne.symm hee)]
            exact hdone e (by omega)
        · intro e he1 he2
          simp only at he1
          have := strict_getD E hsorted st.eventsPastTheEndItr e (by omega) he2
          omega
      · rw [if_neg hke]
        refine ih (k + 1) _ (by omega) (by omega) l4 l5 hitr hdone ?_
        intro e he1 he2
        simp only at he1
        by_cases hee : e = st.eventsPastTheEndItr
        · subst hee
          have := hahead _ (le_refl _) he2
          omega
        · have h1 := strict_getD E hsorted st.eventsPastTheEndItr e (by omega) he2
          have h2 := hahead _ (le_refl _) hitr'
          omega

theorem lqpPartitionLoop_final {n m : Nat} (fresh : ℚ) (freshState : state_vector_t n)
    (freshInput : input_vector_t m) (s : GSLQ) (data : SLQ_Trajectories n m)
    (xStock : List (List (state_vector_t n))) (uStock : List (List (input_vector_t m)))
    (hshape : ∀ i : Nat, i < s.numPartitions_ →
      ¬ (i < s.dc.initActivePartition_ ∨ i > s.dc.finalActivePartition_) →
      LQPPartitionShape data xStock uStock i) :
    ∀ (d i : Nat) (out : NominalLQPSensitivity n m), s.numPartitions_ - i = d →
      out.nablaqFinalStock.length = s.numPartitions_ →
      out.nablaQvFinalStock.length = s.numPartitions_ →
      (∀ j : Nat, j < i → j < s.numPartitions_ →
        ¬ (j < s.dc.initActivePartition_ ∨ j > s.dc.finalActivePartition_) →
        (stockAt data.nominalEventsPastTheEndIndecesStock_ j).Sorted (· < ·) →
        (∀ e ∈ stockAt data.nominalEventsPastTheEndIndecesStock_ j,
          1 ≤ e ∧ e ≤ (stockAt data.nominalTimeTrajectoriesStock_ j).length) →
        TerminalRule data xStock out j) →
      ∀ j : Nat, j < s.numPartitions_ →
        ¬ (j < s.dc.initActivePartition_ ∨ j > s.dc.finalActivePartition_) →
        (stockAt data.nominalEventsPastTheEndIndecesStock_ j).Sorted (· < ·) →
        (∀ e ∈ stockAt data.nominalEventsPastTheEndIndecesStock_ j,
          1 ≤ e ∧ e ≤ (stockAt data.nominalTimeTrajectoriesStock_ j).length) →
        TerminalRule data xStock
          (lqpPartitionLoop fresh freshState freshInput s data xStock uStock i out).out j := by
  intro d
  induction d with
  | zero =>
    intro i out hd _ _ hinv
    have hi : ¬ i < s.numPartitions_ := by omega
    rw [lqpPartitionLoop, if_neg hi]
    exact fun j hj => hinv j (by omega) hj
  | succ d ih =>
    intro i out hd l4 l5 hinv
    have hi : i < s.numPartitions_ := by omega
    rw [lqpPartitionLoop, if_pos hi]
    by_cases hinact : i < s.dc.initActivePartition_ ∨ i > s.dc.finalActivePartition_
    · rw [if_pos hinact]
      refine ih (i + 1) _ (by omega) (by simp [l4]) (by simp [l5]) ?_
      intro j hj hjN hact hs hE
      have hji : j ≠ i := fun h => hact (h ▸ hinact)
      have h := hinv j (by omega) hjN hact hs hE
      unfold TerminalRule at h ⊢
      simpa only [List.getElem?_set_ne (Ne.symm hji)] using h
    · rw [if_neg hinact]
      obtain ⟨h1, h2, hRm, hQv, hQm, hRv, hPm, hx, hu, hQvF, hQmF⟩ := hshape i hi hinact
      rw [stockAt_of_lt _ i h1, stockAt_of_lt _ i h2]
      obtain ⟨st', hr, -, -, -, r4, r5, -⟩ := lqpSampleLoop_spec
        (stockAt data.RmTrajectoriesStock_ i) (stockAt data.QvTrajectoriesStock_ i)
        (stockAt data.QmTrajectoriesStock_ i) (stockAt data.RvTrajectoriesStock_ i)
        (stockAt data.PmTrajectoriesStock_ i) (stockAt data.QvFinalStock_ i)
        (stockAt data.QmFinalStock_ i) (stockAt data.nominalEventsPastTheEndIndecesStock_ i)
        (stockAt xStock i) (stockAt uStock i)
        (stockAt data.nominalTimeTrajectoriesStock_ i).length hRm hQv hQm hRv hPm hx hu
        hQvF hQmF _ 0
        ⟨resizeWith fresh (stockAt out.nablaqTrajectoriesStock i)
            (stockAt data.nominalTimeTrajectoriesStock_ i).length,
          resizeWith freshState (stockAt out.nablaQvTrajectoriesStock i)
            (stockAt data.nominalTimeTrajectoriesStock_ i).length,
          resizeWith freshInput (stockAt out.nablaRvTrajectoriesStock i)
            (stockAt data.nominalTimeTrajectoriesStock_ i).length,
          resizeWith fresh (stockAt out.nablaqFinalStock i)
            (stockAt data.nominalEventsPastTheEndIndecesStock_ i).length,
          resizeWith freshState (stockAt out.nablaQvFinalStock i)
            (stockAt data.nominalEventsPastTheEndIndecesStock_ i).length, 0⟩
        rfl (resizeWith_length _ _ _) (resizeWith_length _ _ _) (resizeWith_length _ _ _)
        (resizeWith_length _ _ _) (resizeWith_length _ _ _)
        (fun j hj _ => absurd hj (Nat.not_lt_zero j))
      simp only [hr]
      refine ih (i + 1) _ (by omega) (by simp [l4]) (by simp [l5]) ?_
      intro j hj hjN hact hs hE
      by_cases hji : j = i
      · subst hji
        obtain ⟨st'', hr', hfin⟩ := lqpSampleLoop_final
          (stockAt data.RmTrajectoriesStock_ j) (stockAt data.QvTrajectoriesStock_ j)
          (stockAt data.QmTrajectoriesStock_ j) (stockAt data.RvTrajectoriesStock_ j)
          (stockAt data.PmTrajectoriesStock_ j) (stockAt data.QvFinalStock_ j)
          (stockAt data.QmFinalStock_ j) (stockAt data.nominalEventsPastTheEndIndecesStock_ j)
          (stockAt xStock j) (stockAt uStock j)
          (stockAt data.nominalTimeTrajectoriesStock_ j).length hRm hQv hQm hRv hPm hx hu
          hQvF hQmF hs hE _ 0
          ⟨resizeWith fresh (stockAt out.nablaqTrajectoriesStock j)
              (stockAt data.nominalTimeTrajectoriesStock_ j).length,
            resizeWith freshState (stockAt out.nablaQvTrajectoriesStock j)
              (stockAt data.nominalTimeTrajectoriesStock_ j).length,
            resizeWith freshInput (stockAt out.nablaRvTrajectoriesStock j)
              (stockAt data.nominalTimeTrajectoriesStock_ j).length,
            resizeWith fresh (stockAt out.nablaqFinalStock j)
              (stockAt data.nominalEventsPastTheEndIndecesStock_ j).length,
            resizeWith freshState (stockAt out.nablaQvFinalStock j)
              (stockAt data.nominalEventsPastTheEndIndecesStock_ j).length, 0⟩
          rfl (Nat.zero_le _) (resizeWith_length _ _ _) (resizeWith_length _ _ _)
          (Nat.zero_le _) (fun e he => absurd he (Nat.not_lt_zero e))
          (fun e _ he => (hE _ (by
            rw [List.getD_eq_getElem?_getD, List.getElem?_eq_getElem he]
            exact List.getElem_mem he)).1)
        have hst : st'' = st' := by
          rw [hr] at hr'
          exact ((Prod.mk.inj hr').2).symm
        subst hst
        exact ⟨st''.nablaqFinal, st''.nablaQvFinal, List.getElem?_set_self (by omega),
          List.getElem?_set_self (by omega), r4, r5, hfin⟩
      · have h := hinv j (by omega) hjN hact hs hE
        unfold TerminalRule at h ⊢
        simpa only [List.getElem?_set_ne (Ne.symm hji)] using h

/-- C22. When every active partition has the shape `LQPPartitionShape`,
`approximateNominalLQPSensitivity2SwitchingTime` returns, and for every active partition `i`
whose events-past-the-end indices `E` are strictly increasing with `1 ≤ E[e] ≤ N` the terminal
sensitivities are filled for every event: `nablaqFinal[i]` and `nablaQvFinal[i]` have one entry
for each event, and for every event `e` they hold `QvFinal[i][e].nabla_x[i][E[e]-1]` and
`QmFinal[i][e]*nabla_x[i][E[e]-1]`. -/
theorem C22_terminal_sensitivities {n m : Nat} (fresh : ℚ) (freshState : state_vector_t n)
    (freshInput : input_vector_t m) (s : GSLQ) (data : SLQ_Trajectories n m)
    (xStock : List (List (state_vector_t n))) (uStock : List (List (input_vector_t m)))
    (out : NominalLQPSensitivity n m)
    (hshape : ∀ i : Nat, i < s.numPartitions_ →
      ¬ (i < s.dc.initActivePartition_ ∨ i > s.dc.finalActivePartition_) →
      LQPPartitionShape data xStock uStock i) :
    (approximateNominalLQPSensitivity2SwitchingTime fresh freshState freshInput s data xStock
        uStock out).status = Except.ok () ∧
      ∀ i : Nat, i < s.numPartitions_ →
        ¬ (i < s.dc.initActivePartition_ ∨ i > s.dc.finalActivePartition_) →
        (stockAt data.nominalEventsPastTheEndIndecesStock_ i).Sorted (· < ·) →
        (∀ e ∈ stockAt data.nominalEventsPastTheEndIndecesStock_ i,
          1 ≤ e ∧ e ≤ (stockAt data.nominalTimeTrajectoriesStock_ i).length) →
        TerminalRule data xStock
          (approximateNominalLQPSensitivity2SwitchingTime fresh freshState freshInput s data
            xStock uStock out).out i := by
  unfold approximateNominalLQPSensitivity2SwitchingTime
  refine ⟨(lqpPartitionLoop_spec fresh freshState freshInput s data xStock uStock hshape _ 0 _
    rfl (resize_length _ _) (resize_length _ _) (resize_length _ _) (resize_length _ _)
    (resize_length _ _) (fun j hj _ => absurd hj (Nat.not_lt_zero j))).1, ?_⟩
  exact lqpPartitionLoop_final fresh freshState freshInput s data xStock uStock hshape _ 0 _
    rfl (resize_length _ _) (resize_length _ _)
    (fun j hj _ _ _ _ => absurd hj (Nat.not_lt_zero j))

theorem C22_terminal_sensitivities_witness :
    (approximateNominalLQPSensitivity2SwitchingTime 9 (fun _ => 9) (fun _ => 9) oneEvent
        oneEventTrajectories stateSensitivity0113 inputSensitivity0000
        ⟨[[5, 5], [6], [7]], [], [], [[1, 2, 3], [4]], []⟩).status = Except.ok () ∧
      ∀ i : Nat, i < oneEvent.numPartitions_ →
        ¬ (i < oneEvent.dc.initActivePartition_ ∨ i > oneEvent.dc.finalActivePartition_) →
        (stockAt oneEventTrajectories.nominalEventsPastTheEndIndecesStock_ i).Sorted (· < ·) →
        (∀ e ∈ stockAt oneEventTrajectories.nominalEventsPastTheEndIndecesStock_ i,
          1 ≤ e ∧ e ≤ (stockAt oneEventTrajectories.nominalTimeTrajectoriesStock_ i).length) →
        TerminalRule oneEventTrajectories stateSensitivity0113
          (approximateNominalLQPSensitivity2SwitchingTime 9 (fun _ => 9) (fun _ => 9) oneEvent
            oneEventTrajectories stateSensitivity0113 inputSensitivity0000
            ⟨[[5, 5], [6], [7]], [], [], [[1, 2, 3], [4]], []⟩).out i :=
  C22_terminal_sensitivities 9 (fun _ => 9) (fun _ => 9) oneEvent oneEventTrajectories
    stateSensitivity0113 inputSensitivity0000 ⟨[[5, 5], [6], [7]], [], [], [[1, 2, 3], [4]], []⟩
    (by
      intro i _ hact
      have p4 : oneEvent.dc.initActivePartition_ = 0 := rfl
      have p5 : oneEvent.dc.finalActivePartition_ = 0 := rfl
      have hi0 : i = 0 := by rw [p4, p5] at hact; omega
      subst hi0
      simp [LQPPartitionShape, oneEventTrajectories, stateSensitivity0113,
        inputSensitivity0000, stockAt])

/-! ## The samples handed out by `solveSensitivityRiccatiEquations` -/

theorem riccatiSegmentLoop_convert2Matrix {S : Type} {n : Nat} (eps : ℚ) (ops : RiccatiOps S n)
    (g : S → state_matrix_t n × state_vector_t n × ℚ) (s : GSLQ) (eventTimeIndex i : Nat)
    (pb pe : ℚ) (times : List ℚ) (E : List Nat) (qF : List ℚ)
    (QvF : List (state_vector_t n)) :
    ∀ (d j : Nat) (SsFinal : S) (allSs : List S), E.length + 1 - j = d →
      riccatiSegmentLoop eps ⟨ops.convert2Vector, g, ops.add, ops.integrate⟩ s eventTimeIndex i
          pb pe times E qF QvF j SsFinal allSs
        = riccatiSegmentLoop eps ops s eventTimeIndex i pb pe times E qF QvF j SsFinal
          allSs := by
  have hseg : ∀ (b e : Nat) (SsFinal : S) (allSs : List S),
      riccatiSegment eps ⟨ops.convert2Vector, g, ops.add, ops.integrate⟩ s eventTimeIndex i pb
          pe times b e SsFinal allSs
        = riccatiSegment eps ops s eventTimeIndex i pb pe times b e SsFinal allSs :=
    fun _ _ _ _ => rfl
  intro d
  induction d with
  | zero =>
    intro j SsFinal allSs hd
    have hj : ¬ j ≤ E.length := by omega
    rw [riccatiSegmentLoop, if_neg hj, riccatiSegmentLoop, if_neg hj]
  | succ d ih =>
    intro j SsFinal allSs hd
    have hj : j ≤ E.length := by omega
    rw [riccatiSegmentLoop, if_pos hj]
    conv_rhs => rw [riccatiSegmentLoop, if_pos hj]
    simp only [hseg]
    repeat' split
    all_goals first
      | rfl
      | exact ih (j + 1) _ _ (by omega)

theorem riccatiPartitionLoop_convert2Matrix {S : Type} {n m : Nat} (eps : ℚ)
    (ops : RiccatiOps S n) (g : S → state_matrix_t n × state_vector_t n × ℚ) (s : GSLQ)
    (data : SLQ_Trajectories n m) (qF : List (List (List ℚ)))
    (QvF : List (List (List (state_vector_t n)))) (eventTimeIndex : Nat) :
    ∀ (count : Nat) (SsFinal : S) (out out' : RiccatiOut n),
      out'.nablasTrajectoriesStock.length = out.nablasTrajectoriesStock.length →
      out'.nablaSvTrajectoriesStock.length = out.nablaSvTrajectoriesStock.length →
      out'.nablaSmTrajectoriesStock.length = out.nablaSmTrajectoriesStock.length →
      (riccatiPartitionLoop eps ⟨ops.convert2Vector, g, ops.add, ops.integrate⟩ s data qF QvF
          eventTimeIndex count SsFinal out').status
        = (riccatiPartitionLoop eps ops s data qF QvF eventTimeIndex count SsFinal
          out).status := by
  intro count
  induction count with
  | zero =>
    intro SsFinal out out' _ _ _
    simp [riccatiPartitionLoop]
  | succ i ih =>
    intro SsFinal out out' l1 l2 l3
    rw [riccatiPartitionLoop]
    conv_rhs => rw [riccatiPartitionLoop]
    simp only [riccatiSegmentLoop_convert2Matrix eps ops g s eventTimeIndex i _ _ _ _ _ _ _ _ _
      _ rfl, l1, l2, l3]
    repeat' split
    all_goals first
      | rfl
      | exact ih _ _ _ (by simp [l1]) (by simp [l2]) (by simp [l3])

/-- C21. Whether `solveSensitivityRiccatiEquations` throws does not depend on the samples it
hands out.  The samples `nablas`, `nablaSv`, `nablaSm` of an active partition are the images
under `convert2Matrix` of the values appended by the integrator; replacing `convert2Matrix` by
any other function `g`, that is replacing the samples by any other values, leaves the status
of the call unchanged.  And for the solver state `threePartitions` the call returns normally
for every value `v` of `nablasHeuristics`, with the samples `v + 1, v + 1, v, v` in the active
partition.  The function does not read `settings_.checkNumericalStability_`, which is
therefore not an argument of the model: no sample is tested after the size check. -/
theorem C21_samples_are_not_checked :
    (∀ (S : Type) (n m : Nat) (eps : ℚ) (ops : RiccatiOps S n)
      (g : S → state_matrix_t n × state_vector_t n × ℚ) (s : GSLQ)
      (data : SLQ_Trajectories n m) (qF : List (List (List ℚ)))
      (QvF : List (List (List (state_vector_t n)))) (eventTimeIndex : Nat)
      (nablasHeuristics : ℚ) (nablaSvHeuristics : state_vector_t n)
      (nablaSmHeuristics : state_matrix_t n) (out : RiccatiOut n),
      (solveSensitivityRiccatiEquations s eventTimeIndex
        (solveSensitivityRiccatiEquationsBody eps
          ⟨ops.convert2Vector, g, ops.add, ops.integrate⟩ s data qF QvF eventTimeIndex
          nablasHeuristics nablaSvHeuristics nablaSmHeuristics) out).status
        = (solveSensitivityRiccatiEquations s eventTimeIndex
          (solveSensitivityRiccatiEquationsBody eps ops s data qF QvF eventTimeIndex
            nablasHeuristics nablaSvHeuristics nablaSmHeuristics) out).status) ∧
    (∀ v : ℚ,
      (solveSensitivityRiccatiEquations threePartitions 0
        (solveSensitivityRiccatiEquationsBody sampleEpsilon constantRiccatiOps threePartitions
          threePartitionsTrajectories [[[1], [], []]] [[[fun _ => 1], [], []]] 0 v 0 0)
        staleRiccatiOut).status = Except.ok () ∧
      (solveSensitivityRiccatiEquations threePartitions 0
        (solveSensitivityRiccatiEquationsBody sampleEpsilon constantRiccatiOps threePartitions
          threePartitionsTrajectories [[[1], [], []]] [[[fun _ => 1], [], []]] 0 v 0 0)
        staleRiccatiOut).out.nablasTrajectoriesStock[0]? = some [v + 1, v + 1, v, v]) := by
  constructor
  · intro S n m eps ops g s data qF QvF eventTimeIndex h1 h2 h3 out
    unfold solveSensitivityRiccatiEquations solveSensitivityRiccatiEquationsBody
    split_ifs
    · rfl
    · exact riccatiPartitionLoop_convert2Matrix eps ops g s data qF QvF eventTimeIndex _ _ _ _
        rfl rfl rfl
  · intro v
    have d1 : threePartitionsTrajectories.SsNormalizedTimeTrajectoriesStock_[0]?
        = some [0, 1 / 2, 1 / 2, 1] := rfl
    have d2 : threePartitionsTrajectories.SsNormalizedEventsPastTheEndIndecesStock_[0]?
        = some [2] := rfl
    have d3 : threePartitionsTrajectories.partitioningTimes_[0]? = some 0 := rfl
    have d4 : threePartitionsTrajectories.partitioningTimes_[0 + 1]? = some 2 := rfl
    have d5 : stockAt (stockAt ([[[1], [], []]] : List (List (List ℚ))) 0) 0 = [1] := rfl
    have d6 : stockAt (stockAt ([[[fun _ => 1], [], []]] :
        List (List (List (state_vector_t 1)))) 0) 0 = [fun _ => 1] := rfl
    have hcall : solveSensitivityRiccatiEquations threePartitions 0
        (solveSensitivityRiccatiEquationsBody sampleEpsilon constantRiccatiOps threePartitions
          threePartitionsTrajectories [[[1], [], []]] [[[fun _ => 1], [], []]] 0 v 0 0)
        staleRiccatiOut
        = ⟨Except.ok (), ⟨[[v + 1, v + 1, v, v], [], [7]],
            [[fun _ => 0, fun _ => 0, fun _ => 0, fun _ => 0], [], [fun _ => 7]],
            [[fun _ _ => 0, fun _ _ => 0, fun _ _ => 0, fun _ _ => 0], [],
              [fun _ _ => 7]]⟩⟩ := by
      unfold solveSensitivityRiccatiEquations solveSensitivityRiccatiEquationsBody
      rw [if_neg (by decide)]
      show riccatiPartitionLoop _ _ _ _ _ _ _ (1 + 1) _ _ = _
      rw [riccatiPartitionLoop, if_pos (by decide), if_pos (by decide)]
      show riccatiPartitionLoop _ _ _ _ _ _ _ (0 + 1) _ _ = _
      rw [riccatiPartitionLoop, if_neg (by decide)]
      simp only [d1, d2, d3, d4, d5, d6]
      rw [if_neg (by simp), riccatiSegmentLoop_threePartitions]
      simp only [riccatiPartitionLoop]
      have p1 : threePartitions.numPartitions_ = 3 := rfl
      simp [constantRiccatiOps, resize, staleRiccatiOut, p1]
      refine ⟨?_, ?_⟩ <;> rfl
    rw [hcall]
    exact ⟨rfl, rfl⟩

/-! ## The partitions visited in the LQ-based path -/

/-- C25. For the solver state `threeEvents` (three event times, hence `numSubsystems_ = 4`, and
`numPartitions_ = 1`), with data stocks that have an entry for each of four partitions, both
`solveSensitivityRiccatiEquations` and `calculateLQSensitivityControllerForward` index their
output stocks, which they resized to `numPartitions_ = 1`, outside the bounds: the first at the
partition index `3`, where its loop starts, the second at the index `1`, after it has filled
the partition `0`.  For the solver state `threePartitions` (`numSubsystems_ = 2`,
`numPartitions_ = 3`) `calculateLQSensitivityControllerForward` returns normally and has not
visited the partition `2`, whose entry still holds the sample it held before the call. -/
theorem C25_partition_index_beyond_bounds :
    threeEvents.numSubsystems_ = 4 ∧ threeEvents.numPartitions_ = 1 ∧
      (solveSensitivityRiccatiEquations threeEvents 0
        (solveSensitivityRiccatiEquationsBody sampleEpsilon constantRiccatiOps threeEvents
          fourEntries [[[], [], [], []]] [[[], [], [], []]] 0 3 0 0)
        staleRiccatiOut).status = Except.error Error.out_of_range ∧
      (calculateLQSensitivityControllerForward threeEvents 0
        (calculateLQSensitivityControllerForwardBody (firstSampleControllerInterpolation 1 1)
          threeEvents fourEntries unitStock unitStock [constantStock 2] (fun _ => 9) 0
          [[0], [0], [0], [0]] (constantStock 3))
        [[fun _ => 7]]).status = Except.error Error.out_of_range ∧
      threePartitions.numSubsystems_ = 2 ∧ threePartitions.numPartitions_ = 3 ∧
      (calculateLQSensitivityControllerForward threePartitions 0
        (calculateLQSensitivityControllerForwardBody (firstSampleControllerInterpolation 1 1)
          threePartitions fourEntries unitStock unitStock [constantStock 2] (fun _ => 9) 0
          [[0], [0], [0], [0]] (constantStock 3))
        [[fun _ => 7], [fun _ => 7], [fun _ => 7]]).status = Except.ok () ∧
      (calculateLQSensitivityControllerForward threePartitions 0
        (calculateLQSensitivityControllerForwardBody (firstSampleControllerInterpolation 1 1)
          threePartitions fourEntries unitStock unitStock [constantStock 2] (fun _ => 9) 0
          [[0], [0], [0], [0]] (constantStock 3))
        [[fun _ => 7], [fun _ => 7], [fun _ => 7]]).out[2]? = some [fun _ => 7] := by
  have a1 : threeEvents.numSubsystems_ = 4 := rfl
  have a2 : threeEvents.numPartitions_ = 1 := rfl
  have a3 : threeEvents.dc.initActivePartition_ = 0 := rfl
  have a4 : threeEvents.dc.finalActivePartition_ = 0 := rfl
  have b1 : threePartitions.numSubsystems_ = 2 := rfl
  have b2 : threePartitions.numPartitions_ = 3 := rfl
  have b3 : threePartitions.dc.initActivePartition_ = 0 := rfl
  have b4 : threePartitions.dc.finalActivePartition_ = 0 := rfl
  have hsample : ∀ nablaLv : List (input_vector_t 1),
      lqControllerSampleLoop (constantInterpolation (1 : state_input_matrix_t 1 1))
        (constantInterpolation (1 : input_matrix_t 1))
        (constantInterpolation ((fun _ => 2) : input_vector_t 1)) [0]
        [((fun _ => 3) : state_vector_t 1)] 0 nablaLv
      = (Except.ok (), nablaLv.set 0
          (Matrix.mulVec (-(1 : input_matrix_t 1))
            ((fun _ => 2) + Matrix.mulVec (Matrix.transpose (1 : state_input_matrix_t 1 1))
              (fun _ => 3)))) := by
    intro nablaLv
    rw [lqControllerSampleLoop, if_pos (by decide)]
    simp only [List.getElem?_cons_zero, constantInterpolation]
    rw [lqControllerSampleLoop, if_neg (by decide)]
  refine ⟨rfl, rfl, ?_, ?_, rfl, rfl, ?_⟩
  · unfold solveSensitivityRiccatiEquations solveSensitivityRiccatiEquationsBody
    rw [if_neg (by decide), a1]
    show (riccatiPartitionLoop _ _ _ _ _ _ _ (3 + 1) _ _).status = _
    rw [riccatiPartitionLoop, if_pos (by decide), if_neg (by rw [a2]; decide)]
  · unfold calculateLQSensitivityControllerForward calculateLQSensitivityControllerForwardBody
    rw [if_neg (by decide), lqControllerPartitionLoop, if_pos (by decide),
      if_neg (by decide)]
    simp only [fourEntries, unitStock, constantStock, stockAt, List.getD_cons_zero,
      List.getElem?_cons_zero, resize, a2, List.take_succ_cons, List.take_zero,
      List.length_singleton, Nat.sub_self, List.replicate_zero, List.append_nil,
      firstSampleControllerInterpolation, hsample]
    rw [lqControllerPartitionLoop, if_pos (by decide), if_pos (by decide),
      if_neg (by simp)]
  · have hcall : calculateLQSensitivityControllerForward threePartitions 0
        (calculateLQSensitivityControllerForwardBody (firstSampleControllerInterpolation 1 1)
          threePartitions fourEntries unitStock unitStock [constantStock 2] (fun _ => 9) 0
          [[0], [0], [0], [0]] (constantStock 3))
        [[fun _ => 7], [fun _ => 7], [fun _ => 7]]
        = ⟨Except.ok (), [[Matrix.mulVec (-(1 : input_matrix_t 1))
            ((fun _ => 2) + Matrix.mulVec (Matrix.transpose (1 : state_input_matrix_t 1 1))
              (fun _ => 3))], [], [fun _ => 7]]⟩ := by
      unfold calculateLQSensitivityControllerForward
        calculateLQSensitivityControllerForwardBody
      rw [if_neg (by decide), lqControllerPartitionLoop, if_pos (by decide),
        if_neg (by decide)]
      simp only [fourEntries, unitStock, constantStock, stockAt, List.getD_cons_zero,
        List.getElem?_cons_zero, resize, b2, List.take_succ_cons, List.take_zero,
        List.take_nil, List.length_cons, List.length_nil, Nat.sub_self, List.replicate_zero,
        List.append_nil, firstSampleControllerInterpolation, hsample]
      rw [lqControllerPartitionLoop, if_pos (by decide), if_pos (by decide),
        if_pos (by simp), lqControllerPartitionLoop, if_neg (by decide)]
      rfl
    rw [hcall]
    exact ⟨rfl, rfl⟩

theorem lqPipeline_sameOutside {W : Type} {n m : Nat} (calls : SensitivityCalls W n m)
    (s : GSLQ) (index : Nat) (st st' : SensitivitySets W n m)
    (h : lqPipeline calls s index st = Except.ok st') : SameOutside index st st' := by
  simp only [lqPipeline] at h
  repeat' split at h
  all_goals first
    | (cases h; done)
    | (cases h
       refine ⟨by simp, by simp, by simp, fun j hj => ?_⟩
       have hj' : index ≠ j := fun e => hj e.symm
       simp [List.getElem?_set_ne hj'])

theorem bvpPipeline_sameOutside {W : Type} {n m : Nat} (calls : SensitivityCalls W n m)
    (index : Nat) (st st' : SensitivitySets W n m)
    (h : bvpPipeline calls index st = Except.ok st') : SameOutside index st st' := by
  simp only [bvpPipeline] at h
  repeat' split at h
  all_goals first
    | (cases h; done)
    | (cases h
       refine ⟨by simp, by simp, by simp, fun j hj => ?_⟩
       have hj' : index ≠ j := fun e => hj e.symm
       simp [List.getElem?_set_ne hj'])

theorem zeroNablaLv_sameOutside {W : Type} {n m : Nat} (s : GSLQ)
    (controllerTimes : List (List ℚ)) (iteration index : Nat) (st st' : SensitivitySets W n m)
    (h : zeroNablaLv s controllerTimes iteration index st = Except.ok st') (k : Nat) :
    SameOutside k st st' := by
  simp only [zeroNablaLv] at h
  repeat' split at h
  all_goals first
    | (cases h; done)
    | (cases h
       exact ⟨rfl, rfl, rfl, fun j _ => ⟨rfl, rfl, rfl⟩⟩)

theorem cleared_of_sameOutside {W : Type} {n m : Nat} {index j : Nat}
    {st st' : SensitivitySets W n m} (h : SameOutside index st st') (hj : j ≠ index)
    (hc : Cleared j st) : Cleared j st' := by
  obtain ⟨_, _, _, h4⟩ := h
  obtain ⟨e1, e2, e3⟩ := h4 j hj
  exact ⟨e1.trans hc.1, e2.trans hc.2.1, e3.trans hc.2.2⟩

theorem sizedTo_of_sameOutside {W : Type} {n m : Nat} {index N : Nat}
    {st st' : SensitivitySets W n m} (h : SameOutside index st st')
    (hc : SizedTo N st) : SizedTo N st' :=
  ⟨h.1.trans hc.1, h.2.1.trans hc.2.1, h.2.2.1.trans hc.2.2⟩

theorem sameOutside_trans {W : Type} {n m : Nat} {index : Nat}
    {st st' st'' : SensitivitySets W n m} (h : SameOutside index st st')
    (h' : SameOutside index st' st'') : SameOutside index st st'' := by
  refine ⟨h'.1.trans h.1, h'.2.1.trans h.2.1, h'.2.2.1.trans h.2.2.1, fun j hj => ?_⟩
  obtain ⟨a1, a2, a3⟩ := h.2.2.2 j hj
  obtain ⟨b1, b2, b3⟩ := h'.2.2.2 j hj
  exact ⟨b1.trans a1, b2.trans a2, b3.trans a3⟩

/-- An inactive event time is cleared by the first iteration of `runLQBasedMethod`, and the
entries of the other event times are not changed. -/
theorem lqInactiveEvent_first {W : Type} {n m : Nat} (index N : Nat)
    (st : SensitivitySets W n m) (hN : SizedTo N st) (hindex : index < N) :
    SizedTo N (lqInactiveEvent 1 index st) ∧ Cleared index (lqInactiveEvent 1 index st) ∧
      SameOutside index st (lqInactiveEvent 1 index st) := by
  obtain ⟨h1, h2, h3⟩ := hN
  have h0 : (0.0 : ℚ) = 0 := by norm_num
  refine ⟨⟨?_, ?_, ?_⟩, ⟨?_, ?_, ?_⟩, ⟨?_, ?_, ?_, fun j hj => ?_⟩⟩
  all_goals simp only [lqInactiveEvent, if_true, List.length_set]
  · exact h1
  · exact h2
  · exact h3
  · rw [List.getElem?_set_self (by omega), h0]
  · rw [List.getElem?_set_self (by omega)]
  · rw [List.getElem?_set_self (by omega)]
  · have hj' : index ≠ j := fun e => hj e.symm
    simp [List.getElem?_set_ne hj']

/-- The `else` branch of `runSweepingBVPMethod` clears the entry of the event time. -/
theorem bvpInactiveEvent_spec {W : Type} {n m : Nat} (index N : Nat)
    (st : SensitivitySets W n m) (hN : SizedTo N st) (hindex : index < N) :
    SizedTo N (bvpInactiveEvent index st) ∧ Cleared index (bvpInactiveEvent index st) ∧
      SameOutside index st (bvpInactiveEvent index st) := by
  obtain ⟨h1, h2, h3⟩ := hN
  have h0 : (0.0 : ℚ) = 0 := by norm_num
  refine ⟨⟨?_, ?_, ?_⟩, ⟨?_, ?_, ?_⟩, ⟨?_, ?_, ?_, fun j hj => ?_⟩⟩
  all_goals simp only [bvpInactiveEvent, List.length_set]
  · exact h1
  · exact h2
  · exact h3
  · rw [List.getElem?_set_self (by omega), h0]
  · rw [List.getElem?_set_self (by omega)]
  · rw [List.getElem?_set_self (by omega)]
  · have hj' : index ≠ j := fun e => hj e.symm
    simp [List.getElem?_set_ne hj']

/-- A property that every execution of the loop body carries from `index` to `index + 1` holds
at `numEventTimes_` when the loop over the event times returns. -/
theorem eventLoop_invariant {σ : Type} (s : GSLQ) (body : Nat → σ → Except Error σ)
    (P : Nat → σ → Prop)
    (hstep : ∀ j st st', j < s.numEventTimes_ → P j st → body j st = Except.ok st' →
      P (j + 1) st') :
    ∀ (d index : Nat) (st st' : σ), s.numEventTimes_ - index = d →
      index ≤ s.numEventTimes_ → P index st →
      eventLoop s body index st = Except.ok st' → P s.numEventTimes_ st' := by
  intro d
  induction d with
  | zero =>
    intro index st st' hd hle hP h
    rw [eventLoop, if_neg (by omega)] at h
    cases h
    have e : index = s.numEventTimes_ := by omega
    exact e ▸ hP
  | succ d ih =>
    intro index st st' hd hle hP h
    rw [eventLoop, if_pos (by omega)] at h
    split at h
    · cases h
    · rename_i st1 h1
      exact ih (index + 1) st1 st' (by omega) (by omega) (hstep index st st1 (by omega) hP h1) h

theorem resizeDynamic_length (fresh : Nat → ℚ) (v : List ℚ) (N : Nat) :
    (resizeDynamic fresh v N).length = N := by
  unfold resizeDynamic
  split
  · assumption
  · simp

/-- One execution of the loop body of `runLQBasedMethod`: the sizes are kept, an inactive event
time that was cleared stays cleared, and the first iteration clears an inactive `index`. -/
theorem lqEvent_spec {W : Type} {n m : Nat} (calls : SensitivityCalls W n m) (s : GSLQ)
    (controllerTimes : List (List ℚ)) (iteration index N : Nat)
    (st st' : SensitivitySets W n m) (hN : SizedTo N st) (hindex : index < N)
    (h : lqEvent calls s controllerTimes iteration index st = Except.ok st') :
    SizedTo N st' ∧
      ∀ j, ¬ (s.activeEventTimeBeginIndex_ ≤ j ∧ j < s.activeEventTimeEndIndex_) →
        (Cleared j st ∨ (j = index ∧ iteration = 1)) → Cleared j st' := by
  unfold lqEvent at h
  by_cases hact : s.activeEventTimeBeginIndex_ ≤ index ∧ index < s.activeEventTimeEndIndex_
  · rw [if_pos hact] at h
    split at h
    · cases h
    · rename_i st1 h1
      have hs := sameOutside_trans
        (zeroNablaLv_sameOutside s controllerTimes iteration index st st1 h1 index)
        (lqPipeline_sameOutside calls s index st1 st' h)
      refine ⟨sizedTo_of_sameOutside hs hN, fun j hj hc => ?_⟩
      have hne : j ≠ index := fun e => hj (e ▸ hact)
      rcases hc with hc | ⟨e, _⟩
      · exact cleared_of_sameOutside hs hne hc
      · exact absurd e hne
  · rw [if_neg hact] at h
    cases h
    by_cases hit : iteration = 1
    · subst hit
      obtain ⟨a, b, c⟩ := lqInactiveEvent_first index N st hN hindex
      refine ⟨a, fun j _ hc => ?_⟩
      by_cases hj : j = index
      · exact hj ▸ b
      · rcases hc with hc | ⟨e, _⟩
        · exact cleared_of_sameOutside c hj hc
        · exact absurd e hj
    · have e : lqInactiveEvent iteration index st = st := by
        unfold lqInactiveEvent
        rw [if_neg hit]
      rw [e]
      refine ⟨hN, fun j _ hc => ?_⟩
      rcases hc with hc | ⟨_, e⟩
      · exact hc
      · exact absurd e hit

/-- One execution of the loop body of `runSweepingBVPMethod`. -/
theorem bvpEvent_spec {W : Type} {n m : Nat} (calls : SensitivityCalls W n m) (s : GSLQ)
    (index N : Nat) (st st' : SensitivitySets W n m) (hN : SizedTo N st) (hindex : index < N)
    (h : bvpEvent calls s index st = Except.ok st') :
    SizedTo N st' ∧
      ∀ j, ¬ (s.activeEventTimeBeginIndex_ ≤ j ∧ j < s.activeEventTimeEndIndex_) →
        (Cleared j st ∨ j = index) → Cleared j st' := by
  unfold bvpEvent at h
  by_cases hact : s.activeEventTimeBeginIndex_ ≤ index ∧ index < s.activeEventTimeEndIndex_
  · rw [if_pos hact] at h
    have hs := bvpPipeline_sameOutside calls index st st' h
    refine ⟨sizedTo_of_sameOutside hs hN, fun j hj hc => ?_⟩
    have hne : j ≠ index := fun e => hj (e ▸ hact)
    rcases hc with hc | e
    · exact cleared_of_sameOutside hs hne hc
    · exact absurd e hne
  · rw [if_neg hact] at h
    cases h
    obtain ⟨a, b, c⟩ := bvpInactiveEvent_spec index N st hN hindex
    refine ⟨a, fun j _ hc => ?_⟩
    by_cases hj : j = index
    · exact hj ▸ b
    · rcases hc with hc | e
      · exact cleared_of_sameOutside c hj hc
      · exact absurd e hj

/-- The first iteration of `runLQBasedMethod` clears every inactive event time. -/
theorem lqFirstPass_spec {W : Type} {n m : Nat} (calls : SensitivityCalls W n m) (s : GSLQ)
    (controllerTimes : List (List ℚ)) (st st' : SensitivitySets W n m)
    (hN : SizedTo s.numEventTimes_ st)
    (h : eventLoop s (lqEvent calls s controllerTimes 1) 0 st = Except.ok st') :
    SizedTo s.numEventTimes_ st' ∧
      ∀ j, j < s.numEventTimes_ →
        ¬ (s.activeEventTimeBeginIndex_ ≤ j ∧ j < s.activeEventTimeEndIndex_) →
        Cleared j st' := by
  have key := eventLoop_invariant s (lqEvent calls s controllerTimes 1)
    (fun index st => SizedTo s.numEventTimes_ st ∧ ∀ j, j < index →
      ¬ (s.activeEventTimeBeginIndex_ ≤ j ∧ j < s.activeEventTimeEndIndex_) → Cleared j st)
    (fun index st st1 hindex hP h1 => by
      obtain ⟨a, b⟩ := lqEvent_spec calls s controllerTimes 1 index s.numEventTimes_ st st1
        hP.1 hindex h1
      refine ⟨a, fun j hj hin => b j hin ?_⟩
      by_cases e : j = index
      · exact Or.inr ⟨e, rfl⟩
      · exact Or.inl (hP.2 j (by omega) hin))
    s.numEventTimes_ 0 st st' rfl (Nat.zero_le _) ⟨hN, fun j hj => absurd hj (by omega)⟩ h
  exact key

/-- A later iteration of `runLQBasedMethod` keeps the inactive event times cleared. -/
theorem lqLaterPass_spec {W : Type} {n m : Nat} (calls : SensitivityCalls W n m) (s : GSLQ)
    (controllerTimes : List (List ℚ)) (iteration : Nat) (st st' : SensitivitySets W n m)
    (hN : SizedTo s.numEventTimes_ st)
    (hc : ∀ j, j < s.numEventTimes_ →
        ¬ (s.activeEventTimeBeginIndex_ ≤ j ∧ j < s.activeEventTimeEndIndex_) → Cleared j st)
    (h : eventLoop s (lqEvent calls s controllerTimes iteration) 0 st = Except.ok st') :
    SizedTo s.numEventTimes_ st' ∧
      ∀ j, j < s.numEventTimes_ →
        ¬ (s.activeEventTimeBeginIndex_ ≤ j ∧ j < s.activeEventTimeEndIndex_) →
        Cleared j st' := by
  have key := eventLoop_invariant s (lqEvent calls s controllerTimes iteration)
    (fun _ st => SizedTo s.numEventTimes_ st ∧ ∀ j, j < s.numEventTimes_ →
      ¬ (s.activeEventTimeBeginIndex_ ≤ j ∧ j < s.activeEventTimeEndIndex_) → Cleared j st)
    (fun index st st1 hindex hP h1 => by
      obtain ⟨a, b⟩ := lqEvent_spec calls s controllerTimes iteration index s.numEventTimes_
        st st1 hP.1 hindex h1
      exact ⟨a, fun j hj hin => b j hin (Or.inl (hP.2 j hj hin))⟩)
    s.numEventTimes_ 0 st st' rfl (Nat.zero_le _) ⟨hN, hc⟩ h
  exact key

/-- The loop of `runSweepingBVPMethod` clears every inactive event time. -/
theorem bvpPass_spec {W : Type} {n m : Nat} (calls : SensitivityCalls W n m) (s : GSLQ)
    (st st' : SensitivitySets W n m) (hN : SizedTo s.numEventTimes_ st)
    (h : eventLoop s (bvpEvent calls s) 0 st = Except.ok st') :
    SizedTo s.numEventTimes_ st' ∧
      ∀ j, j < s.numEventTimes_ →
        ¬ (s.activeEventTimeBeginIndex_ ≤ j ∧ j < s.activeEventTimeEndIndex_) →
        Cleared j st' := by
  have key := eventLoop_invariant s (bvpEvent calls s)
    (fun index st => SizedTo s.numEventTimes_ st ∧ ∀ j, j < index →
      ¬ (s.activeEventTimeBeginIndex_ ≤ j ∧ j < s.activeEventTimeEndIndex_) → Cleared j st)
    (fun index st st1 hindex hP h1 => by
      obtain ⟨a, b⟩ := bvpEvent_spec calls s index s.numEventTimes_ st st1 hP.1 hindex h1
      refine ⟨a, fun j hj hin => b j hin ?_⟩
      by_cases e : j = index
      · exact Or.inr e
      · exact Or.inl (hP.2 j (by omega) hin))
    s.numEventTimes_ 0 st st' rfl (Nat.zero_le _) ⟨hN, fun j hj => absurd hj (by omega)⟩ h
  exact key

/-- The three iterations of `runLQBasedMethod`, one after the other. -/
theorem lqIterationLoop_three {W : Type} {n m : Nat} (calls : SensitivityCalls W n m)
    (s : GSLQ) (controllerTimes : List (List ℚ)) (st st' : SensitivitySets W n m)
    (h : lqIterationLoop calls s controllerTimes 3 0 st = Except.ok st') :
    ∃ st1 st2, eventLoop s (lqEvent calls s controllerTimes 1) 0 st = Except.ok st1 ∧
      eventLoop s (lqEvent calls s controllerTimes 2) 0 st1 = Except.ok st2 ∧
      eventLoop s (lqEvent calls s controllerTimes 3) 0 st2 = Except.ok st' := by
  rw [lqIterationLoop, if_pos (by decide)] at h
  split at h
  · cases h
  · rename_i st1 h1
    rw [lqIterationLoop, if_pos (by decide)] at h
    split at h
    · cases h
    · rename_i st2 h2
      rw [lqIterationLoop, if_pos (by decide)] at h
      split at h
      · cases h
      · rename_i st3 h3
        rw [lqIterationLoop, if_neg (by decide)] at h
        cases h
        exact ⟨st1, st2, h1, h2, h3⟩

/-- Claim C27: when `runLQBasedMethod` or `runSweepingBVPMethod` returns normally, the vector
`nominalCostFuntionDerivative_` has `numEventTimes_` entries, and for every event index outside
the range from `activeEventTimeBeginIndex_` (included) to `activeEventTimeEndIndex_` (excluded)
its entry is zero and the stored state and input sensitivity stocks are empty.  This holds for
every behaviour of the called member functions. -/
theorem C27_inactive_events_cleared {W : Type} {n m : Nat} (calls : SensitivityCalls W n m)
    (controllerTimes : List (List ℚ)) (fresh : Nat → ℚ) (freshScalar : ℚ)
    (freshState : state_vector_t n) (s : GSLQ) (st st' : SensitivitySets W n m)
    (h : runLQBasedMethod calls controllerTimes fresh freshScalar freshState s st
        = Except.ok st' ∨
      runSweepingBVPMethod calls fresh s st = Except.ok st') :
    st'.nominalCostFuntionDerivative_.length = s.numEventTimes_ ∧
      ∀ index, index < s.numEventTimes_ →
        ¬ (s.activeEventTimeBeginIndex_ ≤ index ∧ index < s.activeEventTimeEndIndex_) →
        st'.nominalCostFuntionDerivative_[index]? = some 0 ∧
        st'.sensitivityStateTrajectoriesStockSet_[index]? = some [] ∧
        st'.sensitivityInputTrajectoriesStockSet_[index]? = some [] := by
  rcases h with h | h
  · unfold runLQBasedMethod at h
    obtain ⟨st1, st2, h1, h2, h3⟩ := lqIterationLoop_three calls s controllerTimes _ st' h
    have p1 := lqFirstPass_spec calls s controllerTimes _ st1
      ⟨resizeDynamic_length _ _ _, resize_length _ _, resize_length _ _⟩ h1
    have p2 := lqLaterPass_spec calls s controllerTimes 2 st1 st2 p1.1 p1.2 h2
    have p3 := lqLaterPass_spec calls s controllerTimes 3 st2 st' p2.1 p2.2 h3
    exact ⟨p3.1.1, p3.2⟩
  · unfold runSweepingBVPMethod at h
    split at h
    · cases h
    · have p := bvpPass_spec calls s _ st'
        ⟨resizeDynamic_length _ _ _, resize_length _ _, resize_length _ _⟩ h
      exact ⟨p.1.1, p.2⟩

/-- When every execution of the loop body returns and carries a property from `index` to
`index + 1`, the loop over the event times returns and the property holds at
`numEventTimes_`. -/
theorem eventLoop_total {σ : Type} (s : GSLQ) (body : Nat → σ → Except Error σ)
    (P : Nat → σ → Prop)
    (hstep : ∀ j st, j < s.numEventTimes_ → P j st →
      ∃ st', body j st = Except.ok st' ∧ P (j + 1) st') :
    ∀ (d index : Nat) (st : σ), s.numEventTimes_ - index = d →
      index ≤ s.numEventTimes_ → P index st →
      ∃ st', eventLoop s body index st = Except.ok st' ∧ P s.numEventTimes_ st' := by
  intro d
  induction d with
  | zero =>
    intro index st hd hle hP
    rw [eventLoop, if_neg (by omega)]
    have e : index = s.numEventTimes_ := by omega
    exact ⟨st, rfl, e ▸ hP⟩
  | succ d ih =>
    intro index st hd hle hP
    rw [eventLoop, if_pos (by omega)]
    obtain ⟨st1, h1, hP1⟩ := hstep index st (by omega) hP
    rw [h1]
    exact ih (index + 1) st1 (by omega) (by omega) hP1

/-- The pipeline of `runLQBasedMethod` with the recording member functions. -/
theorem recording_lqPipeline {n m : Nat} (s : GSLQ)
    (feedforward : List (List (input_vector_t m))) (index : Nat)
    (st : SensitivitySets (List (SensitivityCall m)) n m)
    (hS : index < st.sensitivityStateTrajectoriesStockSet_.length) :
    ∃ st', lqPipeline (recordingCalls s feedforward) s index st = Except.ok st' ∧
      st'.workers = st.workers
        ++ recordedPipeline index (stockAt st.nablaLvTrajectoriesStockSet_ index) ∧
      st'.nablaLvTrajectoriesStockSet_ = st.nablaLvTrajectoriesStockSet_.set index feedforward ∧
      st'.sensitivityStateTrajectoriesStockSet_.length
        = st.sensitivityStateTrajectoriesStockSet_.length := by
  have e : (stockAt (stockAt (st.sensitivityStateTrajectoriesStockSet_.set index
      (List.replicate (s.dc.finalActivePartition_ + 1) [(0 : state_vector_t n)])) index)
      s.dc.finalActivePartition_).getLast? = some 0 := by
    simp [stockAt, List.getD_eq_getElem?_getD, List.getElem?_set_self hS,
      List.getElem?_replicate]
  simp only [lqPipeline, recordingCalls, e]
  refine ⟨_, rfl, ?_, ?_, ?_⟩
  · simp [recordedPipeline]
  · rfl
  · simp

/-- The loop that sets Lv to zero returns when the partitions up to the final active one exist
in the stock and in the controllers; the entries from `i` to the final active partition are
then zero vectors, one for each time stamp of the controller, and those before `i` are kept. -/
theorem zeroNablaLvLoop_spec {m : Nat} (s : GSLQ) (controllerTimes : List (List ℚ))
    (hC : s.dc.finalActivePartition_ < controllerTimes.length) :
    ∀ (d i : Nat) (nablaLv : List (List (input_vector_t m))),
      s.dc.finalActivePartition_ + 1 - i = d → s.dc.finalActivePartition_ < nablaLv.length →
      ∃ v, zeroNablaLvLoop s controllerTimes i nablaLv = Except.ok v ∧
        v.length = nablaLv.length ∧
        (∀ k, k < i → v[k]? = nablaLv[k]?) ∧
        ∀ k, i ≤ k → k ≤ s.dc.finalActivePartition_ →
          v[k]? = some (List.replicate (controllerTimes.getD k []).length 0) := by
  intro d
  induction d with
  | zero =>
    intro i nablaLv hd hL
    rw [zeroNablaLvLoop, if_neg (by omega)]
    exact ⟨nablaLv, rfl, rfl, fun _ _ => rfl, fun k h1 h2 => absurd h2 (by omega)⟩
  | succ d ih =>
    intro i nablaLv hd hL
    have hi : i < controllerTimes.length := by omega
    rw [zeroNablaLvLoop, if_pos (by omega), List.getElem?_eq_getElem hi]
    simp only []
    rw [if_pos (by omega)]
    obtain ⟨v, h1, h2, h3, h4⟩ := ih (i + 1)
      (nablaLv.set i (List.replicate (controllerTimes[i]).length 0)) (by omega)
      (by rw [List.length_set]; exact hL)
    refine ⟨v, h1, by rw [h2, List.length_set], fun k hk => ?_, fun k hk1 hk2 => ?_⟩
    · rw [h3 k (by omega), List.getElem?_set_ne (by omega)]
    · by_cases e : k = i
      · subst e
        rw [h3 k (by omega), List.getElem?_set_self (by omega)]
        simp [List.getD_eq_getElem?_getD, List.getElem?_eq_getElem hi]
      · exact h4 k (by omega) hk2

/-- The first iteration leaves zero vectors in the active partitions of the feedforward
stock. -/
theorem zeroedNablaLv_spec {m : Nat} (s : GSLQ) (controllerTimes : List (List ℚ))
    (hP : s.dc.finalActivePartition_ < s.numPartitions_)
    (hC : s.dc.finalActivePartition_ < controllerTimes.length)
    (stock : List (List (input_vector_t m))) :
    zeroNablaLvLoop s controllerTimes s.dc.initActivePartition_
        (resize stock s.numPartitions_) = Except.ok (zeroedNablaLv s controllerTimes stock) ∧
      ∀ i, s.dc.initActivePartition_ ≤ i → i ≤ s.dc.finalActivePartition_ →
        (zeroedNablaLv s controllerTimes stock)[i]?
          = some (List.replicate (controllerTimes.getD i []).length 0) := by
  obtain ⟨v, h1, _, _, h4⟩ := zeroNablaLvLoop_spec s controllerTimes hC _
    s.dc.initActivePartition_ (resize stock s.numPartitions_) rfl
    (by rw [resize_length]; exact hP)
  have e : zeroedNablaLv s controllerTimes stock = v := by
    unfold zeroedNablaLv
    rw [h1]
  rw [e]
  exact ⟨h1, h4⟩

/-- The loop body of `runLQBasedMethod` with the recording member functions. -/
theorem recording_lqEvent {n m : Nat} (s : GSLQ) (controllerTimes : List (List ℚ))
    (feedforward : List (List (input_vector_t m))) (iteration index : Nat)
    (st : SensitivitySets (List (SensitivityCall m)) n m)
    (hP : s.dc.finalActivePartition_ < s.numPartitions_)
    (hC : s.dc.finalActivePartition_ < controllerTimes.length)
    (hS : index < st.sensitivityStateTrajectoriesStockSet_.length)
    (hL : index < st.nablaLvTrajectoriesStockSet_.length) :
    ∃ st', lqEvent (recordingCalls s feedforward) s controllerTimes iteration index st
        = Except.ok st' ∧
      st'.sensitivityStateTrajectoriesStockSet_.length
        = st.sensitivityStateTrajectoriesStockSet_.length ∧
      st'.nablaLvTrajectoriesStockSet_.length = st.nablaLvTrajectoriesStockSet_.length ∧
      (∀ i, i ≠ index →
        st'.nablaLvTrajectoriesStockSet_[i]? = st.nablaLvTrajectoriesStockSet_[i]?) ∧
      if s.activeEventTimeBeginIndex_ ≤ index ∧ index < s.activeEventTimeEndIndex_ then
        st'.workers = st.workers ++ recordedPipeline index
          (if iteration = 1 then
            zeroedNablaLv s controllerTimes (stockAt st.nablaLvTrajectoriesStockSet_ index)
          else stockAt st.nablaLvTrajectoriesStockSet_ index) ∧
        st'.nablaLvTrajectoriesStockSet_[index]? = some feedforward
      else st'.workers = st.workers := by
  unfold lqEvent
  by_cases hact : s.activeEventTimeBeginIndex_ ≤ index ∧ index < s.activeEventTimeEndIndex_
  · simp only [if_pos hact]
    by_cases hit : iteration = 1
    · have hz := (zeroedNablaLv_spec s controllerTimes hP hC
        (stockAt st.nablaLvTrajectoriesStockSet_ index)).1
      simp only [zeroNablaLv, if_pos hit, hz]
      obtain ⟨st', h1, h2, h3, h4⟩ := recording_lqPipeline s feedforward index
        { st with nablaLvTrajectoriesStockSet_ := (st.nablaLvTrajectoriesStockSet_.set index
            (zeroedNablaLv s controllerTimes
              (stockAt st.nablaLvTrajectoriesStockSet_ index))) }
        hS
      refine ⟨st', h1, h4, ?_, fun i hi => ?_, ?_, ?_⟩
      · rw [h3]
        simp
      · rw [h3]
        have hi' : index ≠ i := fun e => hi e.symm
        simp [List.getElem?_set_ne hi']
      · rw [h2]
        simp [stockAt, List.getD_eq_getElem?_getD, List.getElem?_set_self hL]
      · rw [h3]
        simp [List.getElem?_set_self hL]
    · simp only [zeroNablaLv, if_neg hit]
      obtain ⟨st', h1, h2, h3, h4⟩ := recording_lqPipeline s feedforward index st hS
      refine ⟨st', h1, h4, ?_, fun i hi => ?_, ?_, ?_⟩
      · rw [h3]
        simp
      · rw [h3]
        have hi' : index ≠ i := fun e => hi e.symm
        simp [List.getElem?_set_ne hi']
      · rw [h2]
      · rw [h3]
        simp [List.getElem?_set_self hL]
  · simp only [if_neg hact]
    refine ⟨_, rfl, ?_, ?_, fun i hi => ?_, ?_⟩
    · unfold lqInactiveEvent
      split <;> simp
    · unfold lqInactiveEvent
      split <;> simp
    · have hi' : index ≠ i := fun e => hi e.symm
      unfold lqInactiveEvent
      split
      · simp [List.getElem?_set_ne hi']
      · rfl
    · unfold lqInactiveEvent
      split <;> rfl

theorem stockAt_congr {α : Type} {a b : List (List α)} {i : Nat} (h : a[i]? = b[i]?) :
    stockAt a i = stockAt b i := by
  simp [stockAt, List.getD_eq_getElem?_getD, h]

/-- One pass of `runLQBasedMethod` over the event times with the recording member functions:
the pass returns, it has run the pipeline once for each active index and for no other index,
and it leaves the stock `feedforward` at every active index. -/
theorem recording_pass {n m : Nat} (s : GSLQ) (controllerTimes : List (List ℚ))
    (feedforward : List (List (input_vector_t m))) (iteration : Nat)
    (st : SensitivitySets (List (SensitivityCall m)) n m)
    (hP : s.dc.finalActivePartition_ < s.numPartitions_)
    (hC : s.dc.finalActivePartition_ < controllerTimes.length)
    (hS : st.sensitivityStateTrajectoriesStockSet_.length = s.numEventTimes_)
    (hL : st.nablaLvTrajectoriesStockSet_.length = s.numEventTimes_) :
    ∃ st', eventLoop s (lqEvent (recordingCalls s feedforward) s controllerTimes iteration) 0 st
        = Except.ok st' ∧
      st'.sensitivityStateTrajectoriesStockSet_.length = s.numEventTimes_ ∧
      st'.nablaLvTrajectoriesStockSet_.length = s.numEventTimes_ ∧
      (∀ i, i < s.numEventTimes_ →
        s.activeEventTimeBeginIndex_ ≤ i ∧ i < s.activeEventTimeEndIndex_ →
        st'.nablaLvTrajectoriesStockSet_[i]? = some feedforward) ∧
      st'.workers = st.workers ++ recordedPass s (fun index =>
        if iteration = 1 then
          zeroedNablaLv s controllerTimes (stockAt st.nablaLvTrajectoriesStockSet_ index)
        else stockAt st.nablaLvTrajectoriesStockSet_ index) := by
  obtain ⟨st', h1, h2, h3, _, h5, h6⟩ := eventLoop_total s
    (lqEvent (recordingCalls s feedforward) s controllerTimes iteration)
    (fun j st1 =>
      st1.sensitivityStateTrajectoriesStockSet_.length = s.numEventTimes_ ∧
      st1.nablaLvTrajectoriesStockSet_.length = s.numEventTimes_ ∧
      (∀ i, j ≤ i →
        st1.nablaLvTrajectoriesStockSet_[i]? = st.nablaLvTrajectoriesStockSet_[i]?) ∧
      (∀ i, i < j → s.activeEventTimeBeginIndex_ ≤ i ∧ i < s.activeEventTimeEndIndex_ →
        st1.nablaLvTrajectoriesStockSet_[i]? = some feedforward) ∧
      st1.workers = st.workers ++ ((List.range j).filter (fun index =>
        decide (s.activeEventTimeBeginIndex_ ≤ index
          ∧ index < s.activeEventTimeEndIndex_))).flatMap
        (fun index => recordedPipeline index
          (if iteration = 1 then
            zeroedNablaLv s controllerTimes (stockAt st.nablaLvTrajectoriesStockSet_ index)
          else stockAt st.nablaLvTrajectoriesStockSet_ index)))
    (fun j st1 hj hinv => by
      obtain ⟨a1, a2, a3, a4, a5⟩ := hinv
      obtain ⟨st2, b1, b2, b3, b4, b5⟩ := recording_lqEvent s controllerTimes feedforward
        iteration j st1 hP hC (by omega) (by omega)
      refine ⟨st2, b1, b2.trans a1, b3.trans a2, fun i hi => ?_, fun i hi hact => ?_, ?_⟩
      · rw [b4 i (by omega)]
        exact a3 i (by omega)
      · by_cases e : i = j
        · subst e
          rw [if_pos hact] at b5
          exact b5.2
        · rw [b4 i e]
          exact a4 i (by omega) hact
      · rw [List.range_succ, List.filter_append, List.flatMap_append, ← List.append_assoc,
          ← a5]
        by_cases hact : s.activeEventTimeBeginIndex_ ≤ j ∧ j < s.activeEventTimeEndIndex_
        · rw [if_pos hact] at b5
          rw [b5.1, stockAt_congr (a3 j (Nat.le_refl j))]
          simp [hact]
        · rw [if_neg hact] at b5
          rw [b5]
          simp [hact])
    s.numEventTimes_ 0 st rfl (Nat.zero_le _)
    ⟨hS, hL, fun _ _ => rfl, fun i hi => absurd hi (by omega), by simp⟩
  exact ⟨st', h1, h2, h3, h5, h6⟩

/-- The records of a pass do not depend on the stocks given for the inactive indices or for the
indices that are not below `numEventTimes_`. -/
theorem recordedPass_congr {m : Nat} (s : GSLQ) (Lv Lv' : Nat → List (List (input_vector_t m)))
    (h : ∀ i, i < s.numEventTimes_ →
      s.activeEventTimeBeginIndex_ ≤ i ∧ i < s.activeEventTimeEndIndex_ → Lv i = Lv' i) :
    recordedPass s Lv = recordedPass s Lv' := by
  unfold recordedPass
  apply List.flatMap_congr
  intro i hi
  rw [List.mem_filter, List.mem_range] at hi
  rw [h i hi.1 (of_decide_eq_true hi.2)]

/-- With member functions that record their calls and never throw, `runLQBasedMethod` returns
for every number of event times and every active range, and the record consists of exactly
three passes.  Each pass holds the six calls of the pipeline, in the order of the source, once
for every index below `numEventTimes_` inside the active range and no call for any other index.
In the first pass the rollout receives the feedforward stock whose active partitions have just
been set to zero vectors; in the second and the third pass it receives the stock `feedforward`
that the feedforward update of the pass before has returned. -/
theorem recording_three_passes {n m : Nat} (s : GSLQ)
    (controllerTimes : List (List ℚ)) (feedforward : List (List (input_vector_t m)))
    (fresh : Nat → ℚ) (freshScalar : ℚ) (freshState : state_vector_t n)
    (st : SensitivitySets (List (SensitivityCall m)) n m)
    (hP : s.dc.finalActivePartition_ < s.numPartitions_)
    (hC : s.dc.finalActivePartition_ < controllerTimes.length) :
    (∃ st', runLQBasedMethod (recordingCalls s feedforward) controllerTimes fresh freshScalar
        freshState s st = Except.ok st' ∧
      st'.workers = st.workers
        ++ recordedPass s (fun index => zeroedNablaLv s controllerTimes
            (stockAt (resize st.nablaLvTrajectoriesStockSet_ s.numEventTimes_) index))
        ++ recordedPass s (fun _ => feedforward)
        ++ recordedPass s (fun _ => feedforward)) ∧
      ∀ (stock : List (List (input_vector_t m))) (i : Nat),
        s.dc.initActivePartition_ ≤ i → i ≤ s.dc.finalActivePartition_ →
        (zeroedNablaLv s controllerTimes stock)[i]?
          = some (List.replicate (controllerTimes.getD i []).length 0) := by
  refine ⟨?_, fun stock => (zeroedNablaLv_spec s controllerTimes hP hC stock).2⟩
  unfold runLQBasedMethod
  simp only []
  obtain ⟨st1, a1, a2, a3, a4, a5⟩ := recording_pass s controllerTimes feedforward 1
    { st with
      nablaLvTrajectoriesStockSet_ := resize st.nablaLvTrajectoriesStockSet_ s.numEventTimes_
      sensitivityStateTrajectoriesStockSet_ :=
        resize st.sensitivityStateTrajectoriesStockSet_ s.numEventTimes_
      sensitivityInputTrajectoriesStockSet_ :=
        resize st.sensitivityInputTrajectoriesStockSet_ s.numEventTimes_
      nablaqTrajectoriesStockSet_ := resize st.nablaqTrajectoriesStockSet_ s.numEventTimes_
      nablaQvTrajectoriesStockSet_ := resize st.nablaQvTrajectoriesStockSet_ s.numEventTimes_
      nablaRvTrajectoriesStockSet_ := resize st.nablaRvTrajectoriesStockSet_ s.numEventTimes_
      nablaqFinalStockSet_ := resize st.nablaqFinalStockSet_ s.numEventTimes_
      nablaQvFinalStockSet_ := resize st.nablaQvFinalStockSet_ s.numEventTimes_
      nablasHeuristics_ := resizeWith freshScalar st.nablasHeuristics_ s.numEventTimes_
      nablaSvHeuristics_ := resizeWith freshState st.nablaSvHeuristics_ s.numEventTimes_
      nablasTrajectoriesStockSet_ := resize st.nablasTrajectoriesStockSet_ s.numEventTimes_
      nablaSvTrajectoriesStockSet_ := resize st.nablaSvTrajectoriesStockSet_ s.numEventTimes_
      nablaSmTrajectoriesStockSet_ := resize st.nablaSmTrajectoriesStockSet_ s.numEventTimes_
      nominalCostFuntionDerivative_ :=
        resizeDynamic fresh st.nominalCostFuntionDerivative_ s.numEventTimes_ }
    hP hC (resize_length _ _) (resize_length _ _)
  obtain ⟨st2, b1, b2, b3, b4, b5⟩ := recording_pass s controllerTimes feedforward 2 st1
    hP hC a2 a3
  obtain ⟨st3, c1, _, _, _, c5⟩ := recording_pass s controllerTimes feedforward 3 st2
    hP hC b2 b3
  refine ⟨st3, ?_, ?_⟩
  · rw [lqIterationLoop, if_pos (by decide), a1]
    simp only []
    rw [lqIterationLoop, if_pos (by decide), b1]
    simp only []
    rw [lqIterationLoop, if_pos (by decide), c1]
    simp only []
    rw [lqIterationLoop, if_neg (by decide)]
  · rw [c5, b5, a5]
    simp only [if_true, if_neg (show ¬ (2 = 1) by decide), if_neg (show ¬ (3 = 1) by decide)]
    congr 1
    · congr 1
      exact recordedPass_congr s _ _ (fun i hi hact => by
        simp [stockAt, List.getD_eq_getElem?_getD, a4 i hi hact])
    · exact recordedPass_congr s _ _ (fun i hi hact => by
        simp [stockAt, List.getD_eq_getElem?_getD, b4 i hi hact])

theorem C27_inactive_events_cleared_witness :
    ∃ st', runLQBasedMethod (recordingCalls twoEvents [[fun _ => 1]]) [[0, 1]] (fun _ => 5) 5
        (fun _ => 5) twoEvents (emptySets 1 1 []) = Except.ok st' ∧
      st'.nominalCostFuntionDerivative_.length = twoEvents.numEventTimes_ ∧
      ∀ index, index < twoEvents.numEventTimes_ →
        ¬ (twoEvents.activeEventTimeBeginIndex_ ≤ index
          ∧ index < twoEvents.activeEventTimeEndIndex_) →
        st'.nominalCostFuntionDerivative_[index]? = some 0 ∧
        st'.sensitivityStateTrajectoriesStockSet_[index]? = some [] ∧
        st'.sensitivityInputTrajectoriesStockSet_[index]? = some [] := by
  have h : ∃ st', runLQBasedMethod (recordingCalls twoEvents [[fun _ => 1]]) [[0, 1]]
      (fun _ => 5) 5 (fun _ => 5) twoEvents (emptySets 1 1 []) = Except.ok st' := by
    simp [runLQBasedMethod, lqIterationLoop, eventLoop, lqEvent, zeroNablaLv, zeroNablaLvLoop,
      lqPipeline, lqInactiveEvent, recordingCalls, twoEvents, emptySets, resize, resizeWith,
      resizeDynamic, stockAt]
  obtain ⟨st', h⟩ := h
  exact ⟨st', h, C27_inactive_events_cleared (recordingCalls twoEvents [[fun _ => 1]])
    [[0, 1]] (fun _ => 5) 5 (fun _ => 5) twoEvents (emptySets 1 1 []) st' (Or.inl h)⟩

/-- The loop of `solveSensitivityRiccatiEquations` does not return normally when it starts at a
partition index that is not below the size of the first output stock. -/
theorem riccatiPartitionLoop_beyond {S : Type} {n m : Nat} (eps : ℚ) (ops : RiccatiOps S n)
    (s : GSLQ) (data : SLQ_Trajectories n m) (qF : List (List (List ℚ)))
    (QvF : List (List (List (state_vector_t n)))) (eventTimeIndex i : Nat) (SsFinal : S)
    (out : RiccatiOut n) (h : out.nablasTrajectoriesStock.length ≤ i) :
    ∃ e, (riccatiPartitionLoop eps ops s data qF QvF eventTimeIndex (i + 1) SsFinal out).status
      = Except.error e := by
  have hn : ¬ (i < out.nablasTrajectoriesStock.length ∧ i < out.nablaSvTrajectoriesStock.length ∧
      i < out.nablaSmTrajectoriesStock.length) := fun hc => absurd hc.1 (by omega)
  simp only [riccatiPartitionLoop, hn, if_false]
  repeat' split
  all_goals exact ⟨_, rfl⟩

/-- With more subsystems than partitions, `solveSensitivityRiccatiEquations` never returns
normally. -/
theorem riccatiCall_throws {W S : Type} {n m : Nat} (eps : ℚ) (ops : RiccatiOps S n) (s : GSLQ)
    (data : SLQ_Trajectories n m) (hbug : s.numPartitions_ < s.numSubsystems_)
    (solver : SensitivitySets W n m) (workerIndex eventTimeIndex : Nat)
    (learningRate nablasHeuristics : ℚ) (nablaSvHeuristics : state_vector_t n)
    (nablaSmHeuristics : state_matrix_t n) (out : RiccatiOut n) :
    ∃ e, riccatiCall eps ops s data solver workerIndex eventTimeIndex learningRate
      nablasHeuristics nablaSvHeuristics nablaSmHeuristics out = Except.error e := by
  have hstatus : ∃ e, (solveSensitivityRiccatiEquations s eventTimeIndex
      (solveSensitivityRiccatiEquationsBody eps ops s data solver.nablaqFinalStockSet_
        solver.nablaQvFinalStockSet_ eventTimeIndex nablasHeuristics nablaSvHeuristics
        nablaSmHeuristics) out).status = Except.error e := by
    unfold solveSensitivityRiccatiEquations
    split
    · exact ⟨_, rfl⟩
    · unfold solveSensitivityRiccatiEquationsBody
      obtain ⟨k, hk⟩ : ∃ k, s.numSubsystems_ = k + 1 := ⟨s.numSubsystems_ - 1, by omega⟩
      rw [hk]
      exact riccatiPartitionLoop_beyond eps ops s data _ _ eventTimeIndex k _ _
        (by rw [resize_length]; omega)
  obtain ⟨e, he⟩ := hstatus
  exact ⟨e, by unfold riccatiCall; rw [he]⟩

/-- The pipeline of `runLQBasedMethod` does not return normally when
`solveSensitivityRiccatiEquations` never does. -/
theorem lqPipeline_throws {W : Type} {n m : Nat} (calls : SensitivityCalls W n m) (s : GSLQ)
    (hcall : ∀ solver workerIndex eventTimeIndex learningRate nablasHeuristics
      nablaSvHeuristics nablaSmHeuristics out,
      ∃ e, calls.solveSensitivityRiccatiEquations solver workerIndex eventTimeIndex learningRate
        nablasHeuristics nablaSvHeuristics nablaSmHeuristics out = Except.error e)
    (index : Nat) (st : SensitivitySets W n m) :
    ∃ e, lqPipeline calls s index st = Except.error e := by
  choose F hF using hcall
  simp only [lqPipeline, hF]
  repeat' split
  all_goals exact ⟨_, rfl⟩

/-- The loop over the event times does not return normally when the loop body never does at
some index below `numEventTimes_`. -/
theorem eventLoop_throws {σ : Type} (s : GSLQ) (body : Nat → σ → Except Error σ) (j : Nat)
    (hj : j < s.numEventTimes_) (hbody : ∀ st, ∃ e, body j st = Except.error e) :
    ∀ (d index : Nat) (st : σ), j - index = d → index ≤ j →
      ∃ e, eventLoop s body index st = Except.error e := by
  intro d
  induction d with
  | zero =>
    intro index st hd hle
    have e : index = j := by omega
    subst e
    obtain ⟨e, he⟩ := hbody st
    rw [eventLoop, if_pos hj, he]
    exact ⟨e, rfl⟩
  | succ d ih =>
    intro index st hd hle
    rw [eventLoop, if_pos (by omega)]
    split
    · exact ⟨_, rfl⟩
    · exact ih (index + 1) _ (by omega) (by omega)

/-- With the program's `solveSensitivityRiccatiEquations`, more subsystems than partitions and
an active event index below `numEventTimes_`, `runLQBasedMethod` does not return normally,
whatever the other member functions do: the first pass ends at that index or before it. -/
theorem runLQBasedMethod_throws {W S : Type} {n m : Nat} (eps : ℚ) (ops : RiccatiOps S n)
    (data : SLQ_Trajectories n m) (calls : SensitivityCalls W n m)
    (controllerTimes : List (List ℚ)) (fresh : Nat → ℚ) (freshScalar : ℚ)
    (freshState : state_vector_t n) (s : GSLQ) (st : SensitivitySets W n m) (index : Nat)
    (hbug : s.numPartitions_ < s.numSubsystems_) (hindex : index < s.numEventTimes_)
    (hact : s.activeEventTimeBeginIndex_ ≤ index ∧ index < s.activeEventTimeEndIndex_) :
    ∃ e, runLQBasedMethod (withProgramRiccati eps ops s data calls) controllerTimes fresh
      freshScalar freshState s st = Except.error e := by
  have hbody : ∀ st1 : SensitivitySets W n m,
      ∃ e, lqEvent (withProgramRiccati eps ops s data calls) s controllerTimes (0 + 1) index st1
        = Except.error e := by
    intro st1
    unfold lqEvent
    rw [if_pos hact]
    split
    · exact ⟨_, rfl⟩
    · exact lqPipeline_throws (withProgramRiccati eps ops s data calls) s
        (fun solver a b c d e f out => riccatiCall_throws eps ops s data hbug solver a b c d e f
          out) index _
  unfold runLQBasedMethod
  simp only []
  rw [lqIterationLoop, if_pos (by decide)]
  obtain ⟨e, he⟩ := eventLoop_throws s
    (lqEvent (withProgramRiccati eps ops s data calls) s controllerTimes (0 + 1)) index hindex
    hbody index 0 _ rfl (Nat.zero_le _)
  rw [he]
  exact ⟨e, rfl⟩

/-- C23. `runLQBasedMethod` does not complete its three passes for every number of event
times.  With the program's `solveSensitivityRiccatiEquations`, whatever the Riccati equations,
the data and the other five member functions are: whenever the solver has more subsystems than
partitions (`numPartitions_ < numSubsystems_ = numEventTimes_ + 1`) and some event index below
`numEventTimes_` is active, the method does not return normally, because the first Riccati
call indexes its output stocks, resized to `numPartitions_`, at `numSubsystems_ - 1`.  For the
solver state `twoEvents` (two event times, of which the first is active, and one partition),
with the other member functions recording their calls and never throwing, the method ends with
an access outside the bounds; with `solveSensitivityRiccatiEquations` replaced by a function
that returns at once, it returns after `18` calls, three passes of the six calls for the
active index. -/
theorem C23_runLQBasedMethod_stops_at_riccati_call :
    (∀ (W S : Type) (n m : Nat) (eps : ℚ) (ops : RiccatiOps S n) (data : SLQ_Trajectories n m)
      (calls : SensitivityCalls W n m) (controllerTimes : List (List ℚ)) (fresh : Nat → ℚ)
      (freshScalar : ℚ) (freshState : state_vector_t n) (s : GSLQ)
      (st : SensitivitySets W n m) (index : Nat),
      s.numPartitions_ < s.numSubsystems_ → index < s.numEventTimes_ →
      s.activeEventTimeBeginIndex_ ≤ index ∧ index < s.activeEventTimeEndIndex_ →
      ∃ e, runLQBasedMethod (withProgramRiccati eps ops s data calls) controllerTimes fresh
        freshScalar freshState s st = Except.error e) ∧
    (twoEvents.numEventTimes_ = 2 ∧ twoEvents.numSubsystems_ = 3 ∧
      twoEvents.numPartitions_ = 1 ∧ twoEvents.activeEventTimeBeginIndex_ = 0 ∧
      twoEvents.activeEventTimeEndIndex_ = 1) ∧
    runLQBasedMethod
      (withProgramRiccati sampleEpsilon constantRiccatiOps twoEvents fourEntries
        (recordingCalls twoEvents [[fun _ => 1]]))
      [[0, 1]] (fun _ => 5) 5 (fun _ => 5) twoEvents (emptySets 1 1 [])
      = Except.error Error.out_of_range ∧
    ∃ st', runLQBasedMethod (recordingCalls twoEvents [[fun _ => 1]]) [[0, 1]] (fun _ => 5) 5
        (fun _ => 5) twoEvents (emptySets 1 1 []) = Except.ok st' ∧
      st'.workers.length = 18 := by
  refine ⟨fun W S n m eps ops data calls controllerTimes fresh freshScalar freshState s st index
    hbug hindex hact => runLQBasedMethod_throws eps ops data calls controllerTimes fresh
      freshScalar freshState s st index hbug hindex hact, ⟨rfl, rfl, rfl, rfl, rfl⟩, ?_, ?_⟩
  · simp [runLQBasedMethod, lqIterationLoop, eventLoop, lqEvent, zeroNablaLv, zeroNablaLvLoop,
      lqPipeline, lqInactiveEvent, recordingCalls, withProgramRiccati, riccatiCall,
      solveSensitivityRiccatiEquations, solveSensitivityRiccatiEquationsBody,
      riccatiPartitionLoop, twoEvents, emptySets, resize, resizeWith, resizeDynamic, stockAt]
  · simp [runLQBasedMethod, lqIterationLoop, eventLoop, lqEvent, zeroNablaLv, zeroNablaLvLoop,
      lqPipeline, lqInactiveEvent, recordingCalls, twoEvents, emptySets, resize, resizeWith,
      resizeDynamic, stockAt]

/-! ## The cost derivative against the reference of the specification -/

end ocs2
